import Mathlib

/-!
# BMS CAN decoders and protocol manager

A shallow embedding of the decoding core of the ESP32 BMS monitor:

* `protocols/protocol_base_can.h`  (`CanProtocolBase`)
* `protocols/pylontech_can.h`      (`PylontechCan`)
* `protocols/daly_can.h`           (`DalyCan`)
* `protocols/jk_bms_can.h`         (`JkBmsCan`)
* `managers/protocol_manager.h`    (`ProtocolManager`)

Conventions of the embedding.

* Machine integers are naturals / integers; `uint32_t` counters wrap with an
  explicit `% 2 ^ 32`.
* `millis()` is an input: every operation that reads the clock takes `now`.
* `float` is IEEE-754 binary32.  A finite binary32 value is an integer multiple
  of `2 ^ (-149)`; `F32` stores that integer, and every arithmetic operation
  rounds the exact result to nearest, ties to even.  The decoders only ever
  produce finite values (magnitudes below `2 ^ 33`), so infinities and NaN do
  not occur.
* A payload pointer `const uint8_t* data` is a list of bytes; the receive
  buffer always has eight bytes, a missing byte reads as `0`.
* `Serial.printf` / `Serial.println` only write to the console and are dropped.
* A decoder object is identified with its position in `m_protocols`
  (every registered pointer designates its own object).
-/

namespace BmsCan

/-! ## binary32 arithmetic -/

/-- A finite binary32 value `units * 2 ^ (-149)`. -/
structure F32 where
  units : Int
deriving DecidableEq

namespace F32

/-- Nearest integer to `a / d`, ties to even. -/
def rne (a d : Nat) : Nat :=
  let k := a / d
  let r := a % d
  if 2 * r < d then k
  else if d < 2 * r then k + 1
  else if k % 2 = 0 then k else k + 1

/-- One step of the bit-length search: strip `k` low bits when `n >= 2 ^ k`. -/
def ilog2Step (p : Nat × Nat) (k : Nat) : Nat × Nat :=
  if 2 ^ k ≤ p.1 then (p.1 / 2 ^ k, p.2 + k) else p

/-- Floor of the binary logarithm (`0` for `0`), exact for `n < 2 ^ 512`; every
finite binary32 magnitude is below `2 ^ 278` units. -/
def ilog2 (n : Nat) : Nat :=
  ([256, 128, 64, 32, 16, 8, 4, 2, 1].foldl ilog2Step (n, 0)).2

/-- Round the magnitude `a / d` (in units of `2 ^ (-149)`) to the binary32 grid:
24 significant bits, spacing `1` below `2 ^ 24` units (subnormals and the first
binade). -/
def roundMag (a d : Nat) : Nat :=
  let e := ilog2 (a / d)
  if e < 24 then rne a d
  else rne a (d * 2 ^ (e - 23)) * 2 ^ (e - 23)

/-- Round the exact value `p / d` (in units of `2 ^ (-149)`) to binary32. -/
def round (p : Int) (d : Nat) : F32 :=
  if p < 0 then ⟨-((roundMag p.natAbs d : Nat) : Int)⟩
  else ⟨((roundMag p.natAbs d : Nat) : Int)⟩

/-- The number of units in `1.0f`. -/
def one : Nat := 2 ^ 149

/-- Integer to `float` conversion. -/
def ofInt (i : Int) : F32 := round (i * (one : Int)) 1

/-- A decimal literal `n / d` written with the `f` suffix. -/
def lit (n : Int) (d : Nat) : F32 := round (n * (one : Int)) d

/-- Product `x * y` in `float`. -/
def mul (x y : F32) : F32 := round (x.units * y.units) one

/-- Quotient `x / y` in `float` (`y` non-zero). -/
def div (x y : F32) : F32 :=
  if y.units < 0 then round (-(x.units * (one : Int))) y.units.natAbs
  else round (x.units * (one : Int)) y.units.natAbs

/-- Comparison `x <= y`. -/
def le (x y : F32) : Bool := decide (x.units ≤ y.units)

/-- Comparison `x < y`. -/
def lt (x y : F32) : Bool := decide (x.units < y.units)

/-- The value `0.0f` (also what `memset` to zero leaves). -/
def zero : F32 := ⟨0⟩

end F32

/-! ## `core/bms_data_types.h` -/

/-- Supported BMS vendors (`enum bms_type_t`). -/
inductive bms_type_t
  | BMS_NONE
  | BMS_PYLONTECH
  | BMS_JK_BMS
  | BMS_DALY
  | BMS_SEPLOS
  | BMS_EVE
  | BMS_LIFEPO4_POWER
deriving DecidableEq

open bms_type_t

/-- The shared battery record (`struct bms_data_t`). -/
structure bms_data_t where
  type : bms_type_t
  connected : Bool
  voltage : F32
  current : F32
  soc : F32
  temperature : F32
  cycles : Nat
  charging : Bool
  discharging : Bool
  status_text : String
  last_update : Nat
deriving DecidableEq

/-- The record after `memset(&m_data, 0, sizeof(m_data)); m_data.type = t`. -/
def bms_data_t.zeroed (t : bms_type_t) : bms_data_t :=
  { type := t, connected := false, voltage := F32.zero, current := F32.zero,
    soc := F32.zero, temperature := F32.zero, cycles := 0, charging := false,
    discharging := false, status_text := "", last_update := 0 }

/-- CAN baudrate options (`enum can_baudrate_t`). -/
inductive can_baudrate_t
  | CAN_125K
  | CAN_250K
  | CAN_500K
  | CAN_1M
deriving DecidableEq

open can_baudrate_t

/-- The function `getBmsTypeName`; `BMS_NONE` shares the `default` branch. -/
def getBmsTypeName : bms_type_t → String
  | BMS_PYLONTECH => "Pylontech"
  | BMS_JK_BMS => "JK BMS"
  | BMS_DALY => "DALY BMS"
  | BMS_SEPLOS => "Seplos"
  | BMS_EVE => "EVE LiFePO4"
  | BMS_LIFEPO4_POWER => "LiFePO4 Power"
  | BMS_NONE => "Unknown"

/-- The function `getCanBaudrateValue`; no enumerator reaches its `default` branch. -/
def getCanBaudrateValue : can_baudrate_t → Nat
  | CAN_125K => 125000
  | CAN_250K => 250000
  | CAN_500K => 500000
  | CAN_1M => 1000000

/-- The function `getCanBaudrateName`; no enumerator reaches its `default` branch. -/
def getCanBaudrateName : can_baudrate_t → String
  | CAN_125K => "125 kBit/s"
  | CAN_250K => "250 kBit/s"
  | CAN_500K => "500 kBit/s"
  | CAN_1M => "1 MBit/s"

/-! ## `protocols/protocol_base_can.h` -/

/-- Byte `data[i]` of a payload. -/
def byteAt (data : List Nat) (i : Nat) : Nat := data.getD i 0 % 256

/-- The member `extractUint16`: `(uint16_t)(data[offset] << 8) | data[offset + 1]`
when `bigEndian`, the two bytes swapped otherwise, returned as `uint16_t`. -/
def extractUint16 (data : List Nat) (offset : Nat) (bigEndian : Bool) : Nat :=
  if bigEndian then
    (((byteAt data offset <<< 8) % 2 ^ 16) ||| byteAt data (offset + 1)) % 2 ^ 16
  else
    (((byteAt data (offset + 1) <<< 8) % 2 ^ 16) ||| byteAt data offset) % 2 ^ 16

/-- The member `extractInt16`: the `uint16_t` reinterpreted as `int16_t`. -/
def extractInt16 (data : List Nat) (offset : Nat) (bigEndian : Bool) : Int :=
  let u := extractUint16 data offset bigEndian
  if u < 2 ^ 15 then (u : Int) else (u : Int) - 2 ^ 16

/-- The member `extractUint32`. -/
def extractUint32 (data : List Nat) (offset : Nat) (bigEndian : Bool) : Nat :=
  if bigEndian then
    (((byteAt data offset <<< 24) % 2 ^ 32) |||
     ((byteAt data (offset + 1) <<< 16) % 2 ^ 32) |||
     ((byteAt data (offset + 2) <<< 8) % 2 ^ 32) |||
     byteAt data (offset + 3)) % 2 ^ 32
  else
    (((byteAt data (offset + 3) <<< 24) % 2 ^ 32) |||
     ((byteAt data (offset + 2) <<< 16) % 2 ^ 32) |||
     ((byteAt data (offset + 1) <<< 8) % 2 ^ 32) |||
     byteAt data offset) % 2 ^ 32

/-- The member `extractInt32`: the `uint32_t` reinterpreted as `int32_t`. -/
def extractInt32 (data : List Nat) (offset : Nat) (bigEndian : Bool) : Int :=
  let u := extractUint32 data offset bigEndian
  if u < 2 ^ 31 then (u : Int) else (u : Int) - 2 ^ 32

/-- The member `validateRange`: `value >= min && value <= max`. -/
def validateRange (value min max : F32) : Bool :=
  F32.le min value && F32.le value max

/-- Upper-case hexadecimal digit. -/
def hexDigit (n : Nat) : Char :=
  if n < 10 then Char.ofNat (48 + n) else Char.ofNat (55 + n)

/-- The conversion `%02X` of a byte. -/
def hex02X (b : Nat) : String := String.mk [hexDigit (b / 16 % 16), hexDigit (b % 16)]

/-- What `snprintf(status_text, 64, ...)` stores: at most 63 characters. -/
def snprintf64 (s : String) : String := String.mk (s.data.take 63)

/-- Data members of `class CanProtocolBase`. -/
structure CanProtocolBase where
  m_data : bms_data_t
  m_connected : Bool
  m_lastUpdate : Nat
  m_messageCount : Nat
  m_errorCount : Nat
deriving DecidableEq

namespace CanProtocolBase

/-- The constructor `CanProtocolBase()`. -/
def new : CanProtocolBase :=
  { m_data := bms_data_t.zeroed BMS_NONE, m_connected := false, m_lastUpdate := 0,
    m_messageCount := 0, m_errorCount := 0 }

/-- The member `markUpdated`. -/
def markUpdated (self : CanProtocolBase) (now : Nat) : CanProtocolBase :=
  { self with m_lastUpdate := now, m_connected := true,
              m_messageCount := (self.m_messageCount + 1) % 2 ^ 32 }

/-- The member `markError`. -/
def markError (self : CanProtocolBase) : CanProtocolBase :=
  { self with m_errorCount := (self.m_errorCount + 1) % 2 ^ 32 }

/-- The default `start()`. -/
def start (self : CanProtocolBase) : Bool × CanProtocolBase := (true, self)

/-- The default `stop()`. -/
def stop (self : CanProtocolBase) : Bool × CanProtocolBase :=
  (true, { self with m_connected := false })

/-- The member `isConnected(timeoutMs)` read at time `now`. -/
def isConnected (self : CanProtocolBase) (now : Nat) (timeoutMs : Nat) : Bool :=
  if !self.m_connected then false
  else decide ((now + 2 ^ 32 - self.m_lastUpdate) % 2 ^ 32 < timeoutMs)

/-- The member `getData(data)`: the flag and the caller's record afterwards. -/
def getData (self : CanProtocolBase) (now : Nat) (data : bms_data_t) : Bool × bms_data_t :=
  if !self.isConnected now 5000 then (false, data)
  else (true, { self.m_data with connected := true, last_update := self.m_lastUpdate })

/-- The member `resetStats`. -/
def resetStats (self : CanProtocolBase) : CanProtocolBase :=
  { self with m_messageCount := 0, m_errorCount := 0 }

end CanProtocolBase

/-- The default `initialize()` for a decoder of vendor `t = getType()`. -/
def CanProtocolBase.initialize (_self : CanProtocolBase) (t : bms_type_t) :
    Bool × CanProtocolBase :=
  (true, { m_data := bms_data_t.zeroed t, m_connected := false, m_lastUpdate := 0,
           m_messageCount := 0, m_errorCount := 0 })

/-! ## `protocols/pylontech_can.h` -/

/-- Data members of `class PylontechCan`. -/
structure PylontechCan extends CanProtocolBase where
  m_voltageReceived : Bool
  m_currentReceived : Bool
  m_socReceived : Bool
deriving DecidableEq

namespace PylontechCan

def ID_VOLTAGE : Nat := 0x359
def ID_CURRENT : Nat := 0x35C
def ID_SOC : Nat := 0x355
def ID_TEMP : Nat := 0x356
def ID_STATUS : Nat := 0x35E
def ID_ALARM : Nat := 0x35A

/-- The constructor `PylontechCan()`. -/
def new : PylontechCan :=
  { toCanProtocolBase := CanProtocolBase.new, m_voltageReceived := false,
    m_currentReceived := false, m_socReceived := false }

/-- The member `getType`. -/
def getType (_self : PylontechCan) : bms_type_t := BMS_PYLONTECH

/-- The member `canAcceptMessage`. -/
def canAcceptMessage (_self : PylontechCan) (canId : Nat) : Bool :=
  canId == ID_VOLTAGE || canId == ID_CURRENT || canId == ID_SOC ||
  canId == ID_TEMP || canId == ID_STATUS || canId == ID_ALARM

/-- The value `rawVoltage * 0.01f` of a voltage frame. -/
def decodeVoltage (data : List Nat) : F32 :=
  F32.mul (F32.ofInt (extractUint16 data 0 true)) (F32.lit 1 100)

/-- The value `rawCurrent * 0.1f` of a current frame. -/
def decodeCurrent (data : List Nat) : F32 :=
  F32.mul (F32.ofInt (extractInt16 data 0 true)) (F32.lit 1 10)

/-- The value `rawSoc * 0.1f` of an SOC frame. -/
def decodeSoc (data : List Nat) : F32 :=
  F32.mul (F32.ofInt (extractUint16 data 0 true)) (F32.lit 1 10)

/-- The value `rawTemp * 0.1f` of a temperature frame. -/
def decodeTemp (data : List Nat) : F32 :=
  F32.mul (F32.ofInt (extractInt16 data 0 true)) (F32.lit 1 10)

/-- The tail of `parseMessage`: `if (parsed) markUpdated(); else markError();
return parsed;`. -/
def finish (self : PylontechCan) (parsed : Bool) (now : Nat) : Bool × PylontechCan :=
  if parsed then (true, { self with toCanProtocolBase := self.toCanProtocolBase.markUpdated now })
  else (false, { self with toCanProtocolBase := self.toCanProtocolBase.markError })

/-- The member `parseMessage`, with `millis()` reading `now`. -/
def parseMessage (self : PylontechCan) (canId : Nat) (data : List Nat) (length now : Nat) :
    Bool × PylontechCan :=
  if length < 8 then
    (false, { self with toCanProtocolBase := self.toCanProtocolBase.markError })
  else if canId = ID_VOLTAGE then
    let s1 : PylontechCan := { self with m_data := { self.m_data with voltage := decodeVoltage data } }
    if validateRange s1.m_data.voltage (F32.lit 40 1) (F32.lit 60 1) then
      finish { s1 with m_voltageReceived := true } true now
    else finish s1 false now
  else if canId = ID_CURRENT then
    let current := decodeCurrent data
    let s1 : PylontechCan :=
      { self with m_data := { self.m_data with
          current := current,
          charging := F32.lt (F32.lit 1 2) current,
          discharging := F32.lt current (F32.lit (-1) 2) } }
    finish { s1 with m_currentReceived := true } true now
  else if canId = ID_SOC then
    let s1 : PylontechCan := { self with m_data := { self.m_data with soc := decodeSoc data } }
    if validateRange s1.m_data.soc (F32.lit 0 1) (F32.lit 100 1) then
      finish { s1 with m_socReceived := true } true now
    else finish s1 false now
  else if canId = ID_TEMP then
    let s1 : PylontechCan :=
      { self with m_data := { self.m_data with temperature := decodeTemp data } }
    if validateRange s1.m_data.temperature (F32.lit (-20) 1) (F32.lit 60 1) then
      finish s1 true now
    else finish s1 false now
  else if canId = ID_STATUS then
    let cycles := extractUint16 data 0 true
    let s1 : PylontechCan :=
      { self with m_data := { self.m_data with
          cycles := cycles,
          status_text := snprintf64 ("Online - " ++ toString cycles ++ " Zyklen") } }
    finish s1 true now
  else if canId = ID_ALARM then
    let alarmByte := byteAt data 0
    let s1 : PylontechCan :=
      if alarmByte ≠ 0 then
        { self with m_data := { self.m_data with
            status_text := snprintf64 ("ALARM 0x" ++ hex02X alarmByte) } }
      else
        { self with m_data := { self.m_data with status_text := snprintf64 "Online" } }
    finish s1 true now
  else (false, self)

/-- The member `hasCompleteData`. -/
def hasCompleteData (self : PylontechCan) : Bool :=
  self.m_voltageReceived && self.m_currentReceived && self.m_socReceived

/-- The member `resetReceivedFlags`. -/
def resetReceivedFlags (self : PylontechCan) : PylontechCan :=
  { self with m_voltageReceived := false, m_currentReceived := false, m_socReceived := false }

end PylontechCan

/-! ## `protocols/daly_can.h` -/

/-- Data members of `class DalyCan` (those of the base class). -/
structure DalyCan extends CanProtocolBase where
deriving DecidableEq

namespace DalyCan

def ID_VOLTAGE : Nat := 0x18FF50E5
def ID_CURRENT : Nat := 0x18FF51E5
def ID_SOC : Nat := 0x18FF52E5
def ID_TEMP : Nat := 0x18FF53E5
def ID_STATUS : Nat := 0x18FF54E5
def ID_CELLS : Nat := 0x18FF55E5

/-- The constructor `DalyCan()`. -/
def new : DalyCan := { toCanProtocolBase := CanProtocolBase.new }

/-- The member `getType`. -/
def getType (_self : DalyCan) : bms_type_t := BMS_DALY

/-- The member `canAcceptMessage`. -/
def canAcceptMessage (_self : DalyCan) (canId : Nat) : Bool :=
  canId == ID_VOLTAGE || canId == ID_CURRENT || canId == ID_SOC ||
  canId == ID_TEMP || canId == ID_STATUS || canId == ID_CELLS

/-- The value `voltageRaw * 0.1f` of a voltage frame. -/
def decodeVoltage (data : List Nat) : F32 :=
  F32.mul (F32.ofInt (extractUint16 data 0 false)) (F32.lit 1 10)

/-- The value `currentRaw * 0.1f` of a current frame. -/
def decodeCurrent (data : List Nat) : F32 :=
  F32.mul (F32.ofInt (extractInt16 data 0 false)) (F32.lit 1 10)

/-- The value `socRaw * 0.1f` of an SOC frame. -/
def decodeSoc (data : List Nat) : F32 :=
  F32.mul (F32.ofInt (extractUint16 data 0 false)) (F32.lit 1 10)

/-- The value `tempRaw * 0.1f` of a temperature frame. -/
def decodeTemp (data : List Nat) : F32 :=
  F32.mul (F32.ofInt (extractInt16 data 0 false)) (F32.lit 1 10)

/-- The tail of `parseMessage`: `if (parsed) markUpdated(); else markError();
return parsed;`. -/
def finish (self : DalyCan) (parsed : Bool) (now : Nat) : Bool × DalyCan :=
  if parsed then (true, { self with toCanProtocolBase := self.toCanProtocolBase.markUpdated now })
  else (false, { self with toCanProtocolBase := self.toCanProtocolBase.markError })

/-- The member `parseMessage`, with `millis()` reading `now`. -/
def parseMessage (self : DalyCan) (canId : Nat) (data : List Nat) (length now : Nat) :
    Bool × DalyCan :=
  if length < 8 then
    (false, { self with toCanProtocolBase := self.toCanProtocolBase.markError })
  else if canId = ID_VOLTAGE then
    let s1 : DalyCan := { self with m_data := { self.m_data with voltage := decodeVoltage data } }
    if validateRange s1.m_data.voltage (F32.lit 40 1) (F32.lit 60 1) then finish s1 true now
    else finish s1 false now
  else if canId = ID_CURRENT then
    let current := decodeCurrent data
    let s1 : DalyCan :=
      { self with m_data := { self.m_data with
          current := current,
          charging := F32.lt (F32.lit 1 2) current,
          discharging := F32.lt current (F32.lit (-1) 2) } }
    finish s1 true now
  else if canId = ID_SOC then
    let s1 : DalyCan := { self with m_data := { self.m_data with soc := decodeSoc data } }
    if validateRange s1.m_data.soc (F32.lit 0 1) (F32.lit 100 1) then finish s1 true now
    else finish s1 false now
  else if canId = ID_TEMP then
    let s1 : DalyCan := { self with m_data := { self.m_data with temperature := decodeTemp data } }
    if validateRange s1.m_data.temperature (F32.lit (-20) 1) (F32.lit 60 1) then
      finish s1 true now
    else finish s1 false now
  else if canId = ID_STATUS then
    let alarmFlags := byteAt data 1
    let cycles := extractUint16 data 4 false
    let s1 : DalyCan :=
      if alarmFlags ≠ 0 then
        { self with m_data := { self.m_data with
            cycles := cycles,
            status_text := snprintf64
              ("ALARM 0x" ++ hex02X alarmFlags ++ " - " ++ toString cycles ++ " Zyklen") } }
      else
        { self with m_data := { self.m_data with
            cycles := cycles,
            status_text := snprintf64 ("Online - " ++ toString cycles ++ " Zyklen") } }
    finish s1 true now
  else if canId = ID_CELLS then
    finish self true now
  else (false, self)

end DalyCan

/-! ## `protocols/jk_bms_can.h` -/

/-- Data members of `class JkBmsCan` (those of the base class). -/
structure JkBmsCan extends CanProtocolBase where
deriving DecidableEq

namespace JkBmsCan

def ID_BASE : Nat := 0x02F4DA00
def ID_MASK : Nat := 0xFFFFFF00

def MSG_VOLTAGE : Nat := 0x01
def MSG_CURRENT : Nat := 0x02
def MSG_SOC : Nat := 0x03
def MSG_TEMP : Nat := 0x04
def MSG_STATUS : Nat := 0x05
def MSG_CELLS : Nat := 0x10

/-- The constructor `JkBmsCan()`. -/
def new : JkBmsCan := { toCanProtocolBase := CanProtocolBase.new }

/-- The member `getMessageType`: `(uint8_t)(canId & 0xFF)`. -/
def getMessageType (canId : Nat) : Nat := (canId &&& 0xFF) % 256

/-- The member `getType`. -/
def getType (_self : JkBmsCan) : bms_type_t := BMS_JK_BMS

/-- The member `canAcceptMessage`. -/
def canAcceptMessage (_self : JkBmsCan) (canId : Nat) : Bool :=
  (canId &&& ID_MASK) == ID_BASE

/-- The value `voltageMillivolts / 1000.0f` of a voltage frame. -/
def decodeVoltage (data : List Nat) : F32 :=
  F32.div (F32.ofInt (extractUint32 data 0 true)) (F32.lit 1000 1)

/-- The value `currentMilliamps / 1000.0f` of a current frame. -/
def decodeCurrent (data : List Nat) : F32 :=
  F32.div (F32.ofInt (extractInt32 data 0 true)) (F32.lit 1000 1)

/-- The value `socRaw * 0.01f` of an SOC frame. -/
def decodeSoc (data : List Nat) : F32 :=
  F32.mul (F32.ofInt (extractUint16 data 0 true)) (F32.lit 1 100)

/-- The value `tempRaw * 0.1f` of a temperature frame. -/
def decodeTemp (data : List Nat) : F32 :=
  F32.mul (F32.ofInt (extractInt16 data 0 true)) (F32.lit 1 10)

/-- The tail of `parseMessage`: `if (parsed) markUpdated(); else markError();
return parsed;`. -/
def finish (self : JkBmsCan) (parsed : Bool) (now : Nat) : Bool × JkBmsCan :=
  if parsed then (true, { self with toCanProtocolBase := self.toCanProtocolBase.markUpdated now })
  else (false, { self with toCanProtocolBase := self.toCanProtocolBase.markError })

/-- The member `parseMessage`, with `millis()` reading `now`. -/
def parseMessage (self : JkBmsCan) (canId : Nat) (data : List Nat) (length now : Nat) :
    Bool × JkBmsCan :=
  if length < 8 then
    (false, { self with toCanProtocolBase := self.toCanProtocolBase.markError })
  else
    let msgType := getMessageType canId
    if msgType = MSG_VOLTAGE then
      let s1 : JkBmsCan := { self with m_data := { self.m_data with voltage := decodeVoltage data } }
      if validateRange s1.m_data.voltage (F32.lit 40 1) (F32.lit 60 1) then finish s1 true now
      else finish s1 false now
    else if msgType = MSG_CURRENT then
      let current := decodeCurrent data
      let s1 : JkBmsCan :=
        { self with m_data := { self.m_data with
            current := current,
            charging := F32.lt (F32.lit 1 2) current,
            discharging := F32.lt current (F32.lit (-1) 2) } }
      finish s1 true now
    else if msgType = MSG_SOC then
      let s1 : JkBmsCan := { self with m_data := { self.m_data with soc := decodeSoc data } }
      if validateRange s1.m_data.soc (F32.lit 0 1) (F32.lit 100 1) then finish s1 true now
      else finish s1 false now
    else if msgType = MSG_TEMP then
      let s1 : JkBmsCan :=
        { self with m_data := { self.m_data with temperature := decodeTemp data } }
      if validateRange s1.m_data.temperature (F32.lit (-20) 1) (F32.lit 60 1) then
        finish s1 true now
      else finish s1 false now
    else if msgType = MSG_STATUS then
      let statusByte := byteAt data 0
      let cycles := extractUint16 data 2 true
      let s1 : JkBmsCan :=
        { self with m_data := { self.m_data with
            cycles := cycles,
            status_text := snprintf64
              ("Online - Status: 0x" ++ hex02X statusByte ++ " - " ++ toString cycles ++
                " Zyklen") } }
      finish s1 true now
    else if msgType = MSG_CELLS then
      finish self true now
    else (false, self)

end JkBmsCan

/-! ## Dynamic dispatch through `CanProtocolBase*` -/

/-- A decoder object behind a `CanProtocolBase*`: one of the three subclasses. -/
inductive Protocol
  | pylontech (p : PylontechCan)
  | jkBms (p : JkBmsCan)
  | daly (p : DalyCan)
deriving DecidableEq

namespace Protocol

/-- The base-class part of a decoder. -/
def base : Protocol → CanProtocolBase
  | pylontech p => p.toCanProtocolBase
  | jkBms p => p.toCanProtocolBase
  | daly p => p.toCanProtocolBase

/-- Replace the base-class part of a decoder. -/
def withBase : Protocol → CanProtocolBase → Protocol
  | pylontech p, b => pylontech { p with toCanProtocolBase := b }
  | jkBms p, b => jkBms { p with toCanProtocolBase := b }
  | daly p, b => daly { p with toCanProtocolBase := b }

/-- Virtual `getType()`. -/
def getType : Protocol → bms_type_t
  | pylontech p => p.getType
  | jkBms p => p.getType
  | daly p => p.getType

/-- Virtual `canAcceptMessage(canId)`. -/
def canAcceptMessage : Protocol → Nat → Bool
  | pylontech p, canId => p.canAcceptMessage canId
  | jkBms p, canId => p.canAcceptMessage canId
  | daly p, canId => p.canAcceptMessage canId

/-- Virtual `parseMessage(canId, data, length)` at time `now`. -/
def parseMessage : Protocol → Nat → List Nat → Nat → Nat → Bool × Protocol
  | pylontech p, canId, data, length, now =>
    ((p.parseMessage canId data length now).1, pylontech (p.parseMessage canId data length now).2)
  | jkBms p, canId, data, length, now =>
    ((p.parseMessage canId data length now).1, jkBms (p.parseMessage canId data length now).2)
  | daly p, canId, data, length, now =>
    ((p.parseMessage canId data length now).1, daly (p.parseMessage canId data length now).2)

/-- Virtual `start()` (not overridden). -/
def start (self : Protocol) : Bool × Protocol :=
  (self.base.start.1, self.withBase self.base.start.2)

/-- Virtual `stop()` (not overridden). -/
def stop (self : Protocol) : Bool × Protocol :=
  (self.base.stop.1, self.withBase self.base.stop.2)

/-- Inherited `isConnected(timeoutMs)` at time `now`. -/
def isConnected (self : Protocol) (now timeoutMs : Nat) : Bool :=
  self.base.isConnected now timeoutMs

/-- Inherited `getData(data)` at time `now`. -/
def getData (self : Protocol) (now : Nat) (data : bms_data_t) : Bool × bms_data_t :=
  self.base.getData now data

/-- Inherited `resetStats()`. -/
def resetStats (self : Protocol) : Protocol := self.withBase self.base.resetStats

end Protocol

/-- Virtual `initialize()` (not overridden; `getType()` dispatches). -/
def Protocol.initialize (self : Protocol) : Bool × Protocol :=
  (( CanProtocolBase.initialize self.base self.getType).1,
   self.withBase ( CanProtocolBase.initialize self.base self.getType).2)

/-! ## `managers/protocol_manager.h` -/

/-- The nested `struct DetectionStats`; `protocol` is the position in
`m_protocols` of the decoder pointed to (`none` for `nullptr`). -/
structure DetectionStats where
  protocol : Option Nat
  matchCount : Nat
  lastMatch : Nat
deriving DecidableEq

/-- Data members of `class ProtocolManager`, together with the decoder objects
its pointers designate: `m_protocols[i]` is the current state of the `i`-th
registered decoder and `m_activeProtocol` its position, `none` for `nullptr`. -/
structure ProtocolManager where
  m_protocols : List Protocol
  m_detectionStats : List DetectionStats
  m_activeProtocol : Option Nat
  m_autoDetect : Bool
deriving DecidableEq

namespace ProtocolManager

def DETECTION_THRESHOLD : Nat := 5

/-- The constructor `ProtocolManager()`. -/
def new : ProtocolManager :=
  { m_protocols := [], m_detectionStats := [], m_activeProtocol := none, m_autoDetect := true }

/-- The member `registerProtocol`; `none` is the null pointer. -/
def registerProtocol (self : ProtocolManager) (protocol : Option Protocol) : ProtocolManager :=
  match protocol with
  | none => self
  | some p =>
    { self with
      m_protocols := self.m_protocols ++ [p],
      m_detectionStats := self.m_detectionStats ++
        [{ protocol := some self.m_protocols.length, matchCount := 0, lastMatch := 0 }] }

/-- The member `startAll`. -/
def startAll (self : ProtocolManager) : Bool × ProtocolManager :=
  ((self.m_protocols.map fun p => p.start.1).all id,
   { self with m_protocols := self.m_protocols.map fun p => p.start.2 })

/-- The member `stopAll`. -/
def stopAll (self : ProtocolManager) : Bool × ProtocolManager :=
  ((self.m_protocols.map fun p => p.stop.1).all id,
   { self with m_protocols := self.m_protocols.map fun p => p.stop.2,
               m_activeProtocol := none })

/-- The member `setAutoDetect`. -/
def setAutoDetect (self : ProtocolManager) (enable : Bool) : ProtocolManager :=
  if enable then { self with m_autoDetect := enable, m_activeProtocol := none }
  else { self with m_autoDetect := enable }

/-- The member `isAutoDetectEnabled`. -/
def isAutoDetectEnabled (self : ProtocolManager) : Bool := self.m_autoDetect

/-- The search loop of `selectProtocol`: position of the first decoder, from
position `i` on, whose `getType()` is `type`. -/
def selectLoop (type : bms_type_t) : List Protocol → Nat → Option Nat
  | [], _ => none
  | p :: rest, i => if p.getType = type then some i else selectLoop type rest (i + 1)

/-- The member `selectProtocol`. -/
def selectProtocol (self : ProtocolManager) (type : bms_type_t) : Bool × ProtocolManager :=
  match selectLoop type self.m_protocols 0 with
  | some i => (true, { self with m_activeProtocol := some i, m_autoDetect := false })
  | none => (false, self)

/-- The auto-detection loop of `routeMessage`, `for (i = ...; i < m_protocols.size(); i++)`,
from index `i` with `n` iterations left.  Indexing `m_detectionStats[i]` out of
bounds does not happen while both vectors have the same length; the embedding
then leaves the statistics alone. -/
def routeLoop (canId : Nat) (data : List Nat) (length now : Nat) :
    Nat → Nat → ProtocolManager → Bool × ProtocolManager
  | 0, _, m => (false, m)
  | n + 1, i, m =>
    match m.m_protocols[i]? with
    | none => (false, m)
    | some protocol =>
      if protocol.canAcceptMessage canId then
        let r := protocol.parseMessage canId data length now
        let m1 : ProtocolManager := { m with m_protocols := m.m_protocols.set i r.2 }
        if r.1 then
          match m1.m_detectionStats[i]? with
          | none => (true, m1)
          | some st =>
            let st1 : DetectionStats :=
              { st with matchCount := (st.matchCount + 1) % 2 ^ 32, lastMatch := now }
            let m2 : ProtocolManager :=
              { m1 with m_detectionStats := m1.m_detectionStats.set i st1 }
            if DETECTION_THRESHOLD ≤ st1.matchCount && m2.m_activeProtocol.isNone then
              (true, { m2 with m_activeProtocol := some i })
            else (true, m2)
        else routeLoop canId data length now n (i + 1) m1
      else routeLoop canId data length now n (i + 1) m

/-- The member `routeMessage`, with `millis()` reading `now`.  The active
decoder is always a registered one; for a position outside `m_protocols` the
embedding drops the frame. -/
def routeMessage (self : ProtocolManager) (canId : Nat) (data : List Nat) (length now : Nat) :
    Bool × ProtocolManager :=
  match self.m_activeProtocol, self.m_autoDetect with
  | some a, false =>
    match self.m_protocols[a]? with
    | none => (false, self)
    | some active =>
      if active.canAcceptMessage canId then
        ((active.parseMessage canId data length now).1,
         { self with
           m_protocols := self.m_protocols.set a (active.parseMessage canId data length now).2 })
      else (false, self)
  | _, _ => routeLoop canId data length now self.m_protocols.length 0 self

/-- The member `getActiveProtocol`. -/
def getActiveProtocol (self : ProtocolManager) : Option Nat := self.m_activeProtocol

/-- The member `isConnected`, read at time `now`. -/
def isConnected (self : ProtocolManager) (now : Nat) : Bool :=
  match self.m_activeProtocol with
  | some a =>
    match self.m_protocols[a]? with
    | some active => active.isConnected now 5000
    | none => false
  | none => self.m_protocols.any fun p => p.isConnected now 5000

/-- The fallback loop of `getData`: the first decoder that is connected and
whose `getData` succeeds fills the record. -/
def getDataLoop (now : Nat) (data : bms_data_t) : List Protocol → Bool × bms_data_t
  | [] => (false, data)
  | p :: rest =>
    if p.isConnected now 5000 && (p.getData now data).1 then (true, (p.getData now data).2)
    else getDataLoop now data rest

/-- The member `getData`, read at time `now`. -/
def getData (self : ProtocolManager) (now : Nat) (data : bms_data_t) : Bool × bms_data_t :=
  match self.m_activeProtocol with
  | some a =>
    match self.m_protocols[a]? with
    | some active => active.getData now data
    | none => (false, data)
  | none => getDataLoop now data self.m_protocols

/-- The member `getProtocolCount`. -/
def getProtocolCount (self : ProtocolManager) : Nat := self.m_protocols.length

/-- The member `resetStats`. -/
def resetStats (self : ProtocolManager) : ProtocolManager :=
  { self with
    m_detectionStats := self.m_detectionStats.map fun st =>
      { st with matchCount := 0, lastMatch := 0 },
    m_protocols := self.m_protocols.map fun p => p.resetStats,
    m_activeProtocol := none }

end ProtocolManager

/-- The member `initializeAll`. -/
def ProtocolManager.initializeAll (self : ProtocolManager) : Bool × ProtocolManager :=
  ((self.m_protocols.map fun p => ( Protocol.initialize p).1).all id,
   { self with m_protocols := self.m_protocols.map fun p => ( Protocol.initialize p).2 })

/-- Feed a sequence of frames `(canId, data, length, now)` through `routeMessage`. -/
def ProtocolManager.routeAll (self : ProtocolManager) :
    List (Nat × List Nat × Nat × Nat) → ProtocolManager
  | [] => self
  | f :: rest =>
    ProtocolManager.routeAll (self.routeMessage f.1 f.2.1 f.2.2.1 f.2.2.2).2 rest

/-! ## Definitions used to state the results -/

/-- What a rejected frame does to the base-class bookkeeping: the error
counter goes up by one (as a `uint32_t`, and by exactly one below the wrap),
while message counter, connected flag and last-update time stay put. -/
def CanProtocolBase.errorOnly (b b1 : CanProtocolBase) : Prop :=
  b1.m_errorCount = (b.m_errorCount + 1) % 2 ^ 32 ∧
  (b.m_errorCount + 1 < 2 ^ 32 → b1.m_errorCount = b.m_errorCount + 1) ∧
  b1.m_messageCount = b.m_messageCount ∧
  b1.m_connected = b.m_connected ∧
  b1.m_lastUpdate = b.m_lastUpdate

/-- The bookkeeping of the detection loop after decoder `k` parsed the frame:
`m_detectionStats[k].matchCount++`, `lastMatch = millis()`, and the promotion
`if (matchCount >= DETECTION_THRESHOLD && !m_activeProtocol)`. -/
def ProtocolManager.afterHit (m : ProtocolManager) (k now : Nat) : ProtocolManager :=
  match m.m_detectionStats[k]? with
  | none => m
  | some st =>
    { m with
      m_detectionStats := m.m_detectionStats.set k
        { st with matchCount := (st.matchCount + 1) % 2 ^ 32, lastMatch := now },
      m_activeProtocol :=
        if ProtocolManager.DETECTION_THRESHOLD ≤ (st.matchCount + 1) % 2 ^ 32 &&
            m.m_activeProtocol.isNone
        then some k else m.m_activeProtocol }

/-- What one `parseMessage` call does to the base-class bookkeeping, given the
flag it returns: on `true` exactly `markUpdated()` ran, on `false` at most
`markError()` ran. -/
def CanProtocolBase.parseBookkeeping (b : CanProtocolBase) (now : Nat) (flag : Bool)
    (b1 : CanProtocolBase) : Prop :=
  (flag = true ∧ b1.m_messageCount = (b.m_messageCount + 1) % 2 ^ 32 ∧ b1.m_connected = true ∧
    b1.m_lastUpdate = now ∧ b1.m_errorCount = b.m_errorCount) ∨
  (flag = false ∧ b1.m_messageCount = b.m_messageCount ∧ b1.m_connected = b.m_connected ∧
    b1.m_lastUpdate = b.m_lastUpdate ∧
    (b1.m_errorCount = (b.m_errorCount + 1) % 2 ^ 32 ∨ b1.m_errorCount = b.m_errorCount))

/-- A call of one of the state-changing public members of a decoder. -/
inductive DecoderCall
  | callInitialize
  | callStart
  | callStop
  | callResetStats
  | callParseMessage (canId : Nat) (data : List Nat) (length now : Nat)

/-- The decoder after one call. -/
def Protocol.afterCall (p : Protocol) : DecoderCall → Protocol
  | DecoderCall.callInitialize => ( Protocol.initialize p).2
  | DecoderCall.callStart => p.start.2
  | DecoderCall.callStop => p.stop.2
  | DecoderCall.callResetStats => p.resetStats
  | DecoderCall.callParseMessage canId data length now =>
    (p.parseMessage canId data length now).2

/-- The decoder after a sequence of calls. -/
def Protocol.afterCalls (p : Protocol) : List DecoderCall → Protocol
  | [] => p
  | c :: rest => Protocol.afterCalls (p.afterCall c) rest

/-- The three decoders as their constructors leave them. -/
def Protocol.constructed : List Protocol :=
  [Protocol.pylontech PylontechCan.new, Protocol.jkBms JkBmsCan.new, Protocol.daly DalyCan.new]

/-- The flags of a record are the ones its current gives:
`charging == (current > 0.5f)` and `discharging == (current < -0.5f)`. -/
def bms_data_t.flagsFollowCurrent (d : bms_data_t) : Prop :=
  d.charging = F32.lt (F32.lit 1 2) d.current ∧
  d.discharging = F32.lt d.current (F32.lit (-1) 2)

/-- A call that neither disconnects a decoder nor stamps a new update time:
`start`, `resetStats`, or a `parseMessage` that returns false on `p`. -/
def DecoderCall.quietFor (p : Protocol) : DecoderCall → Prop
  | DecoderCall.callInitialize => False
  | DecoderCall.callStart => True
  | DecoderCall.callStop => False
  | DecoderCall.callResetStats => True
  | DecoderCall.callParseMessage canId data length now =>
    (p.parseMessage canId data length now).1 = false

/-- A call that is not a successful `parseMessage` on `p`. -/
def DecoderCall.noSuccessFor (p : Protocol) : DecoderCall → Prop
  | DecoderCall.callParseMessage canId data length now =>
    (p.parseMessage canId data length now).1 = false
  | _ => True

/-- The float `x` is the decimal `n / d` up to a relative error of `2 ^ (-22)`:
`|d * x - n| <= |n| * 2 ^ (-22)`, written in units of `2 ^ (-149)`. -/
def F32.approx (x : F32) (n : Int) (d : Nat) : Prop :=
  2 ^ 22 * ((d : Int) * x.units - n * (F32.one : Int)).natAbs ≤ n.natAbs * F32.one

/-- The predicate `F32.approx` can be evaluated. -/
instance F32.approxDecidable (x : F32) (n : Int) (d : Nat) : Decidable (F32.approx x n d) := by
  unfold F32.approx
  infer_instance

/-- The signed reading of a 16-bit pattern (`(int16_t)u`). -/
def asInt16 (u : Nat) : Int := if u < 32768 then (u : Int) else (u : Int) - 65536

/-- The signed reading of a 32-bit pattern (`(int32_t)u`). -/
def asInt32 (u : Nat) : Int := if u < 2147483648 then (u : Int) else (u : Int) - 4294967296

/-- The loop shared by `initializeAll`, `startAll` and `stopAll`,
`for (auto* protocol : m_protocols) { if (!protocol->op()) success = false; }`,
entered with the flag `success`; `op` is the virtual member called, giving
its result and the decoder afterwards. -/
def ProtocolManager.lifecycleLoop (op : Protocol → Bool × Protocol) :
    List Protocol → Bool → Bool × List Protocol
  | [], success => (success, [])
  | p :: rest, success =>
    ((ProtocolManager.lifecycleLoop op rest (if !(op p).1 then false else success)).1,
     (op p).2 ::
       (ProtocolManager.lifecycleLoop op rest (if !(op p).1 then false else success)).2)

/-- A call of one of the state-changing public members of a Pylontech decoder. -/
inductive PylontechCall
  | callInitialize
  | callStart
  | callStop
  | callResetStats
  | callResetReceivedFlags
  | callParseMessage (canId : Nat) (data : List Nat) (length now : Nat)
deriving DecidableEq

/-- The Pylontech decoder after one call; `initialize`, `start`, `stop` and
`resetStats` are the inherited members. -/
def PylontechCan.afterCall (s : PylontechCan) : PylontechCall → PylontechCan
  | PylontechCall.callInitialize =>
    { s with toCanProtocolBase := ( CanProtocolBase.initialize s.toCanProtocolBase s.getType).2 }
  | PylontechCall.callStart => { s with toCanProtocolBase := s.toCanProtocolBase.start.2 }
  | PylontechCall.callStop => { s with toCanProtocolBase := s.toCanProtocolBase.stop.2 }
  | PylontechCall.callResetStats => { s with toCanProtocolBase := s.toCanProtocolBase.resetStats }
  | PylontechCall.callResetReceivedFlags => s.resetReceivedFlags
  | PylontechCall.callParseMessage canId data length now =>
    (s.parseMessage canId data length now).2

/-- The Pylontech decoder after a sequence of calls. -/
def PylontechCan.afterCalls (s : PylontechCan) : List PylontechCall → PylontechCan
  | [] => s
  | c :: rest => PylontechCan.afterCalls (s.afterCall c) rest

/-- Whether a call is `resetReceivedFlags()`. -/
def PylontechCall.isReset : PylontechCall → Bool
  | PylontechCall.callResetReceivedFlags => true
  | _ => false

/-- The calls made since the last `resetReceivedFlags()`; all of them when
there was none. -/
def PylontechCall.sinceReset : List PylontechCall → List PylontechCall
  | [] => []
  | c :: rest =>
    if rest.any PylontechCall.isReset then PylontechCall.sinceReset rest
    else if c.isReset then rest
    else c :: rest

/-- A voltage frame (0x359) on which `parseMessage` returns true; the flag
returned does not depend on the decoder state. -/
def PylontechCall.acceptedVoltage : PylontechCall → Bool
  | PylontechCall.callParseMessage canId data length now =>
    decide (canId = PylontechCan.ID_VOLTAGE) &&
      (PylontechCan.new.parseMessage canId data length now).1
  | _ => false

/-- A current frame (0x35C) on which `parseMessage` returns true. -/
def PylontechCall.parsedCurrent : PylontechCall → Bool
  | PylontechCall.callParseMessage canId data length now =>
    decide (canId = PylontechCan.ID_CURRENT) &&
      (PylontechCan.new.parseMessage canId data length now).1
  | _ => false

/-- An SOC frame (0x355) on which `parseMessage` returns true. -/
def PylontechCall.acceptedSoc : PylontechCall → Bool
  | PylontechCall.callParseMessage canId data length now =>
    decide (canId = PylontechCan.ID_SOC) &&
      (PylontechCan.new.parseMessage canId data length now).1
  | _ => false

/-- An alarm (0x35A), status (0x35E) or temperature (0x356) frame. -/
def PylontechCall.isAlarmStatusTemp : PylontechCall → Bool
  | PylontechCall.callParseMessage canId _ _ _ =>
    decide (canId = PylontechCan.ID_ALARM) || decide (canId = PylontechCan.ID_STATUS) ||
      decide (canId = PylontechCan.ID_TEMP)
  | _ => false

/-- What `routeMessage` does to one decoder when it is the one asked: the
decoder parses the frame if it accepts the identifier. -/
def Protocol.offered (q : Protocol) (canId : Nat) (data : List Nat) (length now : Nat) :
    Protocol :=
  if q.canAcceptMessage canId then (q.parseMessage canId data length now).2 else q

/-- Whether a decoder accepts the identifier and parses the frame. -/
def Protocol.takes (q : Protocol) (canId : Nat) (data : List Nat) (length now : Nat) : Bool :=
  q.canAcceptMessage canId && (q.parseMessage canId data length now).1

/-- Exactly one of the two counters went up by one (as `uint32_t`): the
message counter when the flag is true, the error counter when it is false. -/
def CanProtocolBase.countedOnce (b : CanProtocolBase) (flag : Bool) (b1 : CanProtocolBase) :
    Prop :=
  (flag = true ∧ b1.m_messageCount = (b.m_messageCount + 1) % 2 ^ 32 ∧
    b1.m_errorCount = b.m_errorCount) ∨
  (flag = false ∧ b1.m_messageCount = b.m_messageCount ∧
    b1.m_errorCount = (b.m_errorCount + 1) % 2 ^ 32)

/-- The low bytes the JK-BMS `parseMessage` has a case for. -/
def JkBmsCan.handledTypes : List Nat := [0x01, 0x02, 0x03, 0x04, 0x05, 0x10]

/-- A call of one of the state-changing public members of the manager. -/
inductive ManagerCall
  | callRegisterProtocol (protocol : Option Protocol)
  | callInitializeAll
  | callStartAll
  | callStopAll
  | callSetAutoDetect (enable : Bool)
  | callSelectProtocol (type : bms_type_t)
  | callRouteMessage (canId : Nat) (data : List Nat) (length now : Nat)
  | callResetStats

/-- The manager after one call. -/
def ProtocolManager.afterCall (m : ProtocolManager) : ManagerCall → ProtocolManager
  | ManagerCall.callRegisterProtocol protocol => m.registerProtocol protocol
  | ManagerCall.callInitializeAll => m.initializeAll.2
  | ManagerCall.callStartAll => m.startAll.2
  | ManagerCall.callStopAll => m.stopAll.2
  | ManagerCall.callSetAutoDetect enable => m.setAutoDetect enable
  | ManagerCall.callSelectProtocol type => (m.selectProtocol type).2
  | ManagerCall.callRouteMessage canId data length now =>
    (m.routeMessage canId data length now).2
  | ManagerCall.callResetStats => m.resetStats

/-- The manager after a sequence of calls. -/
def ProtocolManager.afterCalls (m : ProtocolManager) : List ManagerCall → ProtocolManager
  | [] => m
  | c :: rest => ProtocolManager.afterCalls (m.afterCall c) rest

/-- The structural invariant of the manager: one statistics entry per decoder,
entry `i` referring to decoder `i`, and the active decoder, if any, registered. -/
def ProtocolManager.wellFormed (m : ProtocolManager) : Prop :=
  m.m_detectionStats.length = m.m_protocols.length ∧
  (∀ (i : Nat) (st : DetectionStats), m.m_detectionStats[i]? = some st →
    st.protocol = some i) ∧
  (∀ a : Nat, m.m_activeProtocol = some a → a < m.m_protocols.length)

/-! ## Example frames and states -/

/-- Eight zero bytes. -/
def zeros8 : List Nat := [0, 0, 0, 0, 0, 0, 0, 0]

/-- A Pylontech decoder that has accepted a 50.00 V frame (raw 5000) at time 1000. -/
def PylontechCan.at50V : PylontechCan :=
  (PylontechCan.new.parseMessage 0x359 [0x13, 0x88, 0, 0, 0, 0, 0, 0] 8 1000).2

/-- A DALY decoder that has accepted a 50.0 V frame (raw 500) at time 1000. -/
def DalyCan.at50V : DalyCan :=
  (DalyCan.new.parseMessage 0x18FF50E5 [0xF4, 0x01, 0, 0, 0, 0, 0, 0] 8 1000).2

/-- A JK-BMS decoder that has accepted a 50.000 V frame (raw 50000) at time 1000. -/
def JkBmsCan.at50V : JkBmsCan :=
  (JkBmsCan.new.parseMessage 0x02F4DA01 [0, 0, 0xC3, 0x50, 0, 0, 0, 0] 8 1000).2

/-- One decoder of each vendor, registered in the order Pylontech, JK-BMS, DALY. -/
def ProtocolManager.three : ProtocolManager :=
  ((ProtocolManager.new.registerProtocol (some (Protocol.pylontech PylontechCan.new))).registerProtocol
    (some (Protocol.jkBms JkBmsCan.new))).registerProtocol (some (Protocol.daly DalyCan.new))

/-- A Pylontech voltage frame with raw value 5000 (50.00 V), received at `now`. -/
def frameV50 (now : Nat) : Nat × List Nat × Nat × Nat :=
  (0x359, [0x13, 0x88, 0, 0, 0, 0, 0, 0], 8, now)

/-- The payload of a Pylontech voltage frame with raw value 3990 (39.9 V). -/
def payload3990 : List Nat := [0x0F, 0x96, 0, 0, 0, 0, 0, 0]

/-- A JK-BMS voltage frame with raw value 50000 (50.000 V), received at `now`. -/
def frameJk50 (now : Nat) : Nat × List Nat × Nat × Nat :=
  (0x02F4DA01, [0, 0, 0xC3, 0x50, 0, 0, 0, 0], 8, now)

/-- A DALY voltage frame with raw value 500 (50.0 V), received at `now`. -/
def frameDaly50 (now : Nat) : Nat × List Nat × Nat × Nat :=
  (0x18FF50E5, [0xF4, 0x01, 0, 0, 0, 0, 0, 0], 8, now)

/-- Four good Pylontech voltage frames. -/
def fourV50 : List (Nat × List Nat × Nat × Nat) :=
  [frameV50 1000, frameV50 2000, frameV50 3000, frameV50 4000]

/-- Six good JK-BMS voltage frames. -/
def sixJk50 : List (Nat × List Nat × Nat × Nat) := List.replicate 6 (frameJk50 1000)

/-- Two Pylontech decoders registered one after the other. -/
def ProtocolManager.twoPylontech : ProtocolManager :=
  (ProtocolManager.new.registerProtocol (some (Protocol.pylontech PylontechCan.new))).registerProtocol
    (some (Protocol.pylontech PylontechCan.new))

/-- The manager `three` right after `selectProtocol(BMS_DALY)`. -/
def ProtocolManager.pinnedDaly : ProtocolManager :=
  (ProtocolManager.three.selectProtocol BMS_DALY).2

/-- A Pylontech current frame with raw value 100 (+10.0 A). -/
def payloadCurrent100 : List Nat := [0x00, 0x64, 0, 0, 0, 0, 0, 0]

/-- Calls on a decoder: a Pylontech current frame of +10.0 A, `stop`, an
out-of-range voltage frame, `resetStats`. -/
def callsCharging : List DecoderCall :=
  [DecoderCall.callParseMessage 0x35C payloadCurrent100 8 1000, DecoderCall.callStop,
   DecoderCall.callParseMessage 0x359 payload3990 8 2000, DecoderCall.callResetStats]

/-- Calls that leave the connectivity state alone: `start`, `resetStats`, an
out-of-range Pylontech voltage frame. -/
def callsQuiet : List DecoderCall :=
  [DecoderCall.callStart, DecoderCall.callResetStats,
   DecoderCall.callParseMessage 0x359 payload3990 8 3000]

/-- Calls without a successful parse: `start`, a short DALY frame, `stop`. -/
def callsNoSuccess : List DecoderCall :=
  [DecoderCall.callStart, DecoderCall.callParseMessage 0x18FF50E5 [0xF4, 0x01] 2 1000,
   DecoderCall.callStop]

/-- The manager `three` after one good DALY voltage frame at time 1000. -/
def ProtocolManager.dalySeen : ProtocolManager :=
  (ProtocolManager.three.routeMessage 0x18FF50E5 [0xF4, 0x01, 0, 0, 0, 0, 0, 0] 8 1000).2

/-- A lifecycle member that fails on Pylontech decoders and otherwise acts as `stop`. -/
def Protocol.stopFailingOnPylontech (p : Protocol) : Bool × Protocol :=
  (decide (p.getType ≠ BMS_PYLONTECH), p.stop.2)

/-- A DALY voltage frame with raw value 5000, little-endian. -/
def payloadDaly5000 : List Nat := [0x88, 0x13, 0, 0, 0, 0, 0, 0]

/-- A JK-BMS payload holding 50000 in little-endian byte order. -/
def payloadJkLittle50000 : List Nat := [0x50, 0xC3, 0, 0, 0, 0, 0, 0]

/-- A JK-BMS payload holding 50000 in big-endian byte order. -/
def payloadJkBig50000 : List Nat := [0, 0, 0xC3, 0x50, 0, 0, 0, 0]

/-- A JK-BMS payload holding -10000 (two's complement) in big-endian byte order. -/
def payloadJkBigMinus10000 : List Nat := [0xFF, 0xFF, 0xD8, 0xF0, 0, 0, 0, 0]

/-- A payload with the bytes 0x12, 0x34, 0x56, 0x78 at offset 2. -/
def payloadCounting : List Nat := [0xAA, 0xBB, 0x12, 0x34, 0x56, 0x78, 0xCC, 0xDD]

/-- A Pylontech decoder with a complete data set: a 50.00 V voltage frame, a
+10.0 A current frame and a 50.0 % SOC frame. -/
def PylontechCan.complete : PylontechCan :=
  PylontechCan.new.afterCalls
    [PylontechCall.callParseMessage 0x359 [0x13, 0x88, 0, 0, 0, 0, 0, 0] 8 1000,
     PylontechCall.callParseMessage 0x35C [0x00, 0x64, 0, 0, 0, 0, 0, 0] 8 1100,
     PylontechCall.callParseMessage 0x355 [0x01, 0xF4, 0, 0, 0, 0, 0, 0] 8 1200]

/-- Calls on a Pylontech decoder: a complete data set, `resetReceivedFlags`,
then a voltage and an SOC frame but no current frame. -/
def callsResetThenTwo : List PylontechCall :=
  [PylontechCall.callParseMessage 0x359 [0x13, 0x88, 0, 0, 0, 0, 0, 0] 8 1000,
   PylontechCall.callParseMessage 0x35C [0x00, 0x64, 0, 0, 0, 0, 0, 0] 8 1100,
   PylontechCall.callParseMessage 0x355 [0x01, 0xF4, 0, 0, 0, 0, 0, 0] 8 1200,
   PylontechCall.callResetReceivedFlags,
   PylontechCall.callInitialize,
   PylontechCall.callParseMessage 0x359 [0x13, 0x88, 0, 0, 0, 0, 0, 0] 8 2000,
   PylontechCall.callParseMessage 0x355 [0x01, 0xF4, 0, 0, 0, 0, 0, 0] 8 2200]

/-- Calls on a Pylontech decoder: an alarm, a status and a temperature frame. -/
def callsAlarmStatusTemp : List PylontechCall :=
  [PylontechCall.callParseMessage 0x35A [0x01, 0, 0, 0, 0, 0, 0, 0] 8 1000,
   PylontechCall.callParseMessage 0x356 [0x00, 0xFA, 0, 0, 0, 0, 0, 0] 8 1100,
   PylontechCall.callParseMessage 0x35E [0x00, 0x07, 0, 0, 0, 0, 0, 0] 8 1200]

/-- A decoder base that was last updated 100 ms before the 32-bit clock wraps. -/
def CanProtocolBase.updatedBeforeWrap : CanProtocolBase :=
  { CanProtocolBase.new with m_connected := true, m_lastUpdate := 2 ^ 32 - 100 }

/-- A manager with three registered decoders, pinned to JK-BMS. -/
def ProtocolManager.pinnedJk : ProtocolManager :=
  (ProtocolManager.three.selectProtocol BMS_JK_BMS).2

/-- Calls on a new manager: three registrations, a null registration, the
lifecycle members, six JK-BMS frames, a selection and a reset. -/
def callsManager : List ManagerCall :=
  [ManagerCall.callRegisterProtocol (some (Protocol.pylontech PylontechCan.new)),
   ManagerCall.callRegisterProtocol none,
   ManagerCall.callRegisterProtocol (some (Protocol.jkBms JkBmsCan.new)),
   ManagerCall.callRegisterProtocol (some (Protocol.daly DalyCan.new)),
   ManagerCall.callInitializeAll, ManagerCall.callStartAll,
   ManagerCall.callRouteMessage 0x02F4DA01 [0, 0, 0xC3, 0x50, 0, 0, 0, 0] 8 1000,
   ManagerCall.callRouteMessage 0x02F4DA01 [0, 0, 0xC3, 0x50, 0, 0, 0, 0] 8 1100,
   ManagerCall.callRouteMessage 0x02F4DA01 [0, 0, 0xC3, 0x50, 0, 0, 0, 0] 8 1200,
   ManagerCall.callRouteMessage 0x02F4DA01 [0, 0, 0xC3, 0x50, 0, 0, 0, 0] 8 1300,
   ManagerCall.callRouteMessage 0x02F4DA01 [0, 0, 0xC3, 0x50, 0, 0, 0, 0] 8 1400,
   ManagerCall.callSetAutoDetect true,
   ManagerCall.callSelectProtocol BMS_DALY,
   ManagerCall.callRouteMessage 0x18FF50E5 [0xF4, 0x01, 0, 0, 0, 0, 0, 0] 8 1500,
   ManagerCall.callStopAll, ManagerCall.callResetStats]

/-- The manager `three` after six good JK-BMS voltage frames: JK-BMS is active
with match count 6. -/
def ProtocolManager.jkDetected : ProtocolManager := ProtocolManager.three.routeAll sixJk50

/-! ## Decoder lemmas -/

/-- Parsing never changes the class of a decoder. -/
theorem Protocol.getType_parseMessage (p : Protocol) (canId : Nat) (data : List Nat)
    (length now : Nat) : (p.parseMessage canId data length now).2.getType = p.getType := by
  cases p <;> rfl

/-- Parsing never changes which identifiers a decoder accepts. -/
theorem Protocol.canAccept_parseMessage (p : Protocol) (c canId : Nat) (data : List Nat)
    (length now : Nat) :
    (p.parseMessage canId data length now).2.canAcceptMessage c = p.canAcceptMessage c := by
  cases p <;> rfl

/-- Acceptance depends on the class of the decoder only. -/
theorem Protocol.canAccept_of_getType (p q : Protocol) (c : Nat) (h : p.getType = q.getType) :
    p.canAcceptMessage c = q.canAcceptMessage c := by
  cases p <;> cases q <;> first | rfl | (simp [Protocol.getType, PylontechCan.getType, JkBmsCan.getType, DalyCan.getType] at h)

/-- The flag returned by the tail of `parseMessage` is `parsed`. -/
theorem PylontechCan.pylontech_finish_fst (s : PylontechCan) (b : Bool) (now : Nat) :
    (PylontechCan.finish s b now).1 = b := by
  cases b <;> rfl

/-- The flag returned by the tail of `parseMessage` is `parsed`. -/
theorem DalyCan.daly_finish_fst (s : DalyCan) (b : Bool) (now : Nat) :
    (DalyCan.finish s b now).1 = b := by
  cases b <;> rfl

/-- The flag returned by the tail of `parseMessage` is `parsed`. -/
theorem JkBmsCan.jk_finish_fst (s : JkBmsCan) (b : Bool) (now : Nat) :
    (JkBmsCan.finish s b now).1 = b := by
  cases b <;> rfl

/-- The flag returned by `parseMessage` depends on the frame only, not on the
decoder state or the clock. -/
theorem PylontechCan.pylontech_parse_fst (s t : PylontechCan) (canId : Nat) (data : List Nat)
    (length now now1 : Nat) :
    (s.parseMessage canId data length now).1 = (t.parseMessage canId data length now1).1 := by
  unfold PylontechCan.parseMessage
  simp only [apply_ite Prod.fst, PylontechCan.pylontech_finish_fst]

/-- The flag returned by `parseMessage` depends on the frame only, not on the
decoder state or the clock. -/
theorem DalyCan.daly_parse_fst (s t : DalyCan) (canId : Nat) (data : List Nat)
    (length now now1 : Nat) :
    (s.parseMessage canId data length now).1 = (t.parseMessage canId data length now1).1 := by
  unfold DalyCan.parseMessage
  simp only [apply_ite Prod.fst, DalyCan.daly_finish_fst]

/-- The flag returned by `parseMessage` depends on the frame only, not on the
decoder state or the clock. -/
theorem JkBmsCan.jk_parse_fst (s t : JkBmsCan) (canId : Nat) (data : List Nat)
    (length now now1 : Nat) :
    (s.parseMessage canId data length now).1 = (t.parseMessage canId data length now1).1 := by
  unfold JkBmsCan.parseMessage
  simp only [apply_ite Prod.fst, JkBmsCan.jk_finish_fst]

/-- For decoders of one class the flag returned by `parseMessage` depends on
the frame only. -/
theorem Protocol.parseMessage_fst_of_getType (p q : Protocol) (canId : Nat) (data : List Nat)
    (length now now1 : Nat) (h : p.getType = q.getType) :
    (p.parseMessage canId data length now).1 = (q.parseMessage canId data length now1).1 := by
  cases p <;> cases q <;>
    first
    | exact PylontechCan.pylontech_parse_fst _ _ _ _ _ _ _
    | exact DalyCan.daly_parse_fst _ _ _ _ _ _ _
    | exact JkBmsCan.jk_parse_fst _ _ _ _ _ _ _
    | (simp [Protocol.getType, PylontechCan.getType, JkBmsCan.getType, DalyCan.getType] at h)

/-- Field-wise criterion for `errorOnly`. -/
theorem CanProtocolBase.errorOnly_of_eq (b b1 : CanProtocolBase)
    (he : b1.m_errorCount = (b.m_errorCount + 1) % 2 ^ 32)
    (hm : b1.m_messageCount = b.m_messageCount) (hc : b1.m_connected = b.m_connected)
    (hl : b1.m_lastUpdate = b.m_lastUpdate) : CanProtocolBase.errorOnly b b1 := by
  refine ⟨he, ?_, hm, hc, hl⟩
  intro h
  rw [he]
  exact Nat.mod_eq_of_lt h

/-- No identifier accepted by the JK-BMS decoder is accepted by the DALY decoder. -/
theorem DalyCan.not_accept_of_jk (d : DalyCan) (j : JkBmsCan) (canId : Nat)
    (h : j.canAcceptMessage canId = true) : d.canAcceptMessage canId = false := by
  simp only [JkBmsCan.canAcceptMessage, beq_iff_eq] at h
  simp only [DalyCan.canAcceptMessage, Bool.or_eq_false_iff, beq_eq_false_iff_ne]
  refine ⟨⟨⟨⟨⟨?_, ?_⟩, ?_⟩, ?_⟩, ?_⟩, ?_⟩ <;> intro hc <;> subst hc <;> revert h <;> decide

/-- `markUpdated()` is the bookkeeping of a call that returns true. -/
theorem bookkeeping_markUpdated (b b1 : CanProtocolBase) (now : Nat)
    (h1 : b1.m_errorCount = b.m_errorCount) (h2 : b1.m_messageCount = b.m_messageCount) :
    CanProtocolBase.parseBookkeeping b now true (b1.markUpdated now) :=
  Or.inl ⟨rfl, by rw [← h2]; rfl, rfl, rfl, h1⟩

/-- `markError()` is a bookkeeping of a call that returns false. -/
theorem bookkeeping_markError (b b1 : CanProtocolBase) (now : Nat)
    (h1 : b1.m_errorCount = b.m_errorCount) (h2 : b1.m_messageCount = b.m_messageCount)
    (h3 : b1.m_connected = b.m_connected) (h4 : b1.m_lastUpdate = b.m_lastUpdate) :
    CanProtocolBase.parseBookkeeping b now false b1.markError :=
  Or.inr ⟨rfl, h2, h3, h4, Or.inl (by rw [← h1]; rfl)⟩

/-- Doing nothing is a bookkeeping of a call that returns false. -/
theorem bookkeeping_same (b : CanProtocolBase) (now : Nat) :
    CanProtocolBase.parseBookkeeping b now false b :=
  Or.inr ⟨rfl, rfl, rfl, rfl, Or.inr rfl⟩

/-- The tail of the Pylontech `parseMessage` does the bookkeeping of its flag. -/
theorem pylontech_finish_bookkeeping (self s1 : PylontechCan) (parsed : Bool) (now : Nat)
    (h1 : s1.m_errorCount = self.m_errorCount) (h2 : s1.m_messageCount = self.m_messageCount)
    (h3 : s1.m_connected = self.m_connected) (h4 : s1.m_lastUpdate = self.m_lastUpdate) :
    CanProtocolBase.parseBookkeeping self.toCanProtocolBase now
      (PylontechCan.finish s1 parsed now).1
      (PylontechCan.finish s1 parsed now).2.toCanProtocolBase := by
  cases parsed
  · exact bookkeeping_markError _ _ now h1 h2 h3 h4
  · exact bookkeeping_markUpdated _ _ now h1 h2

/-- The tail of the DALY `parseMessage` does the bookkeeping of its flag. -/
theorem daly_finish_bookkeeping (self s1 : DalyCan) (parsed : Bool) (now : Nat)
    (h1 : s1.m_errorCount = self.m_errorCount) (h2 : s1.m_messageCount = self.m_messageCount)
    (h3 : s1.m_connected = self.m_connected) (h4 : s1.m_lastUpdate = self.m_lastUpdate) :
    CanProtocolBase.parseBookkeeping self.toCanProtocolBase now
      (DalyCan.finish s1 parsed now).1
      (DalyCan.finish s1 parsed now).2.toCanProtocolBase := by
  cases parsed
  · exact bookkeeping_markError _ _ now h1 h2 h3 h4
  · exact bookkeeping_markUpdated _ _ now h1 h2

/-- The tail of the JK-BMS `parseMessage` does the bookkeeping of its flag. -/
theorem jk_finish_bookkeeping (self s1 : JkBmsCan) (parsed : Bool) (now : Nat)
    (h1 : s1.m_errorCount = self.m_errorCount) (h2 : s1.m_messageCount = self.m_messageCount)
    (h3 : s1.m_connected = self.m_connected) (h4 : s1.m_lastUpdate = self.m_lastUpdate) :
    CanProtocolBase.parseBookkeeping self.toCanProtocolBase now
      (JkBmsCan.finish s1 parsed now).1
      (JkBmsCan.finish s1 parsed now).2.toCanProtocolBase := by
  cases parsed
  · exact bookkeeping_markError _ _ now h1 h2 h3 h4
  · exact bookkeeping_markUpdated _ _ now h1 h2

/-- Bookkeeping of the Pylontech `parseMessage`. -/
theorem pylontech_parse_bookkeeping (s : PylontechCan) (canId : Nat) (data : List Nat)
    (length now : Nat) :
    CanProtocolBase.parseBookkeeping s.toCanProtocolBase now
      (s.parseMessage canId data length now).1
      (s.parseMessage canId data length now).2.toCanProtocolBase := by
  unfold PylontechCan.parseMessage
  dsimp only
  split_ifs <;>
    first
    | exact pylontech_finish_bookkeeping s _ _ now rfl rfl rfl rfl
    | exact bookkeeping_markError _ _ now rfl rfl rfl rfl
    | exact bookkeeping_same _ now

/-- Bookkeeping of the DALY `parseMessage`. -/
theorem daly_parse_bookkeeping (s : DalyCan) (canId : Nat) (data : List Nat)
    (length now : Nat) :
    CanProtocolBase.parseBookkeeping s.toCanProtocolBase now
      (s.parseMessage canId data length now).1
      (s.parseMessage canId data length now).2.toCanProtocolBase := by
  unfold DalyCan.parseMessage
  dsimp only
  split_ifs <;>
    first
    | exact daly_finish_bookkeeping s _ _ now rfl rfl rfl rfl
    | exact bookkeeping_markError _ _ now rfl rfl rfl rfl
    | exact bookkeeping_same _ now

/-- Bookkeeping of the JK-BMS `parseMessage`. -/
theorem jk_parse_bookkeeping (s : JkBmsCan) (canId : Nat) (data : List Nat)
    (length now : Nat) :
    CanProtocolBase.parseBookkeeping s.toCanProtocolBase now
      (s.parseMessage canId data length now).1
      (s.parseMessage canId data length now).2.toCanProtocolBase := by
  unfold JkBmsCan.parseMessage
  dsimp only
  split_ifs <;>
    first
    | exact jk_finish_bookkeeping s _ _ now rfl rfl rfl rfl
    | exact bookkeeping_markError _ _ now rfl rfl rfl rfl
    | exact bookkeeping_same _ now

/-- Bookkeeping of `parseMessage` for every decoder. -/
theorem protocol_parse_bookkeeping (p : Protocol) (canId : Nat) (data : List Nat)
    (length now : Nat) :
    CanProtocolBase.parseBookkeeping p.base now
      (p.parseMessage canId data length now).1
      (p.parseMessage canId data length now).2.base := by
  cases p with
  | pylontech s => exact pylontech_parse_bookkeeping s canId data length now
  | jkBms s => exact jk_parse_bookkeeping s canId data length now
  | daly s => exact daly_parse_bookkeeping s canId data length now

/-- A 32-bit increment never gives the old value back. -/
theorem succ_mod_ne (n : Nat) : (n + 1) % 2 ^ 32 ≠ n := by
  intro h
  have h1 : (n + 1) % 2 ^ 32 < 2 ^ 32 := Nat.mod_lt _ (by decide)
  by_cases h2 : n + 1 < 2 ^ 32
  · rw [Nat.mod_eq_of_lt h2] at h; omega
  · omega

/-- The branches of `parseMessage` of `PylontechCan`: the flag it returns and the
snapshot it leaves, branch by branch. -/
theorem pylontech_parse_cases (s : PylontechCan) (canId : Nat) (data : List Nat)
    (length now : Nat) :
    (length < 8 ∧ (s.parseMessage canId data length now).1 = false ∧
      (s.parseMessage canId data length now).2.m_data = s.m_data) ∨
    (8 ≤ length ∧ canId = PylontechCan.ID_VOLTAGE ∧
      (s.parseMessage canId data length now).1 =
        validateRange (PylontechCan.decodeVoltage data) (F32.lit 40 1) (F32.lit 60 1) ∧
      (s.parseMessage canId data length now).2.m_data =
        { s.m_data with
          voltage := PylontechCan.decodeVoltage data }) ∨
    (8 ≤ length ∧ canId = PylontechCan.ID_CURRENT ∧
      (s.parseMessage canId data length now).1 = true ∧
      (s.parseMessage canId data length now).2.m_data =
        { s.m_data with
          current := PylontechCan.decodeCurrent data,
          charging := F32.lt (F32.lit 1 2) (PylontechCan.decodeCurrent data),
          discharging := F32.lt (PylontechCan.decodeCurrent data) (F32.lit (-1) 2) }) ∨
    (8 ≤ length ∧ canId = PylontechCan.ID_SOC ∧
      (s.parseMessage canId data length now).1 =
        validateRange (PylontechCan.decodeSoc data) (F32.lit 0 1) (F32.lit 100 1) ∧
      (s.parseMessage canId data length now).2.m_data =
        { s.m_data with
          soc := PylontechCan.decodeSoc data }) ∨
    (8 ≤ length ∧ canId = PylontechCan.ID_TEMP ∧
      (s.parseMessage canId data length now).1 =
        validateRange (PylontechCan.decodeTemp data) (F32.lit (-20) 1) (F32.lit 60 1) ∧
      (s.parseMessage canId data length now).2.m_data =
        { s.m_data with
          temperature := PylontechCan.decodeTemp data }) ∨
    (8 ≤ length ∧ canId = PylontechCan.ID_STATUS ∧
      (s.parseMessage canId data length now).1 = true ∧
      (s.parseMessage canId data length now).2.m_data =
        { s.m_data with
          cycles := extractUint16 data 0 true,
          status_text := snprintf64 ("Online - " ++
              toString (extractUint16 data 0 true) ++ " Zyklen") }) ∨
    (8 ≤ length ∧ canId = PylontechCan.ID_ALARM ∧
      (s.parseMessage canId data length now).1 = true ∧
      (s.parseMessage canId data length now).2.m_data =
        { s.m_data with
          status_text := if byteAt data 0 ≠ 0 then
              snprintf64 ("ALARM 0x" ++ hex02X (byteAt data 0)) else
              snprintf64 "Online" }) ∨
    (8 ≤ length ∧
      ¬ canId = PylontechCan.ID_VOLTAGE ∧
      ¬ canId = PylontechCan.ID_CURRENT ∧
      ¬ canId = PylontechCan.ID_SOC ∧
      ¬ canId = PylontechCan.ID_TEMP ∧
      ¬ canId = PylontechCan.ID_STATUS ∧
      ¬ canId = PylontechCan.ID_ALARM ∧
      (s.parseMessage canId data length now) = (false, s)) := by
  unfold PylontechCan.parseMessage
  dsimp only
  by_cases hl : length < 8
  · rw [if_pos hl]
    exact Or.inl ⟨hl, rfl, rfl⟩
  rw [if_neg hl]
  have h8 : 8 ≤ length := Nat.le_of_not_lt hl
  by_cases h1 : canId = PylontechCan.ID_VOLTAGE
  · rw [if_pos h1]
    by_cases hv : validateRange (PylontechCan.decodeVoltage data)
        (F32.lit 40 1) (F32.lit 60 1) = true
    · rw [if_pos hv]
      exact Or.inr (Or.inl 
        ⟨h8, h1, hv.symm, rfl⟩)
    · rw [if_neg hv]
      exact Or.inr (Or.inl 
        ⟨h8, h1, ((Bool.not_eq_true _).mp hv).symm, rfl⟩)
  rw [if_neg h1]
  by_cases h2 : canId = PylontechCan.ID_CURRENT
  · rw [if_pos h2]
    exact Or.inr (Or.inr (Or.inl ⟨h8, h2, rfl, rfl⟩))
  rw [if_neg h2]
  by_cases h3 : canId = PylontechCan.ID_SOC
  · rw [if_pos h3]
    by_cases hv : validateRange (PylontechCan.decodeSoc data)
        (F32.lit 0 1) (F32.lit 100 1) = true
    · rw [if_pos hv]
      exact Or.inr (Or.inr (Or.inr (Or.inl 
        ⟨h8, h3, hv.symm, rfl⟩)))
    · rw [if_neg hv]
      exact Or.inr (Or.inr (Or.inr (Or.inl 
        ⟨h8, h3, ((Bool.not_eq_true _).mp hv).symm, rfl⟩)))
  rw [if_neg h3]
  by_cases h4 : canId = PylontechCan.ID_TEMP
  · rw [if_pos h4]
    by_cases hv : validateRange (PylontechCan.decodeTemp data)
        (F32.lit (-20) 1) (F32.lit 60 1) = true
    · rw [if_pos hv]
      exact Or.inr (Or.inr (Or.inr (Or.inr (Or.inl 
        ⟨h8, h4, hv.symm, rfl⟩))))
    · rw [if_neg hv]
      exact Or.inr (Or.inr (Or.inr (Or.inr (Or.inl 
        ⟨h8, h4, ((Bool.not_eq_true _).mp hv).symm, rfl⟩))))
  rw [if_neg h4]
  by_cases h5 : canId = PylontechCan.ID_STATUS
  · rw [if_pos h5]
    exact Or.inr (Or.inr (Or.inr (Or.inr (Or.inr (Or.inl ⟨h8, h5, rfl, rfl⟩)))))
  rw [if_neg h5]
  by_cases h6 : canId = PylontechCan.ID_ALARM
  · rw [if_pos h6]
    by_cases hb : byteAt data 0 ≠ 0
    · rw [if_pos hb, if_pos hb]
      exact Or.inr (Or.inr (Or.inr (Or.inr (Or.inr (Or.inr (Or.inl ⟨h8, h6, rfl, rfl⟩))))))
    · rw [if_neg hb, if_neg hb]
      exact Or.inr (Or.inr (Or.inr (Or.inr (Or.inr (Or.inr (Or.inl ⟨h8, h6, rfl, rfl⟩))))))
  rw [if_neg h6]
  exact Or.inr (Or.inr (Or.inr (Or.inr (Or.inr (Or.inr (Or.inr (
    ⟨h8, h1, h2, h3, h4, h5, h6, rfl⟩)))))))

/-- The branches of `parseMessage` of `DalyCan`: the flag it returns and the
snapshot it leaves, branch by branch. -/
theorem daly_parse_cases (s : DalyCan) (canId : Nat) (data : List Nat)
    (length now : Nat) :
    (length < 8 ∧ (s.parseMessage canId data length now).1 = false ∧
      (s.parseMessage canId data length now).2.m_data = s.m_data) ∨
    (8 ≤ length ∧ canId = DalyCan.ID_VOLTAGE ∧
      (s.parseMessage canId data length now).1 =
        validateRange (DalyCan.decodeVoltage data) (F32.lit 40 1) (F32.lit 60 1) ∧
      (s.parseMessage canId data length now).2.m_data =
        { s.m_data with
          voltage := DalyCan.decodeVoltage data }) ∨
    (8 ≤ length ∧ canId = DalyCan.ID_CURRENT ∧
      (s.parseMessage canId data length now).1 = true ∧
      (s.parseMessage canId data length now).2.m_data =
        { s.m_data with
          current := DalyCan.decodeCurrent data,
          charging := F32.lt (F32.lit 1 2) (DalyCan.decodeCurrent data),
          discharging := F32.lt (DalyCan.decodeCurrent data) (F32.lit (-1) 2) }) ∨
    (8 ≤ length ∧ canId = DalyCan.ID_SOC ∧
      (s.parseMessage canId data length now).1 =
        validateRange (DalyCan.decodeSoc data) (F32.lit 0 1) (F32.lit 100 1) ∧
      (s.parseMessage canId data length now).2.m_data =
        { s.m_data with
          soc := DalyCan.decodeSoc data }) ∨
    (8 ≤ length ∧ canId = DalyCan.ID_TEMP ∧
      (s.parseMessage canId data length now).1 =
        validateRange (DalyCan.decodeTemp data) (F32.lit (-20) 1) (F32.lit 60 1) ∧
      (s.parseMessage canId data length now).2.m_data =
        { s.m_data with
          temperature := DalyCan.decodeTemp data }) ∨
    (8 ≤ length ∧ canId = DalyCan.ID_STATUS ∧
      (s.parseMessage canId data length now).1 = true ∧
      (s.parseMessage canId data length now).2.m_data =
        { s.m_data with
          cycles := extractUint16 data 4 false,
          status_text := if byteAt data 1 ≠ 0 then
              snprintf64 ("ALARM 0x" ++ hex02X (byteAt data 1) ++ " - " ++
              toString (extractUint16 data 4 false) ++ " Zyklen") else
              snprintf64 ("Online - " ++
              toString (extractUint16 data 4 false) ++ " Zyklen") }) ∨
    (8 ≤ length ∧ canId = DalyCan.ID_CELLS ∧
      (s.parseMessage canId data length now).1 = true ∧
      (s.parseMessage canId data length now).2.m_data =
        s.m_data) ∨
    (8 ≤ length ∧
      ¬ canId = DalyCan.ID_VOLTAGE ∧
      ¬ canId = DalyCan.ID_CURRENT ∧
      ¬ canId = DalyCan.ID_SOC ∧
      ¬ canId = DalyCan.ID_TEMP ∧
      ¬ canId = DalyCan.ID_STATUS ∧
      ¬ canId = DalyCan.ID_CELLS ∧
      (s.parseMessage canId data length now) = (false, s)) := by
  unfold DalyCan.parseMessage
  dsimp only
  by_cases hl : length < 8
  · rw [if_pos hl]
    exact Or.inl ⟨hl, rfl, rfl⟩
  rw [if_neg hl]
  have h8 : 8 ≤ length := Nat.le_of_not_lt hl
  by_cases h1 : canId = DalyCan.ID_VOLTAGE
  · rw [if_pos h1]
    by_cases hv : validateRange (DalyCan.decodeVoltage data)
        (F32.lit 40 1) (F32.lit 60 1) = true
    · rw [if_pos hv]
      exact Or.inr (Or.inl 
        ⟨h8, h1, hv.symm, rfl⟩)
    · rw [if_neg hv]
      exact Or.inr (Or.inl 
        ⟨h8, h1, ((Bool.not_eq_true _).mp hv).symm, rfl⟩)
  rw [if_neg h1]
  by_cases h2 : canId = DalyCan.ID_CURRENT
  · rw [if_pos h2]
    exact Or.inr (Or.inr (Or.inl ⟨h8, h2, rfl, rfl⟩))
  rw [if_neg h2]
  by_cases h3 : canId = DalyCan.ID_SOC
  · rw [if_pos h3]
    by_cases hv : validateRange (DalyCan.decodeSoc data)
        (F32.lit 0 1) (F32.lit 100 1) = true
    · rw [if_pos hv]
      exact Or.inr (Or.inr (Or.inr (Or.inl 
        ⟨h8, h3, hv.symm, rfl⟩)))
    · rw [if_neg hv]
      exact Or.inr (Or.inr (Or.inr (Or.inl 
        ⟨h8, h3, ((Bool.not_eq_true _).mp hv).symm, rfl⟩)))
  rw [if_neg h3]
  by_cases h4 : canId = DalyCan.ID_TEMP
  · rw [if_pos h4]
    by_cases hv : validateRange (DalyCan.decodeTemp data)
        (F32.lit (-20) 1) (F32.lit 60 1) = true
    · rw [if_pos hv]
      exact Or.inr (Or.inr (Or.inr (Or.inr (Or.inl 
        ⟨h8, h4, hv.symm, rfl⟩))))
    · rw [if_neg hv]
      exact Or.inr (Or.inr (Or.inr (Or.inr (Or.inl 
        ⟨h8, h4, ((Bool.not_eq_true _).mp hv).symm, rfl⟩))))
  rw [if_neg h4]
  by_cases h5 : canId = DalyCan.ID_STATUS
  · rw [if_pos h5]
    by_cases hb : byteAt data 1 ≠ 0
    · rw [if_pos hb, if_pos hb]
      exact Or.inr (Or.inr (Or.inr (Or.inr (Or.inr (Or.inl ⟨h8, h5, rfl, rfl⟩)))))
    · rw [if_neg hb, if_neg hb]
      exact Or.inr (Or.inr (Or.inr (Or.inr (Or.inr (Or.inl ⟨h8, h5, rfl, rfl⟩)))))
  rw [if_neg h5]
  by_cases h6 : canId = DalyCan.ID_CELLS
  · rw [if_pos h6]
    exact Or.inr (Or.inr (Or.inr (Or.inr (Or.inr (Or.inr (Or.inl ⟨h8, h6, rfl, rfl⟩))))))
  rw [if_neg h6]
  exact Or.inr (Or.inr (Or.inr (Or.inr (Or.inr (Or.inr (Or.inr (
    ⟨h8, h1, h2, h3, h4, h5, h6, rfl⟩)))))))

/-- The branches of `parseMessage` of `JkBmsCan`: the flag it returns and the
snapshot it leaves, branch by branch. -/
theorem jk_parse_cases (s : JkBmsCan) (canId : Nat) (data : List Nat)
    (length now : Nat) :
    (length < 8 ∧ (s.parseMessage canId data length now).1 = false ∧
      (s.parseMessage canId data length now).2.m_data = s.m_data) ∨
    (8 ≤ length ∧ JkBmsCan.getMessageType canId = JkBmsCan.MSG_VOLTAGE ∧
      (s.parseMessage canId data length now).1 =
        validateRange (JkBmsCan.decodeVoltage data) (F32.lit 40 1) (F32.lit 60 1) ∧
      (s.parseMessage canId data length now).2.m_data =
        { s.m_data with
          voltage := JkBmsCan.decodeVoltage data }) ∨
    (8 ≤ length ∧ JkBmsCan.getMessageType canId = JkBmsCan.MSG_CURRENT ∧
      (s.parseMessage canId data length now).1 = true ∧
      (s.parseMessage canId data length now).2.m_data =
        { s.m_data with
          current := JkBmsCan.decodeCurrent data,
          charging := F32.lt (F32.lit 1 2) (JkBmsCan.decodeCurrent data),
          discharging := F32.lt (JkBmsCan.decodeCurrent data) (F32.lit (-1) 2) }) ∨
    (8 ≤ length ∧ JkBmsCan.getMessageType canId = JkBmsCan.MSG_SOC ∧
      (s.parseMessage canId data length now).1 =
        validateRange (JkBmsCan.decodeSoc data) (F32.lit 0 1) (F32.lit 100 1) ∧
      (s.parseMessage canId data length now).2.m_data =
        { s.m_data with
          soc := JkBmsCan.decodeSoc data }) ∨
    (8 ≤ length ∧ JkBmsCan.getMessageType canId = JkBmsCan.MSG_TEMP ∧
      (s.parseMessage canId data length now).1 =
        validateRange (JkBmsCan.decodeTemp data) (F32.lit (-20) 1) (F32.lit 60 1) ∧
      (s.parseMessage canId data length now).2.m_data =
        { s.m_data with
          temperature := JkBmsCan.decodeTemp data }) ∨
    (8 ≤ length ∧ JkBmsCan.getMessageType canId = JkBmsCan.MSG_STATUS ∧
      (s.parseMessage canId data length now).1 = true ∧
      (s.parseMessage canId data length now).2.m_data =
        { s.m_data with
          cycles := extractUint16 data 2 true,
          status_text := snprintf64 ("Online - Status: 0x" ++ hex02X (byteAt data 0) ++ " - " ++
              toString (extractUint16 data 2 true) ++ " Zyklen") }) ∨
    (8 ≤ length ∧ JkBmsCan.getMessageType canId = JkBmsCan.MSG_CELLS ∧
      (s.parseMessage canId data length now).1 = true ∧
      (s.parseMessage canId data length now).2.m_data =
        s.m_data) ∨
    (8 ≤ length ∧
      ¬ JkBmsCan.getMessageType canId = JkBmsCan.MSG_VOLTAGE ∧
      ¬ JkBmsCan.getMessageType canId = JkBmsCan.MSG_CURRENT ∧
      ¬ JkBmsCan.getMessageType canId = JkBmsCan.MSG_SOC ∧
      ¬ JkBmsCan.getMessageType canId = JkBmsCan.MSG_TEMP ∧
      ¬ JkBmsCan.getMessageType canId = JkBmsCan.MSG_STATUS ∧
      ¬ JkBmsCan.getMessageType canId = JkBmsCan.MSG_CELLS ∧
      (s.parseMessage canId data length now) = (false, s)) := by
  unfold JkBmsCan.parseMessage
  dsimp only
  by_cases hl : length < 8
  · rw [if_pos hl]
    exact Or.inl ⟨hl, rfl, rfl⟩
  rw [if_neg hl]
  have h8 : 8 ≤ length := Nat.le_of_not_lt hl
  by_cases h1 : JkBmsCan.getMessageType canId = JkBmsCan.MSG_VOLTAGE
  · rw [if_pos h1]
    by_cases hv : validateRange (JkBmsCan.decodeVoltage data)
        (F32.lit 40 1) (F32.lit 60 1) = true
    · rw [if_pos hv]
      exact Or.inr (Or.inl 
        ⟨h8, h1, hv.symm, rfl⟩)
    · rw [if_neg hv]
      exact Or.inr (Or.inl 
        ⟨h8, h1, ((Bool.not_eq_true _).mp hv).symm, rfl⟩)
  rw [if_neg h1]
  by_cases h2 : JkBmsCan.getMessageType canId = JkBmsCan.MSG_CURRENT
  · rw [if_pos h2]
    exact Or.inr (Or.inr (Or.inl ⟨h8, h2, rfl, rfl⟩))
  rw [if_neg h2]
  by_cases h3 : JkBmsCan.getMessageType canId = JkBmsCan.MSG_SOC
  · rw [if_pos h3]
    by_cases hv : validateRange (JkBmsCan.decodeSoc data)
        (F32.lit 0 1) (F32.lit 100 1) = true
    · rw [if_pos hv]
      exact Or.inr (Or.inr (Or.inr (Or.inl 
        ⟨h8, h3, hv.symm, rfl⟩)))
    · rw [if_neg hv]
      exact Or.inr (Or.inr (Or.inr (Or.inl 
        ⟨h8, h3, ((Bool.not_eq_true _).mp hv).symm, rfl⟩)))
  rw [if_neg h3]
  by_cases h4 : JkBmsCan.getMessageType canId = JkBmsCan.MSG_TEMP
  · rw [if_pos h4]
    by_cases hv : validateRange (JkBmsCan.decodeTemp data)
        (F32.lit (-20) 1) (F32.lit 60 1) = true
    · rw [if_pos hv]
      exact Or.inr (Or.inr (Or.inr (Or.inr (Or.inl 
        ⟨h8, h4, hv.symm, rfl⟩))))
    · rw [if_neg hv]
      exact Or.inr (Or.inr (Or.inr (Or.inr (Or.inl 
        ⟨h8, h4, ((Bool.not_eq_true _).mp hv).symm, rfl⟩))))
  rw [if_neg h4]
  by_cases h5 : JkBmsCan.getMessageType canId = JkBmsCan.MSG_STATUS
  · rw [if_pos h5]
    exact Or.inr (Or.inr (Or.inr (Or.inr (Or.inr (Or.inl ⟨h8, h5, rfl, rfl⟩)))))
  rw [if_neg h5]
  by_cases h6 : JkBmsCan.getMessageType canId = JkBmsCan.MSG_CELLS
  · rw [if_pos h6]
    exact Or.inr (Or.inr (Or.inr (Or.inr (Or.inr (Or.inr (Or.inl ⟨h8, h6, rfl, rfl⟩))))))
  rw [if_neg h6]
  exact Or.inr (Or.inr (Or.inr (Or.inr (Or.inr (Or.inr (Or.inr (
    ⟨h8, h1, h2, h3, h4, h5, h6, rfl⟩)))))))

/-- Flags that follow the current are never both set: `-0.5f < 0.5f`. -/
theorem flags_not_both (d : bms_data_t) (h : d.flagsFollowCurrent) :
    ¬ (d.charging = true ∧ d.discharging = true) := by
  rintro ⟨h1, h2⟩
  rw [h.1] at h1
  rw [h.2] at h2
  unfold F32.lt at h1 h2
  have a1 := of_decide_eq_true h1
  have a2 := of_decide_eq_true h2
  have a3 : (F32.lit (-1) 2).units < (F32.lit 1 2).units := by decide
  exact lt_irrefl _ (lt_trans (lt_trans a1 a2) a3)

/-- The Pylontech `parseMessage` keeps the flags in step with the current. -/
theorem pylontech_parse_flags (s : PylontechCan) (canId : Nat) (data : List Nat)
    (length now : Nat) (h : s.m_data.flagsFollowCurrent) :
    (s.parseMessage canId data length now).2.m_data.flagsFollowCurrent := by
  rcases pylontech_parse_cases s canId data length now with
    ⟨-, -, hd⟩ | ⟨-, -, -, hd⟩ | ⟨-, -, -, hd⟩ | ⟨-, -, -, hd⟩ | ⟨-, -, -, hd⟩ | ⟨-, -, -, hd⟩ |
    ⟨-, -, -, hd⟩ | ⟨-, -, -, -, -, -, -, he⟩
  · rw [hd]; exact h
  · rw [hd]; exact h
  · rw [hd]; exact ⟨rfl, rfl⟩
  · rw [hd]; exact h
  · rw [hd]; exact h
  · rw [hd]; exact h
  · rw [hd]; exact h
  · rw [he]; exact h

/-- The DALY `parseMessage` keeps the flags in step with the current. -/
theorem daly_parse_flags (s : DalyCan) (canId : Nat) (data : List Nat)
    (length now : Nat) (h : s.m_data.flagsFollowCurrent) :
    (s.parseMessage canId data length now).2.m_data.flagsFollowCurrent := by
  rcases daly_parse_cases s canId data length now with
    ⟨-, -, hd⟩ | ⟨-, -, -, hd⟩ | ⟨-, -, -, hd⟩ | ⟨-, -, -, hd⟩ | ⟨-, -, -, hd⟩ | ⟨-, -, -, hd⟩ |
    ⟨-, -, -, hd⟩ | ⟨-, -, -, -, -, -, -, he⟩
  · rw [hd]; exact h
  · rw [hd]; exact h
  · rw [hd]; exact ⟨rfl, rfl⟩
  · rw [hd]; exact h
  · rw [hd]; exact h
  · rw [hd]; exact h
  · rw [hd]; exact h
  · rw [he]; exact h

/-- The JK-BMS `parseMessage` keeps the flags in step with the current. -/
theorem jk_parse_flags (s : JkBmsCan) (canId : Nat) (data : List Nat)
    (length now : Nat) (h : s.m_data.flagsFollowCurrent) :
    (s.parseMessage canId data length now).2.m_data.flagsFollowCurrent := by
  rcases jk_parse_cases s canId data length now with
    ⟨-, -, hd⟩ | ⟨-, -, -, hd⟩ | ⟨-, -, -, hd⟩ | ⟨-, -, -, hd⟩ | ⟨-, -, -, hd⟩ | ⟨-, -, -, hd⟩ |
    ⟨-, -, -, hd⟩ | ⟨-, -, -, -, -, -, -, he⟩
  · rw [hd]; exact h
  · rw [hd]; exact h
  · rw [hd]; exact ⟨rfl, rfl⟩
  · rw [hd]; exact h
  · rw [hd]; exact h
  · rw [hd]; exact h
  · rw [hd]; exact h
  · rw [he]; exact h

/-- Reading back the base-class part just written. -/
theorem base_withBase (p : Protocol) (b : CanProtocolBase) : (p.withBase b).base = b := by
  cases p <;> rfl

/-- Writing the base-class part keeps the class of the decoder. -/
theorem getType_withBase (p : Protocol) (b : CanProtocolBase) :
    (p.withBase b).getType = p.getType := by
  cases p <;> rfl

/-- A zeroed record has flags that follow its current. -/
theorem zeroed_flags (t : bms_type_t) : (bms_data_t.zeroed t).flagsFollowCurrent := by
  constructor
  · show false = F32.lt (F32.lit 1 2) F32.zero
    decide
  · show false = F32.lt F32.zero (F32.lit (-1) 2)
    decide

/-- Every call keeps the flags in step with the current. -/
theorem afterCall_flags (p : Protocol) (c : DecoderCall) (h : p.base.m_data.flagsFollowCurrent) :
    (p.afterCall c).base.m_data.flagsFollowCurrent := by
  cases c with
  | callInitialize =>
    show (p.withBase _).base.m_data.flagsFollowCurrent
    rw [base_withBase]
    exact zeroed_flags _
  | callStart =>
    show (p.withBase _).base.m_data.flagsFollowCurrent
    rw [base_withBase]
    exact h
  | callStop =>
    show (p.withBase _).base.m_data.flagsFollowCurrent
    rw [base_withBase]
    exact h
  | callResetStats =>
    show (p.withBase _).base.m_data.flagsFollowCurrent
    rw [base_withBase]
    exact h
  | callParseMessage canId data length now =>
    cases p with
    | pylontech s => exact pylontech_parse_flags s canId data length now h
    | jkBms s => exact jk_parse_flags s canId data length now h
    | daly s => exact daly_parse_flags s canId data length now h

/-- Every sequence of calls keeps the flags in step with the current. -/
theorem afterCalls_flags (calls : List DecoderCall) :
    ∀ p : Protocol, p.base.m_data.flagsFollowCurrent →
      (p.afterCalls calls).base.m_data.flagsFollowCurrent := by
  induction calls with
  | nil => intro p h; exact h
  | cons c rest ih => intro p h; exact ih _ (afterCall_flags p c h)

/-- No call changes the class of a decoder. -/
theorem afterCall_getType (p : Protocol) (c : DecoderCall) :
    (p.afterCall c).getType = p.getType := by
  cases c with
  | callInitialize => exact getType_withBase p _
  | callStart => exact getType_withBase p _
  | callStop => exact getType_withBase p _
  | callResetStats => exact getType_withBase p _
  | callParseMessage canId data length now =>
    exact Protocol.getType_parseMessage p canId data length now

/-- A `parseMessage` that returns false leaves the connectivity state alone. -/
theorem parse_false_connectivity (p : Protocol) (canId : Nat) (data : List Nat)
    (length now : Nat) (h : (p.parseMessage canId data length now).1 = false) :
    (p.parseMessage canId data length now).2.base.m_connected = p.base.m_connected ∧
    (p.parseMessage canId data length now).2.base.m_lastUpdate = p.base.m_lastUpdate := by
  rcases protocol_parse_bookkeeping p canId data length now with
    ⟨hf, -, -, -, -⟩ | ⟨-, -, hc, hl, -⟩
  · rw [hf] at h; cases h
  · exact ⟨hc, hl⟩

/-- A `parseMessage` that returns true connects the decoder and stamps `now`. -/
theorem parse_true_connectivity (p : Protocol) (canId : Nat) (data : List Nat)
    (length now : Nat) (h : (p.parseMessage canId data length now).1 = true) :
    (p.parseMessage canId data length now).2.base.m_connected = true ∧
    (p.parseMessage canId data length now).2.base.m_lastUpdate = now := by
  rcases protocol_parse_bookkeeping p canId data length now with
    ⟨-, -, hc, hl, -⟩ | ⟨hf, -, -, -, -⟩
  · exact ⟨hc, hl⟩
  · rw [hf] at h; cases h

/-- A quiet call leaves the connected flag and the update time alone. -/
theorem afterCall_quiet (q p : Protocol) (c : DecoderCall) (hty : p.getType = q.getType)
    (hq : c.quietFor q) :
    (p.afterCall c).base.m_connected = p.base.m_connected ∧
    (p.afterCall c).base.m_lastUpdate = p.base.m_lastUpdate := by
  cases c with
  | callInitialize => exact absurd hq id
  | callStop => exact absurd hq id
  | callStart =>
    show (p.withBase _).base.m_connected = _ ∧ (p.withBase _).base.m_lastUpdate = _
    rw [base_withBase]
    exact ⟨rfl, rfl⟩
  | callResetStats =>
    show (p.withBase _).base.m_connected = _ ∧ (p.withBase _).base.m_lastUpdate = _
    rw [base_withBase]
    exact ⟨rfl, rfl⟩
  | callParseMessage canId data length now =>
    have hq1 : (q.parseMessage canId data length now).1 = false := hq
    have hp : (p.parseMessage canId data length now).1 = false := by
      rw [Protocol.parseMessage_fst_of_getType p q canId data length now now hty]
      exact hq1
    exact parse_false_connectivity p canId data length now hp

/-- Quiet calls leave the connected flag and the update time alone. -/
theorem afterCalls_quiet (q : Protocol) (calls : List DecoderCall) :
    ∀ p : Protocol, p.getType = q.getType → (∀ c ∈ calls, c.quietFor q) →
      (p.afterCalls calls).base.m_connected = p.base.m_connected ∧
      (p.afterCalls calls).base.m_lastUpdate = p.base.m_lastUpdate := by
  induction calls with
  | nil => intro p _ _; exact ⟨rfl, rfl⟩
  | cons c rest ih =>
    intro p hty hall
    obtain ⟨h1, h2⟩ := afterCall_quiet q p c hty (hall c (List.mem_cons_self _ _))
    obtain ⟨h3, h4⟩ := ih (p.afterCall c) (by rw [afterCall_getType]; exact hty)
      (fun d hd => hall d (List.mem_cons_of_mem _ hd))
    exact ⟨h3.trans h1, h4.trans h2⟩

/-- A call that is no successful parse leaves a disconnected decoder disconnected. -/
theorem afterCall_noSuccess (q p : Protocol) (c : DecoderCall) (hty : p.getType = q.getType)
    (hq : c.noSuccessFor q) (hc : p.base.m_connected = false) :
    (p.afterCall c).base.m_connected = false := by
  cases c with
  | callInitialize =>
    show (p.withBase _).base.m_connected = false
    rw [base_withBase]
    rfl
  | callStop =>
    show (p.withBase _).base.m_connected = false
    rw [base_withBase]
    rfl
  | callStart =>
    show (p.withBase _).base.m_connected = false
    rw [base_withBase]
    exact hc
  | callResetStats =>
    show (p.withBase _).base.m_connected = false
    rw [base_withBase]
    exact hc
  | callParseMessage canId data length now =>
    have hq1 : (q.parseMessage canId data length now).1 = false := hq
    have hp : (p.parseMessage canId data length now).1 = false := by
      rw [Protocol.parseMessage_fst_of_getType p q canId data length now now hty]
      exact hq1
    exact (parse_false_connectivity p canId data length now hp).1.trans hc

/-- Calls without a successful parse leave a disconnected decoder disconnected. -/
theorem afterCalls_noSuccess (q : Protocol) (calls : List DecoderCall) :
    ∀ p : Protocol, p.getType = q.getType → (∀ c ∈ calls, c.noSuccessFor q) →
      p.base.m_connected = false → (p.afterCalls calls).base.m_connected = false := by
  induction calls with
  | nil => intro p _ _ h; exact h
  | cons c rest ih =>
    intro p hty hall hc
    exact ih (p.afterCall c) (by rw [afterCall_getType]; exact hty)
      (fun d hd => hall d (List.mem_cons_of_mem _ hd))
      (afterCall_noSuccess q p c hty (hall c (List.mem_cons_self _ _)) hc)

/-- `isConnected` of a connected decoder compares the 32-bit age with the window. -/
theorem isConnected_of_connected (p : Protocol) (now w : Nat) (hc : p.base.m_connected = true) :
    p.isConnected now w = decide ((now + 2 ^ 32 - p.base.m_lastUpdate) % 2 ^ 32 < w) := by
  unfold Protocol.isConnected CanProtocolBase.isConnected
  rw [hc]
  rfl

/-- A decoder whose connected flag is off is not connected. -/
theorem isConnected_of_not_connected (p : Protocol) (now w : Nat)
    (hc : p.base.m_connected = false) : p.isConnected now w = false := by
  unfold Protocol.isConnected CanProtocolBase.isConnected
  rw [hc]
  rfl

/-- Without a wrap of the clock the 32-bit age is the difference. -/
theorem age_no_wrap (now t : Nat) (h1 : t ≤ now) (h2 : now < 2 ^ 32) :
    (now + 2 ^ 32 - t) % 2 ^ 32 = now - t := by
  have e : now + 2 ^ 32 - t = (now - t) + 2 ^ 32 := by omega
  rw [e, Nat.add_mod_right]
  exact Nat.mod_eq_of_lt (by omega)

/-- `getData` of a decoder, both outcomes. -/
theorem protocol_getData_eq (p : Protocol) (now : Nat) (data : bms_data_t) :
    p.getData now data =
      if p.isConnected now 5000 = true then
        (true, { p.base.m_data with connected := true, last_update := p.base.m_lastUpdate })
      else (false, data) := by
  unfold Protocol.getData CanProtocolBase.getData Protocol.isConnected
  cases p.base.isConnected now 5000 <;> rfl

/-! ## Lemmas on `float` rounding and byte extraction -/

namespace F32

/-- Rounding to the nearest integer is off by at most half a unit. -/
theorem rne_bounds (a d : Nat) (hd : 0 < d) :
    2 * (rne a d * d) ≤ 2 * a + d ∧ 2 * a ≤ 2 * (rne a d * d) + d := by
  have hk : d * (a / d) + a % d = a := Nat.div_add_mod a d
  have hr : a % d < d := Nat.mod_lt a hd
  have e1 : (a / d) * d = d * (a / d) := Nat.mul_comm _ _
  have e2 : (a / d + 1) * d = d * (a / d) + d := by rw [Nat.add_mul, e1, Nat.one_mul]
  unfold rne
  dsimp only
  split_ifs with h1 h2 h3
  · rw [e1]; omega
  · rw [e2]; omega
  · rw [e1]; omega
  · rw [e2]; omega

/-- One step of the binary search keeps `1 <= q` and `q * 2 ^ e <= n`. -/
theorem ilog2Step_inv (n k : Nat) (p : Nat × Nat) (h1 : 1 ≤ p.1) (h2 : p.1 * 2 ^ p.2 ≤ n) :
    1 ≤ (ilog2Step p k).1 ∧ (ilog2Step p k).1 * 2 ^ (ilog2Step p k).2 ≤ n := by
  unfold ilog2Step
  split_ifs with h
  · refine ⟨?_, ?_⟩
    · exact (Nat.one_le_div_iff (Nat.two_pow_pos k)).mpr h
    · show p.1 / 2 ^ k * 2 ^ (p.2 + k) ≤ n
      have e : p.1 / 2 ^ k * 2 ^ (p.2 + k) = (p.1 / 2 ^ k * 2 ^ k) * 2 ^ p.2 := by
        rw [Nat.pow_add]; ring
      rw [e]
      exact le_trans (Nat.mul_le_mul_right _ (Nat.div_mul_le_self _ _)) h2
  · exact ⟨h1, h2⟩

/-- The binary logarithm is a lower bound: `2 ^ ilog2 n <= n` for positive `n`. -/
theorem ilog2_le (n : Nat) (hn : 1 ≤ n) : 2 ^ ilog2 n ≤ n := by
  have h0 : (1 : Nat) ≤ (n, 0).1 ∧ (n, 0).1 * 2 ^ (n, 0).2 ≤ n := ⟨hn, by simp⟩
  have s1 := ilog2Step_inv n 256 _ h0.1 h0.2
  have s2 := ilog2Step_inv n 128 _ s1.1 s1.2
  have s3 := ilog2Step_inv n 64 _ s2.1 s2.2
  have s4 := ilog2Step_inv n 32 _ s3.1 s3.2
  have s5 := ilog2Step_inv n 16 _ s4.1 s4.2
  have s6 := ilog2Step_inv n 8 _ s5.1 s5.2
  have s7 := ilog2Step_inv n 4 _ s6.1 s6.2
  have s8 := ilog2Step_inv n 2 _ s7.1 s7.2
  have s9 := ilog2Step_inv n 1 _ s8.1 s8.2
  unfold ilog2
  simp only [List.foldl]
  exact le_trans (Nat.le_mul_of_pos_left _ s9.1) s9.2

/-- The binary logarithm of 0 is taken as 0. -/
theorem ilog2_zero : ilog2 0 = 0 := by decide

/-- Rounding to binary32 has a relative error of at most `2 ^ (-24)`, plus half
a unit. -/
theorem roundMag_bounds (a d : Nat) (hd : 0 < d) :
    2 ^ 24 * (roundMag a d * d) ≤ (2 ^ 24 + 1) * a + 2 ^ 23 * d ∧
    2 ^ 24 * a ≤ 2 ^ 24 * (roundMag a d * d) + a + 2 ^ 23 * d := by
  unfold roundMag
  dsimp only
  split_ifs with h
  · have := rne_bounds a d hd
    omega
  · have he : 24 ≤ ilog2 (a / d) := Nat.le_of_not_lt h
    have hpos : 1 ≤ a / d := by
      by_contra hc
      have h0 : a / d = 0 := Nat.lt_one_iff.mp (Nat.lt_of_not_le hc)
      rw [h0, ilog2_zero] at he
      omega
    have hlog := ilog2_le (a / d) hpos
    have hsplit : 2 ^ ilog2 (a / d) = 2 ^ (ilog2 (a / d) - 23) * 2 ^ 23 := by
      rw [← Nat.pow_add, Nat.sub_add_cancel (by omega)]
    rw [hsplit] at hlog
    have hQ : 0 < 2 ^ (ilog2 (a / d) - 23) := Nat.two_pow_pos _
    generalize 2 ^ (ilog2 (a / d) - 23) = Q at hlog hQ ⊢
    have hb := rne_bounds a (d * Q) (Nat.mul_pos hd hQ)
    have hda : d * (a / d) ≤ a := Nat.mul_div_le a d
    have hsmall : d * Q * 2 ^ 23 ≤ a := by
      rw [Nat.mul_assoc]
      exact le_trans (Nat.mul_le_mul_left _ hlog) hda
    have e : rne a (d * Q) * Q * d = rne a (d * Q) * (d * Q) := by
      rw [Nat.mul_assoc, Nat.mul_comm Q d]
    rw [e]
    generalize rne a (d * Q) * (d * Q) = M at hb ⊢
    generalize d * Q = D at hb hsmall ⊢
    omega

end F32

namespace F32

/-- Error bound of `round` on a non-negative value. -/
theorem round_bounds_nonneg (p : Int) (d : Nat) (hd : 0 < d) (hp : 0 ≤ p) :
    0 ≤ (round p d).units ∧
    2 ^ 24 * ((round p d).units * d) ≤ (2 ^ 24 + 1) * p + 2 ^ 23 * d ∧
    2 ^ 24 * p ≤ 2 ^ 24 * ((round p d).units * d) + p + 2 ^ 23 * d := by
  have hb := roundMag_bounds p.natAbs d hd
  have hab : (p.natAbs : Int) = p := Int.natAbs_of_nonneg hp
  unfold round
  rw [if_neg (not_lt.mpr hp)]
  show 0 ≤ ((roundMag p.natAbs d : Nat) : Int) ∧
    2 ^ 24 * (((roundMag p.natAbs d : Nat) : Int) * d) ≤ (2 ^ 24 + 1) * p + 2 ^ 23 * d ∧
    2 ^ 24 * p ≤ 2 ^ 24 * (((roundMag p.natAbs d : Nat) : Int) * d) + p + 2 ^ 23 * d
  rw [← hab]
  refine ⟨Int.natCast_nonneg _, ?_, ?_⟩
  · exact_mod_cast hb.1
  · exact_mod_cast hb.2

/-- Error bound of `round` on a negative value. -/
theorem round_bounds_neg (p : Int) (d : Nat) (hd : 0 < d) (hp : p < 0) :
    (round p d).units ≤ 0 ∧
    2 ^ 24 * (-(round p d).units * d) ≤ (2 ^ 24 + 1) * (-p) + 2 ^ 23 * d ∧
    2 ^ 24 * (-p) ≤ 2 ^ 24 * (-(round p d).units * d) + (-p) + 2 ^ 23 * d := by
  have hb := roundMag_bounds p.natAbs d hd
  have hab : (p.natAbs : Int) = -p := by omega
  unfold round
  rw [if_pos hp]
  show -((roundMag p.natAbs d : Nat) : Int) ≤ 0 ∧
    2 ^ 24 * (- -((roundMag p.natAbs d : Nat) : Int) * d) ≤ (2 ^ 24 + 1) * (-p) + 2 ^ 23 * d ∧
    2 ^ 24 * (-p) ≤ 2 ^ 24 * (- -((roundMag p.natAbs d : Nat) : Int) * d) + (-p) + 2 ^ 23 * d
  rw [← hab, neg_neg]
  refine ⟨by omega, ?_, ?_⟩
  · exact_mod_cast hb.1
  · exact_mod_cast hb.2

/-- The unit `1.0f` as an integer power. -/
theorem one_eq : (one : Int) = 2 ^ 149 := by
  unfold one
  norm_num

/-- Error bound of the conversion of a non-negative integer. -/
theorem ofInt_bounds_nonneg (i : Int) (hi : 0 ≤ i) :
    0 ≤ (ofInt i).units ∧
    2 ^ 24 * (ofInt i).units ≤ (2 ^ 24 + 1) * (i * 2 ^ 149) + 2 ^ 23 ∧
    2 ^ 24 * (i * 2 ^ 149) ≤ 2 ^ 24 * (ofInt i).units + i * 2 ^ 149 + 2 ^ 23 := by
  have h := round_bounds_nonneg (i * (one : Int)) 1 Nat.one_pos
    (Int.mul_nonneg hi (Int.natCast_nonneg _))
  rw [one_eq] at h
  unfold ofInt
  rw [one_eq]
  simp only [Nat.cast_one, mul_one] at h
  exact h

/-- Error bound of the conversion of a negative integer. -/
theorem ofInt_bounds_neg (i : Int) (hi : i < 0) :
    (ofInt i).units ≤ 0 ∧
    2 ^ 24 * (-(ofInt i).units) ≤ (2 ^ 24 + 1) * (-(i * 2 ^ 149)) + 2 ^ 23 ∧
    2 ^ 24 * (-(i * 2 ^ 149)) ≤ 2 ^ 24 * (-(ofInt i).units) + -(i * 2 ^ 149) + 2 ^ 23 := by
  have hneg : i * (one : Int) < 0 := by
    rw [one_eq]; omega
  have h := round_bounds_neg (i * (one : Int)) 1 Nat.one_pos hneg
  rw [one_eq] at h
  unfold ofInt
  rw [one_eq]
  simp only [Nat.cast_one, mul_one] at h
  exact h

/-- Error bound of a product that is not negative. -/
theorem mul_bounds_nonneg (x c : F32) (hp : 0 ≤ x.units * c.units) :
    0 ≤ (mul x c).units ∧
    2 ^ 24 * ((mul x c).units * 2 ^ 149) ≤ (2 ^ 24 + 1) * (x.units * c.units) + 2 ^ 23 * 2 ^ 149 ∧
    2 ^ 24 * (x.units * c.units) ≤
      2 ^ 24 * ((mul x c).units * 2 ^ 149) + x.units * c.units + 2 ^ 23 * 2 ^ 149 := by
  have h := round_bounds_nonneg (x.units * c.units) one (by decide) hp
  rw [one_eq] at h
  exact h

/-- Error bound of a negative product. -/
theorem mul_bounds_neg (x c : F32) (hp : x.units * c.units < 0) :
    (mul x c).units ≤ 0 ∧
    2 ^ 24 * (-(mul x c).units * 2 ^ 149) ≤
      (2 ^ 24 + 1) * (-(x.units * c.units)) + 2 ^ 23 * 2 ^ 149 ∧
    2 ^ 24 * (-(x.units * c.units)) ≤
      2 ^ 24 * (-(mul x c).units * 2 ^ 149) + -(x.units * c.units) + 2 ^ 23 * 2 ^ 149 := by
  have h := round_bounds_neg (x.units * c.units) one (by decide) hp
  rw [one_eq] at h
  exact h

/-- The constant `0.01f`. -/
theorem lit_1_100 : (lit 1 100).units = 7136238304022439911101525098790628448272384 := by decide
/-- The constant `0.1f`. -/
theorem lit_1_10 : (lit 1 10).units = 71362385698680390680846996795520405043412992 := by decide
/-- The constant `40.0f`. -/
theorem lit_40_1 : (lit 40 1).units = 40 * 2 ^ 149 := by
  have : (lit 40 1).units = 28544953854119197621165719388989902727654932480 := by decide
  rw [this]; norm_num
/-- The constant `60.0f`. -/
theorem lit_60_1 : (lit 60 1).units = 60 * 2 ^ 149 := by
  have : (lit 60 1).units = 42817430781178796431748579083484854091482398720 := by decide
  rw [this]; norm_num

/-- The constant `0.0f`. -/
theorem lit_0_1 : (lit 0 1).units = 0 := by decide
/-- The constant `100.0f`. -/
theorem lit_100_1 : (lit 100 1).units = 100 * 2 ^ 149 := by
  have : (lit 100 1).units = 71362384635297994052914298472474756819137331200 := by decide
  rw [this]; norm_num
/-- The constant `-20.0f`. -/
theorem lit_m20_1 : (lit (-20) 1).units = -(20 * 2 ^ 149) := by
  have : (lit (-20) 1).units = -14272476927059598810582859694494951363827466240 := by decide
  rw [this]; norm_num
/-- The constant `0.5f`. -/
theorem lit_1_2 : (lit 1 2).units = 2 ^ 148 := by
  have : (lit 1 2).units = 356811923176489970264571492362373784095686656 := by decide
  rw [this]; norm_num
/-- The constant `-0.5f`. -/
theorem lit_m1_2 : (lit (-1) 2).units = -(2 ^ 148) := by
  have : (lit (-1) 2).units = -356811923176489970264571492362373784095686656 := by decide
  rw [this]; norm_num

end F32

/-- A payload byte is below 256. -/
theorem byteAt_lt (data : List Nat) (i : Nat) : byteAt data i < 256 :=
  Nat.mod_lt _ (by decide)

/-- Big-endian composition of two bytes. -/
theorem extractUint16_bigEndian (data : List Nat) (o : Nat) :
    extractUint16 data o true = 256 * byteAt data o + byteAt data (o + 1) := by
  have h0 := byteAt_lt data o
  have h1 := byteAt_lt data (o + 1)
  unfold extractUint16
  rw [if_pos rfl, Nat.shiftLeft_eq]
  have e1 : byteAt data o * 2 ^ 8 % 2 ^ 16 = 2 ^ 8 * byteAt data o := by
    rw [Nat.mod_eq_of_lt (by omega)]; omega
  have h1b : byteAt data (o + 1) < 2 ^ 8 := by omega
  rw [e1, ← Nat.mul_add_lt_is_or h1b, Nat.mod_eq_of_lt (by omega)]

/-- Little-endian composition of two bytes. -/
theorem extractUint16_littleEndian (data : List Nat) (o : Nat) :
    extractUint16 data o false = byteAt data o + 256 * byteAt data (o + 1) := by
  have h0 := byteAt_lt data o
  have h1 := byteAt_lt data (o + 1)
  unfold extractUint16
  rw [if_neg (by decide), Nat.shiftLeft_eq]
  have e1 : byteAt data (o + 1) * 2 ^ 8 % 2 ^ 16 = 2 ^ 8 * byteAt data (o + 1) := by
    rw [Nat.mod_eq_of_lt (by omega)]; omega
  have h0b : byteAt data o < 2 ^ 8 := by omega
  rw [e1, ← Nat.mul_add_lt_is_or h0b, Nat.mod_eq_of_lt (by omega)]
  omega

/-- A 16-bit value is below 65536. -/
theorem extractUint16_lt (data : List Nat) (o : Nat) (b : Bool) :
    extractUint16 data o b < 65536 := by
  unfold extractUint16
  split_ifs <;> exact Nat.mod_lt _ (by decide)

/-- Big-endian composition of four bytes. -/
theorem extractUint32_bigEndian (data : List Nat) (o : Nat) :
    extractUint32 data o true =
      2 ^ 24 * byteAt data o + 2 ^ 16 * byteAt data (o + 1) + 2 ^ 8 * byteAt data (o + 2) +
        byteAt data (o + 3) := by
  have h0 := byteAt_lt data o
  have h1 := byteAt_lt data (o + 1)
  have h2 := byteAt_lt data (o + 2)
  have h3 := byteAt_lt data (o + 3)
  unfold extractUint32
  rw [if_pos rfl, Nat.shiftLeft_eq, Nat.shiftLeft_eq, Nat.shiftLeft_eq]
  have e0 : byteAt data o * 2 ^ 24 % 2 ^ 32 = 2 ^ 24 * byteAt data o := by
    rw [Nat.mod_eq_of_lt (by omega)]; omega
  have e1 : byteAt data (o + 1) * 2 ^ 16 % 2 ^ 32 = 2 ^ 16 * byteAt data (o + 1) := by
    rw [Nat.mod_eq_of_lt (by omega)]; omega
  have e2 : byteAt data (o + 2) * 2 ^ 8 % 2 ^ 32 = 2 ^ 8 * byteAt data (o + 2) := by
    rw [Nat.mod_eq_of_lt (by omega)]; omega
  rw [e0, e1, e2]
  have hB : 2 ^ 16 * byteAt data (o + 1) < 2 ^ 24 := by omega
  have hC : 2 ^ 8 * byteAt data (o + 2) < 2 ^ 16 := by omega
  have hD : byteAt data (o + 3) < 2 ^ 8 := by omega
  have s1 : 2 ^ 24 * byteAt data o ||| 2 ^ 16 * byteAt data (o + 1) =
      2 ^ 16 * (2 ^ 8 * byteAt data o + byteAt data (o + 1)) := by
    rw [← Nat.mul_add_lt_is_or hB]; omega
  have s2 : 2 ^ 16 * (2 ^ 8 * byteAt data o + byteAt data (o + 1)) |||
      2 ^ 8 * byteAt data (o + 2) =
      2 ^ 8 * (2 ^ 8 * (2 ^ 8 * byteAt data o + byteAt data (o + 1)) + byteAt data (o + 2)) := by
    rw [← Nat.mul_add_lt_is_or hC]; omega
  rw [s1, s2, ← Nat.mul_add_lt_is_or hD, Nat.mod_eq_of_lt (by omega)]
  omega

/-- The signed reading of a 16-bit value is its two's complement. -/
theorem extractInt16_range (data : List Nat) (o : Nat) (b : Bool) :
    -32768 ≤ extractInt16 data o b ∧ extractInt16 data o b < 32768 := by
  have h := extractUint16_lt data o b
  unfold extractInt16
  dsimp only
  split_ifs with h1 <;> omega

/-- A raw value scaled by `0.01f` lies in 40..60 V exactly for raw 4000..6000. -/
theorem scaled_hundredth_range (n : Nat) :
    validateRange (F32.mul (F32.ofInt (n : Int)) (F32.lit 1 100)) (F32.lit 40 1) (F32.lit 60 1) =
      true ↔ 4000 ≤ n ∧ n ≤ 6000 := by
  by_cases h1 : n = 4000
  · subst h1; decide
  by_cases h2 : n = 6000
  · subst h2; decide
  have hX := F32.ofInt_bounds_nonneg (n : Int) (Int.natCast_nonneg n)
  have hprod : 0 ≤ (F32.ofInt (n : Int)).units * (F32.lit 1 100).units := by
    rw [F32.lit_1_100]
    exact Int.mul_nonneg hX.1 (by decide)
  have hY := F32.mul_bounds_nonneg (F32.ofInt (n : Int)) (F32.lit 1 100) hprod
  rw [F32.lit_1_100] at hY
  unfold validateRange F32.le
  rw [Bool.and_eq_true, decide_eq_true_iff, decide_eq_true_iff, F32.lit_40_1, F32.lit_60_1]
  generalize (F32.mul (F32.ofInt (n : Int)) (F32.lit 1 100)).units = Y at hY ⊢
  generalize (F32.ofInt (n : Int)).units = X at hX hY
  constructor
  · intro h
    omega
  · intro h
    omega

/-- A raw value scaled by `0.1f` lies in 40..60 V exactly for raw 400..600. -/
theorem scaled_tenth_voltage_range (n : Nat) :
    validateRange (F32.mul (F32.ofInt (n : Int)) (F32.lit 1 10)) (F32.lit 40 1) (F32.lit 60 1) =
      true ↔ 400 ≤ n ∧ n ≤ 600 := by
  by_cases h1 : n = 400
  · subst h1; decide
  by_cases h2 : n = 600
  · subst h2; decide
  have hX := F32.ofInt_bounds_nonneg (n : Int) (Int.natCast_nonneg n)
  have hprod : 0 ≤ (F32.ofInt (n : Int)).units * (F32.lit 1 10).units := by
    rw [F32.lit_1_10]
    exact Int.mul_nonneg hX.1 (by decide)
  have hY := F32.mul_bounds_nonneg (F32.ofInt (n : Int)) (F32.lit 1 10) hprod
  rw [F32.lit_1_10] at hY
  unfold validateRange F32.le
  rw [Bool.and_eq_true, decide_eq_true_iff, decide_eq_true_iff, F32.lit_40_1, F32.lit_60_1]
  generalize (F32.mul (F32.ofInt (n : Int)) (F32.lit 1 10)).units = Y at hY ⊢
  generalize (F32.ofInt (n : Int)).units = X at hX hY
  constructor
  · intro h
    omega
  · intro h
    omega

/-- A raw value scaled by `0.1f` lies in 0..100 % exactly for raw 0..1000. -/
theorem scaled_tenth_soc_range (n : Nat) :
    validateRange (F32.mul (F32.ofInt (n : Int)) (F32.lit 1 10)) (F32.lit 0 1) (F32.lit 100 1) =
      true ↔ n ≤ 1000 := by
  by_cases h2 : n = 1000
  · subst h2; decide
  have hX := F32.ofInt_bounds_nonneg (n : Int) (Int.natCast_nonneg n)
  have hprod : 0 ≤ (F32.ofInt (n : Int)).units * (F32.lit 1 10).units := by
    rw [F32.lit_1_10]
    exact Int.mul_nonneg hX.1 (by decide)
  have hY := F32.mul_bounds_nonneg (F32.ofInt (n : Int)) (F32.lit 1 10) hprod
  rw [F32.lit_1_10] at hY
  unfold validateRange F32.le
  rw [Bool.and_eq_true, decide_eq_true_iff, decide_eq_true_iff, F32.lit_0_1, F32.lit_100_1]
  generalize (F32.mul (F32.ofInt (n : Int)) (F32.lit 1 10)).units = Y at hY ⊢
  generalize (F32.ofInt (n : Int)).units = X at hX hY
  constructor
  · intro h
    omega
  · intro h
    omega

/-- Bounds on a signed raw value scaled by `0.1f`, in units of `2 ^ (-149)`:
the result has the sign of the raw value and a relative error below `2 ^ (-22)`. -/
theorem scaled_tenth_bounds (c : Int) :
    (0 ≤ c → 0 ≤ (F32.mul (F32.ofInt c) (F32.lit 1 10)).units ∧
      2 ^ 22 * (10 * (F32.mul (F32.ofInt c) (F32.lit 1 10)).units - c * 2 ^ 149) ≤ c * 2 ^ 149 ∧
      2 ^ 22 * (c * 2 ^ 149 - 10 * (F32.mul (F32.ofInt c) (F32.lit 1 10)).units) ≤ c * 2 ^ 149) ∧
    (c < 0 → (F32.mul (F32.ofInt c) (F32.lit 1 10)).units ≤ 0 ∧
      2 ^ 22 * (10 * (F32.mul (F32.ofInt c) (F32.lit 1 10)).units - c * 2 ^ 149) ≤ -c * 2 ^ 149 ∧
      2 ^ 22 * (c * 2 ^ 149 - 10 * (F32.mul (F32.ofInt c) (F32.lit 1 10)).units) ≤
        -c * 2 ^ 149) := by
  constructor
  · intro hc
    by_cases h0 : c = 0
    · subst h0
      have e : (F32.mul (F32.ofInt 0) (F32.lit 1 10)).units = 0 := by decide
      rw [e]
      norm_num
    have h1 : 1 ≤ c := by omega
    have hX := F32.ofInt_bounds_nonneg c hc
    have hprod : 0 ≤ (F32.ofInt c).units * (F32.lit 1 10).units := by
      rw [F32.lit_1_10]
      exact Int.mul_nonneg hX.1 (by decide)
    have hY := F32.mul_bounds_nonneg (F32.ofInt c) (F32.lit 1 10) hprod
    rw [F32.lit_1_10] at hY
    generalize (F32.mul (F32.ofInt c) (F32.lit 1 10)).units = Y at hY ⊢
    generalize (F32.ofInt c).units = X at hX hY
    refine ⟨hY.1, ?_, ?_⟩ <;> linarith [hX.2.1, hX.2.2, hY.2.1, hY.2.2]
  · intro hc
    have h1 : c ≤ -1 := by omega
    have hX := F32.ofInt_bounds_neg c hc
    have hprod : (F32.ofInt c).units * (F32.lit 1 10).units < 0 := by
      rw [F32.lit_1_10]
      generalize (F32.ofInt c).units = X at hX ⊢
      omega
    have hY := F32.mul_bounds_neg (F32.ofInt c) (F32.lit 1 10) hprod
    rw [F32.lit_1_10] at hY
    generalize (F32.mul (F32.ofInt c) (F32.lit 1 10)).units = Y at hY ⊢
    generalize (F32.ofInt c).units = X at hX hY
    refine ⟨hY.1, ?_, ?_⟩ <;> linarith [hX.2.1, hX.2.2, hY.2.1, hY.2.2]

/-- Bounds on an unsigned raw value scaled by `0.01f`. -/
theorem scaled_hundredth_bounds (n : Nat) :
    0 ≤ (F32.mul (F32.ofInt (n : Int)) (F32.lit 1 100)).units ∧
    2 ^ 22 * (100 * (F32.mul (F32.ofInt (n : Int)) (F32.lit 1 100)).units - n * 2 ^ 149) ≤
      n * 2 ^ 149 ∧
    2 ^ 22 * (n * 2 ^ 149 - 100 * (F32.mul (F32.ofInt (n : Int)) (F32.lit 1 100)).units) ≤
      n * 2 ^ 149 := by
  have hX := F32.ofInt_bounds_nonneg (n : Int) (Int.natCast_nonneg n)
  have hprod : 0 ≤ (F32.ofInt (n : Int)).units * (F32.lit 1 100).units := by
    rw [F32.lit_1_100]
    exact Int.mul_nonneg hX.1 (by decide)
  have hY := F32.mul_bounds_nonneg (F32.ofInt (n : Int)) (F32.lit 1 100) hprod
  rw [F32.lit_1_100] at hY
  by_cases h0 : n = 0
  · subst h0
    have e : (F32.mul (F32.ofInt ((0 : Nat) : Int)) (F32.lit 1 100)).units = 0 := by decide
    rw [e]
    norm_num
  have h1 : (1 : Int) ≤ (n : Int) := by omega
  generalize (F32.mul (F32.ofInt (n : Int)) (F32.lit 1 100)).units = Y at hY ⊢
  generalize (F32.ofInt (n : Int)).units = X at hX hY
  generalize (n : Int) = N at hX hY h1 ⊢
  refine ⟨hY.1, ?_, ?_⟩ <;> linarith [hX.2.1, hX.2.2, hY.2.1, hY.2.2]

/-- A signed raw value scaled by `0.1f` lies in -20..60 degrees exactly for raw -200..600. -/
theorem scaled_tenth_temp_range (t : Int) :
    validateRange (F32.mul (F32.ofInt t) (F32.lit 1 10)) (F32.lit (-20) 1) (F32.lit 60 1) =
      true ↔ -200 ≤ t ∧ t ≤ 600 := by
  by_cases h1 : t = -200
  · subst h1; decide
  by_cases h2 : t = 600
  · subst h2; decide
  have hb := scaled_tenth_bounds t
  unfold validateRange F32.le
  rw [Bool.and_eq_true, decide_eq_true_iff, decide_eq_true_iff, F32.lit_m20_1, F32.lit_60_1]
  generalize (F32.mul (F32.ofInt t) (F32.lit 1 10)).units = Y at hb ⊢
  by_cases hs : 0 ≤ t
  · have hb1 := hb.1 hs
    constructor
    · intro h; omega
    · intro h; omega
  · have hb2 := hb.2 (by omega)
    constructor
    · intro h; omega
    · intro h; omega

/-- The test `current > 0.5f` on a raw value scaled by `0.1f`: true from raw 6 on. -/
theorem scaled_tenth_charging (c : Int) :
    F32.lt (F32.lit 1 2) (F32.mul (F32.ofInt c) (F32.lit 1 10)) = true ↔ 6 ≤ c := by
  by_cases h1 : c = 5
  · subst h1; decide
  have hb := scaled_tenth_bounds c
  unfold F32.lt
  rw [decide_eq_true_iff, F32.lit_1_2]
  generalize (F32.mul (F32.ofInt c) (F32.lit 1 10)).units = Y at hb ⊢
  by_cases hs : 0 ≤ c
  · have hb1 := hb.1 hs
    constructor
    · intro h; omega
    · intro h; omega
  · have hb2 := hb.2 (by omega)
    constructor
    · intro h; omega
    · intro h; omega

/-- The test `current < -0.5f` on a raw value scaled by `0.1f`: true up to raw -6. -/
theorem scaled_tenth_discharging (c : Int) :
    F32.lt (F32.mul (F32.ofInt c) (F32.lit 1 10)) (F32.lit (-1) 2) = true ↔ c ≤ -6 := by
  by_cases h1 : c = -5
  · subst h1; decide
  have hb := scaled_tenth_bounds c
  unfold F32.lt
  rw [decide_eq_true_iff, F32.lit_m1_2]
  generalize (F32.mul (F32.ofInt c) (F32.lit 1 10)).units = Y at hb ⊢
  by_cases hs : 0 ≤ c
  · have hb1 := hb.1 hs
    constructor
    · intro h; omega
    · intro h; omega
  · have hb2 := hb.2 (by omega)
    constructor
    · intro h; omega
    · intro h; omega

/-- The unit `1.0f` as a natural power. -/
theorem F32.one_nat_eq : F32.one = 2 ^ 149 := rfl

/-- A signed raw value times `0.1f` is the decimal `c / 10` up to rounding. -/
theorem scaled_tenth_approx (c : Int) :
    F32.approx (F32.mul (F32.ofInt c) (F32.lit 1 10)) c 10 := by
  have hb := scaled_tenth_bounds c
  unfold F32.approx
  rw [F32.one_eq, F32.one_nat_eq]
  generalize (F32.mul (F32.ofInt c) (F32.lit 1 10)).units = Y at hb ⊢
  by_cases hs : 0 ≤ c
  · have hb1 := hb.1 hs
    omega
  · have hb2 := hb.2 (by omega)
    omega

/-- An unsigned raw value times `0.01f` is the decimal `n / 100` up to rounding. -/
theorem scaled_hundredth_approx (n : Nat) :
    F32.approx (F32.mul (F32.ofInt (n : Int)) (F32.lit 1 100)) (n : Int) 100 := by
  have hb := scaled_hundredth_bounds n
  unfold F32.approx
  rw [F32.one_eq, F32.one_nat_eq]
  generalize (F32.mul (F32.ofInt (n : Int)) (F32.lit 1 100)).units = Y at hb ⊢
  omega

/-- The constant `1000.0f`. -/
theorem F32.lit_1000_1 : (F32.lit 1000 1).units = 1000 * 2 ^ 149 := by
  have : (F32.lit 1000 1).units = 713623846352979940529142984724747568191373312000 := by decide
  rw [this]; norm_num

/-- A raw value divided by `1000.0f` is the decimal `c / 1000` up to rounding. -/
theorem divided_thousand_approx (c : Int) :
    F32.approx (F32.div (F32.ofInt c) (F32.lit 1000 1)) c 1000 := by
  have hD : (F32.lit 1000 1).units.natAbs = 713623846352979940529142984724747568191373312000 := by
    decide
  have hpos : ¬ (F32.lit 1000 1).units < 0 := by decide
  unfold F32.approx F32.div
  rw [if_neg hpos, hD, F32.one_eq, F32.one_nat_eq]
  by_cases hs : 0 ≤ c
  · by_cases h0 : c = 0
    · subst h0
      have e : (F32.round ((F32.ofInt 0).units * 2 ^ 149)
          713623846352979940529142984724747568191373312000).units = 0 := by
        have e1 : (F32.ofInt 0).units = 0 := by decide
        rw [e1, Int.zero_mul]
        decide
      rw [e]
      norm_num
    have h1 : 1 ≤ c := by omega
    have hX := F32.ofInt_bounds_nonneg c hs
    have hprod : 0 ≤ (F32.ofInt c).units * 2 ^ 149 := Int.mul_nonneg hX.1 (by norm_num)
    have hY := F32.round_bounds_nonneg ((F32.ofInt c).units * 2 ^ 149)
      713623846352979940529142984724747568191373312000 (by norm_num) hprod
    generalize (F32.round ((F32.ofInt c).units * 2 ^ 149)
      713623846352979940529142984724747568191373312000).units = Y at hY ⊢
    generalize (F32.ofInt c).units = X at hX hY
    have k1 : 2 ^ 22 * (1000 * Y - c * 2 ^ 149) ≤ c * 2 ^ 149 := by
      push_cast at hY
      linarith [hX.2.1, hX.2.2, hY.2.1, hY.2.2]
    have k2 : 2 ^ 22 * (c * 2 ^ 149 - 1000 * Y) ≤ c * 2 ^ 149 := by
      push_cast at hY
      linarith [hX.2.1, hX.2.2, hY.2.1, hY.2.2]
    push_cast
    omega
  · have h1 : c ≤ -1 := by omega
    have hX := F32.ofInt_bounds_neg c (by omega)
    have hprod : (F32.ofInt c).units * 2 ^ 149 < 0 := by
      generalize (F32.ofInt c).units = X at hX ⊢
      omega
    have hY := F32.round_bounds_neg ((F32.ofInt c).units * 2 ^ 149)
      713623846352979940529142984724747568191373312000 (by norm_num) hprod
    generalize (F32.round ((F32.ofInt c).units * 2 ^ 149)
      713623846352979940529142984724747568191373312000).units = Y at hY ⊢
    generalize (F32.ofInt c).units = X at hX hY
    have k1 : 2 ^ 22 * (1000 * Y - c * 2 ^ 149) ≤ -c * 2 ^ 149 := by
      push_cast at hY
      linarith [hX.2.1, hX.2.2, hY.2.1, hY.2.2]
    have k2 : 2 ^ 22 * (c * 2 ^ 149 - 1000 * Y) ≤ -c * 2 ^ 149 := by
      push_cast at hY
      linarith [hX.2.1, hX.2.2, hY.2.1, hY.2.2]
    push_cast
    omega

/-- The member `extractInt16` is the signed reading of `extractUint16`. -/
theorem extractInt16_asInt16 (data : List Nat) (o : Nat) (b : Bool) :
    extractInt16 data o b = asInt16 (extractUint16 data o b) := rfl

/-- The member `extractInt32` is the signed reading of `extractUint32`. -/
theorem extractInt32_asInt32 (data : List Nat) (o : Nat) (b : Bool) :
    extractInt32 data o b = asInt32 (extractUint32 data o b) := rfl

/-- The voltage branch of the Pylontech decoder. -/
theorem pylontech_voltage_frame (s : PylontechCan) (data : List Nat) (length now : Nat)
    (h : 8 ≤ length) :
    (s.parseMessage 0x359 data length now).1 =
      validateRange (PylontechCan.decodeVoltage data) (F32.lit 40 1) (F32.lit 60 1) ∧
    (s.parseMessage 0x359 data length now).2.m_data =
      { s.m_data with voltage := PylontechCan.decodeVoltage data } := by
  rcases pylontech_parse_cases s 0x359 data length now with
    c | c | c | c | c | c | c | c
  · omega
  · exact c.2.2
  · exact absurd c.2.1 (by decide)
  · exact absurd c.2.1 (by decide)
  · exact absurd c.2.1 (by decide)
  · exact absurd c.2.1 (by decide)
  · exact absurd c.2.1 (by decide)
  · exact absurd rfl c.2.1

/-- The current branch of the Pylontech decoder. -/
theorem pylontech_current_frame (s : PylontechCan) (data : List Nat) (length now : Nat)
    (h : 8 ≤ length) :
    (s.parseMessage 0x35C data length now).1 = true ∧
    (s.parseMessage 0x35C data length now).2.m_data =
      { s.m_data with
        current := PylontechCan.decodeCurrent data,
        charging := F32.lt (F32.lit 1 2) (PylontechCan.decodeCurrent data),
        discharging := F32.lt (PylontechCan.decodeCurrent data) (F32.lit (-1) 2) } := by
  rcases pylontech_parse_cases s 0x35C data length now with
    c | c | c | c | c | c | c | c
  · omega
  · exact absurd c.2.1 (by decide)
  · exact c.2.2
  · exact absurd c.2.1 (by decide)
  · exact absurd c.2.1 (by decide)
  · exact absurd c.2.1 (by decide)
  · exact absurd c.2.1 (by decide)
  · exact absurd rfl c.2.2.1

/-- The SOC branch of the Pylontech decoder. -/
theorem pylontech_soc_frame (s : PylontechCan) (data : List Nat) (length now : Nat)
    (h : 8 ≤ length) :
    (s.parseMessage 0x355 data length now).1 =
      validateRange (PylontechCan.decodeSoc data) (F32.lit 0 1) (F32.lit 100 1) ∧
    (s.parseMessage 0x355 data length now).2.m_data =
      { s.m_data with soc := PylontechCan.decodeSoc data } := by
  rcases pylontech_parse_cases s 0x355 data length now with
    c | c | c | c | c | c | c | c
  · omega
  · exact absurd c.2.1 (by decide)
  · exact absurd c.2.1 (by decide)
  · exact c.2.2
  · exact absurd c.2.1 (by decide)
  · exact absurd c.2.1 (by decide)
  · exact absurd c.2.1 (by decide)
  · exact absurd rfl c.2.2.2.1

/-- The temperature branch of the Pylontech decoder. -/
theorem pylontech_temp_frame (s : PylontechCan) (data : List Nat) (length now : Nat)
    (h : 8 ≤ length) :
    (s.parseMessage 0x356 data length now).1 =
      validateRange (PylontechCan.decodeTemp data) (F32.lit (-20) 1) (F32.lit 60 1) ∧
    (s.parseMessage 0x356 data length now).2.m_data =
      { s.m_data with temperature := PylontechCan.decodeTemp data } := by
  rcases pylontech_parse_cases s 0x356 data length now with
    c | c | c | c | c | c | c | c
  · omega
  · exact absurd c.2.1 (by decide)
  · exact absurd c.2.1 (by decide)
  · exact absurd c.2.1 (by decide)
  · exact c.2.2
  · exact absurd c.2.1 (by decide)
  · exact absurd c.2.1 (by decide)
  · exact absurd rfl c.2.2.2.2.1

/-- The voltage branch of the DALY decoder. -/
theorem daly_voltage_frame (s : DalyCan) (data : List Nat) (length now : Nat)
    (h : 8 ≤ length) :
    (s.parseMessage 0x18FF50E5 data length now).1 =
      validateRange (DalyCan.decodeVoltage data) (F32.lit 40 1) (F32.lit 60 1) ∧
    (s.parseMessage 0x18FF50E5 data length now).2.m_data =
      { s.m_data with voltage := DalyCan.decodeVoltage data } := by
  rcases daly_parse_cases s 0x18FF50E5 data length now with
    c | c | c | c | c | c | c | c
  · omega
  · exact c.2.2
  · exact absurd c.2.1 (by decide)
  · exact absurd c.2.1 (by decide)
  · exact absurd c.2.1 (by decide)
  · exact absurd c.2.1 (by decide)
  · exact absurd c.2.1 (by decide)
  · exact absurd rfl c.2.1

/-- The current branch of the DALY decoder. -/
theorem daly_current_frame (s : DalyCan) (data : List Nat) (length now : Nat)
    (h : 8 ≤ length) :
    (s.parseMessage 0x18FF51E5 data length now).1 = true ∧
    (s.parseMessage 0x18FF51E5 data length now).2.m_data =
      { s.m_data with
        current := DalyCan.decodeCurrent data,
        charging := F32.lt (F32.lit 1 2) (DalyCan.decodeCurrent data),
        discharging := F32.lt (DalyCan.decodeCurrent data) (F32.lit (-1) 2) } := by
  rcases daly_parse_cases s 0x18FF51E5 data length now with
    c | c | c | c | c | c | c | c
  · omega
  · exact absurd c.2.1 (by decide)
  · exact c.2.2
  · exact absurd c.2.1 (by decide)
  · exact absurd c.2.1 (by decide)
  · exact absurd c.2.1 (by decide)
  · exact absurd c.2.1 (by decide)
  · exact absurd rfl c.2.2.1

/-- The voltage branch of the JK-BMS decoder. -/
theorem jk_voltage_frame (s : JkBmsCan) (canId : Nat) (data : List Nat) (length now : Nat)
    (h : 8 ≤ length) (hid : JkBmsCan.getMessageType canId = 0x01) :
    (s.parseMessage canId data length now).1 =
      validateRange (JkBmsCan.decodeVoltage data) (F32.lit 40 1) (F32.lit 60 1) ∧
    (s.parseMessage canId data length now).2.m_data =
      { s.m_data with voltage := JkBmsCan.decodeVoltage data } := by
  rcases jk_parse_cases s canId data length now with
    c | c | c | c | c | c | c | c
  · omega
  · exact c.2.2
  · exact absurd (hid.symm.trans c.2.1) (by decide)
  · exact absurd (hid.symm.trans c.2.1) (by decide)
  · exact absurd (hid.symm.trans c.2.1) (by decide)
  · exact absurd (hid.symm.trans c.2.1) (by decide)
  · exact absurd (hid.symm.trans c.2.1) (by decide)
  · exact absurd hid c.2.1

/-- The current branch of the JK-BMS decoder. -/
theorem jk_current_frame (s : JkBmsCan) (canId : Nat) (data : List Nat) (length now : Nat)
    (h : 8 ≤ length) (hid : JkBmsCan.getMessageType canId = 0x02) :
    (s.parseMessage canId data length now).1 = true ∧
    (s.parseMessage canId data length now).2.m_data =
      { s.m_data with
        current := JkBmsCan.decodeCurrent data,
        charging := F32.lt (F32.lit 1 2) (JkBmsCan.decodeCurrent data),
        discharging := F32.lt (JkBmsCan.decodeCurrent data) (F32.lit (-1) 2) } := by
  rcases jk_parse_cases s canId data length now with
    c | c | c | c | c | c | c | c
  · omega
  · exact absurd (hid.symm.trans c.2.1) (by decide)
  · exact c.2.2
  · exact absurd (hid.symm.trans c.2.1) (by decide)
  · exact absurd (hid.symm.trans c.2.1) (by decide)
  · exact absurd (hid.symm.trans c.2.1) (by decide)
  · exact absurd (hid.symm.trans c.2.1) (by decide)
  · exact absurd hid c.2.2.1

/-- A conjunction of results that are all true is true. -/
theorem all_true_of_forall (ps : List Protocol) (f : Protocol → Bool) (h : ∀ p, f p = true) :
    (ps.map f).all id = true := by
  induction ps with
  | nil => rfl
  | cons p rest ih => simp [h p, h]

/-- The low byte: `id & 0xFF` is `id % 256`. -/
theorem and_ff_eq_mod (id : Nat) : id &&& 0xFF = id % 256 :=
  Nat.and_pow_two_sub_one_eq_mod id 8

/-- The mask `0xFFFFFF00` on a 32-bit value clears the low byte. -/
theorem and_mask_eq (id : Nat) (h : id < 2 ^ 32) : id &&& 0xFFFFFF00 = 256 * (id / 256) := by
  apply Nat.eq_of_testBit_eq
  intro i
  have hm : (0xFFFFFF00 : Nat) = 2 ^ 8 * (2 ^ 24 - 1) := by norm_num
  have hd : (256 : Nat) = 2 ^ 8 := by norm_num
  rw [Nat.testBit_and, hm, hd, Nat.testBit_mul_pow_two, Nat.testBit_mul_pow_two,
    Nat.testBit_two_pow_sub_one, ← Nat.shiftRight_eq_div_pow, Nat.testBit_shiftRight]
  by_cases h8 : 8 ≤ i
  · by_cases h32 : i < 32
    · have e : 8 + (i - 8) = i := by omega
      have e2 : i - 8 < 24 := by omega
      simp [h8, e, e2]
    · have hbig : id.testBit i = false := by
        apply Nat.testBit_lt_two_pow
        exact lt_of_lt_of_le h (Nat.pow_le_pow_right (by norm_num) (by omega))
      have e : 8 + (i - 8) = i := by omega
      simp [hbig, e]
  · simp [h8]

/-- The JK-BMS decoder looks at the identifier through `getMessageType` only. -/
theorem jk_parse_congr (s : JkBmsCan) (id1 id2 : Nat) (data : List Nat) (length now : Nat)
    (h : JkBmsCan.getMessageType id1 = JkBmsCan.getMessageType id2) :
    s.parseMessage id1 data length now = s.parseMessage id2 data length now := by
  unfold JkBmsCan.parseMessage
  rw [h]

/-! ## Manager lemmas -/

/-- What the search loop of `selectProtocol` returns is the position of a
decoder of the requested type. -/
theorem ProtocolManager.selectLoop_some (type : bms_type_t) (ps : List Protocol) (i k : Nat)
    (h : ProtocolManager.selectLoop type ps i = some k) :
    i ≤ k ∧ ∃ p, ps[k - i]? = some p ∧ p.getType = type := by
  induction ps generalizing i with
  | nil => simp [ProtocolManager.selectLoop] at h
  | cons p rest ih =>
    unfold ProtocolManager.selectLoop at h
    split_ifs at h with hp
    · cases h
      exact ⟨le_refl _, p, by simp, hp⟩
    · obtain ⟨hle, q, hq, hqt⟩ := ih (i + 1) h
      refine ⟨by omega, q, ?_, hqt⟩
      have : k - i = (k - (i + 1)) + 1 := by omega
      rw [this]
      simpa using hq

namespace ProtocolManager

/-- The loop with no iteration left. -/
theorem routeLoop_zero (canId : Nat) (data : List Nat) (length now i : Nat)
    (m : ProtocolManager) : routeLoop canId data length now 0 i m = (false, m) := rfl

/-- The loop leaves when the index has reached `m_protocols.size()`. -/
theorem routeLoop_none (canId : Nat) (data : List Nat) (length now n i : Nat)
    (m : ProtocolManager) (h : m.m_protocols[i]? = none) :
    routeLoop canId data length now (n + 1) i m = (false, m) := by
  simp only [routeLoop, h]

/-- A decoder that does not accept the identifier is skipped. -/
theorem routeLoop_skip (canId : Nat) (data : List Nat) (length now n i : Nat)
    (m : ProtocolManager) (p : Protocol) (h : m.m_protocols[i]? = some p)
    (ha : p.canAcceptMessage canId = false) :
    routeLoop canId data length now (n + 1) i m = routeLoop canId data length now n (i + 1) m := by
  simp only [routeLoop, h, ha]
  rfl

/-- A decoder that accepts but fails to parse is updated, and the loop goes on. -/
theorem routeLoop_fail (canId : Nat) (data : List Nat) (length now n i : Nat)
    (m : ProtocolManager) (p : Protocol) (h : m.m_protocols[i]? = some p)
    (ha : p.canAcceptMessage canId = true)
    (hp : (p.parseMessage canId data length now).1 = false) :
    routeLoop canId data length now (n + 1) i m =
      routeLoop canId data length now n (i + 1)
        { m with m_protocols := m.m_protocols.set i (p.parseMessage canId data length now).2 } := by
  simp only [routeLoop, h, ha, hp]
  rfl

/-- A decoder that accepts and parses ends the loop. -/
theorem routeLoop_hit (canId : Nat) (data : List Nat) (length now n i : Nat)
    (m : ProtocolManager) (p : Protocol) (h : m.m_protocols[i]? = some p)
    (ha : p.canAcceptMessage canId = true)
    (hp : (p.parseMessage canId data length now).1 = true) :
    routeLoop canId data length now (n + 1) i m =
      (true, afterHit
        { m with m_protocols := m.m_protocols.set i (p.parseMessage canId data length now).2 }
        i now) := by
  simp only [routeLoop, h, ha, hp, afterHit]
  cases hs : m.m_detectionStats[i]? with
  | none => simp
  | some st =>
    simp only []
    split_ifs <;> simp_all

/-- A position that holds an element is within the list. -/
theorem lt_length_of_getElem? {α : Type} (l : List α) (j : Nat) (q : α) (h : l[j]? = some q) :
    j < l.length := by
  rcases Nat.lt_or_ge j l.length with h1 | h1
  · exact h1
  · rw [List.getElem?_eq_none h1] at h; cases h

/-- The loop when no accepting decoder from position `i` on parses the frame. -/
theorem routeLoop_no_hit (canId : Nat) (data : List Nat) (length now : Nat) :
    ∀ (n i : Nat) (m : ProtocolManager),
      (∀ k p, i ≤ k → m.m_protocols[k]? = some p → p.canAcceptMessage canId = true →
        (p.parseMessage canId data length now).1 = false) →
      ∃ ps : List Protocol,
        routeLoop canId data length now n i m = (false, { m with m_protocols := ps }) ∧
        ps.length = m.m_protocols.length ∧
        ∀ j q, m.m_protocols[j]? = some q →
          ps[j]? = some (if i ≤ j ∧ j < i + n ∧ q.canAcceptMessage canId = true
            then (q.parseMessage canId data length now).2 else q) := by
  intro n
  induction n with
  | zero =>
    intro i m _
    refine ⟨m.m_protocols, rfl, rfl, ?_⟩
    intro j q hq
    rw [if_neg (by omega)]
    exact hq
  | succ n ih =>
    intro i m hall
    cases hi : m.m_protocols[i]? with
    | none =>
      refine ⟨m.m_protocols, routeLoop_none _ _ _ _ _ _ _ hi, rfl, ?_⟩
      intro j q hq
      have hj := lt_length_of_getElem? _ _ _ hq
      have hi2 : m.m_protocols.length ≤ i := by
        by_contra hc
        rw [List.getElem?_eq_getElem (by omega)] at hi
        cases hi
      rw [if_neg (by omega)]
      exact hq
    | some p =>
      have hil := lt_length_of_getElem? _ _ _ hi
      cases ha : p.canAcceptMessage canId with
      | false =>
        obtain ⟨ps, h1, h2, h3⟩ := ih (i + 1) m (fun k q hk => hall k q (by omega))
        refine ⟨ps, ?_, h2, ?_⟩
        · rw [routeLoop_skip _ _ _ _ _ _ _ p hi ha]; exact h1
        · intro j q hq
          rw [h3 j q hq]
          by_cases hji : j = i
          · subst hji
            rw [hi] at hq
            cases hq
            rw [if_neg (by omega), if_neg (by simp [ha])]
          · by_cases hc : i ≤ j ∧ j < i + (n + 1) ∧ q.canAcceptMessage canId = true
            · rw [if_pos hc, if_pos ⟨by omega, by omega, hc.2.2⟩]
            · rw [if_neg hc, if_neg (fun h => hc ⟨by omega, by omega, h.2.2⟩)]
      | true =>
        have hf := hall i p (le_refl _) hi ha
        have hset : ∀ j, j ≠ i →
            (m.m_protocols.set i (p.parseMessage canId data length now).2)[j]? =
              m.m_protocols[j]? := by
          intro j hj
          simp [List.getElem?_set, Ne.symm hj]
        obtain ⟨ps, h1, h2, h3⟩ := ih (i + 1)
          { m with m_protocols := m.m_protocols.set i (p.parseMessage canId data length now).2 }
          (fun k q hk hq => hall k q (by omega) (by rw [← hset k (by omega)]; exact hq))
        refine ⟨ps, ?_, ?_, ?_⟩
        · rw [routeLoop_fail _ _ _ _ _ _ _ p hi ha hf]; exact h1
        · rw [h2]; simp
        · intro j q hq
          by_cases hji : j = i
          · subst hji
            rw [hi] at hq
            cases hq
            have := h3 j (p.parseMessage canId data length now).2
              (by simp [List.getElem?_set, hil])
            rw [this, if_neg (by omega), if_pos ⟨le_refl _, by omega, ha⟩]
          · have := h3 j q (by rw [← hq]; exact hset j hji)
            rw [this]
            by_cases hc : i ≤ j ∧ j < i + (n + 1) ∧ q.canAcceptMessage canId = true
            · rw [if_pos hc, if_pos ⟨by omega, by omega, hc.2.2⟩]
            · rw [if_neg hc, if_neg (fun h => hc ⟨by omega, by omega, h.2.2⟩)]

/-- The loop when decoder `k` is the first, from position `i` on, that accepts
and parses the frame. -/
theorem routeLoop_first_hit (canId : Nat) (data : List Nat) (length now : Nat) :
    ∀ (n i : Nat) (m : ProtocolManager) (k : Nat) (p : Protocol),
      i ≤ k → k < i + n → m.m_protocols[k]? = some p → p.canAcceptMessage canId = true →
      (p.parseMessage canId data length now).1 = true →
      (∀ t q, i ≤ t → t < k → m.m_protocols[t]? = some q → q.canAcceptMessage canId = true →
        (q.parseMessage canId data length now).1 = false) →
      ∃ ps : List Protocol,
        routeLoop canId data length now n i m =
          (true, afterHit { m with m_protocols := ps } k now) ∧
        ps.length = m.m_protocols.length ∧
        ∀ j q, m.m_protocols[j]? = some q →
          ps[j]? = some (if i ≤ j ∧ j ≤ k ∧ q.canAcceptMessage canId = true
            then (q.parseMessage canId data length now).2 else q) := by
  intro n
  induction n with
  | zero => intro i m k p h1 h2; omega
  | succ n ih =>
    intro i m k p hik hkn hk ha hp hbefore
    have hkl := lt_length_of_getElem? _ _ _ hk
    by_cases hki : k = i
    · subst hki
      refine ⟨m.m_protocols.set k (p.parseMessage canId data length now).2,
        routeLoop_hit _ _ _ _ _ _ _ p hk ha hp, by simp, ?_⟩
      intro j q hq
      by_cases hjk : j = k
      · subst hjk
        rw [hk] at hq
        cases hq
        rw [if_pos ⟨le_refl _, le_refl _, ha⟩]
        simp [List.getElem?_set, hkl]
      · rw [if_neg (by omega)]
        simpa [List.getElem?_set, Ne.symm hjk] using hq
    · have hil : i < m.m_protocols.length := by omega
      have hi : m.m_protocols[i]? = some m.m_protocols[i] := List.getElem?_eq_getElem hil
      generalize m.m_protocols[i] = pi at hi
      cases hai : pi.canAcceptMessage canId with
      | false =>
        obtain ⟨ps, h1, h2, h3⟩ := ih (i + 1) m k p (by omega) (by omega) hk ha hp
          (fun t q ht1 ht2 => hbefore t q (by omega) ht2)
        refine ⟨ps, ?_, h2, ?_⟩
        · rw [routeLoop_skip _ _ _ _ _ _ _ pi hi hai]; exact h1
        · intro j q hq
          rw [h3 j q hq]
          by_cases hji : j = i
          · subst hji
            rw [hi] at hq
            cases hq
            rw [if_neg (by omega), if_neg (by simp [hai])]
          · by_cases hc : i ≤ j ∧ j ≤ k ∧ q.canAcceptMessage canId = true
            · rw [if_pos hc, if_pos ⟨by omega, by omega, hc.2.2⟩]
            · rw [if_neg hc, if_neg (fun h => hc ⟨by omega, by omega, h.2.2⟩)]
      | true =>
        have hf := hbefore i pi (le_refl _) (by omega) hi hai
        have hset : ∀ j, j ≠ i →
            (m.m_protocols.set i (pi.parseMessage canId data length now).2)[j]? =
              m.m_protocols[j]? := by
          intro j hj
          simp [List.getElem?_set, Ne.symm hj]
        obtain ⟨ps, h1, h2, h3⟩ := ih (i + 1)
          { m with m_protocols := m.m_protocols.set i (pi.parseMessage canId data length now).2 }
          k p (by omega) (by omega) (by rw [← hk]; exact hset k hki) ha hp
          (fun t q ht1 ht2 hq => hbefore t q (by omega) ht2
            (by rw [← hset t (by omega)]; exact hq))
        refine ⟨ps, ?_, ?_, ?_⟩
        · rw [routeLoop_fail _ _ _ _ _ _ _ pi hi hai hf]; exact h1
        · rw [h2]; simp
        · intro j q hq
          by_cases hji : j = i
          · subst hji
            rw [hi] at hq
            cases hq
            have := h3 j (pi.parseMessage canId data length now).2
              (by simp [List.getElem?_set, hil])
            rw [this, if_neg (by omega), if_pos ⟨le_refl _, by omega, hai⟩]
          · have := h3 j q (by rw [← hq]; exact hset j hji)
            rw [this]
            by_cases hc : i ≤ j ∧ j ≤ k ∧ q.canAcceptMessage canId = true
            · rw [if_pos hc, if_pos ⟨by omega, by omega, hc.2.2⟩]
            · rw [if_neg hc, if_neg (fun h => hc ⟨by omega, by omega, h.2.2⟩)]

/-- Outside pinned mode `routeMessage` is the detection loop over all decoders. -/
theorem routeMessage_unpinned (m : ProtocolManager) (canId : Nat) (data : List Nat)
    (length now : Nat) (h : m.m_activeProtocol = none ∨ m.m_autoDetect = true) :
    m.routeMessage canId data length now =
      routeLoop canId data length now m.m_protocols.length 0 m := by
  unfold routeMessage
  rcases h with h | h
  · rw [h]
  · rw [h]
    cases m.m_activeProtocol <;> rfl

/-- Either no accepting decoder parses the frame, or there is a first one. -/
theorem first_hit_or_none (m : ProtocolManager) (canId : Nat) (data : List Nat)
    (length now : Nat) :
    (∀ (k : Nat) (p : Protocol), m.m_protocols[k]? = some p → p.canAcceptMessage canId = true →
        (p.parseMessage canId data length now).1 = false) ∨
    (∃ (k : Nat) (p : Protocol), m.m_protocols[k]? = some p ∧ p.canAcceptMessage canId = true ∧
        (p.parseMessage canId data length now).1 = true ∧
        ∀ (t : Nat) (q : Protocol), t < k → m.m_protocols[t]? = some q → q.canAcceptMessage canId = true →
          (q.parseMessage canId data length now).1 = false) := by
  classical
  by_cases h : ∃ (k : Nat) (p : Protocol), m.m_protocols[k]? = some p ∧ p.canAcceptMessage canId = true ∧
      (p.parseMessage canId data length now).1 = true
  · right
    obtain ⟨p, hp1, hp2, hp3⟩ := Nat.find_spec h
    refine ⟨Nat.find h, p, hp1, hp2, hp3, ?_⟩
    intro t q ht hq hqa
    have := Nat.find_min h ht
    cases hr : (q.parseMessage canId data length now).1 with
    | false => rfl
    | true => exact absurd ⟨q, hq, hqa, hr⟩ this
  · left
    intro k p hp hpa
    cases hr : (p.parseMessage canId data length now).1 with
    | false => rfl
    | true => exact absurd ⟨k, p, hp, hpa, hr⟩ h

/-- The detection path of `routeMessage`, both outcomes. -/
theorem routeMessage_unpinned_cases (m : ProtocolManager) (canId : Nat) (data : List Nat)
    (length now : Nat) (h : m.m_activeProtocol = none ∨ m.m_autoDetect = true) :
    ((∀ (k : Nat) (p : Protocol), m.m_protocols[k]? = some p → p.canAcceptMessage canId = true →
        (p.parseMessage canId data length now).1 = false) ∧
      ∃ ps : List Protocol,
        m.routeMessage canId data length now = (false, { m with m_protocols := ps }) ∧
        ps.length = m.m_protocols.length ∧
        ∀ (j : Nat) (q : Protocol), m.m_protocols[j]? = some q →
          ps[j]? = some (if q.canAcceptMessage canId = true
            then (q.parseMessage canId data length now).2 else q)) ∨
    (∃ (k : Nat) (p : Protocol), m.m_protocols[k]? = some p ∧ p.canAcceptMessage canId = true ∧
        (p.parseMessage canId data length now).1 = true ∧
        (∀ (t : Nat) (q : Protocol), t < k → m.m_protocols[t]? = some q → q.canAcceptMessage canId = true →
          (q.parseMessage canId data length now).1 = false) ∧
      ∃ ps : List Protocol,
        m.routeMessage canId data length now =
          (true, afterHit { m with m_protocols := ps } k now) ∧
        ps.length = m.m_protocols.length ∧
        ∀ (j : Nat) (q : Protocol), m.m_protocols[j]? = some q →
          ps[j]? = some (if j ≤ k ∧ q.canAcceptMessage canId = true
            then (q.parseMessage canId data length now).2 else q)) := by
  rw [routeMessage_unpinned m canId data length now h]
  rcases first_hit_or_none m canId data length now with hn | ⟨k, p, hk, ha, hp, hfirst⟩
  · left
    refine ⟨hn, ?_⟩
    obtain ⟨ps, h1, h2, h3⟩ := routeLoop_no_hit canId data length now m.m_protocols.length 0 m
      (fun k p _ => hn k p)
    refine ⟨ps, h1, h2, ?_⟩
    intro j q hq
    rw [h3 j q hq]
    have hj := lt_length_of_getElem? _ _ _ hq
    by_cases hc : q.canAcceptMessage canId = true
    · rw [if_pos hc, if_pos ⟨Nat.zero_le _, by omega, hc⟩]
    · rw [if_neg hc, if_neg (fun h => hc h.2.2)]
  · right
    refine ⟨k, p, hk, ha, hp, hfirst, ?_⟩
    have hkl := lt_length_of_getElem? _ _ _ hk
    obtain ⟨ps, h1, h2, h3⟩ := routeLoop_first_hit canId data length now m.m_protocols.length 0
      m k p (Nat.zero_le _) (by omega) hk ha hp (fun t q _ => hfirst t q)
    refine ⟨ps, h1, h2, ?_⟩
    intro j q hq
    rw [h3 j q hq]
    by_cases hc : j ≤ k ∧ q.canAcceptMessage canId = true
    · rw [if_pos hc, if_pos ⟨Nat.zero_le _, hc⟩]
    · rw [if_neg hc, if_neg (fun h => hc h.2)]

/-- The bookkeeping after a hit leaves the decoders alone. -/
theorem afterHit_protocols (m : ProtocolManager) (k now : Nat) :
    (afterHit m k now).m_protocols = m.m_protocols := by
  unfold afterHit
  cases m.m_detectionStats[k]? <;> rfl

/-- The bookkeeping after a hit leaves the auto-detect flag alone. -/
theorem afterHit_autoDetect (m : ProtocolManager) (k now : Nat) :
    (afterHit m k now).m_autoDetect = m.m_autoDetect := by
  unfold afterHit
  cases m.m_detectionStats[k]? <;> rfl

/-- The statistics after a hit. -/
theorem afterHit_stats (m : ProtocolManager) (k now : Nat) :
    (afterHit m k now).m_detectionStats =
      match m.m_detectionStats[k]? with
      | none => m.m_detectionStats
      | some st => m.m_detectionStats.set k
          { st with matchCount := (st.matchCount + 1) % 2 ^ 32, lastMatch := now } := by
  unfold afterHit
  cases m.m_detectionStats[k]? <;> rfl

/-- The active decoder after a hit. -/
theorem afterHit_active (m : ProtocolManager) (k now : Nat) :
    (afterHit m k now).m_activeProtocol =
      match m.m_detectionStats[k]? with
      | none => m.m_activeProtocol
      | some st =>
        if DETECTION_THRESHOLD ≤ (st.matchCount + 1) % 2 ^ 32 && m.m_activeProtocol.isNone
        then some k else m.m_activeProtocol := by
  unfold afterHit
  cases m.m_detectionStats[k]? <;> rfl

/-- The pinned path touches neither the statistics nor the active decoder. -/
theorem routeMessage_pinned (m : ProtocolManager) (a canId : Nat) (data : List Nat)
    (length now : Nat) (hact : m.m_activeProtocol = some a) (hauto : m.m_autoDetect = false) :
    (m.routeMessage canId data length now).2.m_detectionStats = m.m_detectionStats ∧
    (m.routeMessage canId data length now).2.m_activeProtocol = m.m_activeProtocol ∧
    (m.routeMessage canId data length now).2.m_autoDetect = m.m_autoDetect ∧
    ∀ (j : Nat) (q : Protocol), m.m_protocols[j]? = some q →
      (m.routeMessage canId data length now).2.m_protocols[j]? =
        some (if j = a ∧ q.canAcceptMessage canId = true
          then (q.parseMessage canId data length now).2 else q) := by
  cases hP : m.m_protocols[a]? with
  | none =>
    have e : m.routeMessage canId data length now = (false, m) := by
      unfold routeMessage
      rw [hact, hauto]
      simp only [hP]
    rw [e]
    refine ⟨rfl, rfl, rfl, ?_⟩
    intro j q hq
    have : j ≠ a := by rintro rfl; rw [hP] at hq; cases hq
    rw [if_neg (fun h => this h.1)]
    exact hq
  | some P =>
    have ha := lt_length_of_getElem? _ _ _ hP
    cases hacc : P.canAcceptMessage canId with
    | false =>
      have e : m.routeMessage canId data length now = (false, m) := by
        unfold routeMessage
        rw [hact, hauto]
        simp only [hP, hacc]
        rfl
      rw [e]
      refine ⟨rfl, rfl, rfl, ?_⟩
      intro j q hq
      by_cases hja : j = a
      · subst hja
        rw [hP] at hq
        cases hq
        rw [if_neg (by simp [hacc])]
        exact hP
      · rw [if_neg (fun h => hja h.1)]
        exact hq
    | true =>
      have e : m.routeMessage canId data length now =
          ((P.parseMessage canId data length now).1,
           { m with m_protocols :=
              m.m_protocols.set a (P.parseMessage canId data length now).2 }) := by
        unfold routeMessage
        rw [hact, hauto]
        simp only [hP, hacc]
        rfl
      rw [e]
      refine ⟨rfl, rfl, rfl, ?_⟩
      intro j q hq
      by_cases hja : j = a
      · subst hja
        rw [hP] at hq
        cases hq
        rw [if_pos ⟨rfl, hacc⟩]
        simp [List.getElem?_set, ha]
      · rw [if_neg (fun h => hja h.1)]
        simpa [List.getElem?_set, Ne.symm hja] using hq

/-- A manager is in pinned mode or it is not. -/
theorem pinned_or_not (m : ProtocolManager) :
    (∃ a, m.m_activeProtocol = some a ∧ m.m_autoDetect = false) ∨
    (m.m_activeProtocol = none ∨ m.m_autoDetect = true) := by
  cases h1 : m.m_activeProtocol with
  | none => right; left; rfl
  | some a =>
    cases h2 : m.m_autoDetect with
    | false => left; exact ⟨a, rfl, rfl⟩
    | true => right; right; rfl

/-- A frame that decoder `i` does not accept leaves that decoder and its
statistics entry alone. -/
theorem routeMessage_not_accepting (m : ProtocolManager) (i : Nat) (A : Protocol) (canId : Nat)
    (data : List Nat) (length now : Nat) (hA : m.m_protocols[i]? = some A)
    (hacc : A.canAcceptMessage canId = false) :
    (m.routeMessage canId data length now).2.m_protocols[i]? = some A ∧
    (m.routeMessage canId data length now).2.m_detectionStats[i]? = m.m_detectionStats[i]? := by
  rcases pinned_or_not m with ⟨a, ha, hauto⟩ | hun
  · obtain ⟨h1, -, -, h4⟩ := routeMessage_pinned m a canId data length now ha hauto
    rw [h1, h4 i A hA, if_neg (by simp [hacc])]
    exact ⟨rfl, rfl⟩
  · rcases routeMessage_unpinned_cases m canId data length now hun with
      ⟨-, ps, h1, -, h3⟩ | ⟨k, p, hk, hpa, -, -, ps, h1, -, h3⟩
    · rw [h1]
      refine ⟨?_, rfl⟩
      show ps[i]? = some A
      rw [h3 i A hA, if_neg (by simp [hacc])]
    · have hki : k ≠ i := by
        rintro rfl
        rw [hA] at hk
        cases hk
        rw [hacc] at hpa
        cases hpa
      rw [h1]
      refine ⟨?_, ?_⟩
      · rw [afterHit_protocols]
        show ps[i]? = some A
        rw [h3 i A hA, if_neg (by simp [hacc])]
      · rw [afterHit_stats]
        show (match m.m_detectionStats[k]? with
          | none => m.m_detectionStats
          | some st => m.m_detectionStats.set k
              { st with matchCount := (st.matchCount + 1) % 2 ^ 32, lastMatch := now })[i]? = _
        cases m.m_detectionStats[k]? with
        | none => rfl
        | some st => simp [List.getElem?_set, hki]

/-- Frames that decoder `i` does not accept leave that decoder and its
statistics entry alone. -/
theorem routeAll_not_accepting (i : Nat) (A : Protocol) :
    ∀ (frames : List (Nat × List Nat × Nat × Nat)) (m : ProtocolManager),
      m.m_protocols[i]? = some A → (∀ f ∈ frames, A.canAcceptMessage f.1 = false) →
      (m.routeAll frames).m_protocols[i]? = some A ∧
      (m.routeAll frames).m_detectionStats[i]? = m.m_detectionStats[i]? := by
  intro frames
  induction frames with
  | nil => intro m hA _; exact ⟨hA, rfl⟩
  | cons f rest ih =>
    intro m hA hall
    obtain ⟨h1, h2⟩ := routeMessage_not_accepting m i A f.1 f.2.1 f.2.2.1 f.2.2.2 hA
      (hall f (List.mem_cons_self _ _))
    obtain ⟨h3, h4⟩ := ih (m.routeMessage f.1 f.2.1 f.2.2.1 f.2.2.2).2 h1
      (fun g hg => hall g (List.mem_cons_of_mem _ hg))
    exact ⟨h3, by rw [← h2]; exact h4⟩

/-- One detection step on a frame that decoder `i` is the first to accept and
that it parses. -/
theorem routeMessage_first_accepting (m : ProtocolManager) (i : Nat) (D : Protocol)
    (canId : Nat) (data : List Nat) (length now : Nat)
    (hun : m.m_activeProtocol = none ∨ m.m_autoDetect = true)
    (hD : m.m_protocols[i]? = some D)
    (hbefore : ∀ (j : Nat) (q : Protocol), j < i → m.m_protocols[j]? = some q →
      q.canAcceptMessage canId = false)
    (hacc : D.canAcceptMessage canId = true)
    (hok : (D.parseMessage canId data length now).1 = true) :
    (m.routeMessage canId data length now).1 = true ∧
    (m.routeMessage canId data length now).2.m_autoDetect = m.m_autoDetect ∧
    (m.routeMessage canId data length now).2.m_protocols[i]? =
      some (D.parseMessage canId data length now).2 ∧
    (∀ (j : Nat) (q : Protocol), j < i → m.m_protocols[j]? = some q →
      (m.routeMessage canId data length now).2.m_protocols[j]? = some q) ∧
    (m.routeMessage canId data length now).2.m_detectionStats =
      (afterHit m i now).m_detectionStats ∧
    (m.routeMessage canId data length now).2.m_activeProtocol =
      (afterHit m i now).m_activeProtocol := by
  have hil := lt_length_of_getElem? _ _ _ hD
  obtain ⟨ps, h1, -, h3⟩ := routeLoop_first_hit canId data length now m.m_protocols.length 0
    m i D (Nat.zero_le _) (by omega) hD hacc hok
    (fun t q _ ht hq hqa => by rw [hbefore t q ht hq] at hqa; cases hqa)
  rw [routeMessage_unpinned m canId data length now hun, h1]
  refine ⟨rfl, ?_, ?_, ?_, ?_, ?_⟩
  · rw [afterHit_autoDetect]
  · rw [afterHit_protocols]
    show ps[i]? = _
    rw [h3 i D hD, if_pos ⟨Nat.zero_le _, le_refl _, hacc⟩]
  · intro j q hj hq
    rw [afterHit_protocols]
    show ps[j]? = _
    rw [h3 j q hq, if_neg (by simp [hbefore j q hj hq])]
  · rw [afterHit_stats, afterHit_stats]
  · rw [afterHit_active, afterHit_active]

/-- Feeding frames that decoder `i` is the first to accept and parses: `c`
successful parses so far become `c + frames.length`. -/
theorem routeAll_first_accepting (i : Nat) :
    ∀ (frames : List (Nat × List Nat × Nat × Nat)) (m : ProtocolManager) (D : Protocol) (c : Nat),
      m.m_autoDetect = true → m.m_protocols[i]? = some D →
      (∀ f ∈ frames,
        (∀ (j : Nat) (q : Protocol), j < i → m.m_protocols[j]? = some q →
          q.canAcceptMessage f.1 = false) ∧
        D.canAcceptMessage f.1 = true ∧
        (D.parseMessage f.1 f.2.1 f.2.2.1 f.2.2.2).1 = true) →
      ((c < DETECTION_THRESHOLD ∧ m.m_activeProtocol = none ∧
          ∃ st : DetectionStats, m.m_detectionStats[i]? = some st ∧ st.matchCount = c) ∨
        (DETECTION_THRESHOLD ≤ c ∧ m.m_activeProtocol = some i)) →
      ((c + frames.length < DETECTION_THRESHOLD ∧ (m.routeAll frames).m_activeProtocol = none ∧
          ∃ st : DetectionStats, (m.routeAll frames).m_detectionStats[i]? = some st ∧
            st.matchCount = c + frames.length) ∨
        (DETECTION_THRESHOLD ≤ c + frames.length ∧
          (m.routeAll frames).m_activeProtocol = some i)) := by
  intro frames
  induction frames with
  | nil => intro m D c _ _ _ h; exact h
  | cons f rest ih =>
    intro m D c hauto hD hall hinv
    obtain ⟨hb, ha, hp⟩ := hall f (List.mem_cons_self _ _)
    obtain ⟨-, s2, s3, s4, s5, s6⟩ := routeMessage_first_accepting m i D f.1 f.2.1 f.2.2.1 f.2.2.2
      (Or.inr hauto) hD hb ha hp
    have hty := Protocol.getType_parseMessage D f.1 f.2.1 f.2.2.1 f.2.2.2
    have hnext := ih (m.routeMessage f.1 f.2.1 f.2.2.1 f.2.2.2).2
      (D.parseMessage f.1 f.2.1 f.2.2.1 f.2.2.2).2 (c + 1) (by rw [s2]; exact hauto) s3
      (by
        intro g hg
        obtain ⟨gb, ga, gp⟩ := hall g (List.mem_cons_of_mem _ hg)
        refine ⟨?_, ?_, ?_⟩
        · intro j q hj hq
          have hjl : j < m.m_protocols.length := by
            have := lt_length_of_getElem? _ _ _ hD
            omega
          have hq0 := s4 j m.m_protocols[j] hj (List.getElem?_eq_getElem hjl)
          rw [hq0] at hq
          cases hq
          exact gb j _ hj (List.getElem?_eq_getElem hjl)
        · rw [Protocol.canAccept_of_getType _ D g.1 hty]; exact ga
        · rw [Protocol.parseMessage_fst_of_getType _ D g.1 g.2.1 g.2.2.1 g.2.2.2 g.2.2.2 hty]
          exact gp)
      (by
        rw [s5, s6, afterHit_stats, afterHit_active]
        rcases hinv with ⟨hc, hact, st, hst, hcnt⟩ | ⟨hc, hact⟩
        · have hk := lt_length_of_getElem? _ _ _ hst
          have hmod : (st.matchCount + 1) % 2 ^ 32 = c + 1 := by
            rw [hcnt]
            apply Nat.mod_eq_of_lt
            unfold DETECTION_THRESHOLD at hc
            omega
          rw [hst, hact]
          simp only [hmod]
          by_cases h5 : DETECTION_THRESHOLD ≤ c + 1
          · right
            refine ⟨h5, ?_⟩
            rw [if_pos (by rw [decide_eq_true h5]; rfl)]
          · left
            refine ⟨by omega, ?_, ?_⟩
            · rw [if_neg (by rw [decide_eq_false h5]; exact Bool.false_ne_true)]
            · exact ⟨_, List.getElem?_set_self hk, rfl⟩
        · right
          refine ⟨by omega, ?_⟩
          rw [hact]
          cases m.m_detectionStats[i]? with
          | none => rfl
          | some st =>
            show (if (decide (DETECTION_THRESHOLD ≤ (st.matchCount + 1) % 2 ^ 32) &&
              (some i).isNone) = true then some i else some i) = some i
            split_ifs <;> rfl)
    have hlen : c + (f :: rest).length = c + 1 + rest.length := by
      simp only [List.length_cons]; omega
    rw [hlen]
    exact hnext

/-- The fallback loop of `getData` when no decoder is connected. -/
theorem getDataLoop_none (now : Nat) (data : bms_data_t) (ps : List Protocol)
    (h : ∀ P ∈ ps, Protocol.isConnected P now 5000 = false) :
    getDataLoop now data ps = (false, data) := by
  induction ps with
  | nil => rfl
  | cons p rest ih =>
    unfold getDataLoop
    rw [h p (List.mem_cons_self _ _)]
    simp only [Bool.false_and, Bool.false_eq_true, if_false]
    exact ih (fun P hP => h P (List.mem_cons_of_mem _ hP))

/-- The fallback loop of `getData` returns the data of the first connected decoder. -/
theorem getDataLoop_first (now : Nat) (data : bms_data_t) :
    ∀ (ps : List Protocol) (k : Nat) (P : Protocol), ps[k]? = some P →
      P.isConnected now 5000 = true →
      (∀ (j : Nat) (Q : Protocol), j < k → ps[j]? = some Q → Q.isConnected now 5000 = false) →
      getDataLoop now data ps = P.getData now data := by
  intro ps
  induction ps with
  | nil => intro k P h; simp at h
  | cons p rest ih =>
    intro k P hk hc hbefore
    unfold getDataLoop
    cases k with
    | zero =>
      simp only [List.getElem?_cons_zero, Option.some.injEq] at hk
      subst hk
      have hg : (p.getData now data).1 = true := by
        rw [protocol_getData_eq, if_pos hc]
      rw [hc, hg]
      simp only [Bool.and_self, if_true]
      exact Prod.ext hg.symm rfl
    | succ k =>
      have h0 : p.isConnected now 5000 = false := hbefore 0 p (Nat.succ_pos _) (List.getElem?_cons_zero)
      rw [h0]
      simp only [Bool.false_and, Bool.false_eq_true, if_false]
      exact ih k P (by simpa using hk) hc
        (fun j Q hj hQ => hbefore (j + 1) Q (by omega) (by simpa using hQ))

/-- The fallback loop of `getData`: either some connected decoder supplies the
data whatever the buffer, or the buffer comes back untouched. -/
theorem getDataLoop_cases (now : Nat) (ps : List Protocol) :
    (∃ P : Protocol, P ∈ ps ∧ P.isConnected now 5000 = true ∧
      ∀ data : bms_data_t, getDataLoop now data ps = P.getData now data) ∨
    (∀ data : bms_data_t, getDataLoop now data ps = (false, data)) := by
  classical
  by_cases h : ∃ (k : Nat) (P : Protocol), ps[k]? = some P ∧ P.isConnected now 5000 = true
  · obtain ⟨P, hP, hc⟩ := Nat.find_spec h
    have hfirst : ∀ (j : Nat) (Q : Protocol), j < Nat.find h → ps[j]? = some Q →
        Q.isConnected now 5000 = false := by
      intro j Q hj hQ
      have := Nat.find_min h hj
      cases hr : Q.isConnected now 5000 with
      | false => rfl
      | true => exact absurd ⟨Q, hQ, hr⟩ this
    exact Or.inl ⟨P, List.getElem?_mem hP, hc,
      fun data => getDataLoop_first now data ps _ P hP hc hfirst⟩
  · have hn : ∀ P ∈ ps, Protocol.isConnected P now 5000 = false := by
      intro P hP
      obtain ⟨k, hk⟩ := List.getElem?_of_mem hP
      cases hr : P.isConnected now 5000 with
      | false => rfl
      | true => exact absurd ⟨k, P, hk, hr⟩ h
    exact Or.inr (fun data => getDataLoop_none now data ps hn)

/-- `getData` of the manager: either some connected decoder supplies the data
whatever the buffer, or the buffer comes back untouched. -/
theorem manager_getData_cases (m : ProtocolManager) (now : Nat) :
    (∃ P : Protocol, P.isConnected now 5000 = true ∧
      ∀ data : bms_data_t, m.getData now data = P.getData now data) ∨
    (∀ data : bms_data_t, m.getData now data = (false, data)) := by
  unfold ProtocolManager.getData
  cases m.m_activeProtocol with
  | none =>
    rcases getDataLoop_cases now m.m_protocols with ⟨P, -, hc, h⟩ | h
    · exact Or.inl ⟨P, hc, h⟩
    · exact Or.inr h
  | some a =>
    simp only []
    cases m.m_protocols[a]? with
    | none => exact Or.inr (fun _ => rfl)
    | some P =>
      simp only []
      cases hc : P.isConnected now 5000 with
      | true => exact Or.inl ⟨P, hc, fun _ => rfl⟩
      | false =>
        refine Or.inr (fun data => ?_)
        rw [protocol_getData_eq, hc]
        rfl

/-- The search loop of `selectProtocol` finds the first decoder of the type. -/
theorem selectLoop_first (type : bms_type_t) :
    ∀ (ps : List Protocol) (i k : Nat) (P : Protocol), ps[k]? = some P → P.getType = type →
      (∀ (j : Nat) (Q : Protocol), j < k → ps[j]? = some Q → Q.getType ≠ type) →
      selectLoop type ps i = some (i + k) := by
  intro ps
  induction ps with
  | nil => intro i k P h; simp at h
  | cons p rest ih =>
    intro i k P hk hP hbefore
    unfold selectLoop
    cases k with
    | zero =>
      simp only [List.getElem?_cons_zero, Option.some.injEq] at hk
      subst hk
      rw [if_pos hP]
      rfl
    | succ k =>
      have h0 : p.getType ≠ type := hbefore 0 p (Nat.succ_pos _) List.getElem?_cons_zero
      rw [if_neg h0, ih (i + 1) k P (by simpa using hk) hP
        (fun j Q hj hQ => hbefore (j + 1) Q (by omega) (by simpa using hQ))]
      congr 1
      omega

/-- The search loop of `selectProtocol` fails when no decoder has the type. -/
theorem selectLoop_none (type : bms_type_t) :
    ∀ (ps : List Protocol) (i : Nat), (∀ P ∈ ps, Protocol.getType P ≠ type) →
      selectLoop type ps i = none := by
  intro ps
  induction ps with
  | nil => intro i _; rfl
  | cons p rest ih =>
    intro i h
    unfold selectLoop
    rw [if_neg (h p (List.mem_cons_self _ _))]
    exact ih (i + 1) (fun P hP => h P (List.mem_cons_of_mem _ hP))

/-- The lifecycle loop visits every decoder and returns the conjunction of
the entry flag and all results. -/
theorem lifecycleLoop_eq (op : Protocol → Bool × Protocol) :
    ∀ (ps : List Protocol) (b : Bool),
      lifecycleLoop op ps b =
        (b && (ps.map fun p => (op p).1).all id, ps.map fun p => (op p).2) := by
  intro ps
  induction ps with
  | nil => intro b; simp [lifecycleLoop]
  | cons p rest ih =>
    intro b
    unfold lifecycleLoop
    rw [ih]
    cases h : (op p).1 <;> cases b <;> simp [h]

/-- A frame that no registered decoder accepts falls through the detection loop. -/
theorem routeLoop_none_accepting (canId : Nat) (data : List Nat) (length now : Nat)
    (m : ProtocolManager) (h : ∀ p ∈ m.m_protocols, p.canAcceptMessage canId = false) :
    ∀ (n i : Nat), routeLoop canId data length now n i m = (false, m) := by
  intro n
  induction n with
  | zero => intro i; rfl
  | succ n ih =>
    intro i
    cases hp : m.m_protocols[i]? with
    | none => exact routeLoop_none canId data length now n i m hp
    | some p =>
      rw [routeLoop_skip canId data length now n i m p hp (h p (List.getElem?_mem hp))]
      exact ih (i + 1)

end ProtocolManager

open ProtocolManager

/-! ## Lemmas on call sequences, identifier sets and the structure of the manager -/

/-- Little-endian composition of four bytes. -/
theorem extractUint32_littleEndian (data : List Nat) (o : Nat) :
    extractUint32 data o false =
      byteAt data o + 2 ^ 8 * byteAt data (o + 1) + 2 ^ 16 * byteAt data (o + 2) +
        2 ^ 24 * byteAt data (o + 3) := by
  have h0 := byteAt_lt data o
  have h1 := byteAt_lt data (o + 1)
  have h2 := byteAt_lt data (o + 2)
  have h3 := byteAt_lt data (o + 3)
  unfold extractUint32
  rw [if_neg (by decide), Nat.shiftLeft_eq, Nat.shiftLeft_eq, Nat.shiftLeft_eq]
  have e0 : byteAt data (o + 3) * 2 ^ 24 % 2 ^ 32 = 2 ^ 24 * byteAt data (o + 3) := by
    rw [Nat.mod_eq_of_lt (by omega)]; omega
  have e1 : byteAt data (o + 2) * 2 ^ 16 % 2 ^ 32 = 2 ^ 16 * byteAt data (o + 2) := by
    rw [Nat.mod_eq_of_lt (by omega)]; omega
  have e2 : byteAt data (o + 1) * 2 ^ 8 % 2 ^ 32 = 2 ^ 8 * byteAt data (o + 1) := by
    rw [Nat.mod_eq_of_lt (by omega)]; omega
  rw [e0, e1, e2]
  have hB : 2 ^ 16 * byteAt data (o + 2) < 2 ^ 24 := by omega
  have hC : 2 ^ 8 * byteAt data (o + 1) < 2 ^ 16 := by omega
  have hD : byteAt data o < 2 ^ 8 := by omega
  have s1 : 2 ^ 24 * byteAt data (o + 3) ||| 2 ^ 16 * byteAt data (o + 2) =
      2 ^ 16 * (2 ^ 8 * byteAt data (o + 3) + byteAt data (o + 2)) := by
    rw [← Nat.mul_add_lt_is_or hB]; omega
  have s2 : 2 ^ 16 * (2 ^ 8 * byteAt data (o + 3) + byteAt data (o + 2)) |||
      2 ^ 8 * byteAt data (o + 1) =
      2 ^ 8 * (2 ^ 8 * (2 ^ 8 * byteAt data (o + 3) + byteAt data (o + 2)) +
        byteAt data (o + 1)) := by
    rw [← Nat.mul_add_lt_is_or hC]; omega
  rw [s1, s2, ← Nat.mul_add_lt_is_or hD, Nat.mod_eq_of_lt (by omega)]
  omega

/-- A 32-bit value is below `2 ^ 32`. -/
theorem extractUint32_lt (data : List Nat) (o : Nat) (b : Bool) :
    extractUint32 data o b < 2 ^ 32 := by
  unfold extractUint32
  split_ifs <;> exact Nat.mod_lt _ (by decide)

/-- Byte `i` of the reversed group of `w` bytes at offset `o`. -/
theorem byteAt_reverse_group (data : List Nat) (o w i : Nat) (hw : o + w ≤ data.length)
    (hi : i < w) :
    byteAt ((data.drop o).take w).reverse i = byteAt data (o + (w - 1 - i)) := by
  have hlen : ((data.drop o).take w).length = w := by
    rw [List.length_take, List.length_drop]; omega
  unfold byteAt
  rw [List.getD_eq_getElem?_getD, List.getD_eq_getElem?_getD,
    List.getElem?_reverse (by rw [hlen]; exact hi), hlen,
    List.getElem?_take_of_lt (by omega), List.getElem?_drop]

/-- Without a `resetReceivedFlags()` all calls count. -/
theorem sinceReset_of_no_reset (calls : List PylontechCall)
    (h : calls.any PylontechCall.isReset = false) : PylontechCall.sinceReset calls = calls := by
  cases calls with
  | nil => rfl
  | cons c rest =>
    rw [List.any_cons, Bool.or_eq_false_iff] at h
    unfold PylontechCall.sinceReset
    rw [h.2, h.1]
    rfl

/-- The tail of `parseMessage` keeps the received flags. -/
theorem pylontech_finish_received (s : PylontechCan) (b : Bool) (now : Nat) :
    (PylontechCan.finish s b now).2.m_voltageReceived = s.m_voltageReceived ∧
    (PylontechCan.finish s b now).2.m_currentReceived = s.m_currentReceived ∧
    (PylontechCan.finish s b now).2.m_socReceived = s.m_socReceived := by
  unfold PylontechCan.finish
  cases b <;> exact ⟨rfl, rfl, rfl⟩

/-- The Pylontech `parseMessage` sets the received flag of an accepted
voltage, current or SOC frame and keeps the flags otherwise. -/
theorem pylontech_parse_received (s : PylontechCan) (canId : Nat) (data : List Nat)
    (length now : Nat) :
    (s.parseMessage canId data length now).2.m_voltageReceived =
      (s.m_voltageReceived ||
        (decide (canId = PylontechCan.ID_VOLTAGE) &&
          (s.parseMessage canId data length now).1)) ∧
    (s.parseMessage canId data length now).2.m_currentReceived =
      (s.m_currentReceived ||
        (decide (canId = PylontechCan.ID_CURRENT) &&
          (s.parseMessage canId data length now).1)) ∧
    (s.parseMessage canId data length now).2.m_socReceived =
      (s.m_socReceived ||
        (decide (canId = PylontechCan.ID_SOC) &&
          (s.parseMessage canId data length now).1)) := by
  have hvc : PylontechCan.ID_VOLTAGE ≠ PylontechCan.ID_CURRENT := by decide
  have hvs : PylontechCan.ID_VOLTAGE ≠ PylontechCan.ID_SOC := by decide
  have hcs : PylontechCan.ID_CURRENT ≠ PylontechCan.ID_SOC := by decide
  unfold PylontechCan.parseMessage
  dsimp only
  by_cases hl : length < 8
  · rw [if_pos hl]
    simp
  rw [if_neg hl]
  by_cases h1 : canId = PylontechCan.ID_VOLTAGE
  · rw [if_pos h1]
    subst h1
    by_cases hv : validateRange (PylontechCan.decodeVoltage data) (F32.lit 40 1) (F32.lit 60 1) = true
    · rw [if_pos hv]
      simp [pylontech_finish_received, PylontechCan.pylontech_finish_fst, hvc, hvs]
    · rw [if_neg hv]
      simp [pylontech_finish_received, PylontechCan.pylontech_finish_fst, hvc, hvs]
  rw [if_neg h1]
  by_cases h2 : canId = PylontechCan.ID_CURRENT
  · rw [if_pos h2]
    subst h2
    simp [pylontech_finish_received, PylontechCan.pylontech_finish_fst, hvc.symm, hcs]
  rw [if_neg h2]
  by_cases h3 : canId = PylontechCan.ID_SOC
  · rw [if_pos h3]
    subst h3
    by_cases hv : validateRange (PylontechCan.decodeSoc data) (F32.lit 0 1) (F32.lit 100 1) = true
    · rw [if_pos hv]
      simp [pylontech_finish_received, PylontechCan.pylontech_finish_fst, hvs.symm, hcs.symm]
    · rw [if_neg hv]
      simp [pylontech_finish_received, PylontechCan.pylontech_finish_fst, hvs.symm, hcs.symm]
  rw [if_neg h3]
  by_cases h4 : canId = PylontechCan.ID_TEMP
  · rw [if_pos h4]
    by_cases hv : validateRange (PylontechCan.decodeTemp data) (F32.lit (-20) 1) (F32.lit 60 1) = true
    · rw [if_pos hv]
      simp [pylontech_finish_received, PylontechCan.pylontech_finish_fst, h1, h2, h3]
    · rw [if_neg hv]
      simp [pylontech_finish_received, PylontechCan.pylontech_finish_fst, h1, h2, h3]
  rw [if_neg h4]
  by_cases h5 : canId = PylontechCan.ID_STATUS
  · rw [if_pos h5]
    simp [pylontech_finish_received, PylontechCan.pylontech_finish_fst, h1, h2, h3]
  rw [if_neg h5]
  by_cases h6 : canId = PylontechCan.ID_ALARM
  · rw [if_pos h6]
    by_cases hb : byteAt data 0 ≠ 0
    · rw [if_pos hb]
      simp [pylontech_finish_received, PylontechCan.pylontech_finish_fst, h1, h2, h3]
    · rw [if_neg hb]
      simp [pylontech_finish_received, PylontechCan.pylontech_finish_fst, h1, h2, h3]
  rw [if_neg h6]
  simp [h1, h2, h3]

/-- A call other than `resetReceivedFlags()` adds to the received flags what
the frame it carries gives. -/
theorem afterCall_received (s : PylontechCan) (c : PylontechCall) (h : c.isReset = false) :
    (s.afterCall c).m_voltageReceived = (s.m_voltageReceived || c.acceptedVoltage) ∧
    (s.afterCall c).m_currentReceived = (s.m_currentReceived || c.parsedCurrent) ∧
    (s.afterCall c).m_socReceived = (s.m_socReceived || c.acceptedSoc) := by
  cases c with
  | callInitialize => exact ⟨(Bool.or_false _).symm, (Bool.or_false _).symm, (Bool.or_false _).symm⟩
  | callStart => exact ⟨(Bool.or_false _).symm, (Bool.or_false _).symm, (Bool.or_false _).symm⟩
  | callStop => exact ⟨(Bool.or_false _).symm, (Bool.or_false _).symm, (Bool.or_false _).symm⟩
  | callResetStats =>
    exact ⟨(Bool.or_false _).symm, (Bool.or_false _).symm, (Bool.or_false _).symm⟩
  | callResetReceivedFlags => cases h
  | callParseMessage canId data length now =>
    have hp := pylontech_parse_received s canId data length now
    rw [PylontechCan.pylontech_parse_fst s PylontechCan.new canId data length now now] at hp
    exact hp

/-- The flags after a sequence of calls, for any flag that a reset clears and
every other call can only set. -/
theorem received_after_calls (flag : PylontechCan → Bool) (f : PylontechCall → Bool)
    (hstep : ∀ (s : PylontechCan) (c : PylontechCall), c.isReset = false →
      flag (s.afterCall c) = (flag s || f c))
    (hreset : ∀ s : PylontechCan, flag (s.afterCall PylontechCall.callResetReceivedFlags) = false) :
    ∀ (calls : List PylontechCall) (s : PylontechCan),
      flag (s.afterCalls calls) =
        ((if calls.any PylontechCall.isReset then false else flag s) ||
          (PylontechCall.sinceReset calls).any f) := by
  intro calls
  induction calls with
  | nil => intro s; simp [PylontechCan.afterCalls, PylontechCall.sinceReset]
  | cons c rest ih =>
    intro s
    show flag ((s.afterCall c).afterCalls rest) = _
    rw [ih (s.afterCall c)]
    by_cases hr : rest.any PylontechCall.isReset = true
    · have e : PylontechCall.sinceReset (c :: rest) = PylontechCall.sinceReset rest := by
        show (if rest.any PylontechCall.isReset then _ else _) = _
        rw [if_pos hr]
      rw [e, if_pos hr, List.any_cons, hr, Bool.or_true, if_pos rfl]
    · have hr0 : rest.any PylontechCall.isReset = false := by
        cases h : rest.any PylontechCall.isReset
        · rfl
        · exact absurd h hr
      rw [if_neg hr, sinceReset_of_no_reset rest hr0]
      by_cases hc : c.isReset = true
      · have e : PylontechCall.sinceReset (c :: rest) = rest := by
          show (if rest.any PylontechCall.isReset then _ else _) = _
          rw [if_neg hr, if_pos hc]
        have hcr : c = PylontechCall.callResetReceivedFlags := by
          cases c <;> first | rfl | cases hc
        rw [e, List.any_cons, hc, Bool.true_or, if_pos rfl, hcr, hreset]
      · have hc0 : c.isReset = false := by
          cases h : c.isReset
          · rfl
          · exact absurd h hc
        have e : PylontechCall.sinceReset (c :: rest) = c :: rest := by
          show (if rest.any PylontechCall.isReset then _ else _) = _
          rw [if_neg hr, if_neg hc]
        rw [e, List.any_cons, hc0, hr0, Bool.or_false, if_neg (by decide), hstep s c hc0,
          List.any_cons, Bool.or_assoc]

/-- After alarm, status and temperature frames only, the flags are as before. -/
theorem received_after_alarmStatusTemp :
    ∀ (calls : List PylontechCall) (s : PylontechCan),
      (∀ c ∈ calls, PylontechCall.isAlarmStatusTemp c = true) →
      (s.afterCalls calls).hasCompleteData = s.hasCompleteData := by
  intro calls
  induction calls with
  | nil => intro s _; rfl
  | cons c rest ih =>
    intro s h
    show ((s.afterCall c).afterCalls rest).hasCompleteData = _
    rw [ih (s.afterCall c) (fun x hx => h x (List.mem_cons_of_mem _ hx))]
    have hc := h c (List.mem_cons_self _ _)
    cases c with
    | callParseMessage canId data length now =>
      have hp := afterCall_received s (PylontechCall.callParseMessage canId data length now) rfl
      have hid : canId = PylontechCan.ID_ALARM ∨ canId = PylontechCan.ID_STATUS ∨
          canId = PylontechCan.ID_TEMP := by
        simpa [PylontechCall.isAlarmStatusTemp, or_assoc] using hc
      have n1 : ¬ canId = PylontechCan.ID_VOLTAGE := by
        rcases hid with h | h | h <;> rw [h] <;> decide
      have n2 : ¬ canId = PylontechCan.ID_CURRENT := by
        rcases hid with h | h | h <;> rw [h] <;> decide
      have n3 : ¬ canId = PylontechCan.ID_SOC := by
        rcases hid with h | h | h <;> rw [h] <;> decide
      unfold PylontechCan.hasCompleteData
      rw [hp.1, hp.2.1, hp.2.2]
      simp [PylontechCall.acceptedVoltage, PylontechCall.parsedCurrent,
        PylontechCall.acceptedSoc, n1, n2, n3]
    | callInitialize => cases hc
    | callStart => cases hc
    | callStop => cases hc
    | callResetStats => cases hc
    | callResetReceivedFlags => cases hc

/-- The decoder after a list of calls followed by one more. -/
theorem afterCalls_append_one (calls : List PylontechCall) (c : PylontechCall) :
    ∀ s : PylontechCan, s.afterCalls (calls ++ [c]) = (s.afterCalls calls).afterCall c := by
  induction calls with
  | nil => intro s; rfl
  | cons d rest ih => intro s; exact ih (s.afterCall d)

/-- The model of the `uint32_t` difference `millis() - m_lastUpdate`. -/
theorem age_mod (now t : Nat) (h1 : now < 2 ^ 32) (h2 : t < 2 ^ 32) :
    (((now + 2 ^ 32 - t) % 2 ^ 32 : Nat) : Int) = ((now : Int) - (t : Int)) % 2 ^ 32 := by
  omega

/-- Parsing through a `CanProtocolBase*` is parsing by the Pylontech decoder. -/
theorem afterCall_protocol (s : PylontechCan) :
    Protocol.pylontech (s.afterCall PylontechCall.callInitialize) =
      ( Protocol.initialize (Protocol.pylontech s)).2 ∧
    Protocol.pylontech (s.afterCall PylontechCall.callStart) = (Protocol.pylontech s).start.2 ∧
    Protocol.pylontech (s.afterCall PylontechCall.callStop) = (Protocol.pylontech s).stop.2 ∧
    Protocol.pylontech (s.afterCall PylontechCall.callResetStats) =
      (Protocol.pylontech s).resetStats ∧
    ∀ (canId : Nat) (data : List Nat) (length now : Nat),
      Protocol.pylontech (s.afterCall (PylontechCall.callParseMessage canId data length now)) =
        ((Protocol.pylontech s).parseMessage canId data length now).2 :=
  ⟨rfl, rfl, rfl, rfl, fun _ _ _ _ => rfl⟩

/-- The identifiers the Pylontech decoder accepts. -/
theorem pylontech_accept_ids (s : PylontechCan) (canId : Nat)
    (h : s.canAcceptMessage canId = true) :
    canId = 0x359 ∨ canId = 0x35C ∨ canId = 0x355 ∨ canId = 0x356 ∨ canId = 0x35E ∨
      canId = 0x35A := by
  unfold PylontechCan.canAcceptMessage at h
  simp only [Bool.or_eq_true, beq_iff_eq, or_assoc] at h
  exact h

/-- The identifiers the DALY decoder accepts. -/
theorem daly_accept_ids (s : DalyCan) (canId : Nat) (h : s.canAcceptMessage canId = true) :
    canId = 0x18FF50E5 ∨ canId = 0x18FF51E5 ∨ canId = 0x18FF52E5 ∨ canId = 0x18FF53E5 ∨
      canId = 0x18FF54E5 ∨ canId = 0x18FF55E5 := by
  unfold DalyCan.canAcceptMessage at h
  simp only [Bool.or_eq_true, beq_iff_eq, or_assoc] at h
  exact h

/-- No identifier is accepted by both the Pylontech and the JK-BMS decoder. -/
theorem pylontech_jk_disjoint (p : PylontechCan) (j : JkBmsCan) (canId : Nat)
    (hp : p.canAcceptMessage canId = true) : j.canAcceptMessage canId = false := by
  rcases pylontech_accept_ids p canId hp with h | h | h | h | h | h <;> rw [h] <;> rfl

/-- No identifier is accepted by both the Pylontech and the DALY decoder. -/
theorem pylontech_daly_disjoint (p : PylontechCan) (d : DalyCan) (canId : Nat)
    (hp : p.canAcceptMessage canId = true) : d.canAcceptMessage canId = false := by
  rcases pylontech_accept_ids p canId hp with h | h | h | h | h | h <;> rw [h] <;> rfl

/-- No identifier is accepted by both the DALY and the JK-BMS decoder. -/
theorem daly_jk_disjoint (d : DalyCan) (j : JkBmsCan) (canId : Nat)
    (hd : d.canAcceptMessage canId = true) : j.canAcceptMessage canId = false := by
  rcases daly_accept_ids d canId hd with h | h | h | h | h | h <;> rw [h] <;> rfl

/-- Two decoders that accept the same identifier are of the same class. -/
theorem accept_same_type (p q : Protocol) (canId : Nat) (hp : p.canAcceptMessage canId = true)
    (hq : q.canAcceptMessage canId = true) : p.getType = q.getType := by
  cases p with
  | pylontech a =>
    cases q with
    | pylontech b => rfl
    | jkBms b => rw [show (Protocol.jkBms b).canAcceptMessage canId = false from
        pylontech_jk_disjoint a b canId hp] at hq; cases hq
    | daly b => rw [show (Protocol.daly b).canAcceptMessage canId = false from
        pylontech_daly_disjoint a b canId hp] at hq; cases hq
  | jkBms a =>
    cases q with
    | pylontech b => rw [show (Protocol.jkBms a).canAcceptMessage canId = false from
        pylontech_jk_disjoint b a canId hq] at hp; cases hp
    | jkBms b => rfl
    | daly b => rw [show (Protocol.jkBms a).canAcceptMessage canId = false from
        daly_jk_disjoint b a canId hq] at hp; cases hp
  | daly a =>
    cases q with
    | pylontech b => rw [show (Protocol.daly a).canAcceptMessage canId = false from
        pylontech_daly_disjoint b a canId hq] at hp; cases hp
    | jkBms b => rw [show (Protocol.jkBms b).canAcceptMessage canId = false from
        daly_jk_disjoint a b canId hp] at hq; cases hq
    | daly b => rfl

/-- In a list of decoders of pairwise different classes, positions that hold
decoders of one class coincide. -/
theorem index_of_type (ps : List Protocol) (hnd : (ps.map Protocol.getType).Nodup)
    (i j : Nat) (p q : Protocol) (hp : ps[i]? = some p) (hq : ps[j]? = some q)
    (h : p.getType = q.getType) : i = j := by
  have key := List.nodup_iff_getElem?_ne_getElem?.mp hnd
  have hi : (ps.map Protocol.getType)[i]? = some p.getType := by
    rw [List.getElem?_map, hp]; rfl
  have hj : (ps.map Protocol.getType)[j]? = some q.getType := by
    rw [List.getElem?_map, hq]; rfl
  have li : i < ps.length := lt_length_of_getElem? ps i p hp
  have lj : j < ps.length := lt_length_of_getElem? ps j q hq
  rcases Nat.lt_trichotomy i j with hlt | heq | hgt
  · exact absurd (by rw [hi, hj, h]) (key i j hlt (by rw [List.length_map]; exact lj))
  · exact heq
  · exact absurd (by rw [hi, hj, h]) (key j i hgt (by rw [List.length_map]; exact li))

namespace ProtocolManager

/-- Detection-mode `routeMessage` on decoders of pairwise different classes:
every decoder that accepts the identifier parses the frame, the others are
left alone, and the flag tells whether some decoder accepted and parsed. -/
theorem routeMessage_distinct (m : ProtocolManager) (canId : Nat) (data : List Nat)
    (length now : Nat) (hun : m.m_activeProtocol = none ∨ m.m_autoDetect = true)
    (hnd : (m.m_protocols.map Protocol.getType).Nodup) :
    (m.routeMessage canId data length now).1 =
      m.m_protocols.any (fun q => q.takes canId data length now) ∧
    (m.routeMessage canId data length now).2.m_protocols =
      m.m_protocols.map (fun q => q.offered canId data length now) := by
  rcases routeMessage_unpinned_cases m canId data length now hun with
    ⟨hno, ps, hr, hlen, hps⟩ | ⟨k, p, hk, hacc, hok, _, ps, hr, hlen, hps⟩
  · rw [hr]
    constructor
    · show false = _
      symm
      rw [Bool.eq_false_iff]
      intro hany
      obtain ⟨q, hq, ht⟩ := List.any_eq_true.mp hany
      obtain ⟨j, hj⟩ := List.getElem?_of_mem hq
      unfold Protocol.takes at ht
      rw [Bool.and_eq_true] at ht
      rw [hno j q hj ht.1] at ht
      exact absurd ht.2 (by decide)
    · show ps = _
      apply List.ext_getElem?
      intro j
      rw [List.getElem?_map]
      cases hj : m.m_protocols[j]? with
      | none =>
        have : m.m_protocols.length ≤ j := by
          rcases Nat.lt_or_ge j m.m_protocols.length with h | h
          · rw [List.getElem?_eq_getElem h] at hj; cases hj
          · exact h
        rw [List.getElem?_eq_none (by omega)]
        rfl
      | some q => exact hps j q hj
  · rw [hr]
    constructor
    · show true = _
      symm
      apply List.any_eq_true.mpr
      refine ⟨p, List.getElem?_mem hk, ?_⟩
      unfold Protocol.takes
      rw [hacc, hok]
      rfl
    · rw [afterHit_protocols]
      show ps = _
      apply List.ext_getElem?
      intro j
      rw [List.getElem?_map]
      cases hj : m.m_protocols[j]? with
      | none =>
        have : m.m_protocols.length ≤ j := by
          rcases Nat.lt_or_ge j m.m_protocols.length with h | h
          · rw [List.getElem?_eq_getElem h] at hj; cases hj
          · exact h
        rw [List.getElem?_eq_none (by omega)]
        rfl
      | some q =>
        rw [hps j q hj]
        show some _ = some (Protocol.offered q canId data length now)
        unfold Protocol.offered
        by_cases hq : q.canAcceptMessage canId = true
        · have hjk : j = k :=
            index_of_type m.m_protocols hnd j k q p hj hk (accept_same_type q p canId hq hacc)
          rw [if_pos ⟨by omega, hq⟩, if_pos hq]
        · rw [if_neg (fun h => hq h.2), if_neg hq]

end ProtocolManager

/-- The tail of the Pylontech `parseMessage` counts once. -/
theorem pylontech_finish_counted (self s1 : PylontechCan) (parsed : Bool) (now : Nat)
    (h1 : s1.m_errorCount = self.m_errorCount) (h2 : s1.m_messageCount = self.m_messageCount) :
    CanProtocolBase.countedOnce self.toCanProtocolBase
      (PylontechCan.finish s1 parsed now).1
      (PylontechCan.finish s1 parsed now).2.toCanProtocolBase := by
  cases parsed
  · exact Or.inr ⟨rfl, h2, by rw [← h1]; rfl⟩
  · exact Or.inl ⟨rfl, by rw [← h2]; rfl, h1⟩

/-- The tail of the DALY `parseMessage` counts once. -/
theorem daly_finish_counted (self s1 : DalyCan) (parsed : Bool) (now : Nat)
    (h1 : s1.m_errorCount = self.m_errorCount) (h2 : s1.m_messageCount = self.m_messageCount) :
    CanProtocolBase.countedOnce self.toCanProtocolBase
      (DalyCan.finish s1 parsed now).1
      (DalyCan.finish s1 parsed now).2.toCanProtocolBase := by
  cases parsed
  · exact Or.inr ⟨rfl, h2, by rw [← h1]; rfl⟩
  · exact Or.inl ⟨rfl, by rw [← h2]; rfl, h1⟩

/-- The tail of the JK-BMS `parseMessage` counts once. -/
theorem jk_finish_counted (self s1 : JkBmsCan) (parsed : Bool) (now : Nat)
    (h1 : s1.m_errorCount = self.m_errorCount) (h2 : s1.m_messageCount = self.m_messageCount) :
    CanProtocolBase.countedOnce self.toCanProtocolBase
      (JkBmsCan.finish s1 parsed now).1
      (JkBmsCan.finish s1 parsed now).2.toCanProtocolBase := by
  cases parsed
  · exact Or.inr ⟨rfl, h2, by rw [← h1]; rfl⟩
  · exact Or.inl ⟨rfl, by rw [← h2]; rfl, h1⟩

/-- Every identifier the Pylontech decoder accepts is counted by `parseMessage`. -/
theorem pylontech_accepted_counted (s : PylontechCan) (canId : Nat) (data : List Nat)
    (length now : Nat) (hlen : 8 ≤ length) (hacc : s.canAcceptMessage canId = true) :
    CanProtocolBase.countedOnce s.toCanProtocolBase
      (s.parseMessage canId data length now).1
      (s.parseMessage canId data length now).2.toCanProtocolBase := by
  have hids := pylontech_accept_ids s canId hacc
  unfold PylontechCan.parseMessage
  dsimp only
  rw [if_neg (Nat.not_lt.mpr hlen)]
  by_cases h1 : canId = PylontechCan.ID_VOLTAGE
  · rw [if_pos h1]
    split_ifs <;> exact pylontech_finish_counted s _ _ now rfl rfl
  rw [if_neg h1]
  by_cases h2 : canId = PylontechCan.ID_CURRENT
  · rw [if_pos h2]
    exact pylontech_finish_counted s _ _ now rfl rfl
  rw [if_neg h2]
  by_cases h3 : canId = PylontechCan.ID_SOC
  · rw [if_pos h3]
    split_ifs <;> exact pylontech_finish_counted s _ _ now rfl rfl
  rw [if_neg h3]
  by_cases h4 : canId = PylontechCan.ID_TEMP
  · rw [if_pos h4]
    split_ifs <;> exact pylontech_finish_counted s _ _ now rfl rfl
  rw [if_neg h4]
  by_cases h5 : canId = PylontechCan.ID_STATUS
  · rw [if_pos h5]
    exact pylontech_finish_counted s _ _ now rfl rfl
  rw [if_neg h5]
  by_cases h6 : canId = PylontechCan.ID_ALARM
  · rw [if_pos h6]
    split_ifs <;> exact pylontech_finish_counted s _ _ now rfl rfl
  · rcases hids with h | h | h | h | h | h
    · exact absurd h h1
    · exact absurd h h2
    · exact absurd h h3
    · exact absurd h h4
    · exact absurd h h5
    · exact absurd h h6

/-- Every identifier the DALY decoder accepts is counted by `parseMessage`. -/
theorem daly_accepted_counted (s : DalyCan) (canId : Nat) (data : List Nat)
    (length now : Nat) (hlen : 8 ≤ length) (hacc : s.canAcceptMessage canId = true) :
    CanProtocolBase.countedOnce s.toCanProtocolBase
      (s.parseMessage canId data length now).1
      (s.parseMessage canId data length now).2.toCanProtocolBase := by
  have hids := daly_accept_ids s canId hacc
  unfold DalyCan.parseMessage
  dsimp only
  rw [if_neg (Nat.not_lt.mpr hlen)]
  by_cases h1 : canId = DalyCan.ID_VOLTAGE
  · rw [if_pos h1]
    split_ifs <;> exact daly_finish_counted s _ _ now rfl rfl
  rw [if_neg h1]
  by_cases h2 : canId = DalyCan.ID_CURRENT
  · rw [if_pos h2]
    exact daly_finish_counted s _ _ now rfl rfl
  rw [if_neg h2]
  by_cases h3 : canId = DalyCan.ID_SOC
  · rw [if_pos h3]
    split_ifs <;> exact daly_finish_counted s _ _ now rfl rfl
  rw [if_neg h3]
  by_cases h4 : canId = DalyCan.ID_TEMP
  · rw [if_pos h4]
    split_ifs <;> exact daly_finish_counted s _ _ now rfl rfl
  rw [if_neg h4]
  by_cases h5 : canId = DalyCan.ID_STATUS
  · rw [if_pos h5]
    split_ifs <;> exact daly_finish_counted s _ _ now rfl rfl
  rw [if_neg h5]
  by_cases h6 : canId = DalyCan.ID_CELLS
  · rw [if_pos h6]
    exact daly_finish_counted s _ _ now rfl rfl
  · rcases hids with h | h | h | h | h | h
    · exact absurd h h1
    · exact absurd h h2
    · exact absurd h h3
    · exact absurd h h4
    · exact absurd h h5
    · exact absurd h h6

/-- The message type of a JK-BMS identifier is its low byte. -/
theorem jk_getMessageType_eq (canId : Nat) : JkBmsCan.getMessageType canId = canId &&& 0xFF := by
  unfold JkBmsCan.getMessageType
  rw [and_ff_eq_mod, Nat.mod_mod]

/-- The JK-BMS `parseMessage` counts once on the message types it has a case for. -/
theorem jk_handled_counted (s : JkBmsCan) (canId : Nat) (data : List Nat)
    (length now : Nat) (hlen : 8 ≤ length)
    (hin : (canId &&& 0xFF) ∈ JkBmsCan.handledTypes) :
    CanProtocolBase.countedOnce s.toCanProtocolBase
      (s.parseMessage canId data length now).1
      (s.parseMessage canId data length now).2.toCanProtocolBase := by
  rw [← jk_getMessageType_eq] at hin
  unfold JkBmsCan.parseMessage
  dsimp only
  rw [if_neg (Nat.not_lt.mpr hlen)]
  by_cases h1 : JkBmsCan.getMessageType canId = JkBmsCan.MSG_VOLTAGE
  · rw [if_pos h1]
    split_ifs <;> exact jk_finish_counted s _ _ now rfl rfl
  rw [if_neg h1]
  by_cases h2 : JkBmsCan.getMessageType canId = JkBmsCan.MSG_CURRENT
  · rw [if_pos h2]
    exact jk_finish_counted s _ _ now rfl rfl
  rw [if_neg h2]
  by_cases h3 : JkBmsCan.getMessageType canId = JkBmsCan.MSG_SOC
  · rw [if_pos h3]
    split_ifs <;> exact jk_finish_counted s _ _ now rfl rfl
  rw [if_neg h3]
  by_cases h4 : JkBmsCan.getMessageType canId = JkBmsCan.MSG_TEMP
  · rw [if_pos h4]
    split_ifs <;> exact jk_finish_counted s _ _ now rfl rfl
  rw [if_neg h4]
  by_cases h5 : JkBmsCan.getMessageType canId = JkBmsCan.MSG_STATUS
  · rw [if_pos h5]
    exact jk_finish_counted s _ _ now rfl rfl
  rw [if_neg h5]
  by_cases h6 : JkBmsCan.getMessageType canId = JkBmsCan.MSG_CELLS
  · rw [if_pos h6]
    exact jk_finish_counted s _ _ now rfl rfl
  · unfold JkBmsCan.handledTypes at hin
    simp only [List.mem_cons, List.mem_singleton, List.not_mem_nil, or_false] at hin
    rcases hin with h | h | h | h | h | h
    · exact absurd h h1
    · exact absurd h h2
    · exact absurd h h3
    · exact absurd h h4
    · exact absurd h h5
    · exact absurd h h6

/-- The JK-BMS `parseMessage` on a message type it has no case for: nothing happens. -/
theorem jk_unhandled_noop (s : JkBmsCan) (canId : Nat) (data : List Nat)
    (length now : Nat) (hlen : 8 ≤ length)
    (hout : (canId &&& 0xFF) ∉ JkBmsCan.handledTypes) :
    s.parseMessage canId data length now = (false, s) := by
  rw [← jk_getMessageType_eq] at hout
  unfold JkBmsCan.handledTypes at hout
  simp only [List.mem_cons, List.mem_singleton, List.not_mem_nil, or_false, not_or] at hout
  rcases jk_parse_cases s canId data length now with
    c | c | c | c | c | c | c | c
  · omega
  · exact absurd c.2.1 hout.1
  · exact absurd c.2.1 hout.2.1
  · exact absurd c.2.1 hout.2.2.1
  · exact absurd c.2.1 hout.2.2.2.1
  · exact absurd c.2.1 hout.2.2.2.2.1
  · exact absurd c.2.1 hout.2.2.2.2.2
  · exact c.2.2.2.2.2.2.2

/-- Writing back the element that is there changes nothing. -/
theorem set_same {α : Type} (l : List α) (i : Nat) (a : α) (h : l[i]? = some a) :
    l.set i a = l := by
  apply List.ext_getElem?
  intro j
  rw [List.getElem?_set]
  by_cases hij : i = j
  · subst hij
    rw [if_pos rfl, if_pos (lt_length_of_getElem? l i a h), h]
  · rw [if_neg hij]

namespace ProtocolManager

/-- A frame on which every accepting decoder returns false and stays as it is
falls through the detection loop. -/
theorem routeLoop_noop (canId : Nat) (data : List Nat) (length now : Nat)
    (m : ProtocolManager)
    (h : ∀ p ∈ m.m_protocols, p.canAcceptMessage canId = true →
      p.parseMessage canId data length now = (false, p)) :
    ∀ (n i : Nat), routeLoop canId data length now n i m = (false, m) := by
  intro n
  induction n with
  | zero => intro i; rfl
  | succ n ih =>
    intro i
    cases hp : m.m_protocols[i]? with
    | none => exact routeLoop_none canId data length now n i m hp
    | some p =>
      cases hacc : p.canAcceptMessage canId with
      | false =>
        rw [routeLoop_skip canId data length now n i m p hp hacc]
        exact ih (i + 1)
      | true =>
        have hpe := h p (List.getElem?_mem hp) hacc
        rw [routeLoop_fail canId data length now n i m p hp hacc (by rw [hpe]), hpe]
        show routeLoop canId data length now n (i + 1)
          { m with m_protocols := m.m_protocols.set i p } = (false, m)
        rw [set_same m.m_protocols i p hp]
        exact ih (i + 1)

/-- A frame on which every accepting decoder returns false and stays as it is
leaves the manager as it is. -/
theorem routeMessage_noop (m : ProtocolManager) (canId : Nat) (data : List Nat)
    (length now : Nat)
    (h : ∀ p ∈ m.m_protocols, p.canAcceptMessage canId = true →
      p.parseMessage canId data length now = (false, p)) :
    m.routeMessage canId data length now = (false, m) := by
  rcases pinned_or_not m with ⟨a, hact, hauto⟩ | hun
  · cases hp : m.m_protocols[a]? with
    | none =>
      unfold routeMessage
      rw [hact, hauto]
      simp only [hp]
    | some active =>
      cases hacc : active.canAcceptMessage canId with
      | false =>
        unfold routeMessage
        rw [hact, hauto]
        simp only [hp, hacc]
        rfl
      | true =>
        have hpe := h active (List.getElem?_mem hp) hacc
        unfold routeMessage
        rw [hact, hauto]
        simp only [hp, hacc, hpe, if_true]
        rw [set_same m.m_protocols a active hp]
        cases m
        simp only at hact hauto
        subst hact hauto
        rfl
  · rw [routeMessage_unpinned m canId data length now hun]
    exact routeLoop_noop canId data length now m h _ _

end ProtocolManager

namespace ProtocolManager

/-- The flag of `routeMessage` in pinned mode. -/
theorem routeMessage_pinned_flag (m : ProtocolManager) (a : Nat) (A : Protocol) (canId : Nat)
    (data : List Nat) (length now : Nat) (hact : m.m_activeProtocol = some a)
    (hauto : m.m_autoDetect = false) (hA : m.m_protocols[a]? = some A) :
    (m.routeMessage canId data length now).1 = A.takes canId data length now := by
  unfold Protocol.takes
  cases hacc : A.canAcceptMessage canId with
  | false =>
    unfold routeMessage
    rw [hact, hauto]
    simp only [hA, hacc]
    rfl
  | true =>
    unfold routeMessage
    rw [hact, hauto]
    simp only [hA, hacc]
    rfl

end ProtocolManager

/-- Of one decoder of each class at most one accepts an identifier. -/
theorem at_most_one_accepts (P : PylontechCan) (J : JkBmsCan) (D : DalyCan) (canId : Nat) :
    (([Protocol.pylontech P, Protocol.jkBms J, Protocol.daly D]).filter
      (fun q => q.canAcceptMessage canId)).length ≤ 1 := by
  cases hp : (Protocol.pylontech P).canAcceptMessage canId with
  | true =>
    have hj : (Protocol.jkBms J).canAcceptMessage canId = false :=
      pylontech_jk_disjoint P J canId hp
    have hd : (Protocol.daly D).canAcceptMessage canId = false :=
      pylontech_daly_disjoint P D canId hp
    simp [List.filter, hp, hj, hd]
  | false =>
    cases hd : (Protocol.daly D).canAcceptMessage canId with
    | true =>
      have hj : (Protocol.jkBms J).canAcceptMessage canId = false :=
        daly_jk_disjoint D J canId hd
      simp [List.filter, hp, hj, hd]
    | false =>
      cases hj : (Protocol.jkBms J).canAcceptMessage canId <;> simp [List.filter, hp, hj, hd]

namespace ProtocolManager

/-- The structural part of `routeMessage`: lengths, the decoder each statistics
entry refers to, and the active decoder is the old one or a registered one. -/
theorem routeMessage_structure (m : ProtocolManager) (canId : Nat) (data : List Nat)
    (length now : Nat) :
    (m.routeMessage canId data length now).2.m_protocols.length = m.m_protocols.length ∧
    (m.routeMessage canId data length now).2.m_detectionStats.length =
      m.m_detectionStats.length ∧
    (∀ (i : Nat) (st : DetectionStats),
      (m.routeMessage canId data length now).2.m_detectionStats[i]? = some st →
      ∃ st0 : DetectionStats, m.m_detectionStats[i]? = some st0 ∧
        st.protocol = st0.protocol) ∧
    (∀ a : Nat, (m.routeMessage canId data length now).2.m_activeProtocol = some a →
      m.m_activeProtocol = some a ∨ a < m.m_protocols.length) := by
  rcases pinned_or_not m with ⟨a, hact, hauto⟩ | hun
  · have hP := routeMessage_pinned m a canId data length now hact hauto
    refine ⟨?_, by rw [hP.1], ?_, ?_⟩
    · cases hp : m.m_protocols[a]? with
      | none =>
        have e : m.routeMessage canId data length now = (false, m) := by
          unfold routeMessage
          rw [hact, hauto]
          simp only [hp]
        rw [e]
      | some active =>
        cases hacc : active.canAcceptMessage canId with
        | false =>
          have e : m.routeMessage canId data length now = (false, m) := by
            unfold routeMessage
            rw [hact, hauto]
            simp only [hp, hacc]
            rfl
          rw [e]
        | true =>
          have e : m.routeMessage canId data length now =
              ((active.parseMessage canId data length now).1,
               { m with m_protocols :=
                  m.m_protocols.set a (active.parseMessage canId data length now).2 }) := by
            unfold routeMessage
            rw [hact, hauto]
            simp only [hp, hacc]
            rfl
          rw [e]
          exact List.length_set _ _ _
    · intro i st hst
      rw [hP.1] at hst
      exact ⟨st, hst, rfl⟩
    · intro b hb
      rw [hP.2.1] at hb
      exact Or.inl hb
  · rcases routeMessage_unpinned_cases m canId data length now hun with
      ⟨_, ps, hr, hlen, _⟩ | ⟨k, p, hk, _, _, _, ps, hr, hlen, _⟩
    · rw [hr]
      exact ⟨hlen, rfl, fun i st hst => ⟨st, hst, rfl⟩, fun a ha => Or.inl ha⟩
    · rw [hr]
      have hklt : k < m.m_protocols.length := lt_length_of_getElem? _ _ _ hk
      refine ⟨?_, ?_, ?_, ?_⟩
      · rw [afterHit_protocols]
        exact hlen
      · rw [afterHit_stats]
        show (match m.m_detectionStats[k]? with
          | none => m.m_detectionStats
          | some st => m.m_detectionStats.set k
              { st with matchCount := (st.matchCount + 1) % 2 ^ 32, lastMatch := now }).length = _
        cases m.m_detectionStats[k]? with
        | none => rfl
        | some st0 => exact List.length_set _ _ _
      · intro i st hst
        rw [afterHit_stats] at hst
        change (match m.m_detectionStats[k]? with
          | none => m.m_detectionStats
          | some st => m.m_detectionStats.set k
              { st with matchCount := (st.matchCount + 1) % 2 ^ 32, lastMatch := now })[i]? =
            some st at hst
        cases hs : m.m_detectionStats[k]? with
        | none =>
          rw [hs] at hst
          exact ⟨st, hst, rfl⟩
        | some st0 =>
          rw [hs] at hst
          simp only [] at hst
          rw [List.getElem?_set] at hst
          by_cases hki : k = i
          · rw [if_pos hki] at hst
            split_ifs at hst with hlt
            · cases hst
              exact ⟨st0, by rw [← hki]; exact hs, rfl⟩
          · rw [if_neg hki] at hst
            exact ⟨st, hst, rfl⟩
      · intro a ha
        rw [afterHit_active] at ha
        change (match m.m_detectionStats[k]? with
          | none => m.m_activeProtocol
          | some st =>
            if DETECTION_THRESHOLD ≤ (st.matchCount + 1) % 2 ^ 32 && m.m_activeProtocol.isNone
            then some k else m.m_activeProtocol) = some a at ha
        cases hs : m.m_detectionStats[k]? with
        | none =>
          rw [hs] at ha
          exact Or.inl ha
        | some st0 =>
          rw [hs] at ha
          simp only [] at ha
          split_ifs at ha
          · cases ha
            exact Or.inr hklt
          · exact Or.inl ha

/-- Every member call keeps the structural invariant. -/
theorem afterCall_wellFormed (m : ProtocolManager) (c : ManagerCall) (h : m.wellFormed) :
    (m.afterCall c).wellFormed := by
  obtain ⟨hlen, hprot, hact⟩ := h
  cases c with
  | callRegisterProtocol protocol =>
    cases protocol with
    | none => exact ⟨hlen, hprot, hact⟩
    | some p =>
      refine ⟨?_, ?_, ?_⟩
      · show (m.m_detectionStats ++ [_]).length = (m.m_protocols ++ [p]).length
        rw [List.length_append, List.length_append, hlen]
        rfl
      · intro i st hst
        change (m.m_detectionStats ++
          [{ protocol := some m.m_protocols.length, matchCount := 0, lastMatch := 0 }])[i]? =
            some st at hst
        rcases Nat.lt_or_ge i m.m_detectionStats.length with hi | hi
        · rw [List.getElem?_append_left hi] at hst
          exact hprot i st hst
        · rw [List.getElem?_append_right hi] at hst
          rcases Nat.eq_zero_or_pos (i - m.m_detectionStats.length) with h0 | h0
          · rw [h0] at hst
            cases hst
            show some m.m_protocols.length = some i
            congr 1
            omega
          · rw [List.getElem?_eq_none (by
              show [_].length ≤ i - m.m_detectionStats.length
              exact h0)] at hst
            cases hst
      · intro a ha
        show a < (m.m_protocols ++ [p]).length
        rw [List.length_append]
        exact Nat.lt_add_right _ (hact a ha)
  | callInitializeAll =>
    refine ⟨?_, hprot, ?_⟩
    · show m.m_detectionStats.length = (m.m_protocols.map _).length
      rw [List.length_map, hlen]
    · intro a ha
      show a < (m.m_protocols.map _).length
      rw [List.length_map]
      exact hact a ha
  | callStartAll =>
    refine ⟨?_, hprot, ?_⟩
    · show m.m_detectionStats.length = (m.m_protocols.map _).length
      rw [List.length_map, hlen]
    · intro a ha
      show a < (m.m_protocols.map _).length
      rw [List.length_map]
      exact hact a ha
  | callStopAll =>
    refine ⟨?_, hprot, ?_⟩
    · show m.m_detectionStats.length = (m.m_protocols.map _).length
      rw [List.length_map, hlen]
    · intro a ha
      cases ha
  | callSetAutoDetect enable =>
    cases enable with
    | false => exact ⟨hlen, hprot, hact⟩
    | true =>
      refine ⟨hlen, hprot, ?_⟩
      intro a ha
      cases ha
  | callSelectProtocol type =>
    show (m.selectProtocol type).2.wellFormed
    unfold selectProtocol
    cases hs : selectLoop type m.m_protocols 0 with
    | none => exact ⟨hlen, hprot, hact⟩
    | some i =>
      refine ⟨hlen, hprot, ?_⟩
      intro a ha
      obtain ⟨_, p, hp, _⟩ := selectLoop_some type m.m_protocols 0 i hs
      have hi : i < m.m_protocols.length := lt_length_of_getElem? _ _ _ hp
      have hai : i = a := Option.some.inj ha
      rw [← hai]
      exact hi
  | callRouteMessage canId data length now =>
    have hs := routeMessage_structure m canId data length now
    refine ⟨?_, ?_, ?_⟩
    · show (m.routeMessage canId data length now).2.m_detectionStats.length =
        (m.routeMessage canId data length now).2.m_protocols.length
      rw [hs.1, hs.2.1, hlen]
    · intro i st hst
      obtain ⟨st0, h0, he⟩ := hs.2.2.1 i st hst
      rw [he]
      exact hprot i st0 h0
    · intro a ha
      show a < (m.routeMessage canId data length now).2.m_protocols.length
      rw [hs.1]
      rcases hs.2.2.2 a ha with h1 | h1
      · exact hact a h1
      · exact h1
  | callResetStats =>
    refine ⟨?_, ?_, ?_⟩
    · show (m.m_detectionStats.map _).length = (m.m_protocols.map _).length
      rw [List.length_map, List.length_map, hlen]
    · intro i st hst
      change (m.m_detectionStats.map fun st =>
        ({ st with matchCount := 0, lastMatch := 0 } : DetectionStats))[i]? = some st at hst
      rw [List.getElem?_map] at hst
      cases h0 : m.m_detectionStats[i]? with
      | none => rw [h0] at hst; cases hst
      | some st0 =>
        rw [h0] at hst
        cases hst
        exact hprot i st0 h0
    · intro a ha
      cases ha

/-- Every sequence of member calls keeps the structural invariant. -/
theorem afterCalls_wellFormed (calls : List ManagerCall) :
    ∀ m : ProtocolManager, m.wellFormed → (m.afterCalls calls).wellFormed := by
  induction calls with
  | nil => intro m h; exact h
  | cons c rest ih => intro m h; exact ih (m.afterCall c) (afterCall_wellFormed m c h)

end ProtocolManager

namespace ProtocolManager

/-- Detection-mode `routeMessage` when decoder `k` is the first that accepts
and parses the frame. -/
theorem routeMessage_first_hit (m : ProtocolManager) (k : Nat) (p : Protocol) (canId : Nat)
    (data : List Nat) (length now : Nat)
    (hun : m.m_activeProtocol = none ∨ m.m_autoDetect = true)
    (hk : m.m_protocols[k]? = some p) (hacc : p.canAcceptMessage canId = true)
    (hok : (p.parseMessage canId data length now).1 = true)
    (hfirst : ∀ (t : Nat) (q : Protocol), t < k → m.m_protocols[t]? = some q →
      q.canAcceptMessage canId = true → (q.parseMessage canId data length now).1 = false) :
    ∃ ps : List Protocol,
      m.routeMessage canId data length now =
        (true, afterHit { m with m_protocols := ps } k now) ∧
      ps.length = m.m_protocols.length ∧
      ∀ (j : Nat) (q : Protocol), m.m_protocols[j]? = some q →
        ps[j]? = some (if j ≤ k ∧ q.canAcceptMessage canId = true
          then (q.parseMessage canId data length now).2 else q) := by
  rw [routeMessage_unpinned m canId data length now hun]
  obtain ⟨ps, hr, hlen, hps⟩ := routeLoop_first_hit canId data length now m.m_protocols.length 0 m
    k p (Nat.zero_le _) (by rw [Nat.zero_add]; exact lt_length_of_getElem? _ _ _ hk) hk hacc hok
    (fun t q _ ht hq ha => hfirst t q ht hq ha)
  refine ⟨ps, hr, hlen, ?_⟩
  intro j q hq
  rw [hps j q hq]
  by_cases hc : j ≤ k ∧ q.canAcceptMessage canId = true
  · rw [if_pos hc, if_pos ⟨Nat.zero_le _, hc.1, hc.2⟩]
  · rw [if_neg hc, if_neg (fun h => hc ⟨h.2.1, h.2.2⟩)]

end ProtocolManager

/-- A multiple of `2 ^ (-149)` equals the decimal `n / 100` only when `n` is a
multiple of 25: other hundredths have no finite binary expansion. -/
theorem hundredth_exact_only_if (x : F32) (n : Nat)
    (h : 100 * x.units = (n : Int) * (F32.one : Int)) : 25 ∣ n := by
  have h1 : (25 : Int) ∣ (n : Int) * (F32.one : Int) := ⟨4 * x.units, by rw [← h]; ring⟩
  have hc : IsCoprime (25 : Int) (F32.one : Int) := by
    rw [F32.one_eq]
    exact (show IsCoprime (25 : Int) 2 by norm_num).pow_right
  exact Int.natCast_dvd_natCast.mp (hc.dvd_of_dvd_mul_right h1)

/-! ## The claims -/

/-- Claim C1 (detection threshold).  Take a manager in auto-detect mode with no
active decoder and all match counts zero, and a registered decoder `D` at
position `i`.  Feed it frames that no earlier-registered decoder accepts, that
`D` accepts and that `D` parses successfully (acceptance and the success flag
depend on the frame and the class of the decoder only, so it is enough to ask
this of `D` as registered).  Then after each of the first four calls of
`routeMessage` no decoder is active, and after the fifth and every later call
the active decoder is `D`. -/
theorem detection_threshold (m : ProtocolManager) (i : Nat) (D : Protocol)
    (frames : List (Nat × List Nat × Nat × Nat))
    (hauto : m.m_autoDetect = true) (hact : m.m_activeProtocol = none)
    (hlen : m.m_detectionStats.length = m.m_protocols.length)
    (hzero : ∀ st ∈ m.m_detectionStats, st.matchCount = 0)
    (hD : m.m_protocols[i]? = some D)
    (hframes : ∀ f ∈ frames,
      (∀ (j : Nat) (q : Protocol), j < i → m.m_protocols[j]? = some q →
        q.canAcceptMessage f.1 = false) ∧
      D.canAcceptMessage f.1 = true ∧
      (D.parseMessage f.1 f.2.1 f.2.2.1 f.2.2.2).1 = true) :
    ∀ k : Nat, k ≤ frames.length →
      (m.routeAll (frames.take k)).m_activeProtocol =
        if k < DETECTION_THRESHOLD then none else some i := by
  intro k hk
  have hil := lt_length_of_getElem? _ _ _ hD
  obtain ⟨st, hst⟩ : ∃ st, m.m_detectionStats[i]? = some st :=
    ⟨_, List.getElem?_eq_getElem (by omega)⟩
  have h0 : st.matchCount = 0 := hzero st (List.getElem?_mem hst)
  have hrun := routeAll_first_accepting i (frames.take k) m D 0 hauto hD
    (fun f hf => hframes f (List.mem_of_mem_take hf))
    (Or.inl ⟨by decide, hact, st, hst, h0⟩)
  have hl : (frames.take k).length = k := by
    rw [List.length_take]; omega
  rw [hl, Nat.zero_add] at hrun
  rcases hrun with ⟨h1, h2, -⟩ | ⟨h1, h2⟩
  · rw [h2, if_pos h1]
  · rw [h2, if_neg (by omega)]

/-- Claim C1 at one decoder of each vendor and six good JK-BMS voltage frames:
the JK-BMS decoder (position 1) is not active after four frames and is active
after five and after six. -/
theorem detection_threshold_witness :
    (ProtocolManager.three.routeAll (sixJk50.take 4)).m_activeProtocol = none ∧
    (ProtocolManager.three.routeAll (sixJk50.take 5)).m_activeProtocol = some 1 ∧
    (ProtocolManager.three.routeAll (sixJk50.take 6)).m_activeProtocol = some 1 := by
  have h := detection_threshold ProtocolManager.three 1 (Protocol.jkBms JkBmsCan.new) sixJk50
    (by decide) (by decide) (by decide) (by decide) (by decide)
    (by
      intro f hf
      have hf1 : f = frameJk50 1000 := List.eq_of_mem_replicate hf
      subst hf1
      refine ⟨?_, by decide, by decide⟩
      intro j q hj hq
      have hj0 : j = 0 := by omega
      subst hj0
      have hq1 : q = Protocol.pylontech PylontechCan.new := by
        have h0 : ProtocolManager.three.m_protocols[0]? =
            some (Protocol.pylontech PylontechCan.new) := by decide
        rw [h0] at hq
        exact (Option.some.inj hq).symm
      subst hq1
      decide)
  exact ⟨h 4 (by decide), h 5 (by decide), h 6 (by decide)⟩

/-- Claim C2, counterexample.  With one decoder of each vendor registered and
none active, the Pylontech decoder is the first (and only) one accepting
identifier 0x359; a voltage frame with raw value 3990 fails its parse and
`routeMessage` returns false, not true.  With two Pylontech decoders registered
the same frame is parsed by both: each counts one error. -/
theorem first_accepting_failure_returns_false :
    ProtocolManager.three.m_activeProtocol = none ∧
    ProtocolManager.three.m_protocols[0]? = some (Protocol.pylontech PylontechCan.new) ∧
    (Protocol.pylontech PylontechCan.new).canAcceptMessage 0x359 = true ∧
    (Protocol.jkBms JkBmsCan.new).canAcceptMessage 0x359 = false ∧
    (Protocol.daly DalyCan.new).canAcceptMessage 0x359 = false ∧
    (ProtocolManager.three.routeMessage 0x359 payload3990 8 1000).1 = false ∧
    ProtocolManager.twoPylontech.m_activeProtocol = none ∧
    (ProtocolManager.twoPylontech.routeMessage 0x359 payload3990 8 1000).1 = false ∧
    (ProtocolManager.twoPylontech.routeMessage 0x359 payload3990 8 1000).2.m_protocols.map
      (fun p => p.base.m_errorCount) = [1, 1] := by
  decide

/-- Claim C2, amended (first success wins).  When no pinned decoder is in
effect, `routeMessage` returns true iff some registered decoder accepts the
identifier and parses the frame successfully.  A decoder is parsed (its state
becomes the state after `parseMessage`) when it accepts the identifier and no
earlier-registered accepting decoder parsed the frame successfully; it is left
untouched when it does not accept the identifier or when an earlier accepting
decoder parsed the frame successfully. -/
theorem route_until_first_success (m : ProtocolManager) (canId : Nat) (data : List Nat)
    (length now : Nat) (hun : m.m_activeProtocol = none ∨ m.m_autoDetect = true) :
    ((m.routeMessage canId data length now).1 = true ↔
      ∃ (k : Nat) (p : Protocol), m.m_protocols[k]? = some p ∧
        p.canAcceptMessage canId = true ∧ (p.parseMessage canId data length now).1 = true) ∧
    (m.routeMessage canId data length now).2.m_protocols.length = m.m_protocols.length ∧
    (∀ (j : Nat) (q : Protocol), m.m_protocols[j]? = some q →
      (q.canAcceptMessage canId = true →
        (∀ (t : Nat) (u : Protocol), t < j → m.m_protocols[t]? = some u →
          u.canAcceptMessage canId = true → (u.parseMessage canId data length now).1 = false) →
        (m.routeMessage canId data length now).2.m_protocols[j]? =
          some (q.parseMessage canId data length now).2) ∧
      (q.canAcceptMessage canId = false →
        (m.routeMessage canId data length now).2.m_protocols[j]? = some q) ∧
      ((∃ (t : Nat) (u : Protocol), t < j ∧ m.m_protocols[t]? = some u ∧
          u.canAcceptMessage canId = true ∧ (u.parseMessage canId data length now).1 = true) →
        (m.routeMessage canId data length now).2.m_protocols[j]? = some q)) := by
  rcases routeMessage_unpinned_cases m canId data length now hun with
    ⟨hn, ps, h1, h2, h3⟩ | ⟨k, p, hk, hpa, hpp, hfirst, ps, h1, h2, h3⟩
  · rw [h1]
    refine ⟨⟨fun h => (by cases h), ?_⟩, h2, ?_⟩
    · rintro ⟨k, p, hk, hpa, hpp⟩
      rw [hn k p hk hpa] at hpp
      cases hpp
    · intro j q hq
      refine ⟨fun ha _ => ?_, fun ha => ?_, ?_⟩
      · show ps[j]? = _
        rw [h3 j q hq, if_pos ha]
      · show ps[j]? = _
        rw [h3 j q hq, if_neg (by simp [ha])]
      · rintro ⟨t, u, -, hu, hua, hup⟩
        rw [hn t u hu hua] at hup
        cases hup
  · rw [h1, afterHit_protocols]
    refine ⟨⟨fun _ => ⟨k, p, hk, hpa, hpp⟩, fun _ => rfl⟩, h2, ?_⟩
    intro j q hq
    refine ⟨fun ha hall => ?_, fun ha => ?_, ?_⟩
    · have hjk : j ≤ k := by
        by_contra hc
        have := hall k p (by omega) hk hpa
        rw [this] at hpp
        cases hpp
      show ps[j]? = _
      rw [h3 j q hq, if_pos ⟨hjk, ha⟩]
    · show ps[j]? = _
      rw [h3 j q hq, if_neg (by simp [ha])]
    · rintro ⟨t, u, htj, hu, hua, hup⟩
      have hkt : k ≤ t := by
        by_contra hc
        have := hfirst t u (by omega) hu hua
        rw [this] at hup
        cases hup
      show ps[j]? = _
      rw [h3 j q hq, if_neg (fun h => by omega)]

/-- Claim C2 as amended, at two Pylontech decoders and an out-of-range voltage
frame: the first parse fails, so the second decoder is parsed as well. -/
theorem route_until_first_success_witness :
    (ProtocolManager.twoPylontech.routeMessage 0x359 payload3990 8 1000).2.m_protocols[1]? =
      some ((Protocol.pylontech PylontechCan.new).parseMessage 0x359 payload3990 8 1000).2 :=
  ((route_until_first_success ProtocolManager.twoPylontech 0x359 payload3990 8 1000
    (Or.inl (by decide))).2.2 1 (Protocol.pylontech PylontechCan.new) (by decide)).1 (by decide)
    (by
      intro t u ht hu hacc
      have ht0 : t = 0 := by omega
      subst ht0
      have h0 : ProtocolManager.twoPylontech.m_protocols[0]? =
          some (Protocol.pylontech PylontechCan.new) := by decide
      rw [h0] at hu
      have hu1 := (Option.some.inj hu).symm
      subst hu1
      decide)

/-- Claim C3 (pinned-mode isolation).  In a manager with decoder `P` pinned
(active decoder `P`, auto-detect off), a frame whose identifier `P` does not
accept makes `routeMessage` return false and leaves the whole manager state,
all decoders included, unchanged.  In particular, after a successful
`selectProtocol(BMS_DALY)` every frame with an identifier the JK-BMS decoder
accepts (0x02F4DAxx) is dropped in this way. -/
theorem pinned_mismatch_dropped :
    (∀ (m : ProtocolManager) (a : Nat) (P : Protocol) (canId : Nat) (data : List Nat)
        (length now : Nat),
      m.m_activeProtocol = some a → m.m_autoDetect = false → m.m_protocols[a]? = some P →
      P.canAcceptMessage canId = false →
      m.routeMessage canId data length now = (false, m)) ∧
    (∀ (m : ProtocolManager) (j : JkBmsCan) (canId : Nat) (data : List Nat) (length now : Nat),
      (m.selectProtocol BMS_DALY).1 = true → j.canAcceptMessage canId = true →
      (m.selectProtocol BMS_DALY).2.routeMessage canId data length now =
        (false, (m.selectProtocol BMS_DALY).2)) := by
  have key : ∀ (m : ProtocolManager) (a : Nat) (P : Protocol) (canId : Nat) (data : List Nat)
      (length now : Nat),
      m.m_activeProtocol = some a → m.m_autoDetect = false → m.m_protocols[a]? = some P →
      P.canAcceptMessage canId = false →
      m.routeMessage canId data length now = (false, m) := by
    intro m a P canId data length now hact hauto hP hacc
    unfold ProtocolManager.routeMessage
    rw [hact, hauto]
    simp only [hP, hacc]
    rfl
  refine ⟨key, ?_⟩
  intro m j canId data length now hsel hj
  unfold ProtocolManager.selectProtocol at hsel ⊢
  cases hs : ProtocolManager.selectLoop BMS_DALY m.m_protocols 0 with
  | none => rw [hs] at hsel; simp at hsel
  | some k =>
    simp only []
    obtain ⟨-, p, hp, hpt⟩ := ProtocolManager.selectLoop_some _ _ _ _ hs
    rw [Nat.sub_zero] at hp
    refine key { m with m_activeProtocol := some k, m_autoDetect := false } k p canId data
      length now rfl rfl hp ?_
    cases p with
    | daly d => exact DalyCan.not_accept_of_jk d j canId hj
    | pylontech s => simp [Protocol.getType, PylontechCan.getType] at hpt
    | jkBms s => simp [Protocol.getType, JkBmsCan.getType] at hpt

/-- Claim C3 at the manager pinned to DALY and JK-BMS identifiers 0x02F4DA01
and 0x02F4DAFF. -/
theorem pinned_mismatch_dropped_witness :
    ProtocolManager.pinnedDaly.routeMessage 0x02F4DA01 [0, 0, 0xC3, 0x50, 0, 0, 0, 0] 8 1000 =
      (false, ProtocolManager.pinnedDaly) ∧
    (ProtocolManager.three.selectProtocol BMS_DALY).2.routeMessage 0x02F4DAFF zeros8 8 1000 =
      (false, (ProtocolManager.three.selectProtocol BMS_DALY).2) :=
  ⟨pinned_mismatch_dropped.1 ProtocolManager.pinnedDaly 2 (Protocol.daly DalyCan.new) 0x02F4DA01
      [0, 0, 0xC3, 0x50, 0, 0, 0, 0] 8 1000 (by decide) (by decide) (by decide) (by decide),
   pinned_mismatch_dropped.2 ProtocolManager.three JkBmsCan.new 0x02F4DAFF zeros8 8 1000
      (by decide) (by decide)⟩

/-- Claim C4 (pinned-mode delegation).  In a manager with decoder `P` pinned
(active decoder `P` at position `a`, auto-detect off), a frame whose identifier
`P` accepts makes `routeMessage` return exactly the result of `P.parseMessage`;
`P` takes the state `parseMessage` leaves, no other decoder changes, and the
detection statistics, the active decoder and the auto-detect flag are
unchanged. -/
theorem pinned_delegation (m : ProtocolManager) (a : Nat) (P : Protocol) (canId : Nat)
    (data : List Nat) (length now : Nat)
    (hact : m.m_activeProtocol = some a) (hauto : m.m_autoDetect = false)
    (hP : m.m_protocols[a]? = some P) (hacc : P.canAcceptMessage canId = true) :
    (m.routeMessage canId data length now).1 = (P.parseMessage canId data length now).1 ∧
    (m.routeMessage canId data length now).2.m_protocols[a]? =
      some (P.parseMessage canId data length now).2 ∧
    (∀ j, j ≠ a → (m.routeMessage canId data length now).2.m_protocols[j]? = m.m_protocols[j]?) ∧
    (m.routeMessage canId data length now).2.m_protocols.length = m.m_protocols.length ∧
    (m.routeMessage canId data length now).2.m_detectionStats = m.m_detectionStats ∧
    (m.routeMessage canId data length now).2.m_activeProtocol = m.m_activeProtocol ∧
    (m.routeMessage canId data length now).2.m_autoDetect = m.m_autoDetect := by
  have e : m.routeMessage canId data length now =
      ((P.parseMessage canId data length now).1,
       { m with m_protocols := m.m_protocols.set a (P.parseMessage canId data length now).2 }) := by
    unfold ProtocolManager.routeMessage
    rw [hact, hauto]
    simp only [hP, hacc]
    rfl
  rw [e]
  have ha : a < m.m_protocols.length := by
    rcases Nat.lt_or_ge a m.m_protocols.length with h | h
    · exact h
    · rw [List.getElem?_eq_none h] at hP; cases hP
  refine ⟨rfl, ?_, ?_, ?_, rfl, rfl, rfl⟩
  · simp [List.getElem?_set, ha]
  · intro j hj
    simp [List.getElem?_set, Ne.symm hj]
  · simp

/-- Claim C4 at the manager pinned to DALY and a DALY voltage frame. -/
theorem pinned_delegation_witness :
    (ProtocolManager.pinnedDaly.routeMessage 0x18FF50E5 [0xF4, 0x01, 0, 0, 0, 0, 0, 0] 8 1000).1 =
      ((Protocol.daly DalyCan.new).parseMessage 0x18FF50E5 [0xF4, 0x01, 0, 0, 0, 0, 0, 0] 8 1000).1 ∧
    (ProtocolManager.pinnedDaly.routeMessage 0x18FF50E5 [0xF4, 0x01, 0, 0, 0, 0, 0, 0] 8
        1000).2.m_detectionStats = ProtocolManager.pinnedDaly.m_detectionStats ∧
    (ProtocolManager.pinnedDaly.routeMessage 0x18FF50E5 [0xF4, 0x01, 0, 0, 0, 0, 0, 0] 8
        1000).2.m_activeProtocol = ProtocolManager.pinnedDaly.m_activeProtocol :=
  have h := pinned_delegation ProtocolManager.pinnedDaly 2 (Protocol.daly DalyCan.new) 0x18FF50E5
    [0xF4, 0x01, 0, 0, 0, 0, 0, 0] 8 1000 (by decide) (by decide) (by decide) (by decide)
  ⟨h.1, h.2.2.2.2.1, h.2.2.2.2.2.1⟩

/-- Claim C5 (stickiness).  For every manager state and every frame: if some
decoder `A` is active before `routeMessage`, it is still the active decoder
afterwards; and if the active decoder changes at all, then there was none
before, and the new active decoder `k` is one whose match count was incremented
by this call and thereby is at least `DETECTION_THRESHOLD` = 5. -/
theorem active_protocol_sticky (m : ProtocolManager) (canId : Nat) (data : List Nat)
    (length now : Nat) :
    (∀ A : Nat, m.m_activeProtocol = some A →
      (m.routeMessage canId data length now).2.m_activeProtocol = some A) ∧
    ((m.routeMessage canId data length now).2.m_activeProtocol ≠ m.m_activeProtocol →
      m.m_activeProtocol = none ∧
      ∃ (k : Nat) (st : DetectionStats),
        (m.routeMessage canId data length now).2.m_activeProtocol = some k ∧
        m.m_detectionStats[k]? = some st ∧
        (m.routeMessage canId data length now).2.m_detectionStats[k]? =
          some { st with matchCount := (st.matchCount + 1) % 2 ^ 32, lastMatch := now } ∧
        DETECTION_THRESHOLD ≤ (st.matchCount + 1) % 2 ^ 32) := by
  rcases pinned_or_not m with ⟨a, ha, hauto⟩ | hun
  · obtain ⟨-, h2, -, -⟩ := routeMessage_pinned m a canId data length now ha hauto
    refine ⟨fun A hA => by rw [h2]; exact hA, fun hne => absurd h2 hne⟩
  · rcases routeMessage_unpinned_cases m canId data length now hun with
      ⟨-, ps, h1, -, -⟩ | ⟨k, p, -, -, -, -, ps, h1, -, -⟩
    · rw [h1]
      exact ⟨fun A hA => hA, fun hne => absurd rfl hne⟩
    · rw [h1]
      simp only [afterHit_active, afterHit_stats]
      cases hs : m.m_detectionStats[k]? with
      | none => exact ⟨fun A hA => hA, fun hne => absurd rfl hne⟩
      | some st =>
        have hk := lt_length_of_getElem? _ _ _ hs
        simp only []
        cases hact : m.m_activeProtocol with
        | some A =>
          simp only [Option.isNone_some, Bool.and_false, Bool.false_eq_true, if_false]
          exact ⟨fun B hB => hB, fun hne => absurd rfl hne⟩
        | none =>
          refine ⟨fun A hA => (by cases hA), ?_⟩
          intro hne
          refine ⟨rfl, ?_⟩
          by_cases h5 : DETECTION_THRESHOLD ≤ (st.matchCount + 1) % 2 ^ 32
          · have hc : (decide (DETECTION_THRESHOLD ≤ (st.matchCount + 1) % 2 ^ 32) &&
                (none : Option Nat).isNone) = true := by
              rw [decide_eq_true h5]; rfl
            refine ⟨k, st, ?_, hs, ?_, h5⟩
            · rw [if_pos hc]
            · rw [List.getElem?_set_self hk]
          · have hc : ¬ (decide (DETECTION_THRESHOLD ≤ (st.matchCount + 1) % 2 ^ 32) &&
                (none : Option Nat).isNone) = true := by
              rw [decide_eq_false h5]; exact Bool.false_ne_true
            exfalso
            apply hne
            rw [if_neg hc]

/-- Claim C5 at one decoder of each vendor: once Pylontech is active a JK-BMS
frame leaves it active, and the fifth good Pylontech frame is the call that
changes the active decoder from none. -/
theorem active_protocol_sticky_witness :
    ((ProtocolManager.three.routeAll (fourV50 ++ [frameV50 5000])).routeMessage 0x02F4DA01
        [0, 0, 0xC3, 0x50, 0, 0, 0, 0] 8 6000).2.m_activeProtocol = some 0 ∧
    (ProtocolManager.three.routeAll fourV50).m_activeProtocol = none ∧
    ((ProtocolManager.three.routeAll fourV50).routeMessage 0x359 [0x13, 0x88, 0, 0, 0, 0, 0, 0] 8
        5000).2.m_activeProtocol ≠ none :=
  have h1 := (active_protocol_sticky (ProtocolManager.three.routeAll (fourV50 ++ [frameV50 5000]))
    0x02F4DA01 [0, 0, 0xC3, 0x50, 0, 0, 0, 0] 8 6000).1 0 (by decide)
  have h2 := (active_protocol_sticky (ProtocolManager.three.routeAll fourV50)
    0x359 [0x13, 0x88, 0, 0, 0, 0, 0, 0] 8 5000).2 (by decide)
  ⟨h1, h2.1, by decide⟩

/-- Claim C6 (match counts are cumulative).  (1) One `routeMessage` call either
leaves the detection statistics unchanged or, on the detection path, changes
exactly the entry of the one decoder `k` that accepted and parsed the frame:
its match count goes up by one (as a `uint32_t`; by exactly one below the
wrap).  (2) Any number of frames that decoder `i` does not accept leave entry
`i` as it was.  (3) `resetStats` sets every match count to 0.  (4)
`setAutoDetect`, `selectProtocol`, `startAll`, `stopAll` and `initializeAll`
leave the statistics alone. -/
theorem match_counts_cumulative :
    (∀ (m : ProtocolManager) (canId : Nat) (data : List Nat) (length now : Nat),
      (m.routeMessage canId data length now).2.m_detectionStats = m.m_detectionStats ∨
      ∃ (k : Nat) (st : DetectionStats) (p : Protocol),
        (m.m_activeProtocol = none ∨ m.m_autoDetect = true) ∧
        m.m_detectionStats[k]? = some st ∧ m.m_protocols[k]? = some p ∧
        p.canAcceptMessage canId = true ∧ (p.parseMessage canId data length now).1 = true ∧
        (m.routeMessage canId data length now).1 = true ∧
        (m.routeMessage canId data length now).2.m_detectionStats =
          m.m_detectionStats.set k
            { st with matchCount := (st.matchCount + 1) % 2 ^ 32, lastMatch := now } ∧
        (st.matchCount + 1 < 2 ^ 32 → (st.matchCount + 1) % 2 ^ 32 = st.matchCount + 1)) ∧
    (∀ (m : ProtocolManager) (i : Nat) (A : Protocol) (frames : List (Nat × List Nat × Nat × Nat)),
      m.m_protocols[i]? = some A → (∀ f ∈ frames, A.canAcceptMessage f.1 = false) →
      (m.routeAll frames).m_detectionStats[i]? = m.m_detectionStats[i]?) ∧
    (∀ (m : ProtocolManager) (st : DetectionStats), st ∈ m.resetStats.m_detectionStats →
      st.matchCount = 0 ∧ st.lastMatch = 0) ∧
    (∀ (m : ProtocolManager) (enable : Bool) (type : bms_type_t),
      (m.setAutoDetect enable).m_detectionStats = m.m_detectionStats ∧
      (m.selectProtocol type).2.m_detectionStats = m.m_detectionStats ∧
      m.startAll.2.m_detectionStats = m.m_detectionStats ∧
      m.stopAll.2.m_detectionStats = m.m_detectionStats ∧
      ( ProtocolManager.initializeAll m).2.m_detectionStats = m.m_detectionStats) := by
  refine ⟨?_, ?_, ?_, ?_⟩
  · intro m canId data length now
    rcases pinned_or_not m with ⟨a, ha, hauto⟩ | hun
    · left
      exact (routeMessage_pinned m a canId data length now ha hauto).1
    · rcases routeMessage_unpinned_cases m canId data length now hun with
        ⟨-, ps, h1, -, -⟩ | ⟨k, p, hk, hpa, hpp, -, ps, h1, -, -⟩
      · left; rw [h1]
      · cases hs : m.m_detectionStats[k]? with
        | none =>
          left
          rw [h1, afterHit_stats]
          show (match m.m_detectionStats[k]? with
            | none => m.m_detectionStats
            | some st => m.m_detectionStats.set k
                { st with matchCount := (st.matchCount + 1) % 2 ^ 32, lastMatch := now }) = _
          rw [hs]
        | some st =>
          right
          refine ⟨k, st, p, hun, hs, hk, hpa, hpp, by rw [h1], ?_, fun h => Nat.mod_eq_of_lt h⟩
          rw [h1, afterHit_stats]
          show (match m.m_detectionStats[k]? with
            | none => m.m_detectionStats
            | some st => m.m_detectionStats.set k
                { st with matchCount := (st.matchCount + 1) % 2 ^ 32, lastMatch := now }) = _
          rw [hs]
  · intro m i A frames hA hall
    exact (routeAll_not_accepting i A frames m hA hall).2
  · intro m st hst
    simp only [resetStats, List.mem_map] at hst
    obtain ⟨s0, -, rfl⟩ := hst
    exact ⟨rfl, rfl⟩
  · intro m enable type
    refine ⟨?_, ?_, rfl, rfl, rfl⟩
    · unfold setAutoDetect
      split_ifs <;> rfl
    · unfold selectProtocol
      cases selectLoop type m.m_protocols 0 <;> rfl

/-- Claim C6 at one decoder of each vendor: after four good Pylontech frames,
JK-BMS and DALY frames leave the Pylontech match count at 4, and `resetStats`
sets all counts to 0. -/
theorem match_counts_cumulative_witness :
    ((ProtocolManager.three.routeAll fourV50).routeAll
        [frameJk50 5000, frameDaly50 6000, frameJk50 7000]).m_detectionStats[0]? =
      (ProtocolManager.three.routeAll fourV50).m_detectionStats[0]? ∧
    ((ProtocolManager.three.routeAll fourV50).m_detectionStats[0]?).map
      (fun st => st.matchCount) = some 4 ∧
    ((ProtocolManager.three.routeAll fourV50).routeAll
        [frameJk50 5000, frameDaly50 6000, frameJk50 7000]).resetStats.m_detectionStats.map
      (fun st => st.matchCount) = [0, 0, 0] :=
  ⟨match_counts_cumulative.2.1 (ProtocolManager.three.routeAll fourV50) 0
      (((ProtocolManager.three.routeAll fourV50).m_protocols[0]?).getD
        (Protocol.pylontech PylontechCan.new))
      [frameJk50 5000, frameDaly50 6000, frameJk50 7000] (by decide) (by decide),
    by decide, by decide⟩

/-- Claim C7, evaluated on the code.  A Pylontech decoder holding 50.00 V that
receives frame 0x359 with raw value 3990 rejects the frame (returns false) but
its voltage field now reads `3990 * 0.01f` (39.9 V), not 50.00 V: the field is
assigned before `validateRange` is called.  The DALY decoder (raw 399, scale
0.1) and the JK-BMS decoder (raw 39900 mV) behave the same way. -/
theorem out_of_range_value_overwrites_field :
    (PylontechCan.at50V.m_data.voltage = F32.lit 50 1 ∧
     (PylontechCan.at50V.parseMessage 0x359 [0x0F, 0x96, 0, 0, 0, 0, 0, 0] 8 2000).1 = false ∧
     (PylontechCan.at50V.parseMessage 0x359 [0x0F, 0x96, 0, 0, 0, 0, 0, 0] 8 2000).2.m_data.voltage
       = F32.mul (F32.ofInt 3990) (F32.lit 1 100) ∧
     (PylontechCan.at50V.parseMessage 0x359 [0x0F, 0x96, 0, 0, 0, 0, 0, 0] 8 2000).2.m_data.voltage
       ≠ PylontechCan.at50V.m_data.voltage) ∧
    (DalyCan.at50V.m_data.voltage = F32.lit 50 1 ∧
     (DalyCan.at50V.parseMessage 0x18FF50E5 [0x8F, 0x01, 0, 0, 0, 0, 0, 0] 8 2000).1 = false ∧
     (DalyCan.at50V.parseMessage 0x18FF50E5 [0x8F, 0x01, 0, 0, 0, 0, 0, 0] 8 2000).2.m_data.voltage
       ≠ DalyCan.at50V.m_data.voltage) ∧
    (JkBmsCan.at50V.m_data.voltage = F32.lit 50 1 ∧
     (JkBmsCan.at50V.parseMessage 0x02F4DA01 [0, 0, 0x9B, 0xDC, 0, 0, 0, 0] 8 2000).1 = false ∧
     (JkBmsCan.at50V.parseMessage 0x02F4DA01 [0, 0, 0x9B, 0xDC, 0, 0, 0, 0] 8 2000).2.m_data.voltage
       ≠ JkBmsCan.at50V.m_data.voltage) := by
  decide

/-- Claim C8 (bookkeeping of an out-of-range value).  For each of the three
decoders and every voltage, SOC or temperature frame of length at least 8 whose
decoded value fails `validateRange`, `parseMessage` returns false, increments
the error counter by one and leaves the message counter, the connected flag and
the last-update time unchanged. -/
theorem out_of_range_bookkeeping :
    (∀ (s : PylontechCan) (canId : Nat) (data : List Nat) (length now : Nat), 8 ≤ length →
      ((canId = PylontechCan.ID_VOLTAGE ∧
          validateRange (PylontechCan.decodeVoltage data) (F32.lit 40 1) (F32.lit 60 1) = false) ∨
       (canId = PylontechCan.ID_SOC ∧
          validateRange (PylontechCan.decodeSoc data) (F32.lit 0 1) (F32.lit 100 1) = false) ∨
       (canId = PylontechCan.ID_TEMP ∧
          validateRange (PylontechCan.decodeTemp data) (F32.lit (-20) 1) (F32.lit 60 1) = false)) →
      (s.parseMessage canId data length now).1 = false ∧
      CanProtocolBase.errorOnly s.toCanProtocolBase
        (s.parseMessage canId data length now).2.toCanProtocolBase) ∧
    (∀ (s : DalyCan) (canId : Nat) (data : List Nat) (length now : Nat), 8 ≤ length →
      ((canId = DalyCan.ID_VOLTAGE ∧
          validateRange (DalyCan.decodeVoltage data) (F32.lit 40 1) (F32.lit 60 1) = false) ∨
       (canId = DalyCan.ID_SOC ∧
          validateRange (DalyCan.decodeSoc data) (F32.lit 0 1) (F32.lit 100 1) = false) ∨
       (canId = DalyCan.ID_TEMP ∧
          validateRange (DalyCan.decodeTemp data) (F32.lit (-20) 1) (F32.lit 60 1) = false)) →
      (s.parseMessage canId data length now).1 = false ∧
      CanProtocolBase.errorOnly s.toCanProtocolBase
        (s.parseMessage canId data length now).2.toCanProtocolBase) ∧
    (∀ (s : JkBmsCan) (canId : Nat) (data : List Nat) (length now : Nat), 8 ≤ length →
      ((JkBmsCan.getMessageType canId = JkBmsCan.MSG_VOLTAGE ∧
          validateRange (JkBmsCan.decodeVoltage data) (F32.lit 40 1) (F32.lit 60 1) = false) ∨
       (JkBmsCan.getMessageType canId = JkBmsCan.MSG_SOC ∧
          validateRange (JkBmsCan.decodeSoc data) (F32.lit 0 1) (F32.lit 100 1) = false) ∨
       (JkBmsCan.getMessageType canId = JkBmsCan.MSG_TEMP ∧
          validateRange (JkBmsCan.decodeTemp data) (F32.lit (-20) 1) (F32.lit 60 1) = false)) →
      (s.parseMessage canId data length now).1 = false ∧
      CanProtocolBase.errorOnly s.toCanProtocolBase
        (s.parseMessage canId data length now).2.toCanProtocolBase) := by
  refine ⟨?_, ?_, ?_⟩
  · intro s canId data length now hlen h
    have hl : ¬ length < 8 := Nat.not_lt.mpr hlen
    rcases h with ⟨hc, hv⟩ | ⟨hc, hv⟩ | ⟨hc, hv⟩ <;> subst hc <;>
      simp [PylontechCan.parseMessage, hl, hv, PylontechCan.finish, PylontechCan.ID_VOLTAGE,
        PylontechCan.ID_SOC, PylontechCan.ID_TEMP, PylontechCan.ID_CURRENT] <;>
      exact CanProtocolBase.errorOnly_of_eq _ _ rfl rfl rfl rfl
  · intro s canId data length now hlen h
    have hl : ¬ length < 8 := Nat.not_lt.mpr hlen
    rcases h with ⟨hc, hv⟩ | ⟨hc, hv⟩ | ⟨hc, hv⟩ <;> subst hc <;>
      simp [DalyCan.parseMessage, hl, hv, DalyCan.finish, DalyCan.ID_VOLTAGE,
        DalyCan.ID_SOC, DalyCan.ID_TEMP, DalyCan.ID_CURRENT] <;>
      exact CanProtocolBase.errorOnly_of_eq _ _ rfl rfl rfl rfl
  · intro s canId data length now hlen h
    have hl : ¬ length < 8 := Nat.not_lt.mpr hlen
    rcases h with ⟨hc, hv⟩ | ⟨hc, hv⟩ | ⟨hc, hv⟩ <;>
      simp [JkBmsCan.parseMessage, hl, hv, hc, JkBmsCan.finish, JkBmsCan.MSG_VOLTAGE,
        JkBmsCan.MSG_SOC, JkBmsCan.MSG_TEMP, JkBmsCan.MSG_CURRENT] <;>
      exact CanProtocolBase.errorOnly_of_eq _ _ rfl rfl rfl rfl

/-- Claim C8 at a Pylontech voltage frame (39.9 V), a DALY SOC frame (100.1 %)
and a JK-BMS temperature frame (60.1 degrees). -/
theorem out_of_range_bookkeeping_witness :
    ((PylontechCan.at50V.parseMessage 0x359 payload3990 8 2000).1 = false ∧
      CanProtocolBase.errorOnly PylontechCan.at50V.toCanProtocolBase
        (PylontechCan.at50V.parseMessage 0x359 payload3990 8 2000).2.toCanProtocolBase) ∧
    ((DalyCan.at50V.parseMessage 0x18FF52E5 [0xE9, 0x03, 0, 0, 0, 0, 0, 0] 8 2000).1 = false ∧
      CanProtocolBase.errorOnly DalyCan.at50V.toCanProtocolBase
        (DalyCan.at50V.parseMessage 0x18FF52E5 [0xE9, 0x03, 0, 0, 0, 0, 0, 0] 8
          2000).2.toCanProtocolBase) ∧
    ((JkBmsCan.at50V.parseMessage 0x02F4DA04 [0x02, 0x59, 0, 0, 0, 0, 0, 0] 8 2000).1 = false ∧
      CanProtocolBase.errorOnly JkBmsCan.at50V.toCanProtocolBase
        (JkBmsCan.at50V.parseMessage 0x02F4DA04 [0x02, 0x59, 0, 0, 0, 0, 0, 0] 8
          2000).2.toCanProtocolBase) :=
  ⟨out_of_range_bookkeeping.1 PylontechCan.at50V 0x359 payload3990 8 2000 (by decide)
      (Or.inl ⟨by decide, by decide⟩),
   out_of_range_bookkeeping.2.1 DalyCan.at50V 0x18FF52E5 [0xE9, 0x03, 0, 0, 0, 0, 0, 0] 8 2000
      (by decide) (Or.inr (Or.inl ⟨by decide, by decide⟩)),
   out_of_range_bookkeeping.2.2 JkBmsCan.at50V 0x02F4DA04 [0x02, 0x59, 0, 0, 0, 0, 0, 0] 8 2000
      (by decide) (Or.inr (Or.inr ⟨by decide, by decide⟩))⟩

/-- Claim C9 (short frames).  For each of the three decoders, every identifier,
every payload and every length below 8, `parseMessage` returns false, the
decoder is left exactly as it was except for the error counter, which goes up
by one; in particular the snapshot, the message counter, the connected flag and
the last-update time are unchanged. -/
theorem short_frame_rejected (p : Protocol) (canId : Nat) (data : List Nat) (length now : Nat)
    (h : length < 8) :
    (p.parseMessage canId data length now).1 = false ∧
    (p.parseMessage canId data length now).2 = p.withBase p.base.markError ∧
    (p.parseMessage canId data length now).2.base.m_data = p.base.m_data ∧
    CanProtocolBase.errorOnly p.base (p.parseMessage canId data length now).2.base := by
  cases p with
  | pylontech s =>
    have e : s.parseMessage canId data length now =
        (false, { s with toCanProtocolBase := s.toCanProtocolBase.markError }) := by
      unfold PylontechCan.parseMessage
      rw [if_pos h]
    simp only [Protocol.parseMessage, e]
    exact ⟨trivial, rfl, rfl, CanProtocolBase.errorOnly_of_eq _ _ rfl rfl rfl rfl⟩
  | jkBms s =>
    have e : s.parseMessage canId data length now =
        (false, { s with toCanProtocolBase := s.toCanProtocolBase.markError }) := by
      unfold JkBmsCan.parseMessage
      rw [if_pos h]
    simp only [Protocol.parseMessage, e]
    exact ⟨trivial, rfl, rfl, CanProtocolBase.errorOnly_of_eq _ _ rfl rfl rfl rfl⟩
  | daly s =>
    have e : s.parseMessage canId data length now =
        (false, { s with toCanProtocolBase := s.toCanProtocolBase.markError }) := by
      unfold DalyCan.parseMessage
      rw [if_pos h]
    simp only [Protocol.parseMessage, e]
    exact ⟨trivial, rfl, rfl, CanProtocolBase.errorOnly_of_eq _ _ rfl rfl rfl rfl⟩

/-- Claim C9 at a JK-BMS voltage frame of length 3. -/
theorem short_frame_rejected_witness :
    ((Protocol.jkBms JkBmsCan.new).parseMessage 0x02F4DA01 [0, 0, 0xC3] 3 1000).1 = false ∧
    ((Protocol.jkBms JkBmsCan.new).parseMessage 0x02F4DA01 [0, 0, 0xC3] 3 1000).2 =
      (Protocol.jkBms JkBmsCan.new).withBase (Protocol.jkBms JkBmsCan.new).base.markError ∧
    ((Protocol.jkBms JkBmsCan.new).parseMessage 0x02F4DA01 [0, 0, 0xC3] 3 1000).2.base.m_data =
      (Protocol.jkBms JkBmsCan.new).base.m_data ∧
    CanProtocolBase.errorOnly (Protocol.jkBms JkBmsCan.new).base
      ((Protocol.jkBms JkBmsCan.new).parseMessage 0x02F4DA01 [0, 0, 0xC3] 3 1000).2.base :=
  short_frame_rejected (Protocol.jkBms JkBmsCan.new) 0x02F4DA01 [0, 0, 0xC3] 3 1000 (by decide)

/-- Claim C10, evaluated on the code.  A frame of length 8 whose identifier the
`switch` of `parseMessage` does not recognise makes `parseMessage` return false
and leaves the decoder exactly as it was: the `default: return false;` leaves
before `markError()`, so the error counter is not incremented.  Shown for the
JK-BMS decoder on identifier 0x02F4DA07 (which `canAcceptMessage` accepts) and
for the Pylontech and DALY decoders on identifier 0x123. -/
theorem unrecognized_identifier_counts_no_error :
    (JkBmsCan.new.canAcceptMessage 0x02F4DA07 = true ∧
     JkBmsCan.new.parseMessage 0x02F4DA07 zeros8 8 1000 = (false, JkBmsCan.new) ∧
     (JkBmsCan.new.parseMessage 0x02F4DA07 zeros8 8 1000).2.m_errorCount = 0) ∧
    (PylontechCan.new.parseMessage 0x123 zeros8 8 1000 = (false, PylontechCan.new) ∧
     (PylontechCan.new.parseMessage 0x123 zeros8 8 1000).2.m_errorCount = 0) ∧
    (DalyCan.new.parseMessage 0x123 zeros8 8 1000 = (false, DalyCan.new) ∧
     (DalyCan.new.parseMessage 0x123 zeros8 8 1000).2.m_errorCount = 0) := by
  decide

/-- Claim C11, counterexample.  The DALY cells frame 0x18FF55E5 and the JK-BMS
cells frame (message type 0x10) make `parseMessage` return true and mark the
decoder connected, yet the snapshot is unchanged and the result does not depend
on the payload: nothing is extracted. -/
theorem cells_frame_succeeds_without_extraction :
    ((DalyCan.new.parseMessage 0x18FF55E5 [1, 2, 3, 4, 5, 6, 7, 8] 8 1000).1 = true ∧
     (DalyCan.new.parseMessage 0x18FF55E5 [1, 2, 3, 4, 5, 6, 7, 8] 8 1000).2.m_connected = true ∧
     (DalyCan.new.parseMessage 0x18FF55E5 [1, 2, 3, 4, 5, 6, 7, 8] 8 1000).2.m_data =
       DalyCan.new.m_data ∧
     DalyCan.new.parseMessage 0x18FF55E5 [1, 2, 3, 4, 5, 6, 7, 8] 8 1000 =
       DalyCan.new.parseMessage 0x18FF55E5 zeros8 8 1000) ∧
    ((JkBmsCan.new.parseMessage 0x02F4DA10 [1, 2, 3, 4, 5, 6, 7, 8] 8 1000).1 = true ∧
     (JkBmsCan.new.parseMessage 0x02F4DA10 [1, 2, 3, 4, 5, 6, 7, 8] 8 1000).2.m_connected = true ∧
     (JkBmsCan.new.parseMessage 0x02F4DA10 [1, 2, 3, 4, 5, 6, 7, 8] 8 1000).2.m_data =
       JkBmsCan.new.m_data ∧
     JkBmsCan.new.parseMessage 0x02F4DA10 [1, 2, 3, 4, 5, 6, 7, 8] 8 1000 =
       JkBmsCan.new.parseMessage 0x02F4DA10 zeros8 8 1000) := by
  decide

/-- Claim C11, amended (success implies extraction, cells frames apart).  For
each decoder, whenever `parseMessage` returns true the frame has length at
least 8, the decoder is marked connected, and either the frame is a voltage, SOC
or temperature frame whose decoded value was stored and passed `validateRange`,
or it is a current, status or alarm frame whose decoded value was stored (the
code has no plausibility check for these), or it is a DALY cells frame
(0x18FF55E5) or a JK-BMS cells frame (type 0x10), for which the snapshot is
left unchanged. -/
theorem success_means_stored_or_cells :
    (∀ (s : PylontechCan) (canId : Nat) (data : List Nat) (length now : Nat),
      (s.parseMessage canId data length now).1 = true →
      8 ≤ length ∧ (s.parseMessage canId data length now).2.m_connected = true ∧
        ((canId = PylontechCan.ID_VOLTAGE ∧
          validateRange (PylontechCan.decodeVoltage data) (F32.lit 40 1) (F32.lit 60 1) = true ∧
          (s.parseMessage canId data length now).2.m_data =
            { s.m_data with
              voltage := PylontechCan.decodeVoltage data }) ∨
         (canId = PylontechCan.ID_CURRENT ∧
          (s.parseMessage canId data length now).2.m_data =
            { s.m_data with
              current := PylontechCan.decodeCurrent data,
              charging := F32.lt (F32.lit 1 2) (PylontechCan.decodeCurrent data),
              discharging := F32.lt (PylontechCan.decodeCurrent data) (F32.lit (-1) 2) }) ∨
         (canId = PylontechCan.ID_SOC ∧
          validateRange (PylontechCan.decodeSoc data) (F32.lit 0 1) (F32.lit 100 1) = true ∧
          (s.parseMessage canId data length now).2.m_data =
            { s.m_data with
              soc := PylontechCan.decodeSoc data }) ∨
         (canId = PylontechCan.ID_TEMP ∧
          validateRange (PylontechCan.decodeTemp data) (F32.lit (-20) 1) (F32.lit 60 1) = true ∧
          (s.parseMessage canId data length now).2.m_data =
            { s.m_data with
              temperature := PylontechCan.decodeTemp data }) ∨
         (canId = PylontechCan.ID_STATUS ∧
          (s.parseMessage canId data length now).2.m_data =
            { s.m_data with
              cycles := extractUint16 data 0 true,
              status_text := snprintf64 ("Online - " ++
                  toString (extractUint16 data 0 true) ++ " Zyklen") }) ∨
         (canId = PylontechCan.ID_ALARM ∧
          (s.parseMessage canId data length now).2.m_data =
            { s.m_data with
              status_text := if byteAt data 0 ≠ 0 then
                  snprintf64 ("ALARM 0x" ++ hex02X (byteAt data 0)) else
                  snprintf64 "Online" }))) ∧
    (∀ (s : DalyCan) (canId : Nat) (data : List Nat) (length now : Nat),
      (s.parseMessage canId data length now).1 = true →
      8 ≤ length ∧ (s.parseMessage canId data length now).2.m_connected = true ∧
        ((canId = DalyCan.ID_VOLTAGE ∧
          validateRange (DalyCan.decodeVoltage data) (F32.lit 40 1) (F32.lit 60 1) = true ∧
          (s.parseMessage canId data length now).2.m_data =
            { s.m_data with
              voltage := DalyCan.decodeVoltage data }) ∨
         (canId = DalyCan.ID_CURRENT ∧
          (s.parseMessage canId data length now).2.m_data =
            { s.m_data with
              current := DalyCan.decodeCurrent data,
              charging := F32.lt (F32.lit 1 2) (DalyCan.decodeCurrent data),
              discharging := F32.lt (DalyCan.decodeCurrent data) (F32.lit (-1) 2) }) ∨
         (canId = DalyCan.ID_SOC ∧
          validateRange (DalyCan.decodeSoc data) (F32.lit 0 1) (F32.lit 100 1) = true ∧
          (s.parseMessage canId data length now).2.m_data =
            { s.m_data with
              soc := DalyCan.decodeSoc data }) ∨
         (canId = DalyCan.ID_TEMP ∧
          validateRange (DalyCan.decodeTemp data) (F32.lit (-20) 1) (F32.lit 60 1) = true ∧
          (s.parseMessage canId data length now).2.m_data =
            { s.m_data with
              temperature := DalyCan.decodeTemp data }) ∨
         (canId = DalyCan.ID_STATUS ∧
          (s.parseMessage canId data length now).2.m_data =
            { s.m_data with
              cycles := extractUint16 data 4 false,
              status_text := if byteAt data 1 ≠ 0 then
                  snprintf64 ("ALARM 0x" ++ hex02X (byteAt data 1) ++ " - " ++
                  toString (extractUint16 data 4 false) ++ " Zyklen") else
                  snprintf64 ("Online - " ++
                  toString (extractUint16 data 4 false) ++ " Zyklen") }) ∨
         (canId = DalyCan.ID_CELLS ∧
          (s.parseMessage canId data length now).2.m_data =
            s.m_data))) ∧
    (∀ (s : JkBmsCan) (canId : Nat) (data : List Nat) (length now : Nat),
      (s.parseMessage canId data length now).1 = true →
      8 ≤ length ∧ (s.parseMessage canId data length now).2.m_connected = true ∧
        ((JkBmsCan.getMessageType canId = JkBmsCan.MSG_VOLTAGE ∧
          validateRange (JkBmsCan.decodeVoltage data) (F32.lit 40 1) (F32.lit 60 1) = true ∧
          (s.parseMessage canId data length now).2.m_data =
            { s.m_data with
              voltage := JkBmsCan.decodeVoltage data }) ∨
         (JkBmsCan.getMessageType canId = JkBmsCan.MSG_CURRENT ∧
          (s.parseMessage canId data length now).2.m_data =
            { s.m_data with
              current := JkBmsCan.decodeCurrent data,
              charging := F32.lt (F32.lit 1 2) (JkBmsCan.decodeCurrent data),
              discharging := F32.lt (JkBmsCan.decodeCurrent data) (F32.lit (-1) 2) }) ∨
         (JkBmsCan.getMessageType canId = JkBmsCan.MSG_SOC ∧
          validateRange (JkBmsCan.decodeSoc data) (F32.lit 0 1) (F32.lit 100 1) = true ∧
          (s.parseMessage canId data length now).2.m_data =
            { s.m_data with
              soc := JkBmsCan.decodeSoc data }) ∨
         (JkBmsCan.getMessageType canId = JkBmsCan.MSG_TEMP ∧
          validateRange (JkBmsCan.decodeTemp data) (F32.lit (-20) 1) (F32.lit 60 1) = true ∧
          (s.parseMessage canId data length now).2.m_data =
            { s.m_data with
              temperature := JkBmsCan.decodeTemp data }) ∨
         (JkBmsCan.getMessageType canId = JkBmsCan.MSG_STATUS ∧
          (s.parseMessage canId data length now).2.m_data =
            { s.m_data with
              cycles := extractUint16 data 2 true,
              status_text := snprintf64 ("Online - Status: 0x" ++ hex02X (byteAt data 0) ++ " - " ++
                  toString (extractUint16 data 2 true) ++ " Zyklen") }) ∨
         (JkBmsCan.getMessageType canId = JkBmsCan.MSG_CELLS ∧
          (s.parseMessage canId data length now).2.m_data =
            s.m_data))) := by
  refine ⟨?_, ?_, ?_⟩
  · intro s canId data length now h
    have hb := pylontech_parse_bookkeeping s canId data length now
    have hc : (s.parseMessage canId data length now).2.m_connected = true := by
      rcases hb with ⟨-, -, hc, -, -⟩ | ⟨hf, -, -, -, -⟩
      · exact hc
      · rw [hf] at h; cases h
    rcases pylontech_parse_cases s canId data length now with
      ⟨-, hf, -⟩ |
      ⟨h8, hi, hf, hd⟩ |
      ⟨h8, hi, -, hd⟩ |
      ⟨h8, hi, hf, hd⟩ |
      ⟨h8, hi, hf, hd⟩ |
      ⟨h8, hi, -, hd⟩ |
      ⟨h8, hi, -, hd⟩ |
      ⟨-, -, -, -, -, -, -, he⟩
    · rw [hf] at h; cases h
    · exact ⟨h8, hc, Or.inl ⟨hi, hf.symm.trans h, hd⟩⟩
    · exact ⟨h8, hc, Or.inr (Or.inl ⟨hi, hd⟩)⟩
    · exact ⟨h8, hc, Or.inr (Or.inr (Or.inl ⟨hi, hf.symm.trans h, hd⟩))⟩
    · exact ⟨h8, hc, Or.inr (Or.inr (Or.inr (Or.inl ⟨hi, hf.symm.trans h, hd⟩)))⟩
    · exact ⟨h8, hc, Or.inr (Or.inr (Or.inr (Or.inr (Or.inl ⟨hi, hd⟩))))⟩
    · exact ⟨h8, hc, Or.inr (Or.inr (Or.inr (Or.inr (Or.inr (⟨hi, hd⟩)))))⟩
    · rw [he] at h; cases h
  · intro s canId data length now h
    have hb := daly_parse_bookkeeping s canId data length now
    have hc : (s.parseMessage canId data length now).2.m_connected = true := by
      rcases hb with ⟨-, -, hc, -, -⟩ | ⟨hf, -, -, -, -⟩
      · exact hc
      · rw [hf] at h; cases h
    rcases daly_parse_cases s canId data length now with
      ⟨-, hf, -⟩ |
      ⟨h8, hi, hf, hd⟩ |
      ⟨h8, hi, -, hd⟩ |
      ⟨h8, hi, hf, hd⟩ |
      ⟨h8, hi, hf, hd⟩ |
      ⟨h8, hi, -, hd⟩ |
      ⟨h8, hi, -, hd⟩ |
      ⟨-, -, -, -, -, -, -, he⟩
    · rw [hf] at h; cases h
    · exact ⟨h8, hc, Or.inl ⟨hi, hf.symm.trans h, hd⟩⟩
    · exact ⟨h8, hc, Or.inr (Or.inl ⟨hi, hd⟩)⟩
    · exact ⟨h8, hc, Or.inr (Or.inr (Or.inl ⟨hi, hf.symm.trans h, hd⟩))⟩
    · exact ⟨h8, hc, Or.inr (Or.inr (Or.inr (Or.inl ⟨hi, hf.symm.trans h, hd⟩)))⟩
    · exact ⟨h8, hc, Or.inr (Or.inr (Or.inr (Or.inr (Or.inl ⟨hi, hd⟩))))⟩
    · exact ⟨h8, hc, Or.inr (Or.inr (Or.inr (Or.inr (Or.inr (⟨hi, hd⟩)))))⟩
    · rw [he] at h; cases h
  · intro s canId data length now h
    have hb := jk_parse_bookkeeping s canId data length now
    have hc : (s.parseMessage canId data length now).2.m_connected = true := by
      rcases hb with ⟨-, -, hc, -, -⟩ | ⟨hf, -, -, -, -⟩
      · exact hc
      · rw [hf] at h; cases h
    rcases jk_parse_cases s canId data length now with
      ⟨-, hf, -⟩ |
      ⟨h8, hi, hf, hd⟩ |
      ⟨h8, hi, -, hd⟩ |
      ⟨h8, hi, hf, hd⟩ |
      ⟨h8, hi, hf, hd⟩ |
      ⟨h8, hi, -, hd⟩ |
      ⟨h8, hi, -, hd⟩ |
      ⟨-, -, -, -, -, -, -, he⟩
    · rw [hf] at h; cases h
    · exact ⟨h8, hc, Or.inl ⟨hi, hf.symm.trans h, hd⟩⟩
    · exact ⟨h8, hc, Or.inr (Or.inl ⟨hi, hd⟩)⟩
    · exact ⟨h8, hc, Or.inr (Or.inr (Or.inl ⟨hi, hf.symm.trans h, hd⟩))⟩
    · exact ⟨h8, hc, Or.inr (Or.inr (Or.inr (Or.inl ⟨hi, hf.symm.trans h, hd⟩)))⟩
    · exact ⟨h8, hc, Or.inr (Or.inr (Or.inr (Or.inr (Or.inl ⟨hi, hd⟩))))⟩
    · exact ⟨h8, hc, Or.inr (Or.inr (Or.inr (Or.inr (Or.inr (⟨hi, hd⟩)))))⟩
    · rw [he] at h; cases h

/-- Claim C11 as amended, at a good Pylontech voltage frame, a DALY cells frame
and a JK-BMS current frame. -/
theorem success_means_stored_or_cells_witness :
    (8 ≤ 8 ∧ (PylontechCan.new.parseMessage 0x359 [0x13, 0x88, 0, 0, 0, 0, 0, 0] 8
        1000).2.m_connected = true) ∧
    (8 ≤ 8 ∧ (DalyCan.new.parseMessage 0x18FF55E5 zeros8 8 1000).2.m_connected = true) ∧
    (8 ≤ 8 ∧ (JkBmsCan.new.parseMessage 0x02F4DA02 zeros8 8 1000).2.m_connected = true) :=
  have h1 := success_means_stored_or_cells.1 PylontechCan.new 0x359
    [0x13, 0x88, 0, 0, 0, 0, 0, 0] 8 1000 (by decide)
  have h2 := success_means_stored_or_cells.2.1 DalyCan.new 0x18FF55E5 zeros8 8 1000 (by decide)
  have h3 := success_means_stored_or_cells.2.2 JkBmsCan.new 0x02F4DA02 zeros8 8 1000 (by decide)
  ⟨⟨h1.1, h1.2.1⟩, ⟨h2.1, h2.2.1⟩, ⟨h3.1, h3.2.1⟩⟩

/-- Claim C12 (bookkeeping is mutually exclusive).  For every decoder, state and
frame, `parseMessage` at time `now` returns true iff the message counter went up
by one (as a `uint32_t`; by exactly one below the wrap); then connected is
true, the last-update time is `now` and the error counter is unchanged.  When it
returns false the message counter, the connected flag and the last-update time
are unchanged.  In every case at most one of the two counters changes. -/
theorem bookkeeping_mutually_exclusive (p : Protocol) (canId : Nat) (data : List Nat)
    (length now : Nat) :
    ((p.parseMessage canId data length now).1 = true ↔
      (p.parseMessage canId data length now).2.base.m_messageCount =
        (p.base.m_messageCount + 1) % 2 ^ 32) ∧
    (p.base.m_messageCount + 1 < 2 ^ 32 →
      ((p.parseMessage canId data length now).1 = true ↔
        (p.parseMessage canId data length now).2.base.m_messageCount =
          p.base.m_messageCount + 1)) ∧
    ((p.parseMessage canId data length now).1 = true →
      (p.parseMessage canId data length now).2.base.m_connected = true ∧
      (p.parseMessage canId data length now).2.base.m_lastUpdate = now ∧
      (p.parseMessage canId data length now).2.base.m_errorCount = p.base.m_errorCount) ∧
    ((p.parseMessage canId data length now).1 = false →
      (p.parseMessage canId data length now).2.base.m_messageCount = p.base.m_messageCount ∧
      (p.parseMessage canId data length now).2.base.m_connected = p.base.m_connected ∧
      (p.parseMessage canId data length now).2.base.m_lastUpdate = p.base.m_lastUpdate) ∧
    ((p.parseMessage canId data length now).2.base.m_messageCount = p.base.m_messageCount ∨
      (p.parseMessage canId data length now).2.base.m_errorCount = p.base.m_errorCount) := by
  have h := protocol_parse_bookkeeping p canId data length now
  rcases h with ⟨hf, hm, hc, hl, he⟩ | ⟨hf, hm, hc, hl, he⟩
  · refine ⟨⟨fun _ => hm, fun _ => hf⟩, fun hlt => ⟨fun _ => ?_, fun _ => hf⟩,
      fun _ => ⟨hc, hl, he⟩, fun h0 => ?_, Or.inr he⟩
    · rw [hm]; exact Nat.mod_eq_of_lt hlt
    · rw [hf] at h0; cases h0
  · refine ⟨⟨fun h0 => ?_, fun h0 => ?_⟩, fun hlt => ⟨fun h0 => ?_, fun h0 => ?_⟩,
      fun h0 => ?_, fun _ => ⟨hm, hc, hl⟩, Or.inl hm⟩
    · rw [hf] at h0; cases h0
    · rw [hm] at h0; exact absurd h0.symm (succ_mod_ne _)
    · rw [hf] at h0; cases h0
    · rw [hm] at h0; omega
    · rw [hf] at h0; cases h0

/-- Claim C12 at a Pylontech decoder: a current frame (accepted) and an
out-of-range voltage frame (rejected). -/
theorem bookkeeping_mutually_exclusive_witness :
    (((Protocol.pylontech PylontechCan.at50V).parseMessage 0x35C payloadCurrent100 8
        2000).2.base.m_connected = true ∧
      ((Protocol.pylontech PylontechCan.at50V).parseMessage 0x35C payloadCurrent100 8
        2000).2.base.m_lastUpdate = 2000 ∧
      ((Protocol.pylontech PylontechCan.at50V).parseMessage 0x35C payloadCurrent100 8
        2000).2.base.m_errorCount = (Protocol.pylontech PylontechCan.at50V).base.m_errorCount) ∧
    (((Protocol.pylontech PylontechCan.at50V).parseMessage 0x359 payload3990 8
        2000).2.base.m_messageCount = (Protocol.pylontech PylontechCan.at50V).base.m_messageCount ∧
      ((Protocol.pylontech PylontechCan.at50V).parseMessage 0x359 payload3990 8
        2000).2.base.m_connected = (Protocol.pylontech PylontechCan.at50V).base.m_connected ∧
      ((Protocol.pylontech PylontechCan.at50V).parseMessage 0x359 payload3990 8
        2000).2.base.m_lastUpdate = (Protocol.pylontech PylontechCan.at50V).base.m_lastUpdate) :=
  ⟨(bookkeeping_mutually_exclusive (Protocol.pylontech PylontechCan.at50V) 0x35C
      payloadCurrent100 8 2000).2.2.1 (by decide),
   (bookkeeping_mutually_exclusive (Protocol.pylontech PylontechCan.at50V) 0x359
      payload3990 8 2000).2.2.2.1 (by decide)⟩

/-- Claim C13 (charging / discharging invariant).  In every state a decoder
reaches from its constructor by `initialize`, `start`, `stop`, `resetStats` and
`parseMessage` calls with arbitrary frames, the snapshot has
`charging == (current > 0.5f)` and `discharging == (current < -0.5f)`, and the
two flags are never both true. -/
theorem charging_flags_follow_current (p0 : Protocol) (calls : List DecoderCall)
    (h0 : p0 ∈ Protocol.constructed) :
    (p0.afterCalls calls).base.m_data.charging =
      F32.lt (F32.lit 1 2) (p0.afterCalls calls).base.m_data.current ∧
    (p0.afterCalls calls).base.m_data.discharging =
      F32.lt (p0.afterCalls calls).base.m_data.current (F32.lit (-1) 2) ∧
    ¬ ((p0.afterCalls calls).base.m_data.charging = true ∧
       (p0.afterCalls calls).base.m_data.discharging = true) := by
  have hinit : p0.base.m_data.flagsFollowCurrent := by
    simp only [Protocol.constructed, List.mem_cons, List.mem_singleton, List.not_mem_nil,
      or_false] at h0
    rcases h0 with rfl | rfl | rfl <;> exact zeroed_flags _
  have h := afterCalls_flags calls p0 hinit
  exact ⟨h.1, h.2, flags_not_both _ h⟩

/-- Claim C13 at a Pylontech decoder after a +10.0 A current frame, `stop`, a
rejected voltage frame and `resetStats`: charging is set, discharging is not. -/
theorem charging_flags_follow_current_witness :
    (((Protocol.pylontech PylontechCan.new).afterCalls callsCharging).base.m_data.charging =
      F32.lt (F32.lit 1 2)
        ((Protocol.pylontech PylontechCan.new).afterCalls callsCharging).base.m_data.current ∧
    ((Protocol.pylontech PylontechCan.new).afterCalls callsCharging).base.m_data.discharging =
      F32.lt ((Protocol.pylontech PylontechCan.new).afterCalls callsCharging).base.m_data.current
        (F32.lit (-1) 2) ∧
    ¬ (((Protocol.pylontech PylontechCan.new).afterCalls callsCharging).base.m_data.charging =
          true ∧
       ((Protocol.pylontech PylontechCan.new).afterCalls callsCharging).base.m_data.discharging =
          true)) ∧
    ((Protocol.pylontech PylontechCan.new).afterCalls callsCharging).base.m_data.charging = true :=
  ⟨charging_flags_follow_current (Protocol.pylontech PylontechCan.new) callsCharging (by decide),
   by decide⟩

/-- Claim C14 (freshness window).  Let the last successful parse of a decoder
have happened at time `t`, followed only by calls that are neither `stop` nor
`initialize` nor a successful parse.  Then for every clock value `now >= t`
(a `uint32_t`, so below `2 ^ 32`; the wrapped clock is claim C39),
`isConnected(w)` at `now` is true iff `now - t < w`; with `w = 5000` it is true
at `t + 4999` and false at `t + 5000`.  A decoder that never parsed a frame
successfully since construction is not connected, whatever the window. -/
theorem freshness_window :
    (∀ (p : Protocol) (canId : Nat) (data : List Nat) (length t : Nat)
        (calls : List DecoderCall) (now w : Nat),
      (p.parseMessage canId data length t).1 = true →
      (∀ c ∈ calls, c.quietFor p) → t ≤ now → now < 2 ^ 32 →
      ((((p.parseMessage canId data length t).2.afterCalls calls).isConnected now w = true ↔
          now - t < w) ∧
        (t + 5000 < 2 ^ 32 →
          ((p.parseMessage canId data length t).2.afterCalls calls).isConnected
            (t + 4999) 5000 = true ∧
          ((p.parseMessage canId data length t).2.afterCalls calls).isConnected
            (t + 5000) 5000 = false))) ∧
    (∀ (p0 : Protocol) (calls : List DecoderCall) (now w : Nat),
      p0 ∈ Protocol.constructed → (∀ c ∈ calls, c.noSuccessFor p0) →
      (p0.afterCalls calls).isConnected now w = false) := by
  refine ⟨?_, ?_⟩
  · intro p canId data length t calls now w hok hquiet htn hnow
    obtain ⟨hc, hl⟩ := parse_true_connectivity p canId data length t hok
    obtain ⟨hc2, hl2⟩ := afterCalls_quiet p calls (p.parseMessage canId data length t).2
      (Protocol.getType_parseMessage p canId data length t) hquiet
    have hcon : ((p.parseMessage canId data length t).2.afterCalls calls).base.m_connected =
        true := hc2.trans hc
    have hlast : ((p.parseMessage canId data length t).2.afterCalls calls).base.m_lastUpdate =
        t := hl2.trans hl
    refine ⟨?_, ?_⟩
    · rw [isConnected_of_connected _ now w hcon, hlast, age_no_wrap now t htn hnow]
      exact decide_eq_true_iff
    · intro h5
      rw [isConnected_of_connected _ _ 5000 hcon, isConnected_of_connected _ _ 5000 hcon, hlast,
        age_no_wrap (t + 4999) t (by omega) (by omega),
        age_no_wrap (t + 5000) t (by omega) (by omega)]
      refine ⟨decide_eq_true (by omega), decide_eq_false (by omega)⟩
  · intro p0 calls now w h0 hall
    have hinit : p0.base.m_connected = false := by
      simp only [Protocol.constructed, List.mem_cons, List.mem_singleton, List.not_mem_nil,
        or_false] at h0
      rcases h0 with rfl | rfl | rfl <;> rfl
    exact isConnected_of_not_connected _ now w (afterCalls_noSuccess p0 calls p0 rfl hall hinit)

/-- Claim C14 at a Pylontech decoder updated at time 1000 and a DALY decoder
that only saw a short frame. -/
theorem freshness_window_witness :
    ((((Protocol.pylontech PylontechCan.new).parseMessage 0x359 [0x13, 0x88, 0, 0, 0, 0, 0, 0] 8
        1000).2.afterCalls callsQuiet).isConnected (1000 + 4999) 5000 = true ∧
     (((Protocol.pylontech PylontechCan.new).parseMessage 0x359 [0x13, 0x88, 0, 0, 0, 0, 0, 0] 8
        1000).2.afterCalls callsQuiet).isConnected (1000 + 5000) 5000 = false) ∧
    ((Protocol.daly DalyCan.new).afterCalls callsNoSuccess).isConnected 1500 5000 = false :=
  ⟨(freshness_window.1 (Protocol.pylontech PylontechCan.new) 0x359
      [0x13, 0x88, 0, 0, 0, 0, 0, 0] 8 1000 callsQuiet 2000 5000 (by decide)
      (by
        intro c hc
        simp only [callsQuiet, List.mem_cons, List.mem_singleton, List.not_mem_nil,
          or_false] at hc
        rcases hc with rfl | rfl | rfl
        · exact trivial
        · exact trivial
        · show ((Protocol.pylontech PylontechCan.new).parseMessage 0x359 payload3990 8 3000).1 =
            false
          decide)
      (by decide) (by decide)).2 (by decide),
   freshness_window.2 (Protocol.daly DalyCan.new) callsNoSuccess 1500 5000 (by decide)
      (by
        intro c hc
        simp only [callsNoSuccess, List.mem_cons, List.mem_singleton, List.not_mem_nil,
          or_false] at hc
        rcases hc with rfl | rfl | rfl
        · exact trivial
        · show ((Protocol.daly DalyCan.new).parseMessage 0x18FF50E5 [0xF4, 0x01] 2 1000).1 =
            false
          decide
        · exact trivial)⟩

/-- Claim C15 (`getData` of a decoder).  For every decoder state, time and
caller record, `getData` returns true iff `isConnected(5000)` holds; when it
returns true the record is the snapshot with `connected = true` and
`last_update = m_lastUpdate`; when it returns false the record is the one the
caller passed in. -/
theorem decoder_getData (p : Protocol) (now : Nat) (data : bms_data_t) :
    ((p.getData now data).1 = true ↔ p.isConnected now 5000 = true) ∧
    ((p.getData now data).1 = true →
      (p.getData now data).2 =
        { p.base.m_data with connected := true, last_update := p.base.m_lastUpdate }) ∧
    ((p.getData now data).1 = false → (p.getData now data).2 = data) := by
  rw [protocol_getData_eq]
  cases h : p.isConnected now 5000
  · refine ⟨⟨fun h1 => ?_, fun h1 => ?_⟩, fun h1 => ?_, fun _ => rfl⟩
    · exact absurd h1 Bool.false_ne_true
    · cases h1
    · exact absurd h1 Bool.false_ne_true
  · exact ⟨⟨fun _ => rfl, fun _ => rfl⟩, fun _ => rfl, fun h1 => Bool.noConfusion h1⟩

/-- Claim C15 at a Pylontech decoder updated at time 1000, read at 2000
(fresh) and at 6000 (stale). -/
theorem decoder_getData_witness :
    ((Protocol.pylontech PylontechCan.at50V).getData 2000 (bms_data_t.zeroed BMS_NONE)).2 =
        { (Protocol.pylontech PylontechCan.at50V).base.m_data with
          connected := true,
          last_update := (Protocol.pylontech PylontechCan.at50V).base.m_lastUpdate } ∧
    ((Protocol.pylontech PylontechCan.at50V).getData 6000 (bms_data_t.zeroed BMS_NONE)).2 =
        bms_data_t.zeroed BMS_NONE :=
  ⟨(decoder_getData (Protocol.pylontech PylontechCan.at50V) 2000
      (bms_data_t.zeroed BMS_NONE)).2.1 (by decide),
   (decoder_getData (Protocol.pylontech PylontechCan.at50V) 6000
      (bms_data_t.zeroed BMS_NONE)).2.2 (by decide)⟩

/-- Claim C16 (the read path is pure and idempotent).  `getData`, `isConnected`
and `getActiveProtocol` are `const` members: they yield a value and no new
state.  For a decoder and for the manager, a second `getData` at the same time
returns what the first returned, also when it is handed the record the first
call filled; the flag does not depend on the record passed in, and neither does
the record returned on success. -/
theorem read_path_idempotent :
    (∀ (p : Protocol) (now : Nat) (data data1 : bms_data_t),
      p.getData now (p.getData now data).2 = p.getData now data ∧
      (p.getData now data).1 = (p.getData now data1).1 ∧
      ((p.getData now data).1 = true → (p.getData now data).2 = (p.getData now data1).2)) ∧
    (∀ (m : ProtocolManager) (now : Nat) (data data1 : bms_data_t),
      m.getData now (m.getData now data).2 = m.getData now data ∧
      (m.getData now data).1 = (m.getData now data1).1 ∧
      ((m.getData now data).1 = true → (m.getData now data).2 = (m.getData now data1).2)) := by
  have hdec : ∀ (p : Protocol) (now : Nat) (data data1 : bms_data_t),
      p.getData now (p.getData now data).2 = p.getData now data ∧
      (p.getData now data).1 = (p.getData now data1).1 ∧
      ((p.getData now data).1 = true → (p.getData now data).2 = (p.getData now data1).2) := by
    intro p now data data1
    simp only [protocol_getData_eq]
    cases p.isConnected now 5000
    · exact ⟨rfl, rfl, fun h => absurd h Bool.false_ne_true⟩
    · exact ⟨rfl, rfl, fun _ => rfl⟩
  refine ⟨hdec, ?_⟩
  intro m now data data1
  rcases manager_getData_cases m now with ⟨P, -, h⟩ | h
  · rw [h, h, h]
    exact hdec P now data data1
  · rw [h, h, h]
    exact ⟨rfl, rfl, fun h1 => absurd h1 Bool.false_ne_true⟩

/-- Claim C16 at a connected Pylontech decoder and at a manager with a
connected DALY decoder, read into two different records. -/
theorem read_path_idempotent_witness :
    ((Protocol.pylontech PylontechCan.at50V).getData 2000 (bms_data_t.zeroed BMS_NONE)).2 =
      ((Protocol.pylontech PylontechCan.at50V).getData 2000 (bms_data_t.zeroed BMS_DALY)).2 ∧
    (ProtocolManager.dalySeen.getData 2000 (bms_data_t.zeroed BMS_NONE)).2 =
      (ProtocolManager.dalySeen.getData 2000 (bms_data_t.zeroed BMS_DALY)).2 :=
  ⟨(read_path_idempotent.1 (Protocol.pylontech PylontechCan.at50V) 2000
      (bms_data_t.zeroed BMS_NONE) (bms_data_t.zeroed BMS_DALY)).2.2 (by decide),
   (read_path_idempotent.2 ProtocolManager.dalySeen 2000
      (bms_data_t.zeroed BMS_NONE) (bms_data_t.zeroed BMS_DALY)).2.2 (by decide)⟩

/-- Claim C17 (`getData` of the manager).  With an active decoder the manager
returns exactly the result of that decoder's `getData`.  With none active it
returns the data of the first decoder in registration order that is connected,
and it returns false and the caller's record untouched when no registered
decoder is connected. -/
theorem manager_getData :
    (∀ (m : ProtocolManager) (now : Nat) (data : bms_data_t) (a : Nat) (P : Protocol),
      m.m_activeProtocol = some a → m.m_protocols[a]? = some P →
      m.getData now data = P.getData now data) ∧
    (∀ (m : ProtocolManager) (now : Nat) (data : bms_data_t) (k : Nat) (P : Protocol),
      m.m_activeProtocol = none → m.m_protocols[k]? = some P →
      P.isConnected now 5000 = true →
      (∀ (j : Nat) (Q : Protocol), j < k → m.m_protocols[j]? = some Q →
        Q.isConnected now 5000 = false) →
      m.getData now data = P.getData now data ∧
      m.getData now data =
        (true, { P.base.m_data with connected := true, last_update := P.base.m_lastUpdate })) ∧
    (∀ (m : ProtocolManager) (now : Nat) (data : bms_data_t),
      m.m_activeProtocol = none →
      (∀ P ∈ m.m_protocols, Protocol.isConnected P now 5000 = false) →
      m.getData now data = (false, data)) := by
  refine ⟨?_, ?_, ?_⟩
  · intro m now data a P hact hP
    unfold ProtocolManager.getData
    rw [hact]
    simp only [hP]
  · intro m now data k P hact hP hc hbefore
    have e : m.getData now data = P.getData now data := by
      unfold ProtocolManager.getData
      rw [hact]
      exact getDataLoop_first now data m.m_protocols k P hP hc hbefore
    refine ⟨e, ?_⟩
    rw [e, protocol_getData_eq, if_pos hc]
  · intro m now data hact hn
    unfold ProtocolManager.getData
    rw [hact]
    exact getDataLoop_none now data m.m_protocols hn

/-- Claim C17 at the manager pinned to DALY, at the manager with only the
DALY decoder connected, and at the manager with no decoder connected. -/
theorem manager_getData_witness :
    ProtocolManager.pinnedDaly.getData 2000 (bms_data_t.zeroed BMS_NONE) =
      (Protocol.daly DalyCan.new).getData 2000 (bms_data_t.zeroed BMS_NONE) ∧
    ProtocolManager.dalySeen.getData 2000 (bms_data_t.zeroed BMS_NONE) =
      (Protocol.daly DalyCan.at50V).getData 2000 (bms_data_t.zeroed BMS_NONE) ∧
    ProtocolManager.three.getData 2000 (bms_data_t.zeroed BMS_NONE) =
      (false, bms_data_t.zeroed BMS_NONE) :=
  ⟨manager_getData.1 ProtocolManager.pinnedDaly 2000 (bms_data_t.zeroed BMS_NONE) 2
      (Protocol.daly DalyCan.new) (by decide) (by decide),
   (manager_getData.2.1 ProtocolManager.dalySeen 2000 (bms_data_t.zeroed BMS_NONE) 2
      (Protocol.daly DalyCan.at50V) (by decide) (by decide) (by decide)
      (by
        intro j Q hj hQ
        have hj2 : j = 0 ∨ j = 1 := by omega
        rcases hj2 with rfl | rfl
        · have h0 : ProtocolManager.dalySeen.m_protocols[0]? =
              some (Protocol.pylontech PylontechCan.new) := by decide
          rw [h0] at hQ
          cases hQ
          decide
        · have h1 : ProtocolManager.dalySeen.m_protocols[1]? =
              some (Protocol.jkBms JkBmsCan.new) := by decide
          rw [h1] at hQ
          cases hQ
          decide)).1,
   manager_getData.2.2 ProtocolManager.three 2000 (bms_data_t.zeroed BMS_NONE) (by decide)
      (by decide)⟩

/-- Claim C18 (`selectProtocol`).  If some registered decoder has the requested
type, `selectProtocol` returns true, makes the first such decoder in
registration order the active one and switches auto-detect off, changing
nothing else.  If no registered decoder has the type it returns false and the
manager is unchanged. -/
theorem selectProtocol_spec :
    (∀ (m : ProtocolManager) (type : bms_type_t) (k : Nat) (P : Protocol),
      m.m_protocols[k]? = some P → P.getType = type →
      (∀ (j : Nat) (Q : Protocol), j < k → m.m_protocols[j]? = some Q → Q.getType ≠ type) →
      m.selectProtocol type =
        (true, { m with m_activeProtocol := some k, m_autoDetect := false })) ∧
    (∀ (m : ProtocolManager) (type : bms_type_t),
      (∃ P ∈ m.m_protocols, Protocol.getType P = type) →
      ∃ (k : Nat) (P : Protocol), m.m_protocols[k]? = some P ∧ P.getType = type ∧
        (∀ (j : Nat) (Q : Protocol), j < k → m.m_protocols[j]? = some Q → Q.getType ≠ type) ∧
        m.selectProtocol type =
          (true, { m with m_activeProtocol := some k, m_autoDetect := false })) ∧
    (∀ (m : ProtocolManager) (type : bms_type_t),
      (∀ P ∈ m.m_protocols, Protocol.getType P ≠ type) →
      m.selectProtocol type = (false, m)) := by
  have key : ∀ (m : ProtocolManager) (type : bms_type_t) (k : Nat) (P : Protocol),
      m.m_protocols[k]? = some P → P.getType = type →
      (∀ (j : Nat) (Q : Protocol), j < k → m.m_protocols[j]? = some Q → Q.getType ≠ type) →
      m.selectProtocol type =
        (true, { m with m_activeProtocol := some k, m_autoDetect := false }) := by
    intro m type k P hk hP hbefore
    unfold ProtocolManager.selectProtocol
    rw [selectLoop_first type m.m_protocols 0 k P hk hP hbefore, Nat.zero_add]
  refine ⟨key, ?_, ?_⟩
  · intro m type hex
    classical
    have h : ∃ (k : Nat) (P : Protocol), m.m_protocols[k]? = some P ∧ P.getType = type := by
      obtain ⟨P, hP, ht⟩ := hex
      obtain ⟨k, hk⟩ := List.getElem?_of_mem hP
      exact ⟨k, P, hk, ht⟩
    obtain ⟨P, hP, ht⟩ := Nat.find_spec h
    have hfirst : ∀ (j : Nat) (Q : Protocol), j < Nat.find h → m.m_protocols[j]? = some Q →
        Q.getType ≠ type := by
      intro j Q hj hQ hQt
      exact Nat.find_min h hj ⟨Q, hQ, hQt⟩
    exact ⟨Nat.find h, P, hP, ht, hfirst, key m type _ P hP ht hfirst⟩
  · intro m type hn
    unfold ProtocolManager.selectProtocol
    rw [selectLoop_none type m.m_protocols 0 hn]

/-- Claim C18 at one decoder of each vendor: DALY is found, Seplos is not. -/
theorem selectProtocol_spec_witness :
    (∃ (k : Nat) (P : Protocol), ProtocolManager.three.m_protocols[k]? = some P ∧
        P.getType = BMS_DALY ∧
        (∀ (j : Nat) (Q : Protocol), j < k → ProtocolManager.three.m_protocols[j]? = some Q →
          Q.getType ≠ BMS_DALY) ∧
        ProtocolManager.three.selectProtocol BMS_DALY =
          (true, { ProtocolManager.three with
            m_activeProtocol := some k, m_autoDetect := false })) ∧
    ProtocolManager.three.selectProtocol BMS_SEPLOS = (false, ProtocolManager.three) :=
  ⟨selectProtocol_spec.2.1 ProtocolManager.three BMS_DALY (by decide),
   selectProtocol_spec.2.2 ProtocolManager.three BMS_SEPLOS (by decide)⟩

/-- Claim C19 (`setAutoDetect`).  `setAutoDetect(true)` sets the flag and clears
the active decoder, `setAutoDetect(false)` clears the flag and keeps the active
decoder; neither touches the detection statistics or any decoder. -/
theorem setAutoDetect_spec (m : ProtocolManager) :
    m.setAutoDetect true = { m with m_autoDetect := true, m_activeProtocol := none } ∧
    m.setAutoDetect false = { m with m_autoDetect := false } ∧
    (∀ enable : Bool,
      (m.setAutoDetect enable).m_autoDetect = enable ∧
      (m.setAutoDetect enable).m_detectionStats = m.m_detectionStats ∧
      (m.setAutoDetect enable).m_protocols = m.m_protocols) := by
  refine ⟨rfl, rfl, ?_⟩
  intro enable
  cases enable <;> exact ⟨rfl, rfl, rfl⟩

/-- Claim C20 (`resetStats` of the manager).  After `resetStats` every statistics
entry has match count 0 and last match 0 (and still points to its decoder),
every registered decoder has message and error counter 0 with snapshot,
connected flag, last-update time and class unchanged, no decoder is active, and
the auto-detect flag is unchanged. -/
theorem manager_resetStats (m : ProtocolManager) :
    (∀ st ∈ m.resetStats.m_detectionStats, st.matchCount = 0 ∧ st.lastMatch = 0) ∧
    m.resetStats.m_detectionStats.length = m.m_detectionStats.length ∧
    (∀ (i : Nat) (st : DetectionStats), m.m_detectionStats[i]? = some st →
      m.resetStats.m_detectionStats[i]? = some { st with matchCount := 0, lastMatch := 0 }) ∧
    m.resetStats.m_protocols.length = m.m_protocols.length ∧
    (∀ (i : Nat) (P : Protocol), m.m_protocols[i]? = some P →
      ∃ P1 : Protocol, m.resetStats.m_protocols[i]? = some P1 ∧
        P1.base.m_messageCount = 0 ∧ P1.base.m_errorCount = 0 ∧
        P1.base.m_data = P.base.m_data ∧ P1.base.m_connected = P.base.m_connected ∧
        P1.base.m_lastUpdate = P.base.m_lastUpdate ∧ P1.getType = P.getType) ∧
    m.resetStats.m_activeProtocol = none ∧
    m.resetStats.m_autoDetect = m.m_autoDetect := by
  refine ⟨?_, ?_, ?_, ?_, ?_, rfl, rfl⟩
  · intro st hst
    simp only [ProtocolManager.resetStats, List.mem_map] at hst
    obtain ⟨s0, -, rfl⟩ := hst
    exact ⟨rfl, rfl⟩
  · simp [ProtocolManager.resetStats]
  · intro i st hst
    simp [ProtocolManager.resetStats, List.getElem?_map, hst]
  · simp [ProtocolManager.resetStats]
  · intro i P hP
    refine ⟨P.resetStats, ?_, ?_⟩
    · simp [ProtocolManager.resetStats, List.getElem?_map, hP]
    · unfold Protocol.resetStats
      rw [base_withBase, getType_withBase]
      exact ⟨rfl, rfl, rfl, rfl, rfl, rfl⟩

/-- Claim C20 at one decoder of each vendor after four good Pylontech frames. -/
theorem manager_resetStats_witness :
    (ProtocolManager.three.routeAll fourV50).m_detectionStats[0]? =
      some { protocol := some 0, matchCount := 4, lastMatch := 4000 } ∧
    (ProtocolManager.three.routeAll fourV50).resetStats.m_detectionStats[0]? =
      some { protocol := some 0, matchCount := 0, lastMatch := 0 } :=
  ⟨by decide,
   (manager_resetStats (ProtocolManager.three.routeAll fourV50)).2.2.1 0
    { protocol := some 0, matchCount := 4, lastMatch := 4000 } (by decide)⟩

/-- Claim C21.  Lifecycle fan-out without short-circuit.  The loop of
`initializeAll`, `startAll` and `stopAll` applies the virtual member `op` to
every registered decoder in turn, whatever earlier calls returned, and returns
the conjunction of all results; this holds for every `op`, failing ones
included.  For the three members: the decoder at each position afterwards is
the one `initialize` / `start` / `stop` leaves, once applied to the decoder
that was there; the flag is the conjunction of the per-decoder results (true
for the decoders of this repository, whose lifecycle members never fail); the
statistics and the auto-detect flag are kept; `initializeAll` and `startAll`
keep the active decoder while `stopAll` sets it to none; and `stopAll` twice
gives the same state and flag as `stopAll` once. -/
theorem lifecycle_fan_out (m : ProtocolManager) :
    (∀ (op : Protocol → Bool × Protocol) (ps : List Protocol),
      ProtocolManager.lifecycleLoop op ps true =
        ((ps.map fun p => (op p).1).all id, ps.map fun p => (op p).2)) ∧
    (m.initializeAll =
        ((ProtocolManager.lifecycleLoop Protocol.initialize m.m_protocols true).1,
         { m with m_protocols :=
            (ProtocolManager.lifecycleLoop Protocol.initialize m.m_protocols true).2 }) ∧
      m.startAll =
        ((ProtocolManager.lifecycleLoop Protocol.start m.m_protocols true).1,
         { m with m_protocols :=
            (ProtocolManager.lifecycleLoop Protocol.start m.m_protocols true).2 }) ∧
      m.stopAll =
        ((ProtocolManager.lifecycleLoop Protocol.stop m.m_protocols true).1,
         { m with
           m_protocols := (ProtocolManager.lifecycleLoop Protocol.stop m.m_protocols true).2,
           m_activeProtocol := none })) ∧
    (∀ (i : Nat) (P : Protocol), m.m_protocols[i]? = some P →
      m.initializeAll.2.m_protocols[i]? = some ( Protocol.initialize P).2 ∧
      m.startAll.2.m_protocols[i]? = some P.start.2 ∧
      m.stopAll.2.m_protocols[i]? = some P.stop.2) ∧
    (m.initializeAll.2.m_protocols.length = m.m_protocols.length ∧
      m.startAll.2.m_protocols.length = m.m_protocols.length ∧
      m.stopAll.2.m_protocols.length = m.m_protocols.length) ∧
    (m.initializeAll.1 = (m.m_protocols.map fun p => ( Protocol.initialize p).1).all id ∧
      m.startAll.1 = (m.m_protocols.map fun p => p.start.1).all id ∧
      m.stopAll.1 = (m.m_protocols.map fun p => p.stop.1).all id) ∧
    (m.initializeAll.1 = true ∧ m.startAll.1 = true ∧ m.stopAll.1 = true) ∧
    (m.initializeAll.2.m_detectionStats = m.m_detectionStats ∧
      m.initializeAll.2.m_autoDetect = m.m_autoDetect ∧
      m.initializeAll.2.m_activeProtocol = m.m_activeProtocol ∧
      m.startAll.2.m_detectionStats = m.m_detectionStats ∧
      m.startAll.2.m_autoDetect = m.m_autoDetect ∧
      m.startAll.2.m_activeProtocol = m.m_activeProtocol ∧
      m.stopAll.2.m_detectionStats = m.m_detectionStats ∧
      m.stopAll.2.m_autoDetect = m.m_autoDetect) ∧
    m.stopAll.2.m_activeProtocol = none ∧
    m.stopAll.2.stopAll = m.stopAll := by
  have hloop : ∀ (op : Protocol → Bool × Protocol) (ps : List Protocol),
      ProtocolManager.lifecycleLoop op ps true =
        ((ps.map fun p => (op p).1).all id, ps.map fun p => (op p).2) := by
    intro op ps
    rw [lifecycleLoop_eq op ps true, Bool.true_and]
  have hstop2 : ∀ p : Protocol, p.stop.2.stop.2 = p.stop.2 := by
    intro p
    cases p <;> rfl
  refine ⟨hloop, ⟨?_, ?_, ?_⟩, ?_, ⟨?_, ?_, ?_⟩, ⟨rfl, rfl, rfl⟩, ⟨?_, ?_, ?_⟩,
    ⟨rfl, rfl, rfl, rfl, rfl, rfl, rfl, rfl⟩, rfl, ?_⟩
  · rw [hloop]; rfl
  · rw [hloop]; rfl
  · rw [hloop]; rfl
  · intro i P hP
    refine ⟨?_, ?_, ?_⟩
    · show (m.m_protocols.map fun p => ( Protocol.initialize p).2)[i]? = _
      rw [List.getElem?_map, hP]; rfl
    · show (m.m_protocols.map fun p => p.start.2)[i]? = _
      rw [List.getElem?_map, hP]; rfl
    · show (m.m_protocols.map fun p => p.stop.2)[i]? = _
      rw [List.getElem?_map, hP]; rfl
  · show (m.m_protocols.map fun p => ( Protocol.initialize p).2).length = _
    rw [List.length_map]
  · show (m.m_protocols.map fun p => p.start.2).length = _
    rw [List.length_map]
  · show (m.m_protocols.map fun p => p.stop.2).length = _
    rw [List.length_map]
  · exact all_true_of_forall m.m_protocols _ (fun _ => rfl)
  · exact all_true_of_forall m.m_protocols _ (fun _ => rfl)
  · exact all_true_of_forall m.m_protocols _ (fun _ => rfl)
  · have e1 : m.stopAll.1 = true := all_true_of_forall m.m_protocols _ (fun _ => rfl)
    have e2 : m.stopAll.2.stopAll.1 = true :=
      all_true_of_forall m.stopAll.2.m_protocols _ (fun _ => rfl)
    have e3 : m.stopAll.2.stopAll.2 = m.stopAll.2 := by
      show ({ m.stopAll.2 with
        m_protocols := (m.m_protocols.map fun p => p.stop.2).map fun p => p.stop.2,
        m_activeProtocol := none } : ProtocolManager) = m.stopAll.2
      rw [List.map_map]
      have e4 : ((fun p : Protocol => p.stop.2) ∘ fun p : Protocol => p.stop.2) =
          fun p : Protocol => p.stop.2 := by
        funext p
        exact hstop2 p
      rw [e4]
      rfl
    exact Prod.ext (e2.trans e1.symm) e3

/-- The claim C21 on the three registered decoders: a member that fails on the
first decoder is still applied to the other two, and the result is false. -/
theorem lifecycle_fan_out_witness :
    ProtocolManager.lifecycleLoop Protocol.stopFailingOnPylontech
        ProtocolManager.dalySeen.m_protocols true =
      ((ProtocolManager.dalySeen.m_protocols.map fun p =>
          (Protocol.stopFailingOnPylontech p).1).all id,
        ProtocolManager.dalySeen.m_protocols.map fun p =>
          (Protocol.stopFailingOnPylontech p).2) ∧
    (ProtocolManager.dalySeen.m_protocols.map fun p =>
      (Protocol.stopFailingOnPylontech p).1) = [false, true, true] ∧
    (ProtocolManager.dalySeen.m_protocols.map fun p => p.base.m_connected) =
      [false, false, true] ∧
    ((ProtocolManager.lifecycleLoop Protocol.stopFailingOnPylontech
        ProtocolManager.dalySeen.m_protocols true).2.map fun p => p.base.m_connected) =
      [false, false, false] :=
  ⟨(lifecycle_fan_out ProtocolManager.dalySeen).1 Protocol.stopFailingOnPylontech
      ProtocolManager.dalySeen.m_protocols,
   by decide, by decide, by decide⟩

/-- Claim C22.  Decoder initialize: for every decoder in every state,
`initialize` returns true and leaves `connected` false, the last-update time,
the message counter and the error counter 0, and a snapshot with every field
zero, false or empty except the vendor tag, which is the decoder's `getType()`:
Pylontech, JK-BMS or DALY. -/
theorem decoder_reset_by_init (p : Protocol) :
    ( Protocol.initialize p).1 = true ∧
    ( Protocol.initialize p).2.base.m_connected = false ∧
    ( Protocol.initialize p).2.base.m_lastUpdate = 0 ∧
    ( Protocol.initialize p).2.base.m_messageCount = 0 ∧
    ( Protocol.initialize p).2.base.m_errorCount = 0 ∧
    ( Protocol.initialize p).2.base.m_data =
      { type := p.getType, connected := false, voltage := F32.zero, current := F32.zero,
        soc := F32.zero, temperature := F32.zero, cycles := 0, charging := false,
        discharging := false, status_text := "", last_update := 0 } ∧
    ( Protocol.initialize p).2.getType = p.getType ∧
    (∀ q : PylontechCan, p = Protocol.pylontech q →
      ( Protocol.initialize p).2.base.m_data.type = BMS_PYLONTECH) ∧
    (∀ q : JkBmsCan, p = Protocol.jkBms q →
      ( Protocol.initialize p).2.base.m_data.type = BMS_JK_BMS) ∧
    (∀ q : DalyCan, p = Protocol.daly q →
      ( Protocol.initialize p).2.base.m_data.type = BMS_DALY) := by
  cases p with
  | pylontech q =>
    refine ⟨rfl, rfl, rfl, rfl, rfl, rfl, rfl, fun _ _ => rfl, ?_, ?_⟩
    · intro _ h; cases h
    · intro _ h; cases h
  | jkBms q =>
    refine ⟨rfl, rfl, rfl, rfl, rfl, rfl, rfl, ?_, fun _ _ => rfl, ?_⟩
    · intro _ h; cases h
    · intro _ h; cases h
  | daly q =>
    refine ⟨rfl, rfl, rfl, rfl, rfl, rfl, rfl, ?_, ?_, fun _ _ => rfl⟩
    · intro _ h; cases h
    · intro _ h; cases h

/-- The claim C22 on a DALY decoder that holds a 50.0 V reading. -/
theorem decoder_reset_by_init_witness :
    (Protocol.daly DalyCan.at50V).base.m_connected = true ∧
    (Protocol.daly DalyCan.at50V).base.m_messageCount = 1 ∧
    ( Protocol.initialize (Protocol.daly DalyCan.at50V)).1 = true ∧
    ( Protocol.initialize (Protocol.daly DalyCan.at50V)).2.base.m_connected = false ∧
    ( Protocol.initialize (Protocol.daly DalyCan.at50V)).2.base.m_messageCount = 0 ∧
    ( Protocol.initialize (Protocol.daly DalyCan.at50V)).2.base.m_data.type = BMS_DALY :=
  ⟨by decide, by decide,
   (decoder_reset_by_init (Protocol.daly DalyCan.at50V)).1,
   (decoder_reset_by_init (Protocol.daly DalyCan.at50V)).2.1,
   (decoder_reset_by_init (Protocol.daly DalyCan.at50V)).2.2.2.1,
   (decoder_reset_by_init (Protocol.daly DalyCan.at50V)).2.2.2.2.2.2.2.2.2 DalyCan.at50V rfl⟩

/-- Claim C23.  Unrecognized identifier at manager level: for every manager
state, auto-detecting or pinned, and every frame whose identifier no registered
decoder accepts, `routeMessage` returns false and the whole state is as before:
every decoder with its counters, snapshot and connectivity, every match count,
and the active decoder. -/
theorem unaccepted_frame_dropped (m : ProtocolManager) (canId : Nat) (data : List Nat)
    (length now : Nat)
    (h : ∀ p ∈ m.m_protocols, p.canAcceptMessage canId = false) :
    m.routeMessage canId data length now = (false, m) := by
  rcases pinned_or_not m with ⟨a, hact, hauto⟩ | hun
  · cases hp : m.m_protocols[a]? with
    | none =>
      unfold routeMessage
      rw [hact, hauto]
      simp only [hp]
    | some active =>
      have ha : active.canAcceptMessage canId = false := h active (List.getElem?_mem hp)
      unfold routeMessage
      rw [hact, hauto]
      simp only [hp, ha]
      rfl
  · rw [routeMessage_unpinned m canId data length now hun]
    exact routeLoop_none_accepting canId data length now m h _ _

/-- The claim C23 at identifier 0x123, in auto-detection and pinned to DALY. -/
theorem unaccepted_frame_dropped_witness :
    ProtocolManager.dalySeen.routeMessage 0x123 zeros8 8 2000 =
      (false, ProtocolManager.dalySeen) ∧
    ProtocolManager.pinnedDaly.routeMessage 0x123 zeros8 8 2000 =
      (false, ProtocolManager.pinnedDaly) :=
  ⟨unaccepted_frame_dropped ProtocolManager.dalySeen 0x123 zeros8 8 2000 (by decide),
   unaccepted_frame_dropped ProtocolManager.pinnedDaly 0x123 zeros8 8 2000 (by decide)⟩

/-- Claim C24.  Registration: registering the null pointer leaves the manager
as it was, `getProtocolCount` included; registering a decoder appends it after
the decoders registered before, which keep their positions, together with a
statistics entry for it with `matchCount = 0` and `lastMatch = 0`, so that
`getProtocolCount` grows by exactly 1; active decoder and auto-detect flag are
kept. -/
theorem registerProtocol_spec (m : ProtocolManager) (p : Protocol) :
    m.registerProtocol none = m ∧
    (m.registerProtocol none).getProtocolCount = m.getProtocolCount ∧
    (m.registerProtocol (some p)).m_protocols = m.m_protocols ++ [p] ∧
    (m.registerProtocol (some p)).m_detectionStats =
      m.m_detectionStats ++
        [{ protocol := some m.m_protocols.length, matchCount := 0, lastMatch := 0 }] ∧
    (m.registerProtocol (some p)).getProtocolCount = m.getProtocolCount + 1 ∧
    (m.registerProtocol (some p)).m_protocols[m.getProtocolCount]? = some p ∧
    (∀ i : Nat, i < m.getProtocolCount →
      (m.registerProtocol (some p)).m_protocols[i]? = m.m_protocols[i]?) ∧
    (∀ i : Nat, i < m.m_detectionStats.length →
      (m.registerProtocol (some p)).m_detectionStats[i]? = m.m_detectionStats[i]?) ∧
    (m.registerProtocol (some p)).m_detectionStats[m.m_detectionStats.length]? =
      some { protocol := some m.m_protocols.length, matchCount := 0, lastMatch := 0 } ∧
    (m.registerProtocol (some p)).m_detectionStats.length = m.m_detectionStats.length + 1 ∧
    (m.registerProtocol (some p)).m_activeProtocol = m.m_activeProtocol ∧
    (m.registerProtocol (some p)).m_autoDetect = m.m_autoDetect := by
  refine ⟨rfl, rfl, rfl, rfl, ?_, ?_, ?_, ?_, ?_, ?_, rfl, rfl⟩
  · show (m.m_protocols ++ [p]).length = m.m_protocols.length + 1
    rw [List.length_append]; rfl
  · show (m.m_protocols ++ [p])[m.m_protocols.length]? = some p
    simp
  · intro i hi
    show (m.m_protocols ++ [p])[i]? = m.m_protocols[i]?
    exact List.getElem?_append_left hi
  · intro i hi
    show (m.m_detectionStats ++ [_])[i]? = m.m_detectionStats[i]?
    exact List.getElem?_append_left hi
  · show (m.m_detectionStats ++ [_])[m.m_detectionStats.length]? = some _
    simp
  · show (m.m_detectionStats ++ [_]).length = m.m_detectionStats.length + 1
    rw [List.length_append]; rfl

/-- The claim C24 on the manager with three decoders: a fourth registration. -/
theorem registerProtocol_spec_witness :
    ProtocolManager.three.registerProtocol none = ProtocolManager.three ∧
    (ProtocolManager.three.registerProtocol
      (some (Protocol.daly DalyCan.at50V))).getProtocolCount =
      ProtocolManager.three.getProtocolCount + 1 ∧
    ProtocolManager.three.getProtocolCount = 3 ∧
    (ProtocolManager.three.registerProtocol
      (some (Protocol.daly DalyCan.at50V))).m_protocols[ProtocolManager.three.getProtocolCount]? =
      some (Protocol.daly DalyCan.at50V) :=
  ⟨(registerProtocol_spec ProtocolManager.three (Protocol.daly DalyCan.at50V)).1,
   (registerProtocol_spec ProtocolManager.three (Protocol.daly DalyCan.at50V)).2.2.2.2.1,
   by decide,
   (registerProtocol_spec ProtocolManager.three (Protocol.daly DalyCan.at50V)).2.2.2.2.2.1⟩

/-- Claim C25, as stated, fails in its exactness: the voltage frame `0F A1` (raw
4001) is accepted, but the stored `float` is the product `4001 * 0.01f`, which
is not the decimal 40.01; it lies below 40.01.  No `float` at all is 40.01. -/
theorem pylontech_voltage_not_exact_decimal :
    extractUint16 [0x0F, 0xA1, 0, 0, 0, 0, 0, 0] 0 true = 4001 ∧
    (PylontechCan.new.parseMessage 0x359 [0x0F, 0xA1, 0, 0, 0, 0, 0, 0] 8 1000).1 = true ∧
    (PylontechCan.new.parseMessage 0x359 [0x0F, 0xA1, 0, 0, 0, 0, 0, 0] 8 1000).2.m_data.voltage =
      F32.mul (F32.ofInt 4001) (F32.lit 1 100) ∧
    100 * (PylontechCan.new.parseMessage 0x359 [0x0F, 0xA1, 0, 0, 0, 0, 0, 0] 8
      1000).2.m_data.voltage.units ≠ 4001 * (F32.one : Int) ∧
    100 * (PylontechCan.new.parseMessage 0x359 [0x0F, 0xA1, 0, 0, 0, 0, 0, 0] 8
      1000).2.m_data.voltage.units < 4001 * (F32.one : Int) ∧
    (∀ x : F32, 100 * x.units ≠ 4001 * (F32.one : Int)) := by
  refine ⟨by decide, by decide, by decide, by decide, by decide, ?_⟩
  intro x hx
  have h := hundredth_exact_only_if x 4001 (by exact_mod_cast hx)
  omega

/-- Claim C25, amended.  Pylontech voltage decoding: for every decoder state
and every frame with identifier 0x359 and length at least 8, with
`v = 256 * data[0] + data[1]` (big-endian), the stored voltage is the `float`
product `v * 0.01f`; it is the decimal `v / 100` up to a relative rounding
error of `2 ^ (-22)`, and can be that decimal exactly only when `v` is a
multiple of 25; no other field of the snapshot changes; and the frame is
accepted, that is `parseMessage` returns true, exactly when
`4000 <= v <= 6000`, both bounds included. -/
theorem pylontech_voltage_decoding (s : PylontechCan) (data : List Nat) (length now v : Nat)
    (hlen : 8 ≤ length) (hv : v = 256 * byteAt data 0 + byteAt data 1) :
    extractUint16 data 0 true = v ∧
    (s.parseMessage 0x359 data length now).2.m_data.voltage =
      F32.mul (F32.ofInt (v : Int)) (F32.lit 1 100) ∧
    F32.approx (s.parseMessage 0x359 data length now).2.m_data.voltage (v : Int) 100 ∧
    (s.parseMessage 0x359 data length now).2.m_data =
      { s.m_data with voltage := F32.mul (F32.ofInt (v : Int)) (F32.lit 1 100) } ∧
    ((s.parseMessage 0x359 data length now).1 =
      validateRange (s.parseMessage 0x359 data length now).2.m_data.voltage
        (F32.lit 40 1) (F32.lit 60 1)) ∧
    ((s.parseMessage 0x359 data length now).1 = true ↔ 4000 ≤ v ∧ v ≤ 6000) ∧
    (100 * (s.parseMessage 0x359 data length now).2.m_data.voltage.units =
      (v : Int) * (F32.one : Int) → 25 ∣ v) := by
  have hraw : extractUint16 data 0 true = v := by
    rw [hv]; exact extractUint16_bigEndian data 0
  have hdec : PylontechCan.decodeVoltage data = F32.mul (F32.ofInt (v : Int)) (F32.lit 1 100) := by
    unfold PylontechCan.decodeVoltage
    rw [hraw]
  have hf := pylontech_voltage_frame s data length now hlen
  rw [hdec] at hf
  have hvolt : (s.parseMessage 0x359 data length now).2.m_data.voltage =
      F32.mul (F32.ofInt (v : Int)) (F32.lit 1 100) := by
    rw [hf.2]
  refine ⟨hraw, hvolt, ?_, hf.2, ?_, ?_, ?_⟩
  · rw [hvolt]
    exact scaled_hundredth_approx v
  · rw [hvolt]
    exact hf.1
  · rw [hf.1]
    exact scaled_hundredth_range v
  · exact hundredth_exact_only_if _ v

/-- The amended claim C25 at the frames with raw values 4000 (accepted, stored
as exactly 40.0), 3999 (rejected) and 4001 (accepted, not stored as 40.01). -/
theorem pylontech_voltage_decoding_witness :
    ((PylontechCan.new.parseMessage 0x359 [0x0F, 0xA0, 0, 0, 0, 0, 0, 0] 8 1000).1 = true ↔
      4000 ≤ 4000 ∧ 4000 ≤ 6000) ∧
    ((PylontechCan.new.parseMessage 0x359 [0x0F, 0x9F, 0, 0, 0, 0, 0, 0] 8 1000).1 = true ↔
      4000 ≤ 3999 ∧ 3999 ≤ 6000) ∧
    (PylontechCan.new.parseMessage 0x359 [0x0F, 0xA0, 0, 0, 0, 0, 0, 0] 8 1000).2.m_data.voltage =
      F32.lit 40 1 ∧
    F32.approx
      (PylontechCan.new.parseMessage 0x359 [0x0F, 0xA1, 0, 0, 0, 0, 0, 0] 8 1000).2.m_data.voltage
      ((4001 : Nat) : Int) 100 :=
  ⟨(pylontech_voltage_decoding PylontechCan.new [0x0F, 0xA0, 0, 0, 0, 0, 0, 0] 8 1000 4000
      (by decide) (by decide)).2.2.2.2.2.1,
   (pylontech_voltage_decoding PylontechCan.new [0x0F, 0x9F, 0, 0, 0, 0, 0, 0] 8 1000 3999
      (by decide) (by decide)).2.2.2.2.2.1,
   by decide,
   (pylontech_voltage_decoding PylontechCan.new [0x0F, 0xA1, 0, 0, 0, 0, 0, 0] 8 1000 4001
      (by decide) (by decide)).2.2.1⟩

/-- Claim C26.  DALY current decoding: for every decoder state and every frame
with identifier 0x18FF51E5 and length at least 8, with `c` the two's-complement
signed reading of the 16-bit value `data[0] + 256 * data[1]` (little-endian),
`parseMessage` returns true and stores the `float` product `c * 0.1f` as
current, which is the decimal `c / 10` up to a relative rounding error of
`2 ^ (-22)`; the charging flag is set exactly when `c >= 6`, the discharging
flag exactly when `c <= -6`, so that both are false for `-5 <= c <= 5`; no other
field of the snapshot changes. -/
theorem daly_current_decoding (s : DalyCan) (data : List Nat) (length now : Nat) (c : Int)
    (hlen : 8 ≤ length) (hc : c = asInt16 (byteAt data 0 + 256 * byteAt data 1)) :
    extractInt16 data 0 false = c ∧
    (-32768 ≤ c ∧ c < 32768) ∧
    (s.parseMessage 0x18FF51E5 data length now).1 = true ∧
    (s.parseMessage 0x18FF51E5 data length now).2.m_data.current =
      F32.mul (F32.ofInt c) (F32.lit 1 10) ∧
    F32.approx (s.parseMessage 0x18FF51E5 data length now).2.m_data.current c 10 ∧
    ((s.parseMessage 0x18FF51E5 data length now).2.m_data.charging = true ↔ 6 ≤ c) ∧
    ((s.parseMessage 0x18FF51E5 data length now).2.m_data.discharging = true ↔ c ≤ -6) ∧
    (-5 ≤ c → c ≤ 5 →
      (s.parseMessage 0x18FF51E5 data length now).2.m_data.charging = false ∧
      (s.parseMessage 0x18FF51E5 data length now).2.m_data.discharging = false) ∧
    (s.parseMessage 0x18FF51E5 data length now).2.m_data =
      { s.m_data with
        current := F32.mul (F32.ofInt c) (F32.lit 1 10),
        charging := decide (6 ≤ c),
        discharging := decide (c ≤ -6) } := by
  have hraw : extractInt16 data 0 false = c := by
    rw [hc, extractInt16_asInt16, extractUint16_littleEndian]
  have hrange := extractInt16_range data 0 false
  rw [hraw] at hrange
  have hdec : DalyCan.decodeCurrent data = F32.mul (F32.ofInt c) (F32.lit 1 10) := by
    unfold DalyCan.decodeCurrent
    rw [hraw]
  have hf := daly_current_frame s data length now hlen
  rw [hdec] at hf
  have hch : F32.lt (F32.lit 1 2) (F32.mul (F32.ofInt c) (F32.lit 1 10)) = decide (6 ≤ c) := by
    rw [Bool.eq_iff_iff, decide_eq_true_iff]
    exact scaled_tenth_charging c
  have hdis : F32.lt (F32.mul (F32.ofInt c) (F32.lit 1 10)) (F32.lit (-1) 2) =
      decide (c ≤ -6) := by
    rw [Bool.eq_iff_iff, decide_eq_true_iff]
    exact scaled_tenth_discharging c
  rw [hch, hdis] at hf
  refine ⟨hraw, hrange, hf.1, ?_, ?_, ?_, ?_, ?_, hf.2⟩
  · rw [hf.2]
  · rw [hf.2]
    exact scaled_tenth_approx c
  · rw [hf.2]
    exact decide_eq_true_iff
  · rw [hf.2]
    exact decide_eq_true_iff
  · intro h1 h2
    rw [hf.2]
    exact ⟨decide_eq_false (by omega), decide_eq_false (by omega)⟩

/-- The claim C26 at the frame `FA FF` (raw -6, -0.6 A): discharging. -/
theorem daly_current_decoding_witness :
    extractInt16 [0xFA, 0xFF, 0, 0, 0, 0, 0, 0] 0 false = -6 ∧
    (DalyCan.new.parseMessage 0x18FF51E5 [0xFA, 0xFF, 0, 0, 0, 0, 0, 0] 8 1000).1 = true ∧
    ((DalyCan.new.parseMessage 0x18FF51E5 [0xFA, 0xFF, 0, 0, 0, 0, 0, 0] 8 1000).2.m_data.discharging
      = true ↔ (-6 : Int) ≤ -6) ∧
    ((DalyCan.new.parseMessage 0x18FF51E5 [0xFA, 0xFF, 0, 0, 0, 0, 0, 0] 8 1000).2.m_data.charging
      = true ↔ (6 : Int) ≤ -6) :=
  ⟨(daly_current_decoding DalyCan.new [0xFA, 0xFF, 0, 0, 0, 0, 0, 0] 8 1000 (-6)
      (by decide) (by decide)).1,
   (daly_current_decoding DalyCan.new [0xFA, 0xFF, 0, 0, 0, 0, 0, 0] 8 1000 (-6)
      (by decide) (by decide)).2.2.1,
   (daly_current_decoding DalyCan.new [0xFA, 0xFF, 0, 0, 0, 0, 0, 0] 8 1000 (-6)
      (by decide) (by decide)).2.2.2.2.2.2.1,
   (daly_current_decoding DalyCan.new [0xFA, 0xFF, 0, 0, 0, 0, 0, 0] 8 1000 (-6)
      (by decide) (by decide)).2.2.2.2.2.1⟩

/-- Claim C27, as stated, fails: the DALY voltage frame with little-endian raw
value 5000 is decoded with the factor `0.1f` to 500.0 V, not to 50.00 V, and is
rejected although `4000 <= 5000 <= 6000`; the Pylontech frame with the same raw
value is accepted as 50.00 V. -/
theorem daly_voltage_scale_is_not_hundredth :
    extractUint16 payloadDaly5000 0 false = 5000 ∧
    (DalyCan.new.parseMessage 0x18FF50E5 payloadDaly5000 8 1000).1 = false ∧
    (DalyCan.new.parseMessage 0x18FF50E5 payloadDaly5000 8 1000).2.m_data.voltage =
      F32.lit 500 1 ∧
    (PylontechCan.new.parseMessage 0x359 [0x13, 0x88, 0, 0, 0, 0, 0, 0] 8 1000).1 = true ∧
    (PylontechCan.new.parseMessage 0x359 [0x13, 0x88, 0, 0, 0, 0, 0, 0] 8 1000).2.m_data.voltage =
      F32.lit 50 1 := by
  decide

/-- Claim C27, amended.  DALY voltage decoding uses the factor 0.1: for every
decoder state and every frame with identifier 0x18FF50E5 and length at least 8,
with `v = data[0] + 256 * data[1]` (little-endian), the stored voltage is the
`float` product `v * 0.1f`, which is the decimal `v / 10` up to a relative
rounding error of `2 ^ (-22)`; no other field of the snapshot changes; and the
frame is accepted exactly when `400 <= v <= 600`. -/
theorem daly_voltage_decoding (s : DalyCan) (data : List Nat) (length now v : Nat)
    (hlen : 8 ≤ length) (hv : v = byteAt data 0 + 256 * byteAt data 1) :
    extractUint16 data 0 false = v ∧
    (s.parseMessage 0x18FF50E5 data length now).2.m_data.voltage =
      F32.mul (F32.ofInt (v : Int)) (F32.lit 1 10) ∧
    F32.approx (s.parseMessage 0x18FF50E5 data length now).2.m_data.voltage (v : Int) 10 ∧
    (s.parseMessage 0x18FF50E5 data length now).2.m_data =
      { s.m_data with voltage := F32.mul (F32.ofInt (v : Int)) (F32.lit 1 10) } ∧
    ((s.parseMessage 0x18FF50E5 data length now).1 =
      validateRange (s.parseMessage 0x18FF50E5 data length now).2.m_data.voltage
        (F32.lit 40 1) (F32.lit 60 1)) ∧
    ((s.parseMessage 0x18FF50E5 data length now).1 = true ↔ 400 ≤ v ∧ v ≤ 600) := by
  have hraw : extractUint16 data 0 false = v := by
    rw [hv]; exact extractUint16_littleEndian data 0
  have hdec : DalyCan.decodeVoltage data = F32.mul (F32.ofInt (v : Int)) (F32.lit 1 10) := by
    unfold DalyCan.decodeVoltage
    rw [hraw]
  have hf := daly_voltage_frame s data length now hlen
  rw [hdec] at hf
  have hvolt : (s.parseMessage 0x18FF50E5 data length now).2.m_data.voltage =
      F32.mul (F32.ofInt (v : Int)) (F32.lit 1 10) := by
    rw [hf.2]
  refine ⟨hraw, hvolt, ?_, hf.2, ?_, ?_⟩
  · rw [hvolt]
    exact scaled_tenth_approx v
  · rw [hvolt]
    exact hf.1
  · rw [hf.1]
    exact scaled_tenth_voltage_range v

/-- The amended claim C27 at the frames with raw values 600 (60.0 V, accepted)
and 5000 (rejected). -/
theorem daly_voltage_decoding_witness :
    ((DalyCan.new.parseMessage 0x18FF50E5 [0x58, 0x02, 0, 0, 0, 0, 0, 0] 8 1000).1 = true ↔
      400 ≤ 600 ∧ 600 ≤ 600) ∧
    ((DalyCan.new.parseMessage 0x18FF50E5 payloadDaly5000 8 1000).1 = true ↔
      400 ≤ 5000 ∧ 5000 ≤ 600) :=
  ⟨(daly_voltage_decoding DalyCan.new [0x58, 0x02, 0, 0, 0, 0, 0, 0] 8 1000 600
      (by decide) (by decide)).2.2.2.2.2,
   (daly_voltage_decoding DalyCan.new payloadDaly5000 8 1000 5000
      (by decide) (by decide)).2.2.2.2.2⟩

/-- Claim C28, as stated, fails: the payload `50 C3 00 00` is 50000 read
little-endian (50.000 V), but the JK-BMS decoder reads it big-endian as
1354956800 and rejects the voltage frame, while it accepts `00 00 C3 50` as
50.000 V; a current frame `50 C3 00 00` is likewise read as 1354956800 mA. -/
theorem jk_voltage_is_not_little_endian :
    byteAt payloadJkLittle50000 0 + 2 ^ 8 * byteAt payloadJkLittle50000 1 +
      2 ^ 16 * byteAt payloadJkLittle50000 2 + 2 ^ 24 * byteAt payloadJkLittle50000 3 = 50000 ∧
    (JkBmsCan.new.parseMessage 0x02F4DA01 payloadJkLittle50000 8 1000).1 = false ∧
    (JkBmsCan.new.parseMessage 0x02F4DA01 payloadJkLittle50000 8 1000).2.m_data.voltage =
      F32.div (F32.ofInt 1354956800) (F32.lit 1000 1) ∧
    (JkBmsCan.new.parseMessage 0x02F4DA01 payloadJkLittle50000 8 1000).2.m_data.voltage ≠
      F32.div (F32.ofInt 50000) (F32.lit 1000 1) ∧
    (JkBmsCan.new.parseMessage 0x02F4DA01 payloadJkBig50000 8 1000).1 = true ∧
    (JkBmsCan.new.parseMessage 0x02F4DA01 payloadJkBig50000 8 1000).2.m_data.voltage =
      F32.lit 50 1 ∧
    (JkBmsCan.new.parseMessage 0x02F4DA02 payloadJkLittle50000 8 1000).2.m_data.current =
      F32.div (F32.ofInt 1354956800) (F32.lit 1000 1) ∧
    (JkBmsCan.new.parseMessage 0x02F4DA02 payloadJkLittle50000 8 1000).2.m_data.current ≠
      F32.div (F32.ofInt 50000) (F32.lit 1000 1) := by
  decide

/-- Claim C28, amended.  JK-BMS voltage and current are big-endian 32-bit: for
every decoder state, every identifier with low byte 0x01 (voltage) resp. 0x02
(current) and every length at least 8, with
`u = 2 ^ 24 * data[0] + 2 ^ 16 * data[1] + 2 ^ 8 * data[2] + data[3]`, the stored
voltage is the `float` quotient `u / 1000.0f` and the stored current is the
quotient of the two's-complement signed reading of `u` by `1000.0f`; both are
the decimal quotient up to a relative rounding error of `2 ^ (-22)`.  The
voltage frame is accepted when the stored voltage is within 40 V to 60 V, the
current frame always. -/
theorem jk_voltage_current_decoding (s : JkBmsCan) (canIdV canIdC : Nat) (data : List Nat)
    (length now u : Nat) (hlen : 8 ≤ length)
    (hV : canIdV &&& 0xFF = 0x01) (hC : canIdC &&& 0xFF = 0x02)
    (hu : u = 2 ^ 24 * byteAt data 0 + 2 ^ 16 * byteAt data 1 + 2 ^ 8 * byteAt data 2 +
      byteAt data 3) :
    extractUint32 data 0 true = u ∧
    extractInt32 data 0 true = asInt32 u ∧
    (s.parseMessage canIdV data length now).2.m_data =
      { s.m_data with voltage := F32.div (F32.ofInt (u : Int)) (F32.lit 1000 1) } ∧
    F32.approx (s.parseMessage canIdV data length now).2.m_data.voltage (u : Int) 1000 ∧
    (s.parseMessage canIdV data length now).1 =
      validateRange (F32.div (F32.ofInt (u : Int)) (F32.lit 1000 1))
        (F32.lit 40 1) (F32.lit 60 1) ∧
    (s.parseMessage canIdC data length now).2.m_data =
      { s.m_data with
        current := F32.div (F32.ofInt (asInt32 u)) (F32.lit 1000 1),
        charging := F32.lt (F32.lit 1 2) (F32.div (F32.ofInt (asInt32 u)) (F32.lit 1000 1)),
        discharging :=
          F32.lt (F32.div (F32.ofInt (asInt32 u)) (F32.lit 1000 1)) (F32.lit (-1) 2) } ∧
    F32.approx (s.parseMessage canIdC data length now).2.m_data.current (asInt32 u) 1000 ∧
    (s.parseMessage canIdC data length now).1 = true := by
  have hraw : extractUint32 data 0 true = u := by
    rw [hu]; exact extractUint32_bigEndian data 0
  have hrawI : extractInt32 data 0 true = asInt32 u := by
    rw [extractInt32_asInt32, hraw]
  have htV : JkBmsCan.getMessageType canIdV = 0x01 := by
    unfold JkBmsCan.getMessageType
    rw [hV]
  have htC : JkBmsCan.getMessageType canIdC = 0x02 := by
    unfold JkBmsCan.getMessageType
    rw [hC]
  have hdecV : JkBmsCan.decodeVoltage data = F32.div (F32.ofInt (u : Int)) (F32.lit 1000 1) := by
    unfold JkBmsCan.decodeVoltage
    rw [hraw]
  have hdecC : JkBmsCan.decodeCurrent data =
      F32.div (F32.ofInt (asInt32 u)) (F32.lit 1000 1) := by
    unfold JkBmsCan.decodeCurrent
    rw [hrawI]
  have hfV := jk_voltage_frame s canIdV data length now hlen htV
  have hfC := jk_current_frame s canIdC data length now hlen htC
  rw [hdecV] at hfV
  rw [hdecC] at hfC
  refine ⟨hraw, hrawI, hfV.2, ?_, hfV.1, hfC.2, ?_, hfC.1⟩
  · rw [hfV.2]
    exact divided_thousand_approx u
  · rw [hfC.2]
    exact divided_thousand_approx (asInt32 u)

/-- The amended claim C28 at a 50.000 V frame and a -10.000 A frame. -/
theorem jk_voltage_current_decoding_witness :
    extractUint32 payloadJkBig50000 0 true = 50000 ∧
    (JkBmsCan.new.parseMessage 0x02F4DA01 payloadJkBig50000 8 1000).2.m_data =
      { JkBmsCan.new.m_data with
        voltage := F32.div (F32.ofInt ((50000 : Nat) : Int)) (F32.lit 1000 1) } ∧
    F32.div (F32.ofInt ((50000 : Nat) : Int)) (F32.lit 1000 1) = F32.lit 50 1 ∧
    extractInt32 payloadJkBigMinus10000 0 true = asInt32 4294957296 ∧
    asInt32 4294957296 = -10000 ∧
    (JkBmsCan.new.parseMessage 0x02F4DA02 payloadJkBigMinus10000 8 1000).1 = true :=
  ⟨(jk_voltage_current_decoding JkBmsCan.new 0x02F4DA01 0x02F4DA02 payloadJkBig50000 8 1000
      50000 (by decide) (by decide) (by decide) (by decide)).1,
   (jk_voltage_current_decoding JkBmsCan.new 0x02F4DA01 0x02F4DA02 payloadJkBig50000 8 1000
      50000 (by decide) (by decide) (by decide) (by decide)).2.2.1,
   by decide,
   (jk_voltage_current_decoding JkBmsCan.new 0x02F4DA01 0x02F4DA02 payloadJkBigMinus10000 8 1000
      4294957296 (by decide) (by decide) (by decide) (by decide)).2.1,
   by decide,
   (jk_voltage_current_decoding JkBmsCan.new 0x02F4DA01 0x02F4DA02 payloadJkBigMinus10000 8 1000
      4294957296 (by decide) (by decide) (by decide) (by decide)).2.2.2.2.2.2.2⟩

/-- Claim C29.  JK-BMS identifier routing: for every 32-bit identifier `id`,
`canAcceptMessage(id)` is true exactly when `(id & 0xFFFFFF00) == 0x02F4DA00`,
that is for the 256 identifiers 0x02F4DA00 to 0x02F4DAFF: 0x02F4DA00 and
0x02F4DAFF are accepted, 0x02F4D9FF and 0x02F4DB00 are not.  The message type
`parseMessage` switches on is `id & 0xFF`, the low byte of the identifier: two
identifiers with the same low byte are parsed alike. -/
theorem jk_identifier_routing (s : JkBmsCan) (id : Nat) (hid : id < 2 ^ 32) :
    (s.canAcceptMessage id = true ↔ id &&& 0xFFFFFF00 = 0x02F4DA00) ∧
    (s.canAcceptMessage id = true ↔ 0x02F4DA00 ≤ id ∧ id ≤ 0x02F4DAFF) ∧
    (s.canAcceptMessage 0x02F4DA00 = true ∧ s.canAcceptMessage 0x02F4DAFF = true ∧
      s.canAcceptMessage 0x02F4D9FF = false ∧ s.canAcceptMessage 0x02F4DB00 = false) ∧
    JkBmsCan.getMessageType id = id &&& 0xFF ∧
    JkBmsCan.getMessageType id = id % 256 ∧
    (∀ (id2 : Nat) (data : List Nat) (length now : Nat), id2 &&& 0xFF = id &&& 0xFF →
      s.parseMessage id2 data length now = s.parseMessage id data length now) := by
  have hacc : s.canAcceptMessage id = true ↔ id &&& 0xFFFFFF00 = 0x02F4DA00 := by
    unfold JkBmsCan.canAcceptMessage JkBmsCan.ID_MASK JkBmsCan.ID_BASE
    exact beq_iff_eq
  have hlow : id &&& 0xFF = id % 256 := and_ff_eq_mod id
  have hty : JkBmsCan.getMessageType id = id &&& 0xFF := by
    unfold JkBmsCan.getMessageType
    rw [hlow, Nat.mod_mod]
  refine ⟨hacc, ?_, ⟨rfl, rfl, rfl, rfl⟩, hty, hty.trans hlow, ?_⟩
  · rw [hacc, and_mask_eq id hid]
    omega
  · intro id2 data length now h
    apply jk_parse_congr
    unfold JkBmsCan.getMessageType
    rw [h]

/-- The claim C29 at identifier 0x02F4DA10 (accepted, message type 0x10) and at
0x12F4DA01 (same low three bytes, not accepted). -/
theorem jk_identifier_routing_witness :
    (JkBmsCan.new.canAcceptMessage 0x02F4DA10 = true ↔
      0x02F4DA00 ≤ 0x02F4DA10 ∧ 0x02F4DA10 ≤ 0x02F4DAFF) ∧
    JkBmsCan.getMessageType 0x02F4DA10 = 0x02F4DA10 % 256 ∧
    (JkBmsCan.new.canAcceptMessage 0x12F4DA01 = true ↔
      0x02F4DA00 ≤ 0x12F4DA01 ∧ 0x12F4DA01 ≤ 0x02F4DAFF) :=
  ⟨(jk_identifier_routing JkBmsCan.new 0x02F4DA10 (by decide)).2.1,
   (jk_identifier_routing JkBmsCan.new 0x02F4DA10 (by decide)).2.2.2.2.1,
   (jk_identifier_routing JkBmsCan.new 0x12F4DA01 (by decide)).2.1⟩

/-- Claim C30.  Pylontech plausibility ranges: for every decoder state and
every frame of length at least 8, a current frame (0x35C) is accepted whatever
its raw value, with the `float` product `c * 0.1f` of the signed big-endian raw
value stored as current; an SOC frame (0x355) with big-endian raw value `s` is
accepted exactly when `s <= 1000`; a temperature frame (0x356) with signed
big-endian raw value `t` is accepted exactly when `-200 <= t <= 600`.  The
stored values are the decimals `c / 10`, `s / 10`, `t / 10` up to a relative
rounding error of `2 ^ (-22)`. -/
theorem pylontech_plausibility_ranges (p : PylontechCan) (data : List Nat) (length now u : Nat)
    (hlen : 8 ≤ length) (hu : u = 256 * byteAt data 0 + byteAt data 1) :
    (extractUint16 data 0 true = u ∧ extractInt16 data 0 true = asInt16 u) ∧
    ((p.parseMessage 0x35C data length now).1 = true ∧
      (p.parseMessage 0x35C data length now).2.m_data.current =
        F32.mul (F32.ofInt (asInt16 u)) (F32.lit 1 10) ∧
      F32.approx (p.parseMessage 0x35C data length now).2.m_data.current (asInt16 u) 10) ∧
    (((p.parseMessage 0x355 data length now).1 = true ↔ u ≤ 1000) ∧
      (p.parseMessage 0x355 data length now).2.m_data.soc =
        F32.mul (F32.ofInt (u : Int)) (F32.lit 1 10) ∧
      (p.parseMessage 0x355 data length now).1 =
        validateRange (p.parseMessage 0x355 data length now).2.m_data.soc
          (F32.lit 0 1) (F32.lit 100 1) ∧
      F32.approx (p.parseMessage 0x355 data length now).2.m_data.soc (u : Int) 10) ∧
    (((p.parseMessage 0x356 data length now).1 = true ↔ -200 ≤ asInt16 u ∧ asInt16 u ≤ 600) ∧
      (p.parseMessage 0x356 data length now).2.m_data.temperature =
        F32.mul (F32.ofInt (asInt16 u)) (F32.lit 1 10) ∧
      (p.parseMessage 0x356 data length now).1 =
        validateRange (p.parseMessage 0x356 data length now).2.m_data.temperature
          (F32.lit (-20) 1) (F32.lit 60 1) ∧
      F32.approx (p.parseMessage 0x356 data length now).2.m_data.temperature (asInt16 u) 10) := by
  have hraw : extractUint16 data 0 true = u := by
    rw [hu]; exact extractUint16_bigEndian data 0
  have hrawI : extractInt16 data 0 true = asInt16 u := by
    rw [extractInt16_asInt16, hraw]
  have hdecC : PylontechCan.decodeCurrent data = F32.mul (F32.ofInt (asInt16 u)) (F32.lit 1 10) := by
    unfold PylontechCan.decodeCurrent
    rw [hrawI]
  have hdecS : PylontechCan.decodeSoc data = F32.mul (F32.ofInt (u : Int)) (F32.lit 1 10) := by
    unfold PylontechCan.decodeSoc
    rw [hraw]
  have hdecT : PylontechCan.decodeTemp data = F32.mul (F32.ofInt (asInt16 u)) (F32.lit 1 10) := by
    unfold PylontechCan.decodeTemp
    rw [hrawI]
  have hfC := pylontech_current_frame p data length now hlen
  have hfS := pylontech_soc_frame p data length now hlen
  have hfT := pylontech_temp_frame p data length now hlen
  rw [hdecC] at hfC
  rw [hdecS] at hfS
  rw [hdecT] at hfT
  have hcur : (p.parseMessage 0x35C data length now).2.m_data.current =
      F32.mul (F32.ofInt (asInt16 u)) (F32.lit 1 10) := by rw [hfC.2]
  have hsoc : (p.parseMessage 0x355 data length now).2.m_data.soc =
      F32.mul (F32.ofInt (u : Int)) (F32.lit 1 10) := by rw [hfS.2]
  have htemp : (p.parseMessage 0x356 data length now).2.m_data.temperature =
      F32.mul (F32.ofInt (asInt16 u)) (F32.lit 1 10) := by rw [hfT.2]
  refine ⟨⟨hraw, hrawI⟩, ⟨hfC.1, hcur, ?_⟩, ⟨?_, hsoc, ?_, ?_⟩, ⟨?_, htemp, ?_, ?_⟩⟩
  · rw [hcur]; exact scaled_tenth_approx _
  · rw [hfS.1]; exact scaled_tenth_soc_range u
  · rw [hsoc]; exact hfS.1
  · rw [hsoc]; exact scaled_tenth_approx _
  · rw [hfT.1]; exact scaled_tenth_temp_range _
  · rw [htemp]; exact hfT.1
  · rw [htemp]; exact scaled_tenth_approx _

/-- The claim C30 at the raw values 1000 (`03 E8`, SOC 100.0 %, accepted) and
-201 (`FF 37`, temperature rejected, while the same bytes as SOC 65335 are
rejected and as current are accepted). -/
theorem pylontech_plausibility_ranges_witness :
    ((PylontechCan.new.parseMessage 0x355 [0x03, 0xE8, 0, 0, 0, 0, 0, 0] 8 1000).1 = true ↔
      1000 ≤ 1000) ∧
    ((PylontechCan.new.parseMessage 0x356 [0xFF, 0x37, 0, 0, 0, 0, 0, 0] 8 1000).1 = true ↔
      -200 ≤ asInt16 65335 ∧ asInt16 65335 ≤ 600) ∧
    asInt16 65335 = -201 ∧
    (PylontechCan.new.parseMessage 0x35C [0xFF, 0x37, 0, 0, 0, 0, 0, 0] 8 1000).1 = true :=
  ⟨(pylontech_plausibility_ranges PylontechCan.new [0x03, 0xE8, 0, 0, 0, 0, 0, 0] 8 1000 1000
      (by decide) (by decide)).2.2.1.1,
   (pylontech_plausibility_ranges PylontechCan.new [0xFF, 0x37, 0, 0, 0, 0, 0, 0] 8 1000 65335
      (by decide) (by decide)).2.2.2.1,
   by decide,
   (pylontech_plausibility_ranges PylontechCan.new [0xFF, 0x37, 0, 0, 0, 0, 0, 0] 8 1000 65335
      (by decide) (by decide)).2.1.1⟩

/-- Claim C31.  Byte extraction: for every byte array `d` and offset `o`,
`extractUint16` is `256 * d[o] + d[o+1]` big-endian and `d[o] + 256 * d[o+1]`
little-endian, `extractUint32` is
`2 ^ 24 * d[o] + 2 ^ 16 * d[o+1] + 2 ^ 8 * d[o+2] + d[o+3]` big-endian and
`d[o] + 2 ^ 8 * d[o+1] + 2 ^ 16 * d[o+2] + 2 ^ 24 * d[o+3]` little-endian; the
results are below `2 ^ 16` resp. `2 ^ 32`; when the group lies within the array,
its little-endian value is the big-endian value of the reversed group; and
`byteAt` reads the array element when the elements are bytes. -/
theorem byte_extraction (data : List Nat) (o : Nat) :
    (extractUint16 data o true = 256 * byteAt data o + byteAt data (o + 1) ∧
      extractUint16 data o false = byteAt data o + 256 * byteAt data (o + 1) ∧
      extractUint32 data o true =
        2 ^ 24 * byteAt data o + 2 ^ 16 * byteAt data (o + 1) + 2 ^ 8 * byteAt data (o + 2) +
          byteAt data (o + 3) ∧
      extractUint32 data o false =
        byteAt data o + 2 ^ 8 * byteAt data (o + 1) + 2 ^ 16 * byteAt data (o + 2) +
          2 ^ 24 * byteAt data (o + 3)) ∧
    (∀ b : Bool, extractUint16 data o b < 2 ^ 16 ∧ extractUint32 data o b < 2 ^ 32) ∧
    (o + 2 ≤ data.length →
      extractUint16 data o false = extractUint16 ((data.drop o).take 2).reverse 0 true ∧
      extractUint16 data o true = extractUint16 ((data.drop o).take 2).reverse 0 false) ∧
    (o + 4 ≤ data.length →
      extractUint32 data o false = extractUint32 ((data.drop o).take 4).reverse 0 true ∧
      extractUint32 data o true = extractUint32 ((data.drop o).take 4).reverse 0 false) ∧
    (∀ (i b : Nat), data[i]? = some b → b < 256 → byteAt data i = b) := by
  refine ⟨⟨extractUint16_bigEndian data o, extractUint16_littleEndian data o,
    extractUint32_bigEndian data o, extractUint32_littleEndian data o⟩, ?_, ?_, ?_, ?_⟩
  · intro b
    exact ⟨extractUint16_lt data o b, extractUint32_lt data o b⟩
  · intro h
    have r0 : byteAt ((data.drop o).take 2).reverse 0 = byteAt data (o + 1) :=
      byteAt_reverse_group data o 2 0 h (by decide)
    have r1 : byteAt ((data.drop o).take 2).reverse (0 + 1) = byteAt data o :=
      byteAt_reverse_group data o 2 1 h (by decide)
    rw [extractUint16_littleEndian, extractUint16_bigEndian, extractUint16_bigEndian,
      extractUint16_littleEndian, r0, r1]
    constructor <;> omega
  · intro h
    have r0 : byteAt ((data.drop o).take 4).reverse 0 = byteAt data (o + 3) :=
      byteAt_reverse_group data o 4 0 h (by decide)
    have r1 : byteAt ((data.drop o).take 4).reverse (0 + 1) = byteAt data (o + 2) :=
      byteAt_reverse_group data o 4 1 h (by decide)
    have r2 : byteAt ((data.drop o).take 4).reverse (0 + 2) = byteAt data (o + 1) :=
      byteAt_reverse_group data o 4 2 h (by decide)
    have r3 : byteAt ((data.drop o).take 4).reverse (0 + 3) = byteAt data o :=
      byteAt_reverse_group data o 4 3 h (by decide)
    rw [extractUint32_littleEndian, extractUint32_bigEndian, extractUint32_bigEndian,
      extractUint32_littleEndian, r0, r1, r2, r3]
    constructor <;> omega
  · intro i b hb hlt
    unfold byteAt
    rw [List.getD_eq_getElem?_getD, hb]
    exact Nat.mod_eq_of_lt hlt

/-- The claim C31 on the bytes `12 34 56 78` at offset 2. -/
theorem byte_extraction_witness :
    extractUint16 payloadCounting 2 true = 0x1234 ∧
    extractUint16 payloadCounting 2 false = 0x3412 ∧
    extractUint32 payloadCounting 2 true = 0x12345678 ∧
    extractUint32 payloadCounting 2 false = 0x78563412 ∧
    extractUint32 payloadCounting 2 false =
      extractUint32 ((payloadCounting.drop 2).take 4).reverse 0 true ∧
    ((payloadCounting.drop 2).take 4).reverse = [0x78, 0x56, 0x34, 0x12] :=
  ⟨(byte_extraction payloadCounting 2).1.1,
   (byte_extraction payloadCounting 2).1.2.1,
   (byte_extraction payloadCounting 2).1.2.2.1,
   (byte_extraction payloadCounting 2).1.2.2.2,
   ((byte_extraction payloadCounting 2).2.2.2.1 (by decide)).1,
   by decide⟩

/-- Claim C32.  Pylontech complete-data guard: after any sequence of calls on a
newly constructed decoder, `hasCompleteData()` is true exactly when the calls
since the last `resetReceivedFlags()` (all calls if there was none) contain a
voltage frame that was accepted, a current frame that was parsed and an SOC
frame that was accepted.  In particular it is false after any sequence of
alarm, status and temperature frames only, even though `isConnected()` is true
right after a sequence that ends with an alarm or status frame of eight bytes. -/
theorem complete_data_guard (calls : List PylontechCall) :
    ((PylontechCan.new.afterCalls calls).hasCompleteData = true ↔
      (∃ c ∈ PylontechCall.sinceReset calls, c.acceptedVoltage = true) ∧
      (∃ c ∈ PylontechCall.sinceReset calls, c.parsedCurrent = true) ∧
      (∃ c ∈ PylontechCall.sinceReset calls, c.acceptedSoc = true)) ∧
    ((∀ c ∈ calls, PylontechCall.isAlarmStatusTemp c = true) →
      (PylontechCan.new.afterCalls calls).hasCompleteData = false ∧
      ∀ (canId : Nat) (data : List Nat) (length now : Nat),
        canId = PylontechCan.ID_ALARM ∨ canId = PylontechCan.ID_STATUS → 8 ≤ length →
        (PylontechCan.new.afterCalls
          (calls ++ [PylontechCall.callParseMessage canId data length now])).hasCompleteData =
            false ∧
        (PylontechCan.new.afterCalls
          (calls ++ [PylontechCall.callParseMessage canId data length now])).isConnected
            now 5000 = true) := by
  constructor
  · have hv := received_after_calls (fun s => s.m_voltageReceived) PylontechCall.acceptedVoltage
      (fun s c h => (afterCall_received s c h).1) (fun _ => rfl) calls PylontechCan.new
    have hc := received_after_calls (fun s => s.m_currentReceived) PylontechCall.parsedCurrent
      (fun s c h => (afterCall_received s c h).2.1) (fun _ => rfl) calls PylontechCan.new
    have hs := received_after_calls (fun s => s.m_socReceived) PylontechCall.acceptedSoc
      (fun s c h => (afterCall_received s c h).2.2) (fun _ => rfl) calls PylontechCan.new
    have z1 : PylontechCan.new.m_voltageReceived = false := rfl
    have z2 : PylontechCan.new.m_currentReceived = false := rfl
    have z3 : PylontechCan.new.m_socReceived = false := rfl
    simp only [z1, z2, z3, ite_self, Bool.false_or] at hv hc hs
    unfold PylontechCan.hasCompleteData
    rw [hv, hc, hs, Bool.and_eq_true, Bool.and_eq_true, List.any_eq_true, List.any_eq_true,
      List.any_eq_true, and_assoc]
  · intro h
    have h0 : (PylontechCan.new.afterCalls calls).hasCompleteData = false :=
      received_after_alarmStatusTemp calls PylontechCan.new h
    refine ⟨h0, ?_⟩
    intro canId data length now hid hlen
    have hall : ∀ c ∈ calls ++ [PylontechCall.callParseMessage canId data length now],
        PylontechCall.isAlarmStatusTemp c = true := by
      intro c hc
      rcases List.mem_append.mp hc with hc | hc
      · exact h c hc
      · rw [List.mem_singleton] at hc
        rw [hc]
        rcases hid with e | e <;> rw [e] <;> rfl
    refine ⟨received_after_alarmStatusTemp _ PylontechCan.new hall, ?_⟩
    rw [afterCalls_append_one]
    show CanProtocolBase.isConnected
      ((PylontechCan.new.afterCalls calls).parseMessage canId data length now).2.toCanProtocolBase
      now 5000 = true
    have hok : ((PylontechCan.new.afterCalls calls).parseMessage canId data length now).1 =
        true := by
      rcases pylontech_parse_cases (PylontechCan.new.afterCalls calls) canId data length now with
        c | c | c | c | c | c | c | c
      · omega
      · rcases hid with e | e <;> exact absurd (e.symm.trans c.2.1) (by decide)
      · rcases hid with e | e <;> exact absurd (e.symm.trans c.2.1) (by decide)
      · rcases hid with e | e <;> exact absurd (e.symm.trans c.2.1) (by decide)
      · rcases hid with e | e <;> exact absurd (e.symm.trans c.2.1) (by decide)
      · exact c.2.2.1
      · exact c.2.2.1
      · rcases hid with e | e
        · exact absurd e c.2.2.2.2.2.2.1
        · exact absurd e c.2.2.2.2.2.1
    have hb := pylontech_parse_bookkeeping (PylontechCan.new.afterCalls calls) canId data length now
    rw [hok] at hb
    rcases hb with ⟨_, _, hcon, hlast, _⟩ | ⟨hf, _⟩
    · unfold CanProtocolBase.isConnected
      rw [hcon, hlast]
      have e : (now + 2 ^ 32 - now) % 2 ^ 32 = 0 := by
        rw [Nat.add_sub_cancel_left]; rfl
      simp [e]
    · cases hf

/-- The claim C32 on two call sequences: after a complete data set, a reset
and then only a voltage and an SOC frame the guard is false; after an alarm, a
temperature and a status frame it is false while the decoder is connected. -/
theorem complete_data_guard_witness :
    ((PylontechCan.new.afterCalls callsResetThenTwo).hasCompleteData = true ↔
      (∃ c ∈ PylontechCall.sinceReset callsResetThenTwo, c.acceptedVoltage = true) ∧
      (∃ c ∈ PylontechCall.sinceReset callsResetThenTwo, c.parsedCurrent = true) ∧
      (∃ c ∈ PylontechCall.sinceReset callsResetThenTwo, c.acceptedSoc = true)) ∧
    (PylontechCan.new.afterCalls callsResetThenTwo).hasCompleteData = false ∧
    PylontechCan.complete.hasCompleteData = true ∧
    (PylontechCan.new.afterCalls callsAlarmStatusTemp).hasCompleteData = false ∧
    (PylontechCan.new.afterCalls callsAlarmStatusTemp).isConnected 1200 5000 = true :=
  ⟨(complete_data_guard callsResetThenTwo).1, by decide, by decide,
   ((complete_data_guard callsAlarmStatusTemp).2 (by decide)).1, by decide⟩

/-- Claim C33.  Enumeration round-trip: on the seven vendor tags and the four
CAN baudrate values the lookups `getBmsTypeName`, `getCanBaudrateName` and
`getCanBaudrateValue` are injective, so each has an inverse that recovers the
enumeration value from the looked-up name or number; the numbers are 125000,
250000, 500000 and 1000000 for `CAN_125K` to `CAN_1M`. -/
theorem enumeration_round_trip :
    (Function.Injective getBmsTypeName ∧ Function.Injective getCanBaudrateName ∧
      Function.Injective getCanBaudrateValue) ∧
    ((∃ g : String → bms_type_t, ∀ t : bms_type_t, g (getBmsTypeName t) = t) ∧
      (∃ g : String → can_baudrate_t, ∀ r : can_baudrate_t, g (getCanBaudrateName r) = r) ∧
      (∃ g : Nat → can_baudrate_t, ∀ r : can_baudrate_t, g (getCanBaudrateValue r) = r)) ∧
    (getCanBaudrateValue CAN_125K = 125000 ∧ getCanBaudrateValue CAN_250K = 250000 ∧
      getCanBaudrateValue CAN_500K = 500000 ∧ getCanBaudrateValue CAN_1M = 1000000) := by
  have i1 : Function.Injective getBmsTypeName := by
    intro a b h
    cases a <;> cases b <;> first | rfl | exact absurd h (by decide)
  have i2 : Function.Injective getCanBaudrateName := by
    intro a b h
    cases a <;> cases b <;> first | rfl | exact absurd h (by decide)
  have i3 : Function.Injective getCanBaudrateValue := by
    intro a b h
    cases a <;> cases b <;> first | rfl | exact absurd h (by decide)
  refine ⟨⟨i1, i2, i3⟩, ⟨?_, ?_, ?_⟩, ⟨rfl, rfl, rfl, rfl⟩⟩
  · haveI : Nonempty bms_type_t := ⟨BMS_NONE⟩
    exact i1.hasLeftInverse
  · haveI : Nonempty can_baudrate_t := ⟨CAN_500K⟩
    exact i2.hasLeftInverse
  · haveI : Nonempty can_baudrate_t := ⟨CAN_500K⟩
    exact i3.hasLeftInverse

/-- The claim C33 at `BMS_DALY` and `CAN_250K`: a tag or rate with the same
name or number is that tag or rate. -/
theorem enumeration_round_trip_witness :
    (∀ t : bms_type_t, getBmsTypeName t = "DALY BMS" → t = BMS_DALY) ∧
    (∀ r : can_baudrate_t, getCanBaudrateValue r = getCanBaudrateValue CAN_250K →
      r = CAN_250K) ∧
    getCanBaudrateName CAN_250K = "250 kBit/s" :=
  ⟨fun _ h => enumeration_round_trip.1.1 h, fun _ h => enumeration_round_trip.1.2.2 h, rfl⟩

/-- Claim C34.  The accepted identifier sets of the three decoders are pairwise
disjoint: no identifier is accepted by two of `PylontechCan`, `JkBmsCan` and
`DalyCan`.  Consequently, with one instance of each registered in any order, at
most one registered decoder accepts a frame and only a decoder that accepts it
is asked to parse; in detection mode the returned flag and the state of each
decoder afterwards are those of the three decoders taken one by one, whatever
the registration order; in pinned mode they are those of the active decoder. -/
theorem accepted_sets_disjoint (P : PylontechCan) (J : JkBmsCan) (D : DalyCan)
    (m : ProtocolManager) (canId : Nat) (data : List Nat) (length now : Nat)
    (hperm : m.m_protocols.Perm [Protocol.pylontech P, Protocol.jkBms J, Protocol.daly D]) :
    (∀ id : Nat,
      ¬ (P.canAcceptMessage id = true ∧ J.canAcceptMessage id = true) ∧
      ¬ (P.canAcceptMessage id = true ∧ D.canAcceptMessage id = true) ∧
      ¬ (D.canAcceptMessage id = true ∧ J.canAcceptMessage id = true)) ∧
    (m.m_protocols.filter (fun q => q.canAcceptMessage canId)).length ≤ 1 ∧
    (∀ q : Protocol, q.canAcceptMessage canId = false →
      q.offered canId data length now = q) ∧
    (m.m_activeProtocol = none ∨ m.m_autoDetect = true →
      (m.routeMessage canId data length now).1 =
        ((Protocol.pylontech P).takes canId data length now ||
          (Protocol.jkBms J).takes canId data length now ||
          (Protocol.daly D).takes canId data length now) ∧
      (m.routeMessage canId data length now).2.m_protocols =
        m.m_protocols.map (fun q => q.offered canId data length now) ∧
      (m.routeMessage canId data length now).2.m_protocols.Perm
        [(Protocol.pylontech P).offered canId data length now,
         (Protocol.jkBms J).offered canId data length now,
         (Protocol.daly D).offered canId data length now]) ∧
    (∀ (a : Nat) (A : Protocol), m.m_activeProtocol = some a → m.m_autoDetect = false →
      m.m_protocols[a]? = some A →
      (m.routeMessage canId data length now).1 = A.takes canId data length now ∧
      (m.routeMessage canId data length now).2.m_protocols[a]? =
        some (A.offered canId data length now) ∧
      ∀ (j : Nat) (q : Protocol), j ≠ a → m.m_protocols[j]? = some q →
        (m.routeMessage canId data length now).2.m_protocols[j]? = some q) := by
  refine ⟨?_, ?_, ?_, ?_, ?_⟩
  · intro id
    refine ⟨?_, ?_, ?_⟩
    · rintro ⟨h1, h2⟩
      rw [pylontech_jk_disjoint P J id h1] at h2; cases h2
    · rintro ⟨h1, h2⟩
      rw [pylontech_daly_disjoint P D id h1] at h2; cases h2
    · rintro ⟨h1, h2⟩
      rw [daly_jk_disjoint D J id h1] at h2; cases h2
  · rw [(hperm.filter _).length_eq]
    exact at_most_one_accepts P J D canId
  · intro q hq
    unfold Protocol.offered
    rw [hq]
    rfl
  · intro hun
    have hnd : (m.m_protocols.map Protocol.getType).Nodup := by
      rw [(hperm.map Protocol.getType).nodup_iff]
      show [BMS_PYLONTECH, BMS_JK_BMS, BMS_DALY].Nodup
      decide
    have h := routeMessage_distinct m canId data length now hun hnd
    refine ⟨?_, h.2, ?_⟩
    · rw [h.1, Bool.eq_iff_iff, List.any_eq_true]
      constructor
      · rintro ⟨q, hq, ht⟩
        have hq2 := hperm.mem_iff.mp hq
        simp only [List.mem_cons, List.mem_singleton, List.not_mem_nil, or_false] at hq2
        rcases hq2 with e | e | e <;> rw [e] at ht <;> simp [ht]
      · intro ht
        simp only [Bool.or_eq_true] at ht
        rcases ht with (ht | ht) | ht
        · exact ⟨_, hperm.mem_iff.mpr (by simp), ht⟩
        · exact ⟨_, hperm.mem_iff.mpr (by simp), ht⟩
        · exact ⟨_, hperm.mem_iff.mpr (by simp), ht⟩
    · rw [h.2]
      exact hperm.map _
  · intro a A hact hauto hA
    have h := routeMessage_pinned m a canId data length now hact hauto
    refine ⟨routeMessage_pinned_flag m a A canId data length now hact hauto hA, ?_, ?_⟩
    · rw [h.2.2.2 a A hA]
      unfold Protocol.offered
      by_cases hacc : A.canAcceptMessage canId = true
      · rw [if_pos ⟨rfl, hacc⟩, if_pos hacc]
      · rw [if_neg (fun x => hacc x.2), if_neg hacc]
    · intro j q hj hq
      rw [h.2.2.2 j q hq, if_neg (fun x => hj x.1)]

/-- The claim C34 on a DALY voltage frame, with the decoders registered in the
order Pylontech, JK-BMS, DALY: only the DALY decoder accepts and parses it. -/
theorem accepted_sets_disjoint_witness :
    (ProtocolManager.three.routeMessage 0x18FF50E5 [0xF4, 0x01, 0, 0, 0, 0, 0, 0] 8 1000).1 =
      ((Protocol.pylontech PylontechCan.new).takes 0x18FF50E5 [0xF4, 0x01, 0, 0, 0, 0, 0, 0] 8 1000 ||
        (Protocol.jkBms JkBmsCan.new).takes 0x18FF50E5 [0xF4, 0x01, 0, 0, 0, 0, 0, 0] 8 1000 ||
        (Protocol.daly DalyCan.new).takes 0x18FF50E5 [0xF4, 0x01, 0, 0, 0, 0, 0, 0] 8 1000) ∧
    (ProtocolManager.three.m_protocols.filter
      (fun q => q.canAcceptMessage 0x18FF50E5)).length ≤ 1 ∧
    (Protocol.daly DalyCan.new).takes 0x18FF50E5 [0xF4, 0x01, 0, 0, 0, 0, 0, 0] 8 1000 = true ∧
    (Protocol.pylontech PylontechCan.new).offered 0x18FF50E5 [0xF4, 0x01, 0, 0, 0, 0, 0, 0] 8 1000 =
      Protocol.pylontech PylontechCan.new :=
  ⟨((accepted_sets_disjoint PylontechCan.new JkBmsCan.new DalyCan.new ProtocolManager.three
      0x18FF50E5 [0xF4, 0x01, 0, 0, 0, 0, 0, 0] 8 1000 (List.Perm.refl _)).2.2.2.1
      (Or.inl rfl)).1,
   (accepted_sets_disjoint PylontechCan.new JkBmsCan.new DalyCan.new ProtocolManager.three
      0x18FF50E5 [0xF4, 0x01, 0, 0, 0, 0, 0, 0] 8 1000 (List.Perm.refl _)).2.1,
   by decide, by decide⟩

/-- Claim C35.  Accept/parse consistency: for a Pylontech or DALY decoder every
accepted identifier is handled by `parseMessage`: with length at least 8 exactly
one of the message counter (flag true) and the error counter (flag false) goes
up by one.  For a JK-BMS decoder this holds for the low bytes 0x01 to 0x05 and
0x10 only: for an accepted identifier with any other low byte and every payload
of length at least 8, `parseMessage` returns false and leaves the whole decoder
as it was, no error counted, and `routeMessage` on such a frame returns false
and leaves every manager as it was. -/
theorem accept_parse_consistency (p : Protocol) (canId : Nat) (data : List Nat)
    (length now : Nat) (hlen : 8 ≤ length) (hacc : p.canAcceptMessage canId = true) :
    (p.getType ≠ BMS_JK_BMS →
      CanProtocolBase.countedOnce p.base (p.parseMessage canId data length now).1
        (p.parseMessage canId data length now).2.base) ∧
    (p.getType = BMS_JK_BMS → (canId &&& 0xFF) ∈ JkBmsCan.handledTypes →
      CanProtocolBase.countedOnce p.base (p.parseMessage canId data length now).1
        (p.parseMessage canId data length now).2.base) ∧
    (p.getType = BMS_JK_BMS → (canId &&& 0xFF) ∉ JkBmsCan.handledTypes →
      p.parseMessage canId data length now = (false, p) ∧
      ¬ CanProtocolBase.countedOnce p.base (p.parseMessage canId data length now).1
        (p.parseMessage canId data length now).2.base ∧
      ∀ m : ProtocolManager, m.routeMessage canId data length now = (false, m)) := by
  refine ⟨?_, ?_, ?_⟩
  · intro hty
    cases p with
    | pylontech s => exact pylontech_accepted_counted s canId data length now hlen hacc
    | jkBms s => exact absurd rfl hty
    | daly s => exact daly_accepted_counted s canId data length now hlen hacc
  · intro hty hin
    cases p with
    | pylontech s => cases hty
    | jkBms s => exact jk_handled_counted s canId data length now hlen hin
    | daly s => cases hty
  · intro hty hout
    have hself : p.parseMessage canId data length now = (false, p) := by
      cases p with
      | pylontech s => cases hty
      | jkBms s =>
        show ((s.parseMessage canId data length now).1,
          Protocol.jkBms (s.parseMessage canId data length now).2) = _
        rw [jk_unhandled_noop s canId data length now hlen hout]
      | daly s => cases hty
    refine ⟨hself, ?_, ?_⟩
    · rw [hself]
      rintro (⟨h, _⟩ | ⟨_, _, h⟩)
      · cases h
      · exact succ_mod_ne _ h.symm
    · intro m
      apply routeMessage_noop
      intro q _ hq
      have hq2 : q.getType = BMS_JK_BMS := (accept_same_type q p canId hq hacc).trans hty
      cases q with
      | pylontech s => cases hq2
      | jkBms s =>
        show ((s.parseMessage canId data length now).1,
          Protocol.jkBms (s.parseMessage canId data length now).2) = _
        rw [jk_unhandled_noop s canId data length now hlen hout]
      | daly s => cases hq2

/-- The claim C35 at the accepted JK-BMS identifier 0x02F4DA20 (low byte 0x20),
in detection mode and pinned to JK-BMS, and at a Pylontech voltage frame out of
range, which counts an error. -/
theorem accept_parse_consistency_witness :
    (Protocol.jkBms JkBmsCan.at50V).parseMessage 0x02F4DA20 zeros8 8 2000 =
      (false, Protocol.jkBms JkBmsCan.at50V) ∧
    ProtocolManager.three.routeMessage 0x02F4DA20 zeros8 8 2000 =
      (false, ProtocolManager.three) ∧
    ProtocolManager.pinnedJk.routeMessage 0x02F4DA20 zeros8 8 2000 =
      (false, ProtocolManager.pinnedJk) ∧
    CanProtocolBase.countedOnce (Protocol.pylontech PylontechCan.at50V).base
      ((Protocol.pylontech PylontechCan.at50V).parseMessage 0x359 payload3990 8 2000).1
      ((Protocol.pylontech PylontechCan.at50V).parseMessage 0x359 payload3990 8 2000).2.base ∧
    ((Protocol.pylontech PylontechCan.at50V).parseMessage 0x359 payload3990 8 2000).1 = false :=
  ⟨((accept_parse_consistency (Protocol.jkBms JkBmsCan.at50V) 0x02F4DA20 zeros8 8 2000
      (by decide) (by decide)).2.2 rfl (by decide)).1,
   ((accept_parse_consistency (Protocol.jkBms JkBmsCan.at50V) 0x02F4DA20 zeros8 8 2000
      (by decide) (by decide)).2.2 rfl (by decide)).2.2 ProtocolManager.three,
   ((accept_parse_consistency (Protocol.jkBms JkBmsCan.at50V) 0x02F4DA20 zeros8 8 2000
      (by decide) (by decide)).2.2 rfl (by decide)).2.2 ProtocolManager.pinnedJk,
   (accept_parse_consistency (Protocol.pylontech PylontechCan.at50V) 0x359 payload3990 8 2000
      (by decide) (by decide)).1 (by decide),
   by decide⟩

/-- Claim C36.  Stale match counts re-arm nothing: `setAutoDetect(true)` clears
the active decoder and leaves the match counts as they are; on the next frame
that decoder `D` is the first to accept and parse, `D` with stale count `c`
becomes active exactly when `(c + 1) mod 2 ^ 32 >= 5`.  So a decoder with a
stale count of at least 4 (below the wrap of the 32-bit counter), in particular
one that was active before with count at least 5, is active again after this
single frame. -/
theorem stale_count_rearms (m : ProtocolManager) (i : Nat) (D : Protocol) (st : DetectionStats)
    (canId : Nat) (data : List Nat) (length now : Nat)
    (hD : m.m_protocols[i]? = some D) (hst : m.m_detectionStats[i]? = some st)
    (hacc : D.canAcceptMessage canId = true)
    (hok : (D.parseMessage canId data length now).1 = true)
    (hfirst : ∀ (t : Nat) (q : Protocol), t < i → m.m_protocols[t]? = some q →
      q.canAcceptMessage canId = true → (q.parseMessage canId data length now).1 = false) :
    ((m.setAutoDetect true).m_activeProtocol = none ∧
      (m.setAutoDetect true).m_detectionStats = m.m_detectionStats ∧
      (m.setAutoDetect true).m_protocols = m.m_protocols ∧
      (m.setAutoDetect true).m_autoDetect = true) ∧
    ((m.setAutoDetect true).routeMessage canId data length now).1 = true ∧
    ((m.setAutoDetect true).routeMessage canId data length now).2.m_activeProtocol =
      (if 5 ≤ (st.matchCount + 1) % 2 ^ 32 then some i else none) ∧
    (4 ≤ st.matchCount → st.matchCount + 1 < 2 ^ 32 →
      ((m.setAutoDetect true).routeMessage canId data length now).2.m_activeProtocol =
        some i) ∧
    ((m.setAutoDetect true).routeMessage canId data length now).2.m_detectionStats[i]? =
      some { st with matchCount := (st.matchCount + 1) % 2 ^ 32, lastMatch := now } := by
  have hset : (m.setAutoDetect true).m_activeProtocol = none ∧
      (m.setAutoDetect true).m_detectionStats = m.m_detectionStats ∧
      (m.setAutoDetect true).m_protocols = m.m_protocols ∧
      (m.setAutoDetect true).m_autoDetect = true := ⟨rfl, rfl, rfl, rfl⟩
  obtain ⟨ps, hr, _, _⟩ := routeMessage_first_hit (m.setAutoDetect true) i D canId data length now
    (Or.inl rfl) hD hacc hok hfirst
  have hact : ((m.setAutoDetect true).routeMessage canId data length now).2.m_activeProtocol =
      (if 5 ≤ (st.matchCount + 1) % 2 ^ 32 then some i else none) := by
    rw [hr]
    show (afterHit _ i now).m_activeProtocol = _
    rw [afterHit_active]
    show (match m.m_detectionStats[i]? with
      | none => none
      | some st =>
        if DETECTION_THRESHOLD ≤ (st.matchCount + 1) % 2 ^ 32 && (none : Option Nat).isNone
        then some i else none) = _
    rw [hst]
    show (if DETECTION_THRESHOLD ≤ (st.matchCount + 1) % 2 ^ 32 && (none : Option Nat).isNone
        then some i else none) = _
    unfold DETECTION_THRESHOLD
    by_cases h5 : 5 ≤ (st.matchCount + 1) % 2 ^ 32
    · rw [if_pos h5, if_pos (by simpa using h5)]
    · rw [if_neg h5, if_neg (by simpa using h5)]
  refine ⟨hset, by rw [hr], hact, ?_, ?_⟩
  · intro h4 hw
    rw [hact, Nat.mod_eq_of_lt hw, if_pos (by omega)]
  · rw [hr]
    show (afterHit _ i now).m_detectionStats[i]? = _
    rw [afterHit_stats]
    show (match m.m_detectionStats[i]? with
      | none => m.m_detectionStats
      | some st => m.m_detectionStats.set i
          { st with matchCount := (st.matchCount + 1) % 2 ^ 32, lastMatch := now })[i]? = _
    rw [hst]
    show (m.m_detectionStats.set i _)[i]? = _
    rw [List.getElem?_set_self (lt_length_of_getElem? _ _ _ hst)]

/-- The claim C36 on the manager in which JK-BMS was detected with match count
6: after `setAutoDetect(true)` one JK-BMS frame makes it active again. -/
theorem stale_count_rearms_witness :
    ProtocolManager.jkDetected.m_activeProtocol = some 1 ∧
    (ProtocolManager.jkDetected.setAutoDetect true).m_activeProtocol = none ∧
    ((ProtocolManager.jkDetected.setAutoDetect true).routeMessage 0x02F4DA01
      [0, 0, 0xC3, 0x50, 0, 0, 0, 0] 8 9000).2.m_activeProtocol = some 1 := by
  have h := stale_count_rearms ProtocolManager.jkDetected 1
    (ProtocolManager.jkDetected.m_protocols.getD 1 (Protocol.jkBms JkBmsCan.new))
    { protocol := some 1, matchCount := 6, lastMatch := 1000 }
    0x02F4DA01 [0, 0, 0xC3, 0x50, 0, 0, 0, 0] 8 9000
    (by decide) (by decide) (by decide) (by decide)
    (by
      intro t q ht hq
      have ht0 : t = 0 := by omega
      subst ht0
      have h0 : ProtocolManager.jkDetected.m_protocols[0]? =
          some (Protocol.pylontech PylontechCan.new) := by decide
      rw [h0] at hq
      have hq1 := (Option.some.inj hq).symm
      subst hq1
      decide)
  exact ⟨by decide, h.1.1, h.2.2.2.1 (by decide) (by decide)⟩

/-- Claim C37.  An auto-detected active decoder does not restrict routing: in
auto-detect mode with active decoder `A`, a frame that `A` does not accept and
that a different registered decoder `B` is the first to accept and parse is
parsed by `B`, which updates its snapshot, counts the message, becomes connected
and gets its match count incremented, while the active decoder stays `A` and
`A` is untouched; `getData` of the manager keeps returning what `A` returns,
that is false with the record untouched when `A` is not connected, although `B`
is connected. -/
theorem autodetected_active_keeps_routing (m : ProtocolManager) (a b : Nat) (A B : Protocol)
    (st : DetectionStats) (canId : Nat) (data : List Nat) (length now : Nat)
    (hauto : m.m_autoDetect = true) (hact : m.m_activeProtocol = some a)
    (hA : m.m_protocols[a]? = some A) (hB : m.m_protocols[b]? = some B)
    (hst : m.m_detectionStats[b]? = some st)
    (hAacc : A.canAcceptMessage canId = false)
    (hacc : B.canAcceptMessage canId = true)
    (hok : (B.parseMessage canId data length now).1 = true)
    (hfirst : ∀ (t : Nat) (q : Protocol), t < b → m.m_protocols[t]? = some q →
      q.canAcceptMessage canId = true → (q.parseMessage canId data length now).1 = false) :
    (m.routeMessage canId data length now).1 = true ∧
    (m.routeMessage canId data length now).2.m_protocols[b]? =
      some (B.parseMessage canId data length now).2 ∧
    ((B.parseMessage canId data length now).2.base.m_messageCount =
        (B.base.m_messageCount + 1) % 2 ^ 32 ∧
      (B.parseMessage canId data length now).2.base.m_connected = true ∧
      (B.parseMessage canId data length now).2.base.m_lastUpdate = now ∧
      (B.parseMessage canId data length now).2.isConnected now 5000 = true) ∧
    (m.routeMessage canId data length now).2.m_detectionStats[b]? =
      some { st with matchCount := (st.matchCount + 1) % 2 ^ 32, lastMatch := now } ∧
    (m.routeMessage canId data length now).2.m_activeProtocol = some a ∧
    (m.routeMessage canId data length now).2.m_autoDetect = true ∧
    (m.routeMessage canId data length now).2.m_protocols[a]? = some A ∧
    (∀ (t : Nat) (d : bms_data_t),
      (m.routeMessage canId data length now).2.getData t d = A.getData t d) ∧
    (∀ (t : Nat) (d : bms_data_t), A.isConnected t 5000 = false →
      (m.routeMessage canId data length now).2.getData t d = (false, d)) := by
  obtain ⟨ps, hr, hlen, hps⟩ := routeMessage_first_hit m b B canId data length now
    (Or.inr hauto) hB hacc hok hfirst
  have hb : CanProtocolBase.parseBookkeeping B.base now
      (B.parseMessage canId data length now).1 (B.parseMessage canId data length now).2.base :=
    protocol_parse_bookkeeping B canId data length now
  rw [hok] at hb
  have hbk : (B.parseMessage canId data length now).2.base.m_messageCount =
        (B.base.m_messageCount + 1) % 2 ^ 32 ∧
      (B.parseMessage canId data length now).2.base.m_connected = true ∧
      (B.parseMessage canId data length now).2.base.m_lastUpdate = now := by
    rcases hb with ⟨_, h1, h2, h3, _⟩ | ⟨hf, _⟩
    · exact ⟨h1, h2, h3⟩
    · cases hf
  have hBcon : (B.parseMessage canId data length now).2.isConnected now 5000 = true := by
    unfold Protocol.isConnected CanProtocolBase.isConnected
    rw [hbk.2.1, hbk.2.2]
    have e : (now + 2 ^ 32 - now) % 2 ^ 32 = 0 := by
      rw [Nat.add_sub_cancel_left]; rfl
    simp [e]
  have hpsb : ps[b]? = some (B.parseMessage canId data length now).2 := by
    rw [hps b B hB, if_pos ⟨Nat.le_refl _, hacc⟩]
  have hpsa : ps[a]? = some A := by
    rw [hps a A hA, if_neg (fun h => by rw [hAacc] at h; exact Bool.noConfusion h.2)]
  have hactive : (m.routeMessage canId data length now).2.m_activeProtocol = some a := by
    rw [hr]
    show (afterHit _ b now).m_activeProtocol = _
    rw [afterHit_active]
    show (match m.m_detectionStats[b]? with
      | none => m.m_activeProtocol
      | some st =>
        if DETECTION_THRESHOLD ≤ (st.matchCount + 1) % 2 ^ 32 && m.m_activeProtocol.isNone
        then some b else m.m_activeProtocol) = _
    rw [hst, hact]
    show (if DETECTION_THRESHOLD ≤ (st.matchCount + 1) % 2 ^ 32 && (some a).isNone
        then some b else some a) = _
    rw [if_neg (by simp)]
  have hprot : (m.routeMessage canId data length now).2.m_protocols = ps := by
    rw [hr]
    show (afterHit _ b now).m_protocols = _
    rw [afterHit_protocols]
  have hget : ∀ (t : Nat) (d : bms_data_t),
      (m.routeMessage canId data length now).2.getData t d = A.getData t d := by
    intro t d
    unfold ProtocolManager.getData
    rw [hactive]
    simp only []
    rw [hprot, hpsa]
  refine ⟨by rw [hr], by rw [hprot]; exact hpsb, ⟨hbk.1, hbk.2.1, hbk.2.2, hBcon⟩, ?_, hactive,
    ?_, by rw [hprot]; exact hpsa, hget, ?_⟩
  · rw [hr]
    show (afterHit _ b now).m_detectionStats[b]? = _
    rw [afterHit_stats]
    show (match m.m_detectionStats[b]? with
      | none => m.m_detectionStats
      | some st => m.m_detectionStats.set b
          { st with matchCount := (st.matchCount + 1) % 2 ^ 32, lastMatch := now })[b]? = _
    rw [hst]
    show (m.m_detectionStats.set b _)[b]? = _
    rw [List.getElem?_set_self (lt_length_of_getElem? _ _ _ hst)]
  · rw [hr]
    show (afterHit _ b now).m_autoDetect = _
    rw [afterHit_autoDetect]
    exact hauto
  · intro t d hdis
    rw [hget t d]
    unfold Protocol.getData CanProtocolBase.getData
    unfold Protocol.isConnected at hdis
    rw [hdis]
    rfl

/-- The claim C37 on the manager with JK-BMS auto-detected: a DALY voltage
frame is parsed by the DALY decoder, JK-BMS stays active, and at time 9000 the
manager has no data because JK-BMS is stale, although DALY is connected. -/
theorem autodetected_active_keeps_routing_witness :
    ProtocolManager.jkDetected.m_activeProtocol = some 1 ∧
    ProtocolManager.jkDetected.m_autoDetect = true ∧
    (ProtocolManager.jkDetected.routeMessage 0x18FF50E5 [0xF4, 0x01, 0, 0, 0, 0, 0, 0] 8
      9000).1 = true ∧
    (ProtocolManager.jkDetected.routeMessage 0x18FF50E5 [0xF4, 0x01, 0, 0, 0, 0, 0, 0] 8
      9000).2.m_activeProtocol = some 1 ∧
    (ProtocolManager.jkDetected.routeMessage 0x18FF50E5 [0xF4, 0x01, 0, 0, 0, 0, 0, 0] 8
      9000).2.getData 9000 (bms_data_t.zeroed BMS_NONE) = (false, bms_data_t.zeroed BMS_NONE) ∧
    ((Protocol.daly DalyCan.new).parseMessage 0x18FF50E5 [0xF4, 0x01, 0, 0, 0, 0, 0, 0] 8
      9000).2.isConnected 9000 5000 = true := by
  have h := autodetected_active_keeps_routing ProtocolManager.jkDetected 1 2
    (ProtocolManager.jkDetected.m_protocols.getD 1 (Protocol.jkBms JkBmsCan.new))
    (Protocol.daly DalyCan.new) { protocol := some 2, matchCount := 0, lastMatch := 0 }
    0x18FF50E5 [0xF4, 0x01, 0, 0, 0, 0, 0, 0] 8 9000
    (by decide) (by decide) (by decide) (by decide) (by decide) (by decide) (by decide)
    (by decide)
    (by
      intro t q ht hq
      rcases (by omega : t = 0 ∨ t = 1) with ht0 | ht1
      · subst ht0
        have h0 : ProtocolManager.jkDetected.m_protocols[0]? =
            some (Protocol.pylontech PylontechCan.new) := by decide
        rw [h0] at hq
        have hq1 := (Option.some.inj hq).symm
        subst hq1
        decide
      · subst ht1
        have h1 : ProtocolManager.jkDetected.m_protocols[1]? =
            some (ProtocolManager.jkDetected.m_protocols.getD 1 (Protocol.jkBms JkBmsCan.new)) := by
          decide
        rw [h1] at hq
        have hq1 := (Option.some.inj hq).symm
        subst hq1
        decide)
  exact ⟨by decide, by decide, h.1, h.2.2.2.2.1,
    h.2.2.2.2.2.2.2.2 9000 (bms_data_t.zeroed BMS_NONE) (by decide), h.2.2.1.2.2.2⟩

/-- Claim C38.  Manager structural invariant: after any sequence of
`registerProtocol`, `initializeAll`, `startAll`, `stopAll`, `setAutoDetect`,
`selectProtocol`, `routeMessage` and `resetStats` calls on a new manager, the
statistics list is as long as the decoder list, entry `i` of it refers to
decoder `i`, and the active decoder is none or a registered one; so every
decoder position has its statistics entry, and the index `m_detectionStats[i]`
in `routeMessage` is within bounds.  Each call keeps the invariant. -/
theorem manager_structural_invariant (calls : List ManagerCall) :
    (ProtocolManager.new.afterCalls calls).wellFormed ∧
    (ProtocolManager.new.afterCalls calls).m_detectionStats.length =
      (ProtocolManager.new.afterCalls calls).m_protocols.length ∧
    (∀ i : Nat, i < (ProtocolManager.new.afterCalls calls).m_protocols.length →
      ∃ st : DetectionStats,
        (ProtocolManager.new.afterCalls calls).m_detectionStats[i]? = some st ∧
        st.protocol = some i) ∧
    (∀ a : Nat, (ProtocolManager.new.afterCalls calls).m_activeProtocol = some a →
      ∃ A : Protocol, (ProtocolManager.new.afterCalls calls).m_protocols[a]? = some A) ∧
    (∀ (m : ProtocolManager) (c : ManagerCall), m.wellFormed → (m.afterCall c).wellFormed) := by
  have h0 : ProtocolManager.new.wellFormed := by
    refine ⟨rfl, ?_, ?_⟩
    · intro i st h
      cases h
    · intro a h
      cases h
  have h := afterCalls_wellFormed calls ProtocolManager.new h0
  refine ⟨h, h.1, ?_, ?_, afterCall_wellFormed⟩
  · intro i hi
    have hi2 : i < (ProtocolManager.new.afterCalls calls).m_detectionStats.length := by
      rw [h.1]; exact hi
    refine ⟨(ProtocolManager.new.afterCalls calls).m_detectionStats.get ⟨i, hi2⟩,
      List.getElem?_eq_getElem hi2, ?_⟩
    exact h.2.1 i _ (List.getElem?_eq_getElem hi2)
  · intro a ha
    have hlt := h.2.2 a ha
    exact ⟨(ProtocolManager.new.afterCalls calls).m_protocols.get ⟨a, hlt⟩,
      List.getElem?_eq_getElem hlt⟩

/-- The claim C38 on a sequence of sixteen calls. -/
theorem manager_structural_invariant_witness :
    (ProtocolManager.new.afterCalls callsManager).wellFormed ∧
    (ProtocolManager.new.afterCalls callsManager).m_protocols.length = 3 ∧
    (ProtocolManager.new.afterCalls callsManager).m_detectionStats.length = 3 :=
  ⟨(manager_structural_invariant callsManager).1, by decide, by decide⟩

/-- Claim C39.  Freshness is computed modulo `2 ^ 32`: with a 32-bit clock
reading `now` and a 32-bit `lastUpdate`, `isConnected(w)` on a decoder whose
connected flag is set is true exactly when `(now - lastUpdate) mod 2 ^ 32 < w`,
also when the clock has wrapped since the update; it is false for `w = 0` and
whenever the connected flag is off. -/
theorem freshness_modulo (p : Protocol) (now w : Nat) (hnow : now < 2 ^ 32)
    (hlast : p.base.m_lastUpdate < 2 ^ 32) :
    (p.base.m_connected = true →
      (p.isConnected now w = true ↔
        ((now : Int) - (p.base.m_lastUpdate : Int)) % 2 ^ 32 < (w : Int))) ∧
    (p.base.m_connected = true → now < p.base.m_lastUpdate →
      (p.isConnected now w = true ↔ now + 2 ^ 32 - p.base.m_lastUpdate < w)) ∧
    p.isConnected now 0 = false ∧
    (p.base.m_connected = false → p.isConnected now w = false) := by
  have hage := age_mod now p.base.m_lastUpdate hnow hlast
  refine ⟨?_, ?_, ?_, ?_⟩
  · intro hc
    unfold Protocol.isConnected CanProtocolBase.isConnected
    rw [hc]
    simp only [Bool.not_true, Bool.false_eq_true, if_false, decide_eq_true_iff]
    rw [← hage]
    exact Int.ofNat_lt.symm
  · intro hc hlt
    unfold Protocol.isConnected CanProtocolBase.isConnected
    rw [hc]
    simp only [Bool.not_true, Bool.false_eq_true, if_false, decide_eq_true_iff]
    rw [Nat.mod_eq_of_lt (by omega)]
  · unfold Protocol.isConnected CanProtocolBase.isConnected
    cases p.base.m_connected <;> simp
  · intro hc
    exact isConnected_of_not_connected p now w hc

/-- The claim C39 at `lastUpdate = 2 ^ 32 - 100` and `now = 50`: the age is
150 ms, so the decoder is connected for `w = 5000` and not for `w = 150`. -/
theorem freshness_modulo_witness :
    ((Protocol.daly { toCanProtocolBase := CanProtocolBase.updatedBeforeWrap }).isConnected
        50 5000 = true ↔
      (((50 : Nat) : Int) - ((2 ^ 32 - 100 : Nat) : Int)) % 2 ^ 32 < ((5000 : Nat) : Int)) ∧
    (Protocol.daly { toCanProtocolBase := CanProtocolBase.updatedBeforeWrap }).isConnected
      50 5000 = true ∧
    (Protocol.daly { toCanProtocolBase := CanProtocolBase.updatedBeforeWrap }).isConnected
      50 150 = false ∧
    (Protocol.daly { toCanProtocolBase := CanProtocolBase.updatedBeforeWrap }).isConnected
      50 151 = true :=
  ⟨(freshness_modulo (Protocol.daly { toCanProtocolBase := CanProtocolBase.updatedBeforeWrap })
      50 5000 (by decide) (by decide)).1 rfl,
   by decide, by decide, by decide⟩

/-- Claim C40.  Pylontech initialize does not reset the received flags: for
every Pylontech decoder state, `initialize()`, `stop()` and `resetStats()` (and
`start()`) leave the three received flags and so `hasCompleteData()` unchanged;
a decoder with complete data still reports `hasCompleteData() = true` right
after `initialize()`, although its snapshot is zeroed and it is disconnected.
No call other than `resetReceivedFlags()` turns `hasCompleteData()` from true
to false, and `resetReceivedFlags()` always makes it false. -/
theorem init_keeps_received_flags (s : PylontechCan) :
    ((s.afterCall PylontechCall.callInitialize).hasCompleteData = s.hasCompleteData ∧
      (s.afterCall PylontechCall.callStop).hasCompleteData = s.hasCompleteData ∧
      (s.afterCall PylontechCall.callResetStats).hasCompleteData = s.hasCompleteData ∧
      (s.afterCall PylontechCall.callStart).hasCompleteData = s.hasCompleteData) ∧
    ((s.afterCall PylontechCall.callInitialize).m_voltageReceived = s.m_voltageReceived ∧
      (s.afterCall PylontechCall.callInitialize).m_currentReceived = s.m_currentReceived ∧
      (s.afterCall PylontechCall.callInitialize).m_socReceived = s.m_socReceived) ∧
    (Protocol.pylontech (s.afterCall PylontechCall.callInitialize) =
        ( Protocol.initialize (Protocol.pylontech s)).2 ∧
      (s.afterCall PylontechCall.callInitialize).m_data = bms_data_t.zeroed BMS_PYLONTECH ∧
      (s.afterCall PylontechCall.callInitialize).m_connected = false ∧
      ∀ now w : Nat, (s.afterCall PylontechCall.callInitialize).isConnected now w = false) ∧
    (∀ c : PylontechCall, c ≠ PylontechCall.callResetReceivedFlags →
      s.hasCompleteData = true → (s.afterCall c).hasCompleteData = true) ∧
    (s.afterCall PylontechCall.callResetReceivedFlags).hasCompleteData = false ∧
    s.resetReceivedFlags.toCanProtocolBase = s.toCanProtocolBase := by
  refine ⟨⟨rfl, rfl, rfl, rfl⟩, ⟨rfl, rfl, rfl⟩, ⟨rfl, rfl, rfl, fun _ _ => rfl⟩, ?_, rfl, rfl⟩
  intro c hc hs
  have hr : c.isReset = false := by
    cases c <;> first | rfl | exact absurd rfl hc
  have h := afterCall_received s c hr
  unfold PylontechCan.hasCompleteData at hs ⊢
  rw [Bool.and_eq_true, Bool.and_eq_true] at hs
  rw [h.1, h.2.1, h.2.2, hs.1.1, hs.1.2, hs.2]
  rfl

/-- The claim C40 on a decoder with a complete data set. -/
theorem init_keeps_received_flags_witness :
    PylontechCan.complete.hasCompleteData = true ∧
    (PylontechCan.complete.afterCall PylontechCall.callInitialize).hasCompleteData =
      PylontechCan.complete.hasCompleteData ∧
    (PylontechCan.complete.afterCall PylontechCall.callInitialize).m_data =
      bms_data_t.zeroed BMS_PYLONTECH ∧
    PylontechCan.complete.m_connected = true ∧
    (PylontechCan.complete.afterCall PylontechCall.callInitialize).m_connected = false ∧
    (PylontechCan.complete.afterCall PylontechCall.callResetReceivedFlags).hasCompleteData =
      false :=
  ⟨by decide,
   (init_keeps_received_flags PylontechCan.complete).1.1,
   (init_keeps_received_flags PylontechCan.complete).2.2.1.2.1,
   by decide,
   (init_keeps_received_flags PylontechCan.complete).2.2.1.2.2.1,
   (init_keeps_received_flags PylontechCan.complete).2.2.2.2.1⟩

end BmsCan
